import Mathlib

/-!
Verification of the solc-rs AST model: the scalar codecs (source-location
triples and elementary-type names), the serde-style record and
discriminated-union decoders for the Solidity AST node catalog, and the
bottom-up error-localization walk.

JSON values are modelled by the inductive `Json`; an object's fields are an
association list in the map's iteration order, mirroring serde_json's `Value`
(whose maps cannot hold duplicate keys).  JSON numbers are modelled as
integers, which covers every number the decoders in this repository inspect.
Rust machine integers are modelled as `Nat`/`Int` with explicit range checks
where the code performs them (`usize`, `u16`, `u8`, `i64` parses).
-/

set_option maxHeartbeats 4000000

namespace SolcRs

/-! ## JSON values -/

inductive Json where
  | null
  | bool (b : Bool)
  | num (n : Int)
  | str (s : String)
  | arr (elems : List Json)
  | obj (fields : List (String × Json))
deriving Repr

/-! ## Decimal formatting of unsigned integers

Rust's `Display` for unsigned integers prints the canonical base-10 digits.
`showNat` is a fuel-based implementation that the kernel can evaluate;
`showNatRec` is the recursion-friendly form used in proofs.
-/

def digitChar (d : Nat) : Char := Char.ofNat (48 + d)

def showNatAux : Nat → Nat → List Char → List Char
  | 0, _, acc => acc
  | fuel + 1, n, acc =>
      let acc' := digitChar (n % 10) :: acc
      if n < 10 then acc' else showNatAux fuel (n / 10) acc'

/-- Canonical decimal digit list of a natural number, as Rust's `Display`
for unsigned integers prints it. -/
def showNat (n : Nat) : List Char := showNatAux (n + 1) n []

/-- Recursion-friendly characterization of `showNat`. -/
def showNatRec (n : Nat) : List Char :=
  if n < 10 then [digitChar n]
  else showNatRec (n / 10) ++ [digitChar (n % 10)]
termination_by n
decreasing_by
  exact Nat.div_lt_self (by omega) (by omega)

theorem showNatAux_eq (fuel n : Nat) (acc : List Char) (h : n < fuel) :
    showNatAux fuel n acc = showNatRec n ++ acc := by
  induction fuel generalizing n acc with
  | zero => omega
  | succ f ih =>
    rw [showNatAux]
    by_cases h10 : n < 10
    · rw [if_pos h10, showNatRec, if_pos h10, Nat.mod_eq_of_lt h10]
      rfl
    · rw [if_neg h10, ih (n / 10) _ (by
        have := Nat.div_lt_self (n := n) (by omega) (by omega : 1 < 10)
        omega)]
      conv_rhs => rw [showNatRec]
      rw [if_neg h10, List.append_assoc]
      rfl

theorem showNat_eq (n : Nat) : showNat n = showNatRec n := by
  rw [showNat, showNatAux_eq (n + 1) n [] (by omega), List.append_nil]

theorem showNatRec_ne_nil (n : Nat) : showNatRec n ≠ [] := by
  rw [showNatRec]
  split
  · simp
  · simp

theorem mem_showNatRec_digit {n : Nat} {c : Char} (h : c ∈ showNatRec n) :
    ∃ d, d < 10 ∧ c = digitChar d := by
  induction n using Nat.strong_induction_on with
  | _ n ih =>
    rw [showNatRec] at h
    split at h
    · rename_i h10
      refine ⟨n, h10, ?_⟩
      simpa using h
    · rename_i h10
      rcases List.mem_append.mp h with h1 | h2
      · exact ih (n / 10) (Nat.div_lt_self (by omega) (by omega)) h1
      · exact ⟨n % 10, Nat.mod_lt _ (by omega), by simpa using h2⟩

theorem digitChar_isDigit {d : Nat} (h : d < 10) : (digitChar d).isDigit = true := by
  interval_cases d <;> decide

theorem digitChar_toNat {d : Nat} (h : d < 10) : (digitChar d).toNat = 48 + d := by
  interval_cases d <;> decide

theorem showNatRec_all_digits (n : Nat) : ∀ c ∈ showNatRec n, c.isDigit = true := by
  intro c hc
  obtain ⟨d, hd, rfl⟩ := mem_showNatRec_digit hc
  exact digitChar_isDigit hd

/-! ## Rust integer parsing

Rust's `str::parse::<uN>` accepts an optional leading plus sign followed by
one or more ASCII digits, and fails on overflow of the target width.
`parseRustNat bound cs` returns the parsed value when it is below `bound`
(the number of values of the target width), and `none` on any failure.
-/

def digitVal (c : Char) : Nat := c.toNat - 48

def stripPlusSign : List Char → List Char
  | '+' :: rest => rest
  | cs => cs

def parseRustNat (bound : Nat) (cs : List Char) : Option Nat :=
  if stripPlusSign cs = [] then none
  else if (stripPlusSign cs).all (fun c => c.isDigit) then
    if (stripPlusSign cs).foldl (fun a c => a * 10 + digitVal c) 0 < bound then
      some ((stripPlusSign cs).foldl (fun a c => a * 10 + digitVal c) 0)
    else none
  else none

theorem parseRustNat_lt {bound : Nat} {cs : List Char} {n : Nat}
    (h : parseRustNat bound cs = some n) : n < bound := by
  rw [parseRustNat] at h
  split at h
  · cases h
  · split at h
    · split at h
      · rename_i hlt
        cases h
        exact hlt
      · cases h
    · cases h

theorem foldl_digits_showNatRec (n : Nat) (a : Nat) :
    (showNatRec n).foldl (fun a c => a * 10 + digitVal c) a =
      a * 10 ^ (showNatRec n).length + n := by
  induction n using Nat.strong_induction_on generalizing a with
  | _ n ih =>
    rw [showNatRec]
    split
    · rename_i h10
      simp only [List.foldl_cons, List.foldl_nil, List.length_cons, List.length_nil]
      rw [digitVal, digitChar_toNat h10]
      simp [Nat.pow_succ]
    · rename_i h10
      rw [List.foldl_append]
      rw [ih (n / 10) (Nat.div_lt_self (by omega) (by omega)) a]
      simp only [List.foldl_cons, List.foldl_nil, List.length_append,
        List.length_cons, List.length_nil]
      rw [digitVal, digitChar_toNat (Nat.mod_lt _ (by omega : 0 < 10))]
      have hmod : n % 10 + 48 - 48 = n % 10 := by omega
      rw [Nat.pow_succ]
      have := Nat.div_add_mod n 10
      ring_nf
      omega

theorem stripPlusSign_of_digits {cs : List Char}
    (hne : cs ≠ []) (hd : ∀ c ∈ cs, c.isDigit = true) : stripPlusSign cs = cs := by
  match cs with
  | [] => exact absurd rfl hne
  | c :: rest =>
    have : c.isDigit = true := hd c (by simp)
    rw [stripPlusSign.eq_def]
    split
    · rename_i heq
      rw [show c = '+' from (List.cons.injEq ..).mp heq |>.1] at this
      simp [Char.isDigit] at this
    · rfl

theorem parseRustNat_showNatRec {bound n : Nat} (h : n < bound) :
    parseRustNat bound (showNatRec n) = some n := by
  rw [parseRustNat]
  rw [stripPlusSign_of_digits (showNatRec_ne_nil n) (showNatRec_all_digits n)]
  rw [if_neg (showNatRec_ne_nil n)]
  rw [if_pos (by rw [List.all_eq_true]; intro c hc; exact showNatRec_all_digits n c hc)]
  rw [foldl_digits_showNatRec n 0]
  simp only [Nat.zero_mul, Nat.zero_add]
  rw [if_pos h]

theorem showNatRec_not_mem {c : Char} (hc : c.isDigit = false) (n : Nat) :
    c ∉ showNatRec n := by
  intro hmem
  have := showNatRec_all_digits n c hmem
  rw [this] at hc
  cases hc

/-! ## Splitting on a separator character

Models Rust's `str::split(sep)`: the list of (possibly empty) chunks
between occurrences of the separator.
-/

def splitOnChar (sep : Char) : List Char → List (List Char)
  | [] => [[]]
  | c :: cs =>
      match splitOnChar sep cs with
      | [] => [[]]
      | h :: t => if c = sep then [] :: h :: t else (c :: h) :: t

theorem splitOnChar_ne_nil (sep : Char) (cs : List Char) : splitOnChar sep cs ≠ [] := by
  match cs with
  | [] => simp [splitOnChar]
  | c :: rest =>
    rw [splitOnChar]
    split
    · simp
    · split <;> simp

theorem splitOnChar_of_not_mem {sep : Char} {cs : List Char} (h : sep ∉ cs) :
    splitOnChar sep cs = [cs] := by
  induction cs with
  | nil => rfl
  | cons c rest ih =>
    have hcr : sep ∉ rest := fun hm => h (List.mem_cons_of_mem _ hm)
    have hcne : ¬ c = sep := by
      intro hcs
      subst hcs
      exact h (List.mem_cons_self _ _)
    rw [splitOnChar, ih hcr]
    simp [hcne]

theorem splitOnChar_append_cons {sep : Char} {a : List Char} (b : List Char)
    (h : sep ∉ a) : splitOnChar sep (a ++ sep :: b) = a :: splitOnChar sep b := by
  induction a with
  | nil =>
    rw [List.nil_append, splitOnChar]
    match hsb : splitOnChar sep b with
    | [] => exact absurd hsb (splitOnChar_ne_nil sep b)
    | h1 :: t1 => simp
  | cons c rest ih =>
    have hcr : sep ∉ rest := fun hm => h (List.mem_cons_of_mem _ hm)
    have hcne : ¬ c = sep := by
      intro hcs
      subst hcs
      exact h (List.mem_cons_self _ _)
    rw [List.cons_append, splitOnChar, ih hcr]
    simp [hcne]

/-- First split on a separator, as Rust's `str::split_once`. -/
def splitOnceChar (sep : Char) : List Char → Option (List Char × List Char)
  | [] => none
  | c :: cs =>
      if c = sep then some ([], cs)
      else
        match splitOnceChar sep cs with
        | none => none
        | some (a, b) => some (c :: a, b)

theorem splitOnceChar_append_cons {sep : Char} {a : List Char} (b : List Char)
    (h : sep ∉ a) : splitOnceChar sep (a ++ sep :: b) = some (a, b) := by
  induction a with
  | nil =>
    simp [splitOnceChar]
  | cons c rest ih =>
    have hcr : sep ∉ rest := fun hm => h (List.mem_cons_of_mem _ hm)
    have hcne : ¬ c = sep := by
      intro hcs
      subst hcs
      exact h (List.mem_cons_self _ _)
    rw [List.cons_append, splitOnceChar, ih hcr]
    simp [hcne]

/-! ## The source-location scalar codec

From `src/ast/common.rs` (`SourceLocation` with its serde implementations;
the copy in `src/ast.rs` performs the same splits and parses).  The wire
form is the string `"offset:length:sourceIndex"`; the three components are
`usize` values, parsed with Rust's `str::parse::<usize>` on a 64-bit
target.
-/

structure SourceLocation where
  offset : Nat
  length : Nat
  source_index : Nat
deriving DecidableEq, Repr

/-- Number of values of Rust's `usize` on a 64-bit target. -/
def USIZE_BOUND : Nat := 2 ^ 64

inductive LocError where
  | invalidFormat (s : String)
  | invalidOffset
  | invalidLength
  | invalidSourceIndex
deriving DecidableEq, Repr

/-- Decoding of the packed source-location triple: split on colons, require
exactly three parts, parse each part as a `usize`. -/
def decodeLocationChars (cs : List Char) : Except LocError SourceLocation :=
  match splitOnChar ':' cs with
  | [p1, p2, p3] =>
    match parseRustNat USIZE_BOUND p1 with
    | none => .error .invalidOffset
    | some o =>
      match parseRustNat USIZE_BOUND p2 with
      | none => .error .invalidLength
      | some l =>
        match parseRustNat USIZE_BOUND p3 with
        | none => .error .invalidSourceIndex
        | some i => .ok ⟨o, l, i⟩
  | _ => .error (.invalidFormat ⟨cs⟩)

def decode_location (s : String) : Except LocError SourceLocation :=
  decodeLocationChars s.data

/-- Encoding of a source location: exactly `"offset:length:sourceIndex"`,
as the serde `Serialize` implementation formats it. -/
def encodeLocationChars (l : SourceLocation) : List Char :=
  showNat l.offset ++ ':' :: (showNat l.length ++ ':' :: showNat l.source_index)

def encode_location (l : SourceLocation) : String :=
  ⟨encodeLocationChars l⟩

/-! ## The elementary-type scalar codec

From `src/ast/types.rs`: the `ElementaryType` enum, its `Deserialize`
implementation (exact keywords first, then the `uint`/`int`/`bytes`/
`ufixed`/`fixed` prefix families) and its `Serialize` implementation
(the canonical spelling).  The numeric suffixes are parsed as `u16`
(integer and bytes widths) or `u8` (fixed-point bit counts).
-/

inductive ElementaryType where
  | Uint (bits : Nat)
  | Int (bits : Nat)
  | Address
  | Payable
  | Bool
  | String
  | Bytes
  | FixedBytes (size : Nat)
  | Ufixed (total : Nat) (fractional : Nat)
  | Fixed (total : Nat) (fractional : Nat)
deriving DecidableEq, Repr

/-- Number of values of Rust's `u16`. -/
def U16_BOUND : Nat := 2 ^ 16

/-- Number of values of Rust's `u8`. -/
def U8_BOUND : Nat := 2 ^ 8

/-- Kind-specific decode failures of the elementary-type codec, mirroring
the error strings produced in `src/ast/types.rs` (and the variants of the
error enum in `src/ast/error.rs`). -/
inductive ElemError where
  | unknownType (s : String)
  | notAUintType (s : String)
  | notAIntType (s : String)
  | notABytesType (s : String)
  | notAUfixedType (s : String)
  | notAFixedType (s : String)
  | invalidSize (s : String)
  | invalidBytesSize (s : String)
  | invalidUfixedFormat (s : String)
  | invalidFixedFormat (s : String)
  | invalidTotalBits (s : String)
  | invalidFractionalBits (s : String)
deriving DecidableEq, Repr

/-- Parses the remainder of a `uint` spelling: an empty suffix defaults to
width 256, otherwise the suffix must parse as a `u16`. -/
def deserialize_uint (cs : List Char) : Except ElemError ElementaryType :=
  if (("uint").data).isPrefixOf cs then
    if cs.drop 4 = [] then .ok (.Uint 256)
    else
      match parseRustNat U16_BOUND (cs.drop 4) with
      | some bits => .ok (.Uint bits)
      | none => .error (.invalidSize ⟨cs.drop 4⟩)
  else .error (.notAUintType ⟨cs⟩)

def deserialize_int (cs : List Char) : Except ElemError ElementaryType :=
  if (("int").data).isPrefixOf cs then
    if cs.drop 3 = [] then .ok (.Int 256)
    else
      match parseRustNat U16_BOUND (cs.drop 3) with
      | some bits => .ok (.Int bits)
      | none => .error (.invalidSize ⟨cs.drop 3⟩)
  else .error (.notAIntType ⟨cs⟩)

/-- Parses the remainder of a `bytes` spelling; the suffix must be present
and parse as a `u16` (the bare keyword is handled before this point). -/
def deserialize_fixed_bytes (cs : List Char) : Except ElemError ElementaryType :=
  if (("bytes").data).isPrefixOf cs then
    match parseRustNat U16_BOUND (cs.drop 5) with
    | some size => .ok (.FixedBytes size)
    | none => .error (.invalidBytesSize ⟨cs.drop 5⟩)
  else .error (.notABytesType ⟨cs⟩)

def deserialize_ufixed (cs : List Char) : Except ElemError ElementaryType :=
  if (("ufixed").data).isPrefixOf cs then
    match splitOnceChar 'x' (cs.drop 6) with
    | none => .error (.invalidUfixedFormat ⟨cs⟩)
    | some (totalPart, fracPart) =>
      match parseRustNat U8_BOUND totalPart with
      | none => .error (.invalidTotalBits ⟨totalPart⟩)
      | some total =>
        match parseRustNat U8_BOUND fracPart with
        | none => .error (.invalidFractionalBits ⟨fracPart⟩)
        | some fractional => .ok (.Ufixed total fractional)
  else .error (.notAUfixedType ⟨cs⟩)

def deserialize_fixed (cs : List Char) : Except ElemError ElementaryType :=
  if (("fixed").data).isPrefixOf cs then
    match splitOnceChar 'x' (cs.drop 5) with
    | none => .error (.invalidFixedFormat ⟨cs⟩)
    | some (totalPart, fracPart) =>
      match parseRustNat U8_BOUND totalPart with
      | none => .error (.invalidTotalBits ⟨totalPart⟩)
      | some total =>
        match parseRustNat U8_BOUND fracPart with
        | none => .error (.invalidFractionalBits ⟨fracPart⟩)
        | some fractional => .ok (.Fixed total fractional)
  else .error (.notAFixedType ⟨cs⟩)

/-- Decoding of an elementary-type spelling, in the guard order of the
`Deserialize` implementation in `src/ast/types.rs`: exact keywords first,
then the prefix families, and a failure for anything else. -/
def decodeElementaryChars (cs : List Char) : Except ElemError ElementaryType :=
  if cs = ("address").data then .ok .Address
  else if cs = ("payable").data then .ok .Payable
  else if cs = ("bool").data then .ok .Bool
  else if cs = ("string").data then .ok .String
  else if cs = ("bytes").data then .ok .Bytes
  else if (("uint").data).isPrefixOf cs then deserialize_uint cs
  else if (("int").data).isPrefixOf cs then deserialize_int cs
  else if (("bytes").data).isPrefixOf cs then deserialize_fixed_bytes cs
  else if (("ufixed").data).isPrefixOf cs then deserialize_ufixed cs
  else if (("fixed").data).isPrefixOf cs then deserialize_fixed cs
  else .error (.unknownType ⟨cs⟩)

def decode_elementary (s : String) : Except ElemError ElementaryType :=
  decodeElementaryChars s.data

/-- Canonical spelling of an elementary type, as the `Serialize`
implementation (and `Display`) in `src/ast/types.rs` formats it. -/
def encodeElementaryChars : ElementaryType → List Char
  | .Uint bits => ("uint").data ++ showNat bits
  | .Int bits => ("int").data ++ showNat bits
  | .Address => ("address").data
  | .Payable => ("payable").data
  | .Bool => ("bool").data
  | .String => ("string").data
  | .Bytes => ("bytes").data
  | .FixedBytes size => ("bytes").data ++ showNat size
  | .Ufixed total fractional => ("ufixed").data ++ (showNat total ++ 'x' :: showNat fractional)
  | .Fixed total fractional => ("fixed").data ++ (showNat total ++ 'x' :: showNat fractional)

def encode_elementary (t : ElementaryType) : String :=
  ⟨encodeElementaryChars t⟩

deriving instance DecidableEq for Except

/-! ## Scalar codec properties -/

/-- Range constraints imposed by the machine widths the decoder parses
into: `u16` for integer and bytes widths, `u8` for fixed-point bit
counts. -/
def elementary_in_range : ElementaryType → Prop
  | .Uint bits => bits < U16_BOUND
  | .Int bits => bits < U16_BOUND
  | .FixedBytes size => size < U16_BOUND
  | .Ufixed total fractional => total < U8_BOUND ∧ fractional < U8_BOUND
  | .Fixed total fractional => total < U8_BOUND ∧ fractional < U8_BOUND
  | _ => True

/-- C5: for every source location whose offset, length and source index are
in `usize` range, decoding the encoded string form yields the value again:
the encoder emits exactly `"offset:length:sourceIndex"` with no
normalization, and the decoder inverts it. -/
theorem location_roundtrip (x : SourceLocation)
    (h1 : x.offset < USIZE_BOUND) (h2 : x.length < USIZE_BOUND)
    (h3 : x.source_index < USIZE_BOUND) :
    decode_location (encode_location x) = .ok x := by
  obtain ⟨o, l, i⟩ := x
  have hco : (':' : Char) ∉ showNatRec o := showNatRec_not_mem (by decide) o
  have hcl : (':' : Char) ∉ showNatRec l := showNatRec_not_mem (by decide) l
  have hci : (':' : Char) ∉ showNatRec i := showNatRec_not_mem (by decide) i
  have hsplit : splitOnChar ':' (encodeLocationChars ⟨o, l, i⟩) =
      [showNatRec o, showNatRec l, showNatRec i] := by
    rw [encodeLocationChars]
    simp only [showNat_eq]
    rw [splitOnChar_append_cons _ hco, splitOnChar_append_cons _ hcl,
      splitOnChar_of_not_mem hci]
  rw [decode_location, encode_location]
  show decodeLocationChars (encodeLocationChars ⟨o, l, i⟩) = _
  rw [decodeLocationChars, hsplit]
  simp only [parseRustNat_showNatRec h1, parseRustNat_showNatRec h2,
    parseRustNat_showNatRec h3]

/-- Witness for C5 at the source location 638:8:101. -/
theorem location_roundtrip_witness :
    (638 < USIZE_BOUND ∧ 8 < USIZE_BOUND ∧ 101 < USIZE_BOUND) ∧
      decode_location (encode_location ⟨638, 8, 101⟩) = .ok ⟨638, 8, 101⟩ :=
  ⟨⟨by decide, by decide, by decide⟩,
    location_roundtrip ⟨638, 8, 101⟩ (by decide) (by decide) (by decide)⟩

/-- Helper for C4: decoding fails whenever the input does not split on
colons into exactly three parts, or some part does not parse as a
`usize`. -/
theorem decode_location_fails (s : String)
    (h : (splitOnChar ':' s.data).length ≠ 3 ∨
      ∃ p ∈ splitOnChar ':' s.data, parseRustNat USIZE_BOUND p = none) :
    ∃ e, decode_location s = .error e := by
  rw [decode_location, decodeLocationChars]
  match hsp : splitOnChar ':' s.data with
  | [] => exact ⟨.invalidFormat ⟨s.data⟩, by simp⟩
  | [p1] => exact ⟨.invalidFormat ⟨s.data⟩, by simp⟩
  | [p1, p2] => exact ⟨.invalidFormat ⟨s.data⟩, by simp⟩
  | p1 :: p2 :: p3 :: p4 :: rest => exact ⟨.invalidFormat ⟨s.data⟩, by simp⟩
  | [p1, p2, p3] =>
    rw [hsp] at h
    rcases h with hlen | ⟨p, hp, hnone⟩
    · simp at hlen
    · rcases List.mem_cons.mp hp with rfl | hp2
      · exact ⟨.invalidOffset, by simp [hnone]⟩
      · rcases List.mem_cons.mp hp2 with rfl | hp3
        · match hq1 : parseRustNat USIZE_BOUND p1 with
          | none => exact ⟨.invalidOffset, by simp [hq1]⟩
          | some o => exact ⟨.invalidLength, by simp [hq1, hnone]⟩
        · rcases List.mem_cons.mp hp3 with rfl | hp4
          · match hq1 : parseRustNat USIZE_BOUND p1 with
            | none => exact ⟨.invalidOffset, by simp [hq1]⟩
            | some o =>
              match hq2 : parseRustNat USIZE_BOUND p2 with
              | none => exact ⟨.invalidLength, by simp [hq1, hq2]⟩
              | some l => exact ⟨.invalidSourceIndex, by simp [hq1, hq2, hnone]⟩
          · simp at hp4

/-- C4: the three malformed location strings are rejected with a
format or field error, the oversized integer-width spelling is rejected
with a size error, and location decoding fails whenever the input does not
split into exactly three `usize` parts. -/
theorem scalar_rejection :
    decode_location ("638:8") = .error (.invalidFormat ("638:8")) ∧
    decode_location ("638:8:101:extra") = .error (.invalidFormat ("638:8:101:extra")) ∧
    decode_location ("abc:8:101") = .error .invalidOffset ∧
    decode_elementary ("uint9999999999") = .error (.invalidSize ("9999999999")) ∧
    (∀ s : String,
      ((splitOnChar ':' s.data).length ≠ 3 ∨
        ∃ p ∈ splitOnChar ':' s.data, parseRustNat USIZE_BOUND p = none) →
      ∃ e, decode_location s = .error e) :=
  ⟨by decide, by decide, by decide, by decide, decode_location_fails⟩

/-- Witness for C4's universally quantified part at the input "1:2". -/
theorem scalar_rejection_witness : ∃ e, decode_location ("1:2") = .error e :=
  scalar_rejection.2.2.2.2 ("1:2") (Or.inl (by decide))

/-- C7: the bare spellings decode to the 256-bit-wide integer types. -/
theorem elementary_default_width :
    decode_elementary ("uint") = .ok (.Uint 256) ∧
      decode_elementary ("int") = .ok (.Int 256) :=
  ⟨by decide, by decide⟩

/-- C2: decoding the canonical spelling produced by encoding an
elementary-type value yields the value again, for every variant (the
numeric parameters ranging over the machine widths the Rust enum stores
them in). -/
theorem elementary_roundtrip (x : ElementaryType) (h : elementary_in_range x) :
    decode_elementary (encode_elementary x) = .ok x := by
  match x with
  | .Address => decide
  | .Payable => decide
  | .Bool => decide
  | .String => decide
  | .Bytes => decide
  | .Uint bits =>
    rw [decode_elementary, encode_elementary]
    show decodeElementaryChars (encodeElementaryChars (.Uint bits)) = _
    rw [encodeElementaryChars, showNat_eq]
    have hne := showNatRec_ne_nil bits
    rw [decodeElementaryChars]
    rw [if_neg (by simp), if_neg (by simp), if_neg (by simp), if_neg (by simp),
      if_neg (by simp)]
    rw [if_pos (by simp [List.isPrefixOf])]
    rw [deserialize_uint]
    rw [if_pos (by simp [List.isPrefixOf])]
    show (if showNatRec bits = [] then _ else _) = _
    rw [if_neg hne]
    show (match parseRustNat U16_BOUND (showNatRec bits) with
      | some b => Except.ok (ElementaryType.Uint b)
      | none => Except.error (ElemError.invalidSize ⟨showNatRec bits⟩)) = _
    rw [parseRustNat_showNatRec h]
  | .Int bits =>
    rw [decode_elementary, encode_elementary]
    show decodeElementaryChars (encodeElementaryChars (.Int bits)) = _
    rw [encodeElementaryChars, showNat_eq]
    have hne := showNatRec_ne_nil bits
    rw [decodeElementaryChars]
    rw [if_neg (by simp), if_neg (by simp), if_neg (by simp), if_neg (by simp),
      if_neg (by simp), if_neg (by simp [List.isPrefixOf])]
    rw [if_pos (by simp [List.isPrefixOf])]
    rw [deserialize_int]
    rw [if_pos (by simp [List.isPrefixOf])]
    show (if showNatRec bits = [] then _ else _) = _
    rw [if_neg hne]
    show (match parseRustNat U16_BOUND (showNatRec bits) with
      | some b => Except.ok (ElementaryType.Int b)
      | none => Except.error (ElemError.invalidSize ⟨showNatRec bits⟩)) = _
    rw [parseRustNat_showNatRec h]
  | .FixedBytes size =>
    rw [decode_elementary, encode_elementary]
    show decodeElementaryChars (encodeElementaryChars (.FixedBytes size)) = _
    rw [encodeElementaryChars, showNat_eq]
    have hne := showNatRec_ne_nil size
    rw [decodeElementaryChars]
    rw [if_neg (by simp), if_neg (by simp), if_neg (by simp), if_neg (by simp),
      if_neg (by simp [hne]), if_neg (by simp [List.isPrefixOf]),
      if_neg (by simp [List.isPrefixOf])]
    rw [if_pos (by simp [List.isPrefixOf])]
    rw [deserialize_fixed_bytes]
    rw [if_pos (by simp [List.isPrefixOf])]
    show (match parseRustNat U16_BOUND (showNatRec size) with
      | some b => Except.ok (ElementaryType.FixedBytes b)
      | none => Except.error (ElemError.invalidBytesSize ⟨showNatRec size⟩)) = _
    rw [parseRustNat_showNatRec h]
  | .Ufixed total fractional =>
    rw [decode_elementary, encode_elementary]
    show decodeElementaryChars (encodeElementaryChars (.Ufixed total fractional)) = _
    rw [encodeElementaryChars, showNat_eq, showNat_eq]
    have hx : ('x' : Char) ∉ showNatRec total := showNatRec_not_mem (by decide) total
    rw [decodeElementaryChars]
    rw [if_neg (by simp), if_neg (by simp), if_neg (by simp), if_neg (by simp),
      if_neg (by simp), if_neg (by simp [List.isPrefixOf]),
      if_neg (by simp [List.isPrefixOf]), if_neg (by simp [List.isPrefixOf]),
      if_pos (by simp [List.isPrefixOf])]
    rw [deserialize_ufixed, if_pos (by simp [List.isPrefixOf])]
    show (match splitOnceChar 'x' (showNatRec total ++ 'x' :: showNatRec fractional) with
      | none => Except.error (ElemError.invalidUfixedFormat _)
      | some (totalPart, fracPart) => _) = _
    rw [splitOnceChar_append_cons _ hx]
    show (match parseRustNat U8_BOUND (showNatRec total) with
      | none => Except.error (ElemError.invalidTotalBits ⟨showNatRec total⟩)
      | some t => _) = _
    rw [parseRustNat_showNatRec h.1]
    show (match parseRustNat U8_BOUND (showNatRec fractional) with
      | none => Except.error (ElemError.invalidFractionalBits ⟨showNatRec fractional⟩)
      | some f => _) = _
    rw [parseRustNat_showNatRec h.2]
  | .Fixed total fractional =>
    rw [decode_elementary, encode_elementary]
    show decodeElementaryChars (encodeElementaryChars (.Fixed total fractional)) = _
    rw [encodeElementaryChars, showNat_eq, showNat_eq]
    have hx : ('x' : Char) ∉ showNatRec total := showNatRec_not_mem (by decide) total
    rw [decodeElementaryChars]
    rw [if_neg (by simp), if_neg (by simp), if_neg (by simp), if_neg (by simp),
      if_neg (by simp), if_neg (by simp [List.isPrefixOf]),
      if_neg (by simp [List.isPrefixOf]), if_neg (by simp [List.isPrefixOf]),
      if_neg (by simp [List.isPrefixOf]), if_pos (by simp [List.isPrefixOf])]
    rw [deserialize_fixed, if_pos (by simp [List.isPrefixOf])]
    show (match splitOnceChar 'x' (showNatRec total ++ 'x' :: showNatRec fractional) with
      | none => Except.error (ElemError.invalidFixedFormat _)
      | some (totalPart, fracPart) => _) = _
    rw [splitOnceChar_append_cons _ hx]
    show (match parseRustNat U8_BOUND (showNatRec total) with
      | none => Except.error (ElemError.invalidTotalBits ⟨showNatRec total⟩)
      | some t => _) = _
    rw [parseRustNat_showNatRec h.1]
    show (match parseRustNat U8_BOUND (showNatRec fractional) with
      | none => Except.error (ElemError.invalidFractionalBits ⟨showNatRec fractional⟩)
      | some f => _) = _
    rw [parseRustNat_showNatRec h.2]

/-- Witness for C2 at the value ufixed128x18. -/
theorem elementary_roundtrip_witness :
    elementary_in_range (.Ufixed 128 18) ∧
      decode_elementary (encode_elementary (.Ufixed 128 18)) = .ok (.Ufixed 128 18) :=
  ⟨by unfold elementary_in_range; exact ⟨by decide, by decide⟩,
    elementary_roundtrip _ (by unfold elementary_in_range; exact ⟨by decide, by decide⟩)⟩

/-- Spellings belonging to the keyword or prefix families the decoder
recognizes; everything else falls through to the failing catch-all arm. -/
def recognized_spelling (cs : List Char) : Bool :=
  cs == ("address").data || cs == ("payable").data || cs == ("bool").data ||
  cs == ("string").data || cs == ("bytes").data ||
  (("uint").data).isPrefixOf cs || (("int").data).isPrefixOf cs ||
  (("bytes").data).isPrefixOf cs || (("ufixed").data).isPrefixOf cs ||
  (("fixed").data).isPrefixOf cs

theorem deserialize_uint_range {cs : List Char} {t : ElementaryType}
    (h : deserialize_uint cs = .ok t) : elementary_in_range t := by
  rw [deserialize_uint] at h
  split at h
  · split at h
    · cases h
      show (256 : Nat) < U16_BOUND
      decide
    · split at h
      · rename_i bits hparse
        cases h
        exact parseRustNat_lt hparse
      · cases h
  · cases h

theorem deserialize_int_range {cs : List Char} {t : ElementaryType}
    (h : deserialize_int cs = .ok t) : elementary_in_range t := by
  rw [deserialize_int] at h
  split at h
  · split at h
    · cases h
      show (256 : Nat) < U16_BOUND
      decide
    · split at h
      · rename_i bits hparse
        cases h
        exact parseRustNat_lt hparse
      · cases h
  · cases h

theorem deserialize_fixed_bytes_range {cs : List Char} {t : ElementaryType}
    (h : deserialize_fixed_bytes cs = .ok t) : elementary_in_range t := by
  rw [deserialize_fixed_bytes] at h
  split at h
  · split at h
    · rename_i size hparse
      cases h
      exact parseRustNat_lt hparse
    · cases h
  · cases h

theorem deserialize_ufixed_range {cs : List Char} {t : ElementaryType}
    (h : deserialize_ufixed cs = .ok t) : elementary_in_range t := by
  rw [deserialize_ufixed] at h
  split at h
  · split at h
    · cases h
    · split at h
      · cases h
      · rename_i total hptotal
        split at h
        · cases h
        · rename_i fractional hpfrac
          cases h
          exact ⟨parseRustNat_lt hptotal, parseRustNat_lt hpfrac⟩
  · cases h

theorem deserialize_fixed_range {cs : List Char} {t : ElementaryType}
    (h : deserialize_fixed cs = .ok t) : elementary_in_range t := by
  rw [deserialize_fixed] at h
  split at h
  · split at h
    · cases h
    · split at h
      · cases h
      · rename_i total hptotal
        split at h
        · cases h
        · rename_i fractional hpfrac
          cases h
          exact ⟨parseRustNat_lt hptotal, parseRustNat_lt hpfrac⟩
  · cases h

/-- C3 counterexample: the decoder accepts uint12 (width not a multiple of
8), bytes33 (above the fixed-bytes bound) and bytes0 (below it), so the
claimed value-space constraints do not hold of accepted spellings. -/
theorem elementary_value_space_counterexample :
    decode_elementary ("uint12") = .ok (.Uint 12) ∧ ¬ (8 ≤ 12 ∧ 12 ≤ 256 ∧ 12 % 8 = 0) ∧
    decode_elementary ("bytes33") = .ok (.FixedBytes 33) ∧ ¬ (1 ≤ 33 ∧ 33 ≤ 32) ∧
    decode_elementary ("bytes0") = .ok (.FixedBytes 0) ∧ ¬ (1 ≤ 0 ∧ 0 ≤ 32) :=
  ⟨by decide, by decide, by decide, by decide, by decide, by decide⟩

/-- C3 amended: every accepted integer or bytes width is merely in machine
range (`u16` for integer and bytes widths, `u8` for fixed-point bit counts)
rather than in the language's value space, and any spelling outside the
recognized keyword and prefix families is rejected rather than mapped to a
fallback value. -/
theorem elementary_accept_range :
    (∀ (s : String) (t : ElementaryType),
      decode_elementary s = .ok t → elementary_in_range t) ∧
    (∀ s : String, recognized_spelling s.data = false →
      decode_elementary s = .error (.unknownType s)) := by
  constructor
  · intro s t h
    rw [decode_elementary, decodeElementaryChars] at h
    split at h
    · cases h; trivial
    · split at h
      · cases h; trivial
      · split at h
        · cases h; trivial
        · split at h
          · cases h; trivial
          · split at h
            · cases h; trivial
            · split at h
              · exact deserialize_uint_range h
              · split at h
                · exact deserialize_int_range h
                · split at h
                  · exact deserialize_fixed_bytes_range h
                  · split at h
                    · exact deserialize_ufixed_range h
                    · split at h
                      · exact deserialize_fixed_range h
                      · cases h
  · intro s h
    rw [recognized_spelling] at h
    simp only [Bool.or_eq_false_iff, beq_eq_false_iff_ne, ne_eq] at h
    obtain ⟨⟨⟨⟨⟨⟨⟨⟨⟨h1, h2⟩, h3⟩, h4⟩, h5⟩, h6⟩, h7⟩, h8⟩, h9⟩, h10⟩
      := h
    rw [decode_elementary, decodeElementaryChars]
    rw [if_neg h1, if_neg h2, if_neg h3, if_neg h4, if_neg h5,
      if_neg (by simp [h6]), if_neg (by simp [h7]), if_neg (by simp [h8]),
      if_neg (by simp [h9]), if_neg (by simp [h10])]

/-- Witness for C3's amended claim: the width bound applied to an accepted
spelling, and the rejection of an unrecognized spelling. -/
theorem elementary_accept_range_witness :
    elementary_in_range (.Uint 12) ∧
      decode_elementary ("hello") = .error (.unknownType ("hello")) :=
  ⟨elementary_accept_range.1 ("uint12") (.Uint 12) (by decide),
    elementary_accept_range.2 ("hello") (by decide)⟩

/-! ## Record decoding infrastructure

Models the serde-derive deserialization semantics the catalog relies on: a
struct is decoded from a JSON object by looking up each field's (renamed)
key; unknown keys are ignored; a missing required field is a
`missingField` error; a field of option type that is missing or null
decodes to `none`; a field carrying a serde `default` decodes to the
default when missing.  Errors carry the field path at which they occurred,
mirroring the path tracking of the serde_path_to_error wrapper used in the
error-localization walk, and a kind mirroring serde's error categories
(C8 relies on `unknownVariant` being distinct from the field-level
kinds). -/

inductive PathSeg where
  | key (k : String)
  | idx (i : Nat)
deriving DecidableEq, Repr

inductive ErrKind where
  | missingField (name : String)
  | unknownVariant (value : String)
  | invalidType (expected : String)
  | custom (msg : String)
deriving DecidableEq, Repr

structure DecError where
  path : List PathSeg
  kind : ErrKind
deriving DecidableEq, Repr

abbrev DRes (α : Type) := Except DecError α

@[simp] theorem dres_bind_ok {α β : Type} (a : α) (f : α → DRes β) :
    (Except.ok a >>= f : DRes β) = f a := rfl

@[simp] theorem dres_bind_error {α β : Type} (e : DecError) (f : α → DRes β) :
    (Except.error e >>= f : DRes β) = .error e := rfl

@[simp] theorem dres_pure {α : Type} (a : α) : (pure a : DRes α) = .ok a := rfl

@[simp] theorem dres_map_ok {α β : Type} (f : α → β) (a : α) :
    (Except.map f (.ok a) : DRes β) = .ok (f a) := rfl

@[simp] theorem dres_map_error {α β : Type} (f : α → β) (e : DecError) :
    (Except.map f (.error e) : DRes β) = .error e := rfl

/-- Key lookup in an object's fields (serde_json maps hold one value per
key, so the association list is keyed uniquely). -/
def lookupField : List (String × Json) → String → Option Json
  | [], _ => none
  | (k', v) :: rest, k => if k' = k then some v else lookupField rest k

@[simp] theorem lookupField_nil (k : String) : lookupField [] k = none := rfl

@[simp] theorem lookupField_cons (k' : String) (v : Json)
    (rest : List (String × Json)) (k : String) :
    lookupField ((k', v) :: rest) k = if k' = k then some v else lookupField rest k := rfl

theorem lookupField_sizeOf {fs : List (String × Json)} {k : String} {v : Json}
    (h : lookupField fs k = some v) : sizeOf v < 1 + sizeOf fs := by
  induction fs with
  | nil => simp at h
  | cons p rest ih =>
    obtain ⟨k', w⟩ := p
    rw [lookupField_cons] at h
    split at h
    · cases h; simp; omega
    · have := ih h; simp; omega

/-- Prefixes a map-key path segment onto an error, as the path tracker
does while a named field's value is being decoded. -/
def inKey {α : Type} (k : String) : DRes α → DRes α
  | .ok a => .ok a
  | .error e => .error ⟨.key k :: e.path, e.kind⟩

@[simp] theorem inKey_ok {α : Type} (k : String) (a : α) :
    inKey k (.ok a) = .ok a := rfl

@[simp] theorem inKey_error {α : Type} (k : String) (e : DecError) :
    (inKey k (.error e) : DRes α) = .error ⟨.key k :: e.path, e.kind⟩ := rfl

/-- Prefixes a sequence-index path segment onto an error. -/
def inIdx {α : Type} (i : Nat) : DRes α → DRes α
  | .ok a => .ok a
  | .error e => .error ⟨.idx i :: e.path, e.kind⟩

@[simp] theorem inIdx_ok {α : Type} (i : Nat) (a : α) :
    inIdx i (.ok a) = .ok a := rfl

@[simp] theorem inIdx_error {α : Type} (i : Nat) (e : DecError) :
    (inIdx i (.error e) : DRes α) = .error ⟨.idx i :: e.path, e.kind⟩ := rfl

/-- Required field: missing is a `missingField` error at the record's own
position (serde reports it after draining the map). -/
def reqField {α : Type} (o : List (String × Json)) (k : String)
    (f : Json → DRes α) : DRes α :=
  match lookupField o k with
  | none => .error ⟨[], .missingField k⟩
  | some v => inKey k (f v)

/-- Optional field: missing or null decodes to `none` (serde's handling of
`Option` fields). -/
def optField {α : Type} (o : List (String × Json)) (k : String)
    (f : Json → DRes α) : DRes (Option α) :=
  match lookupField o k with
  | none => .ok none
  | some .null => .ok none
  | some v => inKey k ((f v).map Option.some)

/-- Defaulted field: a field under `#[serde(default)]` decodes to the
default when missing from the object. -/
def defField {α : Type} (o : List (String × Json)) (k : String) (dflt : α)
    (f : Json → DRes α) : DRes α :=
  match lookupField o k with
  | none => .ok dflt
  | some v => inKey k (f v)

/-- Required field accepted under two keys, for the one field declared
with a serde alias (`isPrefix` also accepted as `prefix`). -/
def reqField2 {α : Type} (o : List (String × Json)) (k1 k2 : String)
    (f : Json → DRes α) : DRes α :=
  match lookupField o k1 with
  | some v => inKey k1 (f v)
  | none =>
    match lookupField o k2 with
    | some v => inKey k2 (f v)
    | none => .error ⟨[], .missingField k1⟩

/-! ### Base value decoders -/

/-- Bound pair of Rust's `i64`. -/
def I64_MIN : Int := -(2 ^ 63)

def I64_MAX_SUCC : Int := 2 ^ 63

def decodeI64 : Json → DRes Int
  | .num n =>
      if I64_MIN ≤ n ∧ n < I64_MAX_SUCC then .ok n
      else .error ⟨[], .invalidType ("i64")⟩
  | _ => .error ⟨[], .invalidType ("i64")⟩

def decodeString : Json → DRes String
  | .str s => .ok s
  | _ => .error ⟨[], .invalidType ("a string")⟩

def decodeBool : Json → DRes Bool
  | .bool b => .ok b
  | _ => .error ⟨[], .invalidType ("a boolean")⟩

/-- Models `deserialize_bool_or_int` of src/ast.rs: a JSON boolean is
taken as is, the integers 0 and 1 decode to false and true, any other
integer is a custom error, and any other JSON value is an invalid-type
error carrying the visitor's expecting message. -/
def deserialize_bool_or_int : Json → DRes Bool
  | .bool b => .ok b
  | .num n =>
      if n = 0 then .ok false
      else if n = 1 then .ok true
      else .error ⟨[], .custom ("invalid integer value for boolean, expected 0 or 1")⟩
  | _ => .error ⟨[], .invalidType ("a boolean or an integer (0 or 1)")⟩

/-- Rendering of location decode failures as serde custom messages
(abbreviated to the leading words of the strings the source formats). -/
def locErrorMsg : LocError → String
  | .invalidFormat s => "invalid source location: " ++ s
  | .invalidOffset => "invalid offset"
  | .invalidLength => "invalid length"
  | .invalidSourceIndex => "invalid source_index"

def decodeSrc : Json → DRes SourceLocation
  | .str s =>
      match decode_location s with
      | .ok l => .ok l
      | .error e => .error ⟨[], .custom (locErrorMsg e)⟩
  | _ => .error ⟨[], .invalidType ("a string")⟩

/-- The elementary-type decoder embedded in src/ast.rs (lines 248-294): it
recognizes the five keywords and the uint/int/bytes prefix families only
(no ufixed/fixed branches), and maps a parsed bytes size of zero back to
the dynamic Bytes type. -/
def decodeElementaryAstChars (cs : List Char) : Except ElemError ElementaryType :=
  if cs = ("address").data then .ok .Address
  else if cs = ("payable").data then .ok .Payable
  else if cs = ("bool").data then .ok .Bool
  else if cs = ("string").data then .ok .String
  else if cs = ("bytes").data then .ok .Bytes
  else if (("uint").data).isPrefixOf cs then
    if cs.length = 4 then .ok (.Uint 256)
    else
      match parseRustNat U16_BOUND (cs.drop 4) with
      | some bits => .ok (.Uint bits)
      | none => .error (.invalidSize ⟨cs.drop 4⟩)
  else if (("int").data).isPrefixOf cs then
    if cs.length = 3 then .ok (.Int 256)
    else
      match parseRustNat U16_BOUND (cs.drop 3) with
      | some bits => .ok (.Int bits)
      | none => .error (.invalidSize ⟨cs.drop 3⟩)
  else if (("bytes").data).isPrefixOf cs then
    if cs.length = 5 then .ok .Bytes
    else
      match parseRustNat U16_BOUND (cs.drop 5) with
      | some size => .ok (if size = 0 then .Bytes else .FixedBytes size)
      | none => .error (.invalidSize ⟨cs.drop 5⟩)
  else .error (.unknownType ⟨cs⟩)

/-- Rendering of elementary-type decode failures as serde custom messages
(abbreviated to the leading words of the strings the source formats). -/
def elemErrorMsg : ElemError → String
  | .unknownType s => "unknown elementary type: " ++ s
  | .notAUintType s => "not a uint type: " ++ s
  | .notAIntType s => "not an int type: " ++ s
  | .notABytesType s => "not a bytes type: " ++ s
  | .notAUfixedType s => "not a ufixed type: " ++ s
  | .notAFixedType s => "not a fixed type: " ++ s
  | .invalidSize s => "invalid integer size: " ++ s
  | .invalidBytesSize s => "invalid bytes size: " ++ s
  | .invalidUfixedFormat s => "invalid ufixed format: " ++ s
  | .invalidFixedFormat s => "invalid fixed format: " ++ s
  | .invalidTotalBits s => "invalid total bits: " ++ s
  | .invalidFractionalBits s => "invalid fractional bits: " ++ s

def decodeElem : Json → DRes ElementaryType
  | .str s =>
      match decodeElementaryAstChars s.data with
      | .ok t => .ok t
      | .error e => .error ⟨[], .custom (elemErrorMsg e)⟩
  | _ => .error ⟨[], .invalidType ("a string")⟩

/-! ### Sequence and map decoders (non-recursive element types) -/

def decodeListWith {α : Type} (f : Json → DRes α) : Nat → List Json → DRes (List α)
  | _, [] => .ok []
  | i, v :: rest =>
      match inIdx i (f v) with
      | .error e => .error e
      | .ok a =>
        match decodeListWith f (i + 1) rest with
        | .error e => .error e
        | .ok as => .ok (a :: as)

def decodeArr {α : Type} (f : Json → DRes α) : Json → DRes (List α)
  | .arr xs => decodeListWith f 0 xs
  | _ => .error ⟨[], .invalidType ("a sequence")⟩

/-- A nullable element (serde `Option` inside a sequence): null decodes to
`none`, anything else through the element decoder. -/
def decodeNullable {α : Type} (f : Json → DRes α) : Json → DRes (Option α)
  | .null => .ok none
  | v => (f v).map Option.some

/-- A raw JSON field (`serde_json::Value`): any value decodes to itself. -/
def decodeJson (v : Json) : DRes Json := .ok v

/-- Entries of a JSON object decoded as a string-keyed map, preserving the
map's iteration order. -/
def decodeMapEntries {α : Type} (f : Json → DRes α) :
    List (String × Json) → DRes (List (String × α))
  | [] => .ok []
  | (k, v) :: rest =>
      match inKey k (f v) with
      | .error e => .error e
      | .ok a =>
        match decodeMapEntries f rest with
        | .error e => .error e
        | .ok as => .ok ((k, a) :: as)

def decodeMap {α : Type} (f : Json → DRes α) : Json → DRes (List (String × α))
  | .obj fs => decodeMapEntries f fs
  | _ => .error ⟨[], .invalidType ("a map")⟩

/-- Decoder for the node-list fields whose element enum has no variants
(such as `BlockNode`): the internally tagged enum with an empty variant
set fails on every object, reporting the discriminator it saw. -/
def decodeTaggedEmpty {α : Type} (v : Json) : DRes α :=
  match v with
  | .obj o =>
    match lookupField o ("nodeType") with
    | some (.str k) => .error ⟨[], .unknownVariant k⟩
    | some _ => .error ⟨[], .invalidType ("a string")⟩
    | none => .error ⟨[], .missingField ("nodeType")⟩
  | _ => .error ⟨[], .invalidType ("internally tagged enum")⟩

/-! ## Plain string enums of the catalog

Each mirrors a fieldless Rust enum with `rename_all` lowercase or
camelCase; decoding matches the renamed variant names and fails with an
unknown-variant error otherwise. -/

inductive ContractKind where
  | Contract | Interface | Library
deriving DecidableEq, Repr

def decodeContractKind : Json → DRes ContractKind
  | .str s =>
      if s = ("contract") then .ok .Contract
      else if s = ("interface") then .ok .Interface
      else if s = ("library") then .ok .Library
      else .error ⟨[], .unknownVariant s⟩
  | _ => .error ⟨[], .invalidType ("a string")⟩

inductive FunctionKind where
  | Constructor | Function | Receive | Fallback | FreeFunction
deriving DecidableEq, Repr

def decodeFunctionKind : Json → DRes FunctionKind
  | .str s =>
      if s = ("constructor") then .ok .Constructor
      else if s = ("function") then .ok .Function
      else if s = ("receive") then .ok .Receive
      else if s = ("fallback") then .ok .Fallback
      else if s = ("freeFunction") then .ok .FreeFunction
      else .error ⟨[], .unknownVariant s⟩
  | _ => .error ⟨[], .invalidType ("a string")⟩

inductive Visibility where
  | External | Public | Internal | Private
deriving DecidableEq, Repr

def decodeVisibility : Json → DRes Visibility
  | .str s =>
      if s = ("external") then .ok .External
      else if s = ("public") then .ok .Public
      else if s = ("internal") then .ok .Internal
      else if s = ("private") then .ok .Private
      else .error ⟨[], .unknownVariant s⟩
  | _ => .error ⟨[], .invalidType ("a string")⟩

inductive StateMutability where
  | Pure | View | Nonpayable | Payable
deriving DecidableEq, Repr

def decodeStateMutability : Json → DRes StateMutability
  | .str s =>
      if s = ("pure") then .ok .Pure
      else if s = ("view") then .ok .View
      else if s = ("nonpayable") then .ok .Nonpayable
      else if s = ("payable") then .ok .Payable
      else .error ⟨[], .unknownVariant s⟩
  | _ => .error ⟨[], .invalidType ("a string")⟩

inductive StorageLocation where
  | Default | Memory | Storage | Calldata
deriving DecidableEq, Repr

def decodeStorageLocation : Json → DRes StorageLocation
  | .str s =>
      if s = ("default") then .ok .Default
      else if s = ("memory") then .ok .Memory
      else if s = ("storage") then .ok .Storage
      else if s = ("calldata") then .ok .Calldata
      else .error ⟨[], .unknownVariant s⟩
  | _ => .error ⟨[], .invalidType ("a string")⟩

inductive Mutability where
  | Mutable | Immutable | Constant
deriving DecidableEq, Repr

def decodeMutability : Json → DRes Mutability
  | .str s =>
      if s = ("mutable") then .ok .Mutable
      else if s = ("immutable") then .ok .Immutable
      else if s = ("constant") then .ok .Constant
      else .error ⟨[], .unknownVariant s⟩
  | _ => .error ⟨[], .invalidType ("a string")⟩

inductive LiteralKind where
  | Bool | Number | String | HexString | UnicodeString
deriving DecidableEq, Repr

def decodeLiteralKind : Json → DRes LiteralKind
  | .str s =>
      if s = ("bool") then .ok .Bool
      else if s = ("number") then .ok .Number
      else if s = ("string") then .ok .String
      else if s = ("hexString") then .ok .HexString
      else if s = ("unicodeString") then .ok .UnicodeString
      else .error ⟨[], .unknownVariant s⟩
  | _ => .error ⟨[], .invalidType ("a string")⟩

inductive ModifierInvocationKind where
  | Modifier | BaseConstructorSpecifier | ModifierInvocationK
deriving DecidableEq, Repr

def decodeModifierInvocationKind : Json → DRes ModifierInvocationKind
  | .str s =>
      if s = ("modifier") then .ok .Modifier
      else if s = ("baseConstructorSpecifier") then .ok .BaseConstructorSpecifier
      else if s = ("modifierInvocation") then .ok .ModifierInvocationK
      else .error ⟨[], .unknownVariant s⟩
  | _ => .error ⟨[], .invalidType ("a string")⟩

/-! ## Non-recursive records of the catalog

Each mirrors a Rust struct of src/ast.rs field for field (with the serde
renames applied to the JSON keys). -/

structure TypeDescriptions where
  type_identifier : Option String
  type_string : Option String
deriving DecidableEq, Repr

def decodeTypeDescriptions (v : Json) : DRes TypeDescriptions := do
  match v with
  | .obj o =>
    let ti ← optField o ("typeIdentifier") decodeString
    let ts ← optField o ("typeString") decodeString
    pure ⟨ti, ts⟩
  | _ => .error ⟨[], .invalidType ("a map")⟩

structure CommonType where
  type_identifier : String
  type_string : String
deriving DecidableEq, Repr

def decodeCommonType (v : Json) : DRes CommonType := do
  match v with
  | .obj o =>
    let ti ← reqField o ("typeIdentifier") decodeString
    let ts ← reqField o ("typeString") decodeString
    pure ⟨ti, ts⟩
  | _ => .error ⟨[], .invalidType ("a map")⟩

structure StructuredDocumentationParameter where
  name : String
  description : String
deriving DecidableEq, Repr

def decodeSDParameter (v : Json) : DRes StructuredDocumentationParameter := do
  match v with
  | .obj o =>
    let n ← reqField o ("name") decodeString
    let d ← reqField o ("description") decodeString
    pure ⟨n, d⟩
  | _ => .error ⟨[], .invalidType ("a map")⟩

structure StructuredDocumentationReturn where
  name : Option String
  description : String
deriving DecidableEq, Repr

def decodeSDReturn (v : Json) : DRes StructuredDocumentationReturn := do
  match v with
  | .obj o =>
    let n ← optField o ("name") decodeString
    let d ← reqField o ("description") decodeString
    pure ⟨n, d⟩
  | _ => .error ⟨[], .invalidType ("a map")⟩

structure StructuredDocumentationCustom where
  tag : String
  content : String
deriving DecidableEq, Repr

def decodeSDCustom (v : Json) : DRes StructuredDocumentationCustom := do
  match v with
  | .obj o =>
    let t ← reqField o ("tag") decodeString
    let c ← reqField o ("content") decodeString
    pure ⟨t, c⟩
  | _ => .error ⟨[], .invalidType ("a map")⟩

structure StructuredDocumentation where
  id : Int
  text : String
  src : SourceLocation
  url : Option String
  author : Option String
  title : Option String
  notice : Option String
  dev : Option String
  params : List StructuredDocumentationParameter
  returns : List StructuredDocumentationReturn
  custom : List StructuredDocumentationCustom
deriving DecidableEq, Repr

def decodeStructuredDocumentation (v : Json) : DRes StructuredDocumentation := do
  match v with
  | .obj o =>
    let id ← reqField o ("id") decodeI64
    let text ← reqField o ("text") decodeString
    let src ← reqField o ("src") decodeSrc
    let url ← optField o ("url") decodeString
    let author ← optField o ("author") decodeString
    let title ← optField o ("title") decodeString
    let notice ← optField o ("notice") decodeString
    let dev ← optField o ("dev") decodeString
    let params ← defField o ("params") [] (decodeArr decodeSDParameter)
    let returns ← defField o ("returns") [] (decodeArr decodeSDReturn)
    let custom ← defField o ("custom") [] (decodeArr decodeSDCustom)
    pure ⟨id, text, src, url, author, title, notice, dev, params, returns, custom⟩
  | _ => .error ⟨[], .invalidType ("a map")⟩

/-- Documentation is an untagged union of a bare string and a structured
record; serde tries the string variant first, and the structured variant
on any other JSON value. -/
inductive Documentation where
  | String (s : String)
  | Structured (d : StructuredDocumentation)
deriving DecidableEq, Repr

def decodeDocumentation (v : Json) : DRes Documentation :=
  match v with
  | .str s => .ok (.String s)
  | v =>
    match decodeStructuredDocumentation v with
    | .ok d => .ok (.Structured d)
    | .error _ =>
        .error ⟨[], .custom ("data did not match any variant of untagged enum Documentation")⟩

structure EnumValue where
  id : Int
  name : String
  name_location : String
  src : SourceLocation
deriving DecidableEq, Repr

def decodeEnumValue (v : Json) : DRes EnumValue := do
  match v with
  | .obj o =>
    let id ← reqField o ("id") decodeI64
    let name ← reqField o ("name") decodeString
    let nl ← reqField o ("nameLocation") decodeString
    let src ← reqField o ("src") decodeSrc
    pure ⟨id, name, nl, src⟩
  | _ => .error ⟨[], .invalidType ("a map")⟩

structure Identifier where
  id : Int
  name : String
  overloaded_declarations : List Int
  referenced_declaration : Option Int
  src : SourceLocation
  type_descriptions : TypeDescriptions
  argument_types : Option (List TypeDescriptions)
deriving DecidableEq, Repr

def decodeIdentifier (v : Json) : DRes Identifier := do
  match v with
  | .obj o =>
    let id ← reqField o ("id") decodeI64
    let name ← reqField o ("name") decodeString
    let od ← defField o ("overloadedDeclarations") [] (decodeArr decodeI64)
    let rd ← optField o ("referencedDeclaration") decodeI64
    let src ← reqField o ("src") decodeSrc
    let td ← reqField o ("typeDescriptions") decodeTypeDescriptions
    let at_ ← optField o ("argumentTypes") (decodeArr decodeTypeDescriptions)
    pure ⟨id, name, od, rd, src, td, at_⟩
  | _ => .error ⟨[], .invalidType ("a map")⟩

structure IdentifierPath where
  id : Int
  name : String
  name_locations : Option (List String)
  referenced_declaration : Option Int
  src : SourceLocation
deriving DecidableEq, Repr

def decodeIdentifierPath (v : Json) : DRes IdentifierPath := do
  match v with
  | .obj o =>
    let id ← reqField o ("id") decodeI64
    let name ← reqField o ("name") decodeString
    let nls ← optField o ("nameLocations") (decodeArr decodeString)
    let rd ← optField o ("referencedDeclaration") decodeI64
    let src ← reqField o ("src") decodeSrc
    pure ⟨id, name, nls, rd, src⟩
  | _ => .error ⟨[], .invalidType ("a map")⟩

structure OverrideSpecifier where
  id : Int
  overrides : List IdentifierPath
  src : SourceLocation
deriving DecidableEq, Repr

def decodeOverrideSpecifier (v : Json) : DRes OverrideSpecifier := do
  match v with
  | .obj o =>
    let id ← reqField o ("id") decodeI64
    let ov ← defField o ("overrides") [] (decodeArr decodeIdentifierPath)
    let src ← reqField o ("src") decodeSrc
    pure ⟨id, ov, src⟩
  | _ => .error ⟨[], .invalidType ("a map")⟩

structure ExternalReference where
  declaration : Int
  is_offset : Bool
  is_slot : Bool
  src : SourceLocation
  value_size : Int
deriving DecidableEq, Repr

def decodeExternalReference (v : Json) : DRes ExternalReference := do
  match v with
  | .obj o =>
    let d ← reqField o ("declaration") decodeI64
    let io ← reqField o ("isOffset") decodeBool
    let is ← reqField o ("isSlot") decodeBool
    let src ← reqField o ("src") decodeSrc
    let vs ← reqField o ("valueSize") decodeI64
    pure ⟨d, io, is, src, vs⟩
  | _ => .error ⟨[], .invalidType ("a map")⟩

structure SymbolAlias where
  foreign : Identifier
  local_name : Option String
  name_location : String
deriving DecidableEq, Repr

def decodeSymbolAlias (v : Json) : DRes SymbolAlias := do
  match v with
  | .obj o =>
    let f ← reqField o ("foreign") decodeIdentifier
    let l ← optField o ("local") decodeString
    let nl ← reqField o ("nameLocation") decodeString
    pure ⟨f, l, nl⟩
  | _ => .error ⟨[], .invalidType ("a map")⟩

structure ElementaryTypeName where
  id : Int
  name : ElementaryType
  src : SourceLocation
  state_mutability : Option String
  type_descriptions : TypeDescriptions
deriving DecidableEq, Repr

def decodeElementaryTypeName (v : Json) : DRes ElementaryTypeName := do
  match v with
  | .obj o =>
    let id ← reqField o ("id") decodeI64
    let name ← reqField o ("name") decodeElem
    let src ← reqField o ("src") decodeSrc
    let sm ← optField o ("stateMutability") decodeString
    let td ← reqField o ("typeDescriptions") decodeTypeDescriptions
    pure ⟨id, name, src, sm, td⟩
  | _ => .error ⟨[], .invalidType ("a map")⟩

structure UserDefinedTypeName where
  id : Int
  path_node : Option IdentifierPath
  referenced_declaration : Option Int
  src : SourceLocation
  type_descriptions : TypeDescriptions
deriving DecidableEq, Repr

/-- The `referenced_declaration` field of `UserDefinedTypeName` carries no
serde rename in the source, so its JSON key is the snake-case field
name. -/
def decodeUserDefinedTypeName (v : Json) : DRes UserDefinedTypeName := do
  match v with
  | .obj o =>
    let id ← reqField o ("id") decodeI64
    let pn ← optField o ("pathNode") decodeIdentifierPath
    let rd ← optField o ("referenced_declaration") decodeI64
    let src ← reqField o ("src") decodeSrc
    let td ← reqField o ("typeDescriptions") decodeTypeDescriptions
    pure ⟨id, pn, rd, src, td⟩
  | _ => .error ⟨[], .invalidType ("a map")⟩

structure Break where
  id : Int
  src : SourceLocation
deriving DecidableEq, Repr

def decodeBreak (v : Json) : DRes Break := do
  match v with
  | .obj o =>
    let id ← reqField o ("id") decodeI64
    let src ← reqField o ("src") decodeSrc
    pure ⟨id, src⟩
  | _ => .error ⟨[], .invalidType ("a map")⟩

structure Continue where
  id : Int
  src : SourceLocation
deriving DecidableEq, Repr

def decodeContinue (v : Json) : DRes Continue := do
  match v with
  | .obj o =>
    let id ← reqField o ("id") decodeI64
    let src ← reqField o ("src") decodeSrc
    pure ⟨id, src⟩
  | _ => .error ⟨[], .invalidType ("a map")⟩

structure PlaceholderStatement where
  id : Int
  src : SourceLocation
deriving DecidableEq, Repr

def decodePlaceholderStatement (v : Json) : DRes PlaceholderStatement := do
  match v with
  | .obj o =>
    let id ← reqField o ("id") decodeI64
    let src ← reqField o ("src") decodeSrc
    pure ⟨id, src⟩
  | _ => .error ⟨[], .invalidType ("a map")⟩

structure Literal where
  id : Int
  kind : LiteralKind
  value : String
  hex_value : Option String
  subdenomination : Option String
  src : SourceLocation
  type_descriptions : TypeDescriptions
  is_constant : Bool
  is_l_value : Bool
  is_pure : Bool
  l_value_requested : Bool
  formatted_value : Option String
deriving DecidableEq, Repr

def decodeLiteral (v : Json) : DRes Literal := do
  match v with
  | .obj o =>
    let id ← reqField o ("id") decodeI64
    let kind ← reqField o ("kind") decodeLiteralKind
    let value ← reqField o ("value") decodeString
    let hv ← optField o ("hexValue") decodeString
    let sd ← optField o ("subdenomination") decodeString
    let src ← reqField o ("src") decodeSrc
    let td ← reqField o ("typeDescriptions") decodeTypeDescriptions
    let ic ← reqField o ("isConstant") decodeBool
    let il ← reqField o ("isLValue") decodeBool
    let ip ← reqField o ("isPure") decodeBool
    let lvr ← reqField o ("lValueRequested") decodeBool
    let fv ← optField o ("formattedValue") decodeString
    pure ⟨id, kind, value, hv, sd, src, td, ic, il, ip, lvr, fv⟩
  | _ => .error ⟨[], .invalidType ("a map")⟩

inductive PragmaDirectiveNode deriving DecidableEq, Repr

structure PragmaDirective where
  id : Int
  literals : List String
  src : SourceLocation
  nodes : List PragmaDirectiveNode
deriving DecidableEq, Repr

def decodePragmaDirective (v : Json) : DRes PragmaDirective := do
  match v with
  | .obj o =>
    let id ← reqField o ("id") decodeI64
    let lits ← reqField o ("literals") (decodeArr decodeString)
    let src ← reqField o ("src") decodeSrc
    let nodes ← defField o ("nodes") [] (decodeArr decodeTaggedEmpty)
    pure ⟨id, lits, src, nodes⟩
  | _ => .error ⟨[], .invalidType ("a map")⟩

inductive ImportDirectiveNode deriving DecidableEq, Repr

structure ImportDirective where
  id : Int
  absolute_path : String
  file : String
  unit_alias : Option String
  symbol_aliases : List SymbolAlias
  scope : Option Int
  source_unit : Option Int
  src : SourceLocation
  name_location : Option String
  nodes : List ImportDirectiveNode
deriving DecidableEq, Repr

def decodeImportDirective (v : Json) : DRes ImportDirective := do
  match v with
  | .obj o =>
    let id ← reqField o ("id") decodeI64
    let ap ← reqField o ("absolutePath") decodeString
    let file ← reqField o ("file") decodeString
    let ua ← optField o ("unitAlias") decodeString
    let sa ← defField o ("symbolAliases") [] (decodeArr decodeSymbolAlias)
    let scope ← optField o ("scope") decodeI64
    let su ← optField o ("sourceUnit") decodeI64
    let src ← reqField o ("src") decodeSrc
    let nl ← optField o ("nameLocation") decodeString
    let nodes ← defField o ("nodes") [] (decodeArr decodeTaggedEmpty)
    pure ⟨id, ap, file, ua, sa, scope, su, src, nl, nodes⟩
  | _ => .error ⟨[], .invalidType ("a map")⟩

inductive EnumDefinitionNode deriving DecidableEq, Repr

structure EnumDefinition where
  id : Int
  name : String
  members : List EnumValue
  src : SourceLocation
  scope : Option Int
  documentation : Option Documentation
  canonical_name : Option String
  nodes : List EnumDefinitionNode
deriving DecidableEq, Repr

def decodeEnumDefinition (v : Json) : DRes EnumDefinition := do
  match v with
  | .obj o =>
    let id ← reqField o ("id") decodeI64
    let name ← reqField o ("name") decodeString
    let members ← reqField o ("members") (decodeArr decodeEnumValue)
    let src ← reqField o ("src") decodeSrc
    let scope ← optField o ("scope") decodeI64
    let doc ← optField o ("documentation") decodeDocumentation
    let cn ← optField o ("canonicalName") decodeString
    let nodes ← defField o ("nodes") [] (decodeArr decodeTaggedEmpty)
    pure ⟨id, name, members, src, scope, doc, cn, nodes⟩
  | _ => .error ⟨[], .invalidType ("a map")⟩

inductive UsingForDirectiveNode deriving DecidableEq, Repr

structure UsingForDirective where
  id : Int
  library_name : Option IdentifierPath
  type_name : Option UserDefinedTypeName
  operations : Option (List String)
  src : SourceLocation
  global : Option Bool
  nodes : List UsingForDirectiveNode
  scope : Option Int
deriving DecidableEq, Repr

def decodeUsingForDirective (v : Json) : DRes UsingForDirective := do
  match v with
  | .obj o =>
    let id ← reqField o ("id") decodeI64
    let ln ← optField o ("libraryName") decodeIdentifierPath
    let tn ← optField o ("typeName") decodeUserDefinedTypeName
    let ops ← optField o ("operations") (decodeArr decodeString)
    let src ← reqField o ("src") decodeSrc
    let gl ← optField o ("global") decodeBool
    let nodes ← defField o ("nodes") [] (decodeArr decodeTaggedEmpty)
    let scope ← optField o ("scope") decodeI64
    pure ⟨id, ln, tn, ops, src, gl, nodes, scope⟩
  | _ => .error ⟨[], .invalidType ("a map")⟩

structure ElementaryTypeNameExpression where
  id : Int
  type_name : ElementaryTypeName
  src : SourceLocation
  type_descriptions : TypeDescriptions
  argument_types : Option (List TypeDescriptions)
deriving DecidableEq, Repr

def decodeElementaryTypeNameExpression (v : Json) : DRes ElementaryTypeNameExpression := do
  match v with
  | .obj o =>
    let id ← reqField o ("id") decodeI64
    let tn ← reqField o ("typeName") decodeElementaryTypeName
    let src ← reqField o ("src") decodeSrc
    let td ← reqField o ("typeDescriptions") decodeTypeDescriptions
    let at_ ← optField o ("argumentTypes") (decodeArr decodeTypeDescriptions)
    pure ⟨id, tn, src, td, at_⟩
  | _ => .error ⟨[], .invalidType ("a map")⟩

structure InlineAssembly where
  id : Int
  operations : Option Json
  external_references : Option (List ExternalReference)
  src : SourceLocation
  documentation : Option Documentation
  flags : List String
deriving Repr

def decodeInlineAssembly (v : Json) : DRes InlineAssembly := do
  match v with
  | .obj o =>
    let id ← reqField o ("id") decodeI64
    let ops ← optField o ("operations") decodeJson
    let er ← optField o ("externalReferences") (decodeArr decodeExternalReference)
    let src ← reqField o ("src") decodeSrc
    let doc ← optField o ("documentation") decodeDocumentation
    let flags ← defField o ("flags") [] (decodeArr decodeString)
    pure ⟨id, ops, er, src, doc, flags⟩
  | _ => .error ⟨[], .invalidType ("a map")⟩

/-! ## The recursive node catalog

The remaining node-list element enums with no variants. -/

inductive ParameterListNode deriving DecidableEq, Repr

inductive BlockNode deriving DecidableEq, Repr

inductive UncheckedBlockNode deriving DecidableEq, Repr

inductive UserDefinedValueTypeDefinitionNode deriving DecidableEq, Repr

inductive ModifierDefinitionNode deriving DecidableEq, Repr

inductive ErrorDefinitionNode deriving DecidableEq, Repr

inductive EventDefinitionNode deriving DecidableEq, Repr

inductive StructDefinitionNode deriving DecidableEq, Repr

inductive VariableDeclarationNode deriving DecidableEq, Repr

/-! The mutually recursive node records and the four discriminated unions
(`Expression`, `Statement`, `TypeName`, `FunctionCallExpression`) that tie
them together, mirroring the structs and `#[serde(tag = "nodeType")]`
enums of src/ast.rs.  The records are single-constructor inductives
because Lean structures cannot take part in a mutual block. -/

mutual

inductive Expression where
  | Assignment (a : Assignment)
  | BinaryOperation (b : BinaryOperation)
  | Conditional (c : Conditional)
  | ElementaryTypeNameExpression (e : ElementaryTypeNameExpression)
  | FunctionCall (f : FunctionCall)
  | Identifier (i : Identifier)
  | IndexAccess (i : IndexAccess)
  | Literal (l : Literal)
  | MemberAccess (m : MemberAccess)
  | NewExpression (n : NewExpression)
  | TupleExpression (t : TupleExpression)
  | UnaryOperation (u : UnaryOperation)
  | VariableDeclarationStatement (v : VariableDeclarationStatement)
  | ExpressionStatement (e : ExpressionStatement)

inductive Statement where
  | Block (b : Block)
  | Break (b : Break)
  | Continue (c : Continue)
  | DoWhileStatement (d : DoWhileStatement)
  | EmitStatement (e : EmitStatement)
  | ExpressionStatement (e : ExpressionStatement)
  | ForStatement (f : ForStatement)
  | IfStatement (i : IfStatement)
  | InlineAssembly (i : InlineAssembly)
  | PlaceholderStatement (p : PlaceholderStatement)
  | Return (r : Return)
  | RevertStatement (r : RevertStatement)
  | TryStatement (t : TryStatement)
  | UncheckedBlock (u : UncheckedBlock)
  | VariableDeclarationStatement (v : VariableDeclarationStatement)
  | WhileStatement (w : WhileStatement)

inductive TypeName where
  | ArrayTypeName (a : ArrayTypeName)
  | ElementaryTypeName (e : ElementaryTypeName)
  | FunctionTypeName (f : FunctionTypeName)
  | Mapping (m : Mapping)
  | UserDefinedTypeName (u : UserDefinedTypeName)

inductive FunctionCallExpression where
  | ElementaryTypeNameExpression (e : ElementaryTypeNameExpression)
  | FunctionCall (f : FunctionCall)
  | FunctionCallOptions (f : FunctionCallOptions)
  | Identifier (i : Identifier)
  | MemberAccess (m : MemberAccess)
  | NewExpression (n : NewExpression)

inductive Assignment where
  | mk (id : Int) (left_hand_side : Expression) (right_hand_side : Expression)
      (operator : String) (src : SourceLocation) (type_descriptions : TypeDescriptions)

inductive BinaryOperation where
  | mk (id : Int) (left_expression : Expression) (right_expression : Expression)
      (operator : String) (common_type : CommonType) (src : SourceLocation)
      (is_constant : Bool) (is_l_value : Bool) (is_pure : Bool)
      (l_value_requested : Bool) (type_descriptions : TypeDescriptions)

inductive Conditional where
  | mk (id : Int) (condition : Expression) (true_expression : Expression)
      (false_expression : Expression) (is_constant : Bool) (is_l_value : Bool)
      (is_pure : Bool) (l_value_requested : Bool) (src : SourceLocation)
      (type_descriptions : TypeDescriptions)

inductive FunctionCall where
  | mk (id : Int) (expression : FunctionCallExpression) (arguments : List Expression)
      (names : List String) (kind : String) (src : SourceLocation) (try_call : Bool)
      (name_locations : Option (List String)) (is_constant : Bool) (is_l_value : Bool)
      (is_pure : Bool) (l_value_requested : Bool) (type_descriptions : TypeDescriptions)
      (argument_types : Option (List TypeDescriptions))

inductive FunctionCallOptions where
  | mk (id : Int) (expression : Expression) (names : List String)
      (options : List Expression) (src : SourceLocation)
      (type_descriptions : TypeDescriptions) (name_locations : Option (List String))

inductive IndexAccess where
  | mk (id : Int) (base_expression : Expression) (index_expression : Option Expression)
      (src : SourceLocation) (type_descriptions : TypeDescriptions)

inductive MemberAccess where
  | mk (id : Int) (expression : Expression) (member_name : String)
      (member_location : Option String) (src : SourceLocation)
      (referenced_declaration : Option Int) (type_descriptions : TypeDescriptions)
      (argument_types : Option (List TypeDescriptions)) (is_constant : Bool)
      (is_l_value : Bool) (is_pure : Bool) (l_value_requested : Bool)

inductive NewExpression where
  | mk (id : Int) (type_name : TypeName) (arguments : Option (List Expression))
      (src : SourceLocation) (type_descriptions : TypeDescriptions)
      (argument_types : Option (List TypeDescriptions)) (is_constant : Bool)
      (is_l_value : Bool) (is_pure : Bool) (l_value_requested : Bool)

inductive TupleExpression where
  | mk (id : Int) (components : List (Option Expression)) (src : SourceLocation)
      (type_descriptions : TypeDescriptions)

inductive UnaryOperation where
  | mk (id : Int) (sub_expression : Expression) (operator : String) (isPrefix : Bool)
      (src : SourceLocation) (type_descriptions : TypeDescriptions) (is_constant : Bool)
      (is_l_value : Bool) (is_pure : Bool) (l_value_requested : Bool)

inductive VariableDeclarationStatement where
  | mk (id : Int) (assignments : List (Option Int))
      (declarations : List (Option VariableDeclaration))
      (initial_value : Option Expression) (src : SourceLocation)
      (documentation : Option Documentation)

inductive ExpressionStatement where
  | mk (id : Int) (expression : Expression) (src : SourceLocation)

inductive Block where
  | mk (id : Int) (statements : List Statement) (src : SourceLocation)
      (nodes : List BlockNode)

inductive DoWhileStatement where
  | mk (id : Int) (condition : Expression) (body : Statement) (src : SourceLocation)

inductive EmitStatement where
  | mk (id : Int) (event_call : FunctionCall) (src : SourceLocation)

inductive ForStatement where
  | mk (id : Int) (initialization_expression : Option Expression)
      (condition : Option Expression) (loop_expression : Option Expression)
      (body : Statement) (src : SourceLocation)

inductive IfStatement where
  | mk (id : Int) (condition : Expression) (true_body : Statement)
      (false_body : Option Statement) (src : SourceLocation)

inductive Return where
  | mk (id : Int) (function_return_parameters : Int) (expression : Option Expression)
      (src : SourceLocation)

inductive RevertStatement where
  | mk (id : Int) (error_call : FunctionCall) (src : SourceLocation)

inductive TryCatchClause where
  | mk (id : Int) (kind : String) (error_name : Option String)
      (parameters : Option ParameterList) (block : Block) (src : SourceLocation)

inductive TryStatement where
  | mk (id : Int) (expression : Expression) (return_parameters : ParameterList)
      (clauses : List TryCatchClause) (src : SourceLocation)

inductive UncheckedBlock where
  | mk (id : Int) (statements : List Statement) (src : SourceLocation)
      (nodes : List UncheckedBlockNode)

inductive WhileStatement where
  | mk (id : Int) (condition : Expression) (body : Statement) (src : SourceLocation)

inductive VariableDeclaration where
  | mk (id : Int) (name : String) (type_name : Option TypeName) (src : SourceLocation)
      (name_location : Option String) (visibility : Visibility)
      (state_mutability : Option StateMutability) (mutability : Option Mutability)
      (state_variable : Option Bool) (storage_location : Option StorageLocation)
      (constant : Option Bool) (immutable : Option Bool) (indexed : Option Bool)
      (value : Option Expression) (documentation : Option Documentation)
      (type_descriptions : TypeDescriptions) (overrides : Option OverrideSpecifier)
      (scope : Option Int)

inductive ArrayTypeName where
  | mk (id : Int) (base_type : TypeName) (length : Option Expression)
      (src : SourceLocation)

inductive Mapping where
  | mk (id : Int) (key_type : TypeName) (value_type : TypeName) (src : SourceLocation)

inductive FunctionTypeName where
  | mk (id : Int) (parameter_types : List TypeName)
      (return_parameter_types : List TypeName) (visibility : String)
      (state_mutability : String) (src : SourceLocation)

inductive ParameterList where
  | mk (id : Int) (parameters : List VariableDeclaration) (src : SourceLocation)
      (nodes : List ParameterListNode)

inductive ModifierInvocation where
  | mk (id : Int) (kind : Option ModifierInvocationKind)
      (modifier_name : IdentifierPath) (arguments : Option (List Expression))
      (src : SourceLocation)

inductive ModifierDefinition where
  | mk (id : Int) (name : String) (virtual : Bool) (visibility : Visibility)
      (parameters : ParameterList) (body : Option Block) (src : SourceLocation)
      (scope : Option Int) (documentation : Option Documentation)
      (overrides : Option OverrideSpecifier) (nodes : List ModifierDefinitionNode)

inductive FunctionDefinition where
  | mk (id : Int) (name : String) (virtual : Bool) (kind : FunctionKind)
      (visibility : Visibility) (state_mutability : StateMutability)
      (body : Option Block) (parameters : ParameterList)
      (return_parameters : ParameterList) (modifiers : List ModifierInvocation)
      (src : SourceLocation) (scope : Int) (implemented : Bool)
      (documentation : Option Documentation) (overrides : Option OverrideSpecifier)
      (base_functions : Option (List Int)) (function_selector : Option String)
      (name_location : Option String) (nodes : List VariableDeclarationNode)

inductive EventDefinition where
  | mk (id : Int) (name : String) (anonymous : Bool) (event_selector : Option String)
      (parameters : ParameterList) (src : SourceLocation) (scope : Option Int)
      (name_location : Option String) (nodes : List EventDefinitionNode)
      (documentation : Option Documentation)

inductive ErrorDefinition where
  | mk (id : Int) (name : String) (parameters : ParameterList) (src : SourceLocation)
      (scope : Option Int) (documentation : Option Documentation)
      (nodes : List ErrorDefinitionNode)

inductive StructDefinition where
  | mk (id : Int) (name : String) (members : List VariableDeclaration)
      (src : SourceLocation) (scope : Option Int) (documentation : Option Documentation)
      (canonical_name : Option String) (used_in_events : Option Bool)
      (nodes : List StructDefinitionNode)

inductive UserDefinedValueTypeDefinition where
  | mk (id : Int) (name : String) (src : SourceLocation)
      (nodes : List UserDefinedValueTypeDefinitionNode)
      (canonical_name : Option String) (name_location : Option String)
      (underlying_type : TypeName)

inductive InheritanceSpecifier where
  | mk (id : Int) (base_name : IdentifierPath) (arguments : Option (List Expression))
      (src : SourceLocation)

inductive ContractDefinition where
  | mk (id : Int) (name : String) (contract_kind : ContractKind) (abstract : Bool)
      (fully_implemented : Bool) (linearized_base_contracts : List Int)
      (nodes : List ContractDefinitionNode) (scope : Option Int)
      (src : SourceLocation) (documentation : Option Documentation)
      (base_contracts : Option (List InheritanceSpecifier))
      (canonical_name : Option String) (contract_dependencies : Option (List Int))
      (name_location : Option String) (used_errors : Option (List Int))
      (used_events : Option (List Int))

inductive ContractDefinitionNode where
  | EnumDefinition (e : EnumDefinition)
  | ErrorDefinition (e : ErrorDefinition)
  | EventDefinition (e : EventDefinition)
  | FunctionDefinition (f : FunctionDefinition)
  | ModifierDefinition (m : ModifierDefinition)
  | StructDefinition (s : StructDefinition)
  | UsingForDirective (u : UsingForDirective)
  | VariableDeclaration (v : VariableDeclaration)

inductive SourceUnitNode where
  | ContractDefinition (c : ContractDefinition)
  | EnumDefinition (e : EnumDefinition)
  | ErrorDefinition (e : ErrorDefinition)
  | EventDefinition (e : EventDefinition)
  | FunctionDefinition (f : FunctionDefinition)
  | ImportDirective (i : ImportDirective)
  | PragmaDirective (p : PragmaDirective)
  | StructDefinition (s : StructDefinition)
  | UserDefinedValueTypeDefinition (u : UserDefinedValueTypeDefinition)
  | UsingForDirective (u : UsingForDirective)
  | VariableDeclaration (v : VariableDeclaration)

end

/-- The document root: one parsed source file, mirroring `SourceUnit` of
src/ast.rs (`exportedSymbols` is a string-keyed map, modelled in its
iteration order). -/
structure SourceUnit where
  id : Int
  absolute_path : String
  exported_symbols : List (String × List Int)
  src : SourceLocation
  nodes : List SourceUnitNode
  license : Option String

/-! ## The recursive decoders

Serde's derived deserialization recurses along the JSON value; the
decoders are fuel-indexed so that every recursive call consumes one unit
of fuel, and the exported entry points supply `sizeOf` of the input as
fuel, which strictly dominates the recursion depth (each recursion step
descends at least one JSON constructor, or dispatches once from a tagged
union to its record at the same node).  Running out of fuel is a decode
error, which the entry points never reach. -/

def fuelError : DecError := ⟨[], .custom ("recursion limit")⟩

mutual

def decodeExpressionF : Nat → Json → DRes Expression
  | 0, _ => .error fuelError
  | fuel + 1, v =>
    match v with
    | .obj o =>
      match lookupField o ("nodeType") with
      | some (.str k) =>
          if k = ("Assignment") then (decodeAssignmentF fuel (.obj o)).map .Assignment
          else if k = ("BinaryOperation") then (decodeBinaryOperationF fuel (.obj o)).map .BinaryOperation
          else if k = ("Conditional") then (decodeConditionalF fuel (.obj o)).map .Conditional
          else if k = ("ElementaryTypeNameExpression") then (decodeElementaryTypeNameExpression (.obj o)).map .ElementaryTypeNameExpression
          else if k = ("FunctionCall") then (decodeFunctionCallF fuel (.obj o)).map .FunctionCall
          else if k = ("Identifier") then (decodeIdentifier (.obj o)).map .Identifier
          else if k = ("IndexAccess") then (decodeIndexAccessF fuel (.obj o)).map .IndexAccess
          else if k = ("Literal") then (decodeLiteral (.obj o)).map .Literal
          else if k = ("MemberAccess") then (decodeMemberAccessF fuel (.obj o)).map .MemberAccess
          else if k = ("NewExpression") then (decodeNewExpressionF fuel (.obj o)).map .NewExpression
          else if k = ("TupleExpression") then (decodeTupleExpressionF fuel (.obj o)).map .TupleExpression
          else if k = ("UnaryOperation") then (decodeUnaryOperationF fuel (.obj o)).map .UnaryOperation
          else if k = ("VariableDeclarationStatement") then (decodeVariableDeclarationStatementF fuel (.obj o)).map .VariableDeclarationStatement
          else if k = ("ExpressionStatement") then (decodeExpressionStatementF fuel (.obj o)).map .ExpressionStatement
          else .error ⟨[], .unknownVariant k⟩
      | some _ => .error ⟨[], .invalidType ("a string")⟩
      | none => .error ⟨[], .missingField ("nodeType")⟩
    | _ => .error ⟨[], .invalidType ("internally tagged enum Expression")⟩

def decodeStatementF : Nat → Json → DRes Statement
  | 0, _ => .error fuelError
  | fuel + 1, v =>
    match v with
    | .obj o =>
      match lookupField o ("nodeType") with
      | some (.str k) =>
          if k = ("Block") then (decodeBlockF fuel (.obj o)).map .Block
          else if k = ("Break") then (decodeBreak (.obj o)).map .Break
          else if k = ("Continue") then (decodeContinue (.obj o)).map .Continue
          else if k = ("DoWhileStatement") then (decodeDoWhileStatementF fuel (.obj o)).map .DoWhileStatement
          else if k = ("EmitStatement") then (decodeEmitStatementF fuel (.obj o)).map .EmitStatement
          else if k = ("ExpressionStatement") then (decodeExpressionStatementF fuel (.obj o)).map .ExpressionStatement
          else if k = ("ForStatement") then (decodeForStatementF fuel (.obj o)).map .ForStatement
          else if k = ("IfStatement") then (decodeIfStatementF fuel (.obj o)).map .IfStatement
          else if k = ("InlineAssembly") then (decodeInlineAssembly (.obj o)).map .InlineAssembly
          else if k = ("PlaceholderStatement") then (decodePlaceholderStatement (.obj o)).map .PlaceholderStatement
          else if k = ("Return") then (decodeReturnF fuel (.obj o)).map .Return
          else if k = ("RevertStatement") then (decodeRevertStatementF fuel (.obj o)).map .RevertStatement
          else if k = ("TryStatement") then (decodeTryStatementF fuel (.obj o)).map .TryStatement
          else if k = ("UncheckedBlock") then (decodeUncheckedBlockF fuel (.obj o)).map .UncheckedBlock
          else if k = ("VariableDeclarationStatement") then (decodeVariableDeclarationStatementF fuel (.obj o)).map .VariableDeclarationStatement
          else if k = ("WhileStatement") then (decodeWhileStatementF fuel (.obj o)).map .WhileStatement
          else .error ⟨[], .unknownVariant k⟩
      | some _ => .error ⟨[], .invalidType ("a string")⟩
      | none => .error ⟨[], .missingField ("nodeType")⟩
    | _ => .error ⟨[], .invalidType ("internally tagged enum Statement")⟩

def decodeTypeNameF : Nat → Json → DRes TypeName
  | 0, _ => .error fuelError
  | fuel + 1, v =>
    match v with
    | .obj o =>
      match lookupField o ("nodeType") with
      | some (.str k) =>
          if k = ("ArrayTypeName") then (decodeArrayTypeNameF fuel (.obj o)).map .ArrayTypeName
          else if k = ("ElementaryTypeName") then (decodeElementaryTypeName (.obj o)).map .ElementaryTypeName
          else if k = ("FunctionTypeName") then (decodeFunctionTypeNameF fuel (.obj o)).map .FunctionTypeName
          else if k = ("Mapping") then (decodeMappingF fuel (.obj o)).map .Mapping
          else if k = ("UserDefinedTypeName") then (decodeUserDefinedTypeName (.obj o)).map .UserDefinedTypeName
          else .error ⟨[], .unknownVariant k⟩
      | some _ => .error ⟨[], .invalidType ("a string")⟩
      | none => .error ⟨[], .missingField ("nodeType")⟩
    | _ => .error ⟨[], .invalidType ("internally tagged enum TypeName")⟩

def decodeFunctionCallExpressionF : Nat → Json → DRes FunctionCallExpression
  | 0, _ => .error fuelError
  | fuel + 1, v =>
    match v with
    | .obj o =>
      match lookupField o ("nodeType") with
      | some (.str k) =>
          if k = ("ElementaryTypeNameExpression") then (decodeElementaryTypeNameExpression (.obj o)).map .ElementaryTypeNameExpression
          else if k = ("FunctionCall") then (decodeFunctionCallF fuel (.obj o)).map .FunctionCall
          else if k = ("FunctionCallOptions") then (decodeFunctionCallOptionsF fuel (.obj o)).map .FunctionCallOptions
          else if k = ("Identifier") then (decodeIdentifier (.obj o)).map .Identifier
          else if k = ("MemberAccess") then (decodeMemberAccessF fuel (.obj o)).map .MemberAccess
          else if k = ("NewExpression") then (decodeNewExpressionF fuel (.obj o)).map .NewExpression
          else .error ⟨[], .unknownVariant k⟩
      | some _ => .error ⟨[], .invalidType ("a string")⟩
      | none => .error ⟨[], .missingField ("nodeType")⟩
    | _ => .error ⟨[], .invalidType ("internally tagged enum FunctionCallExpression")⟩

def decodeContractDefinitionNodeF : Nat → Json → DRes ContractDefinitionNode
  | 0, _ => .error fuelError
  | fuel + 1, v =>
    match v with
    | .obj o =>
      match lookupField o ("nodeType") with
      | some (.str k) =>
          if k = ("EnumDefinition") then (decodeEnumDefinition (.obj o)).map .EnumDefinition
          else if k = ("ErrorDefinition") then (decodeErrorDefinitionF fuel (.obj o)).map .ErrorDefinition
          else if k = ("EventDefinition") then (decodeEventDefinitionF fuel (.obj o)).map .EventDefinition
          else if k = ("FunctionDefinition") then (decodeFunctionDefinitionF fuel (.obj o)).map .FunctionDefinition
          else if k = ("ModifierDefinition") then (decodeModifierDefinitionF fuel (.obj o)).map .ModifierDefinition
          else if k = ("StructDefinition") then (decodeStructDefinitionF fuel (.obj o)).map .StructDefinition
          else if k = ("UsingForDirective") then (decodeUsingForDirective (.obj o)).map .UsingForDirective
          else if k = ("VariableDeclaration") then (decodeVariableDeclarationF fuel (.obj o)).map .VariableDeclaration
          else .error ⟨[], .unknownVariant k⟩
      | some _ => .error ⟨[], .invalidType ("a string")⟩
      | none => .error ⟨[], .missingField ("nodeType")⟩
    | _ => .error ⟨[], .invalidType ("internally tagged enum ContractDefinitionNode")⟩

def decodeSourceUnitNodeF : Nat → Json → DRes SourceUnitNode
  | 0, _ => .error fuelError
  | fuel + 1, v =>
    match v with
    | .obj o =>
      match lookupField o ("nodeType") with
      | some (.str k) =>
          if k = ("ContractDefinition") then (decodeContractDefinitionF fuel (.obj o)).map .ContractDefinition
          else if k = ("EnumDefinition") then (decodeEnumDefinition (.obj o)).map .EnumDefinition
          else if k = ("ErrorDefinition") then (decodeErrorDefinitionF fuel (.obj o)).map .ErrorDefinition
          else if k = ("EventDefinition") then (decodeEventDefinitionF fuel (.obj o)).map .EventDefinition
          else if k = ("FunctionDefinition") then (decodeFunctionDefinitionF fuel (.obj o)).map .FunctionDefinition
          else if k = ("ImportDirective") then (decodeImportDirective (.obj o)).map .ImportDirective
          else if k = ("PragmaDirective") then (decodePragmaDirective (.obj o)).map .PragmaDirective
          else if k = ("StructDefinition") then (decodeStructDefinitionF fuel (.obj o)).map .StructDefinition
          else if k = ("UserDefinedValueTypeDefinition") then (decodeUserDefinedValueTypeDefinitionF fuel (.obj o)).map .UserDefinedValueTypeDefinition
          else if k = ("UsingForDirective") then (decodeUsingForDirective (.obj o)).map .UsingForDirective
          else if k = ("VariableDeclaration") then (decodeVariableDeclarationF fuel (.obj o)).map .VariableDeclaration
          else .error ⟨[], .unknownVariant k⟩
      | some _ => .error ⟨[], .invalidType ("a string")⟩
      | none => .error ⟨[], .missingField ("nodeType")⟩
    | _ => .error ⟨[], .invalidType ("internally tagged enum SourceUnitNode")⟩

def decodeAssignmentF : Nat → Json → DRes Assignment
  | 0, _ => .error fuelError
  | fuel + 1, v =>
    match v with
    | .obj o => do
      let x1 ← reqField o ("id") (decodeI64)
      let x2 ← reqField o ("leftHandSide") (decodeExpressionF fuel)
      let x3 ← reqField o ("rightHandSide") (decodeExpressionF fuel)
      let x4 ← reqField o ("operator") (decodeString)
      let x5 ← reqField o ("src") (decodeSrc)
      let x6 ← reqField o ("typeDescriptions") (decodeTypeDescriptions)
      pure (.mk x1 x2 x3 x4 x5 x6)
    | _ => .error ⟨[], .invalidType ("a map")⟩

def decodeBinaryOperationF : Nat → Json → DRes BinaryOperation
  | 0, _ => .error fuelError
  | fuel + 1, v =>
    match v with
    | .obj o => do
      let x1 ← reqField o ("id") (decodeI64)
      let x2 ← reqField o ("leftExpression") (decodeExpressionF fuel)
      let x3 ← reqField o ("rightExpression") (decodeExpressionF fuel)
      let x4 ← reqField o ("operator") (decodeString)
      let x5 ← reqField o ("commonType") (decodeCommonType)
      let x6 ← reqField o ("src") (decodeSrc)
      let x7 ← reqField o ("isConstant") (decodeBool)
      let x8 ← reqField o ("isLValue") (decodeBool)
      let x9 ← reqField o ("isPure") (decodeBool)
      let x10 ← reqField o ("lValueRequested") (decodeBool)
      let x11 ← reqField o ("typeDescriptions") (decodeTypeDescriptions)
      pure (.mk x1 x2 x3 x4 x5 x6 x7 x8 x9 x10 x11)
    | _ => .error ⟨[], .invalidType ("a map")⟩

def decodeConditionalF : Nat → Json → DRes Conditional
  | 0, _ => .error fuelError
  | fuel + 1, v =>
    match v with
    | .obj o => do
      let x1 ← reqField o ("id") (decodeI64)
      let x2 ← reqField o ("condition") (decodeExpressionF fuel)
      let x3 ← reqField o ("trueExpression") (decodeExpressionF fuel)
      let x4 ← reqField o ("falseExpression") (decodeExpressionF fuel)
      let x5 ← reqField o ("isConstant") (decodeBool)
      let x6 ← reqField o ("isLValue") (decodeBool)
      let x7 ← reqField o ("isPure") (decodeBool)
      let x8 ← reqField o ("lValueRequested") (decodeBool)
      let x9 ← reqField o ("src") (decodeSrc)
      let x10 ← reqField o ("typeDescriptions") (decodeTypeDescriptions)
      pure (.mk x1 x2 x3 x4 x5 x6 x7 x8 x9 x10)
    | _ => .error ⟨[], .invalidType ("a map")⟩

def decodeFunctionCallF : Nat → Json → DRes FunctionCall
  | 0, _ => .error fuelError
  | fuel + 1, v =>
    match v with
    | .obj o => do
      let x1 ← reqField o ("id") (decodeI64)
      let x2 ← reqField o ("expression") (decodeFunctionCallExpressionF fuel)
      let x3 ← reqField o ("arguments") (decodeArr (decodeExpressionF fuel))
      let x4 ← reqField o ("names") (decodeArr decodeString)
      let x5 ← reqField o ("kind") (decodeString)
      let x6 ← reqField o ("src") (decodeSrc)
      let x7 ← reqField o ("tryCall") (decodeBool)
      let x8 ← optField o ("nameLocations") (decodeArr decodeString)
      let x9 ← reqField o ("isConstant") (decodeBool)
      let x10 ← reqField o ("isLValue") (decodeBool)
      let x11 ← reqField o ("isPure") (decodeBool)
      let x12 ← reqField o ("lValueRequested") (decodeBool)
      let x13 ← reqField o ("typeDescriptions") (decodeTypeDescriptions)
      let x14 ← optField o ("argumentTypes") (decodeArr decodeTypeDescriptions)
      pure (.mk x1 x2 x3 x4 x5 x6 x7 x8 x9 x10 x11 x12 x13 x14)
    | _ => .error ⟨[], .invalidType ("a map")⟩

def decodeFunctionCallOptionsF : Nat → Json → DRes FunctionCallOptions
  | 0, _ => .error fuelError
  | fuel + 1, v =>
    match v with
    | .obj o => do
      let x1 ← reqField o ("id") (decodeI64)
      let x2 ← reqField o ("expression") (decodeExpressionF fuel)
      let x3 ← reqField o ("names") (decodeArr decodeString)
      let x4 ← reqField o ("options") (decodeArr (decodeExpressionF fuel))
      let x5 ← reqField o ("src") (decodeSrc)
      let x6 ← reqField o ("typeDescriptions") (decodeTypeDescriptions)
      let x7 ← optField o ("nameLocations") (decodeArr decodeString)
      pure (.mk x1 x2 x3 x4 x5 x6 x7)
    | _ => .error ⟨[], .invalidType ("a map")⟩

def decodeIndexAccessF : Nat → Json → DRes IndexAccess
  | 0, _ => .error fuelError
  | fuel + 1, v =>
    match v with
    | .obj o => do
      let x1 ← reqField o ("id") (decodeI64)
      let x2 ← reqField o ("baseExpression") (decodeExpressionF fuel)
      let x3 ← optField o ("indexExpression") (decodeExpressionF fuel)
      let x4 ← reqField o ("src") (decodeSrc)
      let x5 ← reqField o ("typeDescriptions") (decodeTypeDescriptions)
      pure (.mk x1 x2 x3 x4 x5)
    | _ => .error ⟨[], .invalidType ("a map")⟩

def decodeMemberAccessF : Nat → Json → DRes MemberAccess
  | 0, _ => .error fuelError
  | fuel + 1, v =>
    match v with
    | .obj o => do
      let x1 ← reqField o ("id") (decodeI64)
      let x2 ← reqField o ("expression") (decodeExpressionF fuel)
      let x3 ← reqField o ("memberName") (decodeString)
      let x4 ← optField o ("memberLocation") (decodeString)
      let x5 ← reqField o ("src") (decodeSrc)
      let x6 ← optField o ("referencedDeclaration") (decodeI64)
      let x7 ← reqField o ("typeDescriptions") (decodeTypeDescriptions)
      let x8 ← optField o ("argumentTypes") (decodeArr decodeTypeDescriptions)
      let x9 ← reqField o ("isConstant") (decodeBool)
      let x10 ← reqField o ("isLValue") (decodeBool)
      let x11 ← reqField o ("isPure") (decodeBool)
      let x12 ← reqField o ("lValueRequested") (decodeBool)
      pure (.mk x1 x2 x3 x4 x5 x6 x7 x8 x9 x10 x11 x12)
    | _ => .error ⟨[], .invalidType ("a map")⟩

def decodeNewExpressionF : Nat → Json → DRes NewExpression
  | 0, _ => .error fuelError
  | fuel + 1, v =>
    match v with
    | .obj o => do
      let x1 ← reqField o ("id") (decodeI64)
      let x2 ← reqField o ("typeName") (decodeTypeNameF fuel)
      let x3 ← optField o ("arguments") (decodeArr (decodeExpressionF fuel))
      let x4 ← reqField o ("src") (decodeSrc)
      let x5 ← reqField o ("typeDescriptions") (decodeTypeDescriptions)
      let x6 ← optField o ("argumentTypes") (decodeArr decodeTypeDescriptions)
      let x7 ← reqField o ("isConstant") (decodeBool)
      let x8 ← reqField o ("isLValue") (decodeBool)
      let x9 ← reqField o ("isPure") (decodeBool)
      let x10 ← reqField o ("lValueRequested") (decodeBool)
      pure (.mk x1 x2 x3 x4 x5 x6 x7 x8 x9 x10)
    | _ => .error ⟨[], .invalidType ("a map")⟩

def decodeTupleExpressionF : Nat → Json → DRes TupleExpression
  | 0, _ => .error fuelError
  | fuel + 1, v =>
    match v with
    | .obj o => do
      let x1 ← reqField o ("id") (decodeI64)
      let x2 ← reqField o ("components") (decodeArr (decodeNullable (decodeExpressionF fuel)))
      let x3 ← reqField o ("src") (decodeSrc)
      let x4 ← reqField o ("typeDescriptions") (decodeTypeDescriptions)
      pure (.mk x1 x2 x3 x4)
    | _ => .error ⟨[], .invalidType ("a map")⟩

def decodeUnaryOperationF : Nat → Json → DRes UnaryOperation
  | 0, _ => .error fuelError
  | fuel + 1, v =>
    match v with
    | .obj o => do
      let x1 ← reqField o ("id") (decodeI64)
      let x2 ← reqField o ("subExpression") (decodeExpressionF fuel)
      let x3 ← reqField o ("operator") (decodeString)
      let x4 ← reqField2 o ("isPrefix") ("prefix") (decodeBool)
      let x5 ← reqField o ("src") (decodeSrc)
      let x6 ← reqField o ("typeDescriptions") (decodeTypeDescriptions)
      let x7 ← reqField o ("isConstant") (decodeBool)
      let x8 ← reqField o ("isLValue") (decodeBool)
      let x9 ← reqField o ("isPure") (decodeBool)
      let x10 ← reqField o ("lValueRequested") (decodeBool)
      pure (.mk x1 x2 x3 x4 x5 x6 x7 x8 x9 x10)
    | _ => .error ⟨[], .invalidType ("a map")⟩

def decodeVariableDeclarationStatementF : Nat → Json → DRes VariableDeclarationStatement
  | 0, _ => .error fuelError
  | fuel + 1, v =>
    match v with
    | .obj o => do
      let x1 ← reqField o ("id") (decodeI64)
      let x2 ← reqField o ("assignments") (decodeArr (decodeNullable decodeI64))
      let x3 ← reqField o ("declarations") (decodeArr (decodeNullable (decodeVariableDeclarationF fuel)))
      let x4 ← optField o ("initialValue") (decodeExpressionF fuel)
      let x5 ← reqField o ("src") (decodeSrc)
      let x6 ← optField o ("documentation") (decodeDocumentation)
      pure (.mk x1 x2 x3 x4 x5 x6)
    | _ => .error ⟨[], .invalidType ("a map")⟩

def decodeExpressionStatementF : Nat → Json → DRes ExpressionStatement
  | 0, _ => .error fuelError
  | fuel + 1, v =>
    match v with
    | .obj o => do
      let x1 ← reqField o ("id") (decodeI64)
      let x2 ← reqField o ("expression") (decodeExpressionF fuel)
      let x3 ← reqField o ("src") (decodeSrc)
      pure (.mk x1 x2 x3)
    | _ => .error ⟨[], .invalidType ("a map")⟩

def decodeBlockF : Nat → Json → DRes Block
  | 0, _ => .error fuelError
  | fuel + 1, v =>
    match v with
    | .obj o => do
      let x1 ← reqField o ("id") (decodeI64)
      let x2 ← reqField o ("statements") (decodeArr (decodeStatementF fuel))
      let x3 ← reqField o ("src") (decodeSrc)
      let x4 ← defField o ("nodes") [] (decodeArr decodeTaggedEmpty)
      pure (.mk x1 x2 x3 x4)
    | _ => .error ⟨[], .invalidType ("a map")⟩

def decodeDoWhileStatementF : Nat → Json → DRes DoWhileStatement
  | 0, _ => .error fuelError
  | fuel + 1, v =>
    match v with
    | .obj o => do
      let x1 ← reqField o ("id") (decodeI64)
      let x2 ← reqField o ("condition") (decodeExpressionF fuel)
      let x3 ← reqField o ("body") (decodeStatementF fuel)
      let x4 ← reqField o ("src") (decodeSrc)
      pure (.mk x1 x2 x3 x4)
    | _ => .error ⟨[], .invalidType ("a map")⟩

def decodeEmitStatementF : Nat → Json → DRes EmitStatement
  | 0, _ => .error fuelError
  | fuel + 1, v =>
    match v with
    | .obj o => do
      let x1 ← reqField o ("id") (decodeI64)
      let x2 ← reqField o ("eventCall") (decodeFunctionCallF fuel)
      let x3 ← reqField o ("src") (decodeSrc)
      pure (.mk x1 x2 x3)
    | _ => .error ⟨[], .invalidType ("a map")⟩

def decodeForStatementF : Nat → Json → DRes ForStatement
  | 0, _ => .error fuelError
  | fuel + 1, v =>
    match v with
    | .obj o => do
      let x1 ← reqField o ("id") (decodeI64)
      let x2 ← optField o ("initializationExpression") (decodeExpressionF fuel)
      let x3 ← optField o ("condition") (decodeExpressionF fuel)
      let x4 ← optField o ("loopExpression") (decodeExpressionF fuel)
      let x5 ← reqField o ("body") (decodeStatementF fuel)
      let x6 ← reqField o ("src") (decodeSrc)
      pure (.mk x1 x2 x3 x4 x5 x6)
    | _ => .error ⟨[], .invalidType ("a map")⟩

def decodeIfStatementF : Nat → Json → DRes IfStatement
  | 0, _ => .error fuelError
  | fuel + 1, v =>
    match v with
    | .obj o => do
      let x1 ← reqField o ("id") (decodeI64)
      let x2 ← reqField o ("condition") (decodeExpressionF fuel)
      let x3 ← reqField o ("trueBody") (decodeStatementF fuel)
      let x4 ← optField o ("falseBody") (decodeStatementF fuel)
      let x5 ← reqField o ("src") (decodeSrc)
      pure (.mk x1 x2 x3 x4 x5)
    | _ => .error ⟨[], .invalidType ("a map")⟩

def decodeReturnF : Nat → Json → DRes Return
  | 0, _ => .error fuelError
  | fuel + 1, v =>
    match v with
    | .obj o => do
      let x1 ← reqField o ("id") (decodeI64)
      let x2 ← reqField o ("functionReturnParameters") (decodeI64)
      let x3 ← optField o ("expression") (decodeExpressionF fuel)
      let x4 ← reqField o ("src") (decodeSrc)
      pure (.mk x1 x2 x3 x4)
    | _ => .error ⟨[], .invalidType ("a map")⟩

def decodeRevertStatementF : Nat → Json → DRes RevertStatement
  | 0, _ => .error fuelError
  | fuel + 1, v =>
    match v with
    | .obj o => do
      let x1 ← reqField o ("id") (decodeI64)
      let x2 ← reqField o ("errorCall") (decodeFunctionCallF fuel)
      let x3 ← reqField o ("src") (decodeSrc)
      pure (.mk x1 x2 x3)
    | _ => .error ⟨[], .invalidType ("a map")⟩

def decodeTryCatchClauseF : Nat → Json → DRes TryCatchClause
  | 0, _ => .error fuelError
  | fuel + 1, v =>
    match v with
    | .obj o => do
      let x1 ← reqField o ("id") (decodeI64)
      let x2 ← reqField o ("kind") (decodeString)
      let x3 ← optField o ("errorName") (decodeString)
      let x4 ← optField o ("parameters") (decodeParameterListF fuel)
      let x5 ← reqField o ("block") (decodeBlockF fuel)
      let x6 ← reqField o ("src") (decodeSrc)
      pure (.mk x1 x2 x3 x4 x5 x6)
    | _ => .error ⟨[], .invalidType ("a map")⟩

def decodeTryStatementF : Nat → Json → DRes TryStatement
  | 0, _ => .error fuelError
  | fuel + 1, v =>
    match v with
    | .obj o => do
      let x1 ← reqField o ("id") (decodeI64)
      let x2 ← reqField o ("expression") (decodeExpressionF fuel)
      let x3 ← reqField o ("returnParameters") (decodeParameterListF fuel)
      let x4 ← reqField o ("clauses") (decodeArr (decodeTryCatchClauseF fuel))
      let x5 ← reqField o ("src") (decodeSrc)
      pure (.mk x1 x2 x3 x4 x5)
    | _ => .error ⟨[], .invalidType ("a map")⟩

def decodeUncheckedBlockF : Nat → Json → DRes UncheckedBlock
  | 0, _ => .error fuelError
  | fuel + 1, v =>
    match v with
    | .obj o => do
      let x1 ← reqField o ("id") (decodeI64)
      let x2 ← reqField o ("statements") (decodeArr (decodeStatementF fuel))
      let x3 ← reqField o ("src") (decodeSrc)
      let x4 ← defField o ("nodes") [] (decodeArr decodeTaggedEmpty)
      pure (.mk x1 x2 x3 x4)
    | _ => .error ⟨[], .invalidType ("a map")⟩

def decodeWhileStatementF : Nat → Json → DRes WhileStatement
  | 0, _ => .error fuelError
  | fuel + 1, v =>
    match v with
    | .obj o => do
      let x1 ← reqField o ("id") (decodeI64)
      let x2 ← reqField o ("condition") (decodeExpressionF fuel)
      let x3 ← reqField o ("body") (decodeStatementF fuel)
      let x4 ← reqField o ("src") (decodeSrc)
      pure (.mk x1 x2 x3 x4)
    | _ => .error ⟨[], .invalidType ("a map")⟩

def decodeVariableDeclarationF : Nat → Json → DRes VariableDeclaration
  | 0, _ => .error fuelError
  | fuel + 1, v =>
    match v with
    | .obj o => do
      let x1 ← reqField o ("id") (decodeI64)
      let x2 ← reqField o ("name") (decodeString)
      let x3 ← optField o ("typeName") (decodeTypeNameF fuel)
      let x4 ← reqField o ("src") (decodeSrc)
      let x5 ← optField o ("nameLocation") (decodeString)
      let x6 ← reqField o ("visibility") (decodeVisibility)
      let x7 ← optField o ("stateMutability") (decodeStateMutability)
      let x8 ← optField o ("mutability") (decodeMutability)
      let x9 ← optField o ("stateVariable") (decodeBool)
      let x10 ← optField o ("storageLocation") (decodeStorageLocation)
      let x11 ← optField o ("constant") (decodeBool)
      let x12 ← optField o ("immutable") (decodeBool)
      let x13 ← optField o ("indexed") (decodeBool)
      let x14 ← optField o ("value") (decodeExpressionF fuel)
      let x15 ← optField o ("documentation") (decodeDocumentation)
      let x16 ← reqField o ("typeDescriptions") (decodeTypeDescriptions)
      let x17 ← optField o ("overrides") (decodeOverrideSpecifier)
      let x18 ← optField o ("scope") (decodeI64)
      pure (.mk x1 x2 x3 x4 x5 x6 x7 x8 x9 x10 x11 x12 x13 x14 x15 x16 x17 x18)
    | _ => .error ⟨[], .invalidType ("a map")⟩

def decodeArrayTypeNameF : Nat → Json → DRes ArrayTypeName
  | 0, _ => .error fuelError
  | fuel + 1, v =>
    match v with
    | .obj o => do
      let x1 ← reqField o ("id") (decodeI64)
      let x2 ← reqField o ("baseType") (decodeTypeNameF fuel)
      let x3 ← optField o ("length") (decodeExpressionF fuel)
      let x4 ← reqField o ("src") (decodeSrc)
      pure (.mk x1 x2 x3 x4)
    | _ => .error ⟨[], .invalidType ("a map")⟩

def decodeMappingF : Nat → Json → DRes Mapping
  | 0, _ => .error fuelError
  | fuel + 1, v =>
    match v with
    | .obj o => do
      let x1 ← reqField o ("id") (decodeI64)
      let x2 ← reqField o ("keyType") (decodeTypeNameF fuel)
      let x3 ← reqField o ("valueType") (decodeTypeNameF fuel)
      let x4 ← reqField o ("src") (decodeSrc)
      pure (.mk x1 x2 x3 x4)
    | _ => .error ⟨[], .invalidType ("a map")⟩

def decodeFunctionTypeNameF : Nat → Json → DRes FunctionTypeName
  | 0, _ => .error fuelError
  | fuel + 1, v =>
    match v with
    | .obj o => do
      let x1 ← reqField o ("id") (decodeI64)
      let x2 ← reqField o ("parameterTypes") (decodeArr (decodeTypeNameF fuel))
      let x3 ← reqField o ("returnParameterTypes") (decodeArr (decodeTypeNameF fuel))
      let x4 ← reqField o ("visibility") (decodeString)
      let x5 ← reqField o ("stateMutability") (decodeString)
      let x6 ← reqField o ("src") (decodeSrc)
      pure (.mk x1 x2 x3 x4 x5 x6)
    | _ => .error ⟨[], .invalidType ("a map")⟩

def decodeParameterListF : Nat → Json → DRes ParameterList
  | 0, _ => .error fuelError
  | fuel + 1, v =>
    match v with
    | .obj o => do
      let x1 ← reqField o ("id") (decodeI64)
      let x2 ← reqField o ("parameters") (decodeArr (decodeVariableDeclarationF fuel))
      let x3 ← reqField o ("src") (decodeSrc)
      let x4 ← defField o ("nodes") [] (decodeArr decodeTaggedEmpty)
      pure (.mk x1 x2 x3 x4)
    | _ => .error ⟨[], .invalidType ("a map")⟩

def decodeModifierInvocationF : Nat → Json → DRes ModifierInvocation
  | 0, _ => .error fuelError
  | fuel + 1, v =>
    match v with
    | .obj o => do
      let x1 ← reqField o ("id") (decodeI64)
      let x2 ← optField o ("kind") (decodeModifierInvocationKind)
      let x3 ← reqField o ("modifierName") (decodeIdentifierPath)
      let x4 ← optField o ("arguments") (decodeArr (decodeExpressionF fuel))
      let x5 ← reqField o ("src") (decodeSrc)
      pure (.mk x1 x2 x3 x4 x5)
    | _ => .error ⟨[], .invalidType ("a map")⟩

def decodeModifierDefinitionF : Nat → Json → DRes ModifierDefinition
  | 0, _ => .error fuelError
  | fuel + 1, v =>
    match v with
    | .obj o => do
      let x1 ← reqField o ("id") (decodeI64)
      let x2 ← reqField o ("name") (decodeString)
      let x3 ← reqField o ("virtual") (decodeBool)
      let x4 ← reqField o ("visibility") (decodeVisibility)
      let x5 ← reqField o ("parameters") (decodeParameterListF fuel)
      let x6 ← optField o ("body") (decodeBlockF fuel)
      let x7 ← reqField o ("src") (decodeSrc)
      let x8 ← optField o ("scope") (decodeI64)
      let x9 ← optField o ("documentation") (decodeDocumentation)
      let x10 ← optField o ("overrides") (decodeOverrideSpecifier)
      let x11 ← defField o ("nodes") [] (decodeArr decodeTaggedEmpty)
      pure (.mk x1 x2 x3 x4 x5 x6 x7 x8 x9 x10 x11)
    | _ => .error ⟨[], .invalidType ("a map")⟩

def decodeFunctionDefinitionF : Nat → Json → DRes FunctionDefinition
  | 0, _ => .error fuelError
  | fuel + 1, v =>
    match v with
    | .obj o => do
      let x1 ← reqField o ("id") (decodeI64)
      let x2 ← reqField o ("name") (decodeString)
      let x3 ← reqField o ("virtual") (decodeBool)
      let x4 ← reqField o ("kind") (decodeFunctionKind)
      let x5 ← reqField o ("visibility") (decodeVisibility)
      let x6 ← reqField o ("stateMutability") (decodeStateMutability)
      let x7 ← optField o ("body") (decodeBlockF fuel)
      let x8 ← reqField o ("parameters") (decodeParameterListF fuel)
      let x9 ← reqField o ("returnParameters") (decodeParameterListF fuel)
      let x10 ← reqField o ("modifiers") (decodeArr (decodeModifierInvocationF fuel))
      let x11 ← reqField o ("src") (decodeSrc)
      let x12 ← reqField o ("scope") (decodeI64)
      let x13 ← reqField o ("implemented") (decodeBool)
      let x14 ← optField o ("documentation") (decodeDocumentation)
      let x15 ← optField o ("overrides") (decodeOverrideSpecifier)
      let x16 ← optField o ("baseFunctions") (decodeArr decodeI64)
      let x17 ← optField o ("functionSelector") (decodeString)
      let x18 ← optField o ("nameLocation") (decodeString)
      let x19 ← defField o ("nodes") [] (decodeArr decodeTaggedEmpty)
      pure (.mk x1 x2 x3 x4 x5 x6 x7 x8 x9 x10 x11 x12 x13 x14 x15 x16 x17 x18 x19)
    | _ => .error ⟨[], .invalidType ("a map")⟩

def decodeEventDefinitionF : Nat → Json → DRes EventDefinition
  | 0, _ => .error fuelError
  | fuel + 1, v =>
    match v with
    | .obj o => do
      let x1 ← reqField o ("id") (decodeI64)
      let x2 ← reqField o ("name") (decodeString)
      let x3 ← reqField o ("anonymous") (decodeBool)
      let x4 ← optField o ("eventSelector") (decodeString)
      let x5 ← reqField o ("parameters") (decodeParameterListF fuel)
      let x6 ← reqField o ("src") (decodeSrc)
      let x7 ← optField o ("scope") (decodeI64)
      let x8 ← optField o ("nameLocation") (decodeString)
      let x9 ← defField o ("nodes") [] (decodeArr decodeTaggedEmpty)
      let x10 ← optField o ("documentation") (decodeDocumentation)
      pure (.mk x1 x2 x3 x4 x5 x6 x7 x8 x9 x10)
    | _ => .error ⟨[], .invalidType ("a map")⟩

def decodeErrorDefinitionF : Nat → Json → DRes ErrorDefinition
  | 0, _ => .error fuelError
  | fuel + 1, v =>
    match v with
    | .obj o => do
      let x1 ← reqField o ("id") (decodeI64)
      let x2 ← reqField o ("name") (decodeString)
      let x3 ← reqField o ("parameters") (decodeParameterListF fuel)
      let x4 ← reqField o ("src") (decodeSrc)
      let x5 ← optField o ("scope") (decodeI64)
      let x6 ← optField o ("documentation") (decodeDocumentation)
      let x7 ← defField o ("nodes") [] (decodeArr decodeTaggedEmpty)
      pure (.mk x1 x2 x3 x4 x5 x6 x7)
    | _ => .error ⟨[], .invalidType ("a map")⟩

def decodeStructDefinitionF : Nat → Json → DRes StructDefinition
  | 0, _ => .error fuelError
  | fuel + 1, v =>
    match v with
    | .obj o => do
      let x1 ← reqField o ("id") (decodeI64)
      let x2 ← reqField o ("name") (decodeString)
      let x3 ← reqField o ("members") (decodeArr (decodeVariableDeclarationF fuel))
      let x4 ← reqField o ("src") (decodeSrc)
      let x5 ← optField o ("scope") (decodeI64)
      let x6 ← optField o ("documentation") (decodeDocumentation)
      let x7 ← optField o ("canonicalName") (decodeString)
      let x8 ← optField o ("usedInEvents") (decodeBool)
      let x9 ← defField o ("nodes") [] (decodeArr decodeTaggedEmpty)
      pure (.mk x1 x2 x3 x4 x5 x6 x7 x8 x9)
    | _ => .error ⟨[], .invalidType ("a map")⟩

def decodeUserDefinedValueTypeDefinitionF : Nat → Json → DRes UserDefinedValueTypeDefinition
  | 0, _ => .error fuelError
  | fuel + 1, v =>
    match v with
    | .obj o => do
      let x1 ← reqField o ("id") (decodeI64)
      let x2 ← reqField o ("name") (decodeString)
      let x3 ← reqField o ("src") (decodeSrc)
      let x4 ← defField o ("nodes") [] (decodeArr decodeTaggedEmpty)
      let x5 ← optField o ("canonicalName") (decodeString)
      let x6 ← optField o ("nameLocation") (decodeString)
      let x7 ← reqField o ("underlyingType") (decodeTypeNameF fuel)
      pure (.mk x1 x2 x3 x4 x5 x6 x7)
    | _ => .error ⟨[], .invalidType ("a map")⟩

def decodeInheritanceSpecifierF : Nat → Json → DRes InheritanceSpecifier
  | 0, _ => .error fuelError
  | fuel + 1, v =>
    match v with
    | .obj o => do
      let x1 ← reqField o ("id") (decodeI64)
      let x2 ← reqField o ("baseName") (decodeIdentifierPath)
      let x3 ← optField o ("arguments") (decodeArr (decodeExpressionF fuel))
      let x4 ← reqField o ("src") (decodeSrc)
      pure (.mk x1 x2 x3 x4)
    | _ => .error ⟨[], .invalidType ("a map")⟩

def decodeContractDefinitionF : Nat → Json → DRes ContractDefinition
  | 0, _ => .error fuelError
  | fuel + 1, v =>
    match v with
    | .obj o => do
      let x1 ← reqField o ("id") (decodeI64)
      let x2 ← reqField o ("name") (decodeString)
      let x3 ← reqField o ("contractKind") (decodeContractKind)
      let x4 ← reqField o ("abstract") (deserialize_bool_or_int)
      let x5 ← reqField o ("fullyImplemented") (deserialize_bool_or_int)
      let x6 ← reqField o ("linearizedBaseContracts") (decodeArr decodeI64)
      let x7 ← defField o ("nodes") [] (decodeArr (decodeContractDefinitionNodeF fuel))
      let x8 ← optField o ("scope") (decodeI64)
      let x9 ← reqField o ("src") (decodeSrc)
      let x10 ← optField o ("documentation") (decodeDocumentation)
      let x11 ← optField o ("baseContracts") (decodeArr (decodeInheritanceSpecifierF fuel))
      let x12 ← optField o ("canonicalName") (decodeString)
      let x13 ← optField o ("contractDependencies") (decodeArr decodeI64)
      let x14 ← optField o ("nameLocation") (decodeString)
      let x15 ← optField o ("usedErrors") (decodeArr decodeI64)
      let x16 ← optField o ("usedEvents") (decodeArr decodeI64)
      pure (.mk x1 x2 x3 x4 x5 x6 x7 x8 x9 x10 x11 x12 x13 x14 x15 x16)
    | _ => .error ⟨[], .invalidType ("a map")⟩

end

/-! Computable size of a JSON value (node count), used to supply ample
fuel to the entry points. -/

mutual

def jsonFuel : Json → Nat
  | .null => 1
  | .bool _ => 1
  | .num _ => 1
  | .str _ => 1
  | .arr xs => 1 + jsonListFuel xs
  | .obj fs => 1 + jsonEntriesFuel fs

def jsonListFuel : List Json → Nat
  | [] => 0
  | v :: rest => jsonFuel v + jsonListFuel rest

def jsonEntriesFuel : List (String × Json) → Nat
  | [] => 0
  | (_, v) :: rest => jsonFuel v + jsonEntriesFuel rest

end

/-! Entry points: the recursion of serde's recursive descent on a value v
descends a JSON constructor at least once per two fuel units consumed
(one dispatch step and one record step per object node), so a fuel of
twice the node count can never be exhausted. -/

def decodeExpression (v : Json) : DRes Expression := decodeExpressionF (2 * jsonFuel v) v

def decodeStatement (v : Json) : DRes Statement := decodeStatementF (2 * jsonFuel v) v

def decodeTypeName (v : Json) : DRes TypeName := decodeTypeNameF (2 * jsonFuel v) v

def decodeFunctionCallExpression (v : Json) : DRes FunctionCallExpression := decodeFunctionCallExpressionF (2 * jsonFuel v) v

def decodeContractDefinitionNode (v : Json) : DRes ContractDefinitionNode := decodeContractDefinitionNodeF (2 * jsonFuel v) v

def decodeSourceUnitNode (v : Json) : DRes SourceUnitNode := decodeSourceUnitNodeF (2 * jsonFuel v) v

def decodeAssignment (v : Json) : DRes Assignment := decodeAssignmentF (2 * jsonFuel v) v

def decodeBinaryOperation (v : Json) : DRes BinaryOperation := decodeBinaryOperationF (2 * jsonFuel v) v

def decodeConditional (v : Json) : DRes Conditional := decodeConditionalF (2 * jsonFuel v) v

def decodeFunctionCall (v : Json) : DRes FunctionCall := decodeFunctionCallF (2 * jsonFuel v) v

def decodeFunctionCallOptions (v : Json) : DRes FunctionCallOptions := decodeFunctionCallOptionsF (2 * jsonFuel v) v

def decodeIndexAccess (v : Json) : DRes IndexAccess := decodeIndexAccessF (2 * jsonFuel v) v

def decodeMemberAccess (v : Json) : DRes MemberAccess := decodeMemberAccessF (2 * jsonFuel v) v

def decodeNewExpression (v : Json) : DRes NewExpression := decodeNewExpressionF (2 * jsonFuel v) v

def decodeTupleExpression (v : Json) : DRes TupleExpression := decodeTupleExpressionF (2 * jsonFuel v) v

def decodeUnaryOperation (v : Json) : DRes UnaryOperation := decodeUnaryOperationF (2 * jsonFuel v) v

def decodeVariableDeclarationStatement (v : Json) : DRes VariableDeclarationStatement := decodeVariableDeclarationStatementF (2 * jsonFuel v) v

def decodeExpressionStatement (v : Json) : DRes ExpressionStatement := decodeExpressionStatementF (2 * jsonFuel v) v

def decodeBlock (v : Json) : DRes Block := decodeBlockF (2 * jsonFuel v) v

def decodeDoWhileStatement (v : Json) : DRes DoWhileStatement := decodeDoWhileStatementF (2 * jsonFuel v) v

def decodeEmitStatement (v : Json) : DRes EmitStatement := decodeEmitStatementF (2 * jsonFuel v) v

def decodeForStatement (v : Json) : DRes ForStatement := decodeForStatementF (2 * jsonFuel v) v

def decodeIfStatement (v : Json) : DRes IfStatement := decodeIfStatementF (2 * jsonFuel v) v

def decodeReturn (v : Json) : DRes Return := decodeReturnF (2 * jsonFuel v) v

def decodeRevertStatement (v : Json) : DRes RevertStatement := decodeRevertStatementF (2 * jsonFuel v) v

def decodeTryCatchClause (v : Json) : DRes TryCatchClause := decodeTryCatchClauseF (2 * jsonFuel v) v

def decodeTryStatement (v : Json) : DRes TryStatement := decodeTryStatementF (2 * jsonFuel v) v

def decodeUncheckedBlock (v : Json) : DRes UncheckedBlock := decodeUncheckedBlockF (2 * jsonFuel v) v

def decodeWhileStatement (v : Json) : DRes WhileStatement := decodeWhileStatementF (2 * jsonFuel v) v

def decodeVariableDeclaration (v : Json) : DRes VariableDeclaration := decodeVariableDeclarationF (2 * jsonFuel v) v

def decodeArrayTypeName (v : Json) : DRes ArrayTypeName := decodeArrayTypeNameF (2 * jsonFuel v) v

def decodeMapping (v : Json) : DRes Mapping := decodeMappingF (2 * jsonFuel v) v

def decodeFunctionTypeName (v : Json) : DRes FunctionTypeName := decodeFunctionTypeNameF (2 * jsonFuel v) v

def decodeParameterList (v : Json) : DRes ParameterList := decodeParameterListF (2 * jsonFuel v) v

def decodeModifierInvocation (v : Json) : DRes ModifierInvocation := decodeModifierInvocationF (2 * jsonFuel v) v

def decodeModifierDefinition (v : Json) : DRes ModifierDefinition := decodeModifierDefinitionF (2 * jsonFuel v) v

def decodeFunctionDefinition (v : Json) : DRes FunctionDefinition := decodeFunctionDefinitionF (2 * jsonFuel v) v

def decodeEventDefinition (v : Json) : DRes EventDefinition := decodeEventDefinitionF (2 * jsonFuel v) v

def decodeErrorDefinition (v : Json) : DRes ErrorDefinition := decodeErrorDefinitionF (2 * jsonFuel v) v

def decodeStructDefinition (v : Json) : DRes StructDefinition := decodeStructDefinitionF (2 * jsonFuel v) v

def decodeUserDefinedValueTypeDefinition (v : Json) : DRes UserDefinedValueTypeDefinition := decodeUserDefinedValueTypeDefinitionF (2 * jsonFuel v) v

def decodeInheritanceSpecifier (v : Json) : DRes InheritanceSpecifier := decodeInheritanceSpecifierF (2 * jsonFuel v) v

def decodeContractDefinition (v : Json) : DRes ContractDefinition := decodeContractDefinitionF (2 * jsonFuel v) v

/-- Decoding of the document root, mirroring the `SourceUnit` struct of
src/ast.rs (4.4 of the spec: document-level required fields, then the
top-level node sequence in order). -/
def decodeSourceUnitF (fuel : Nat) (v : Json) : DRes SourceUnit := do
  match v with
  | .obj o =>
    let id ← reqField o ("id") decodeI64
    let ap ← reqField o ("absolutePath") decodeString
    let es ← defField o ("exportedSymbols") [] (decodeMap (decodeArr decodeI64))
    let src ← reqField o ("src") decodeSrc
    let nodes ← reqField o ("nodes") (decodeArr (decodeSourceUnitNodeF fuel))
    let license ← optField o ("license") decodeString
    pure ⟨id, ap, es, src, nodes, license⟩
  | _ => .error ⟨[], .invalidType ("a map")⟩

def decodeSourceUnit (v : Json) : DRes SourceUnit := decodeSourceUnitF (2 * jsonFuel v) v

/-- The spec's document-root entry point (4.4). -/
def decode_document (v : Json) : DRes SourceUnit := decodeSourceUnit v

/-! ## Dispatch and record-level decode properties (C8, C9, C10) -/

theorem dres_bind_eq_ok {α β : Type} {x : DRes α} {f : α → DRes β} {b : β} :
    (x >>= f) = .ok b ↔ ∃ a, x = .ok a ∧ f a = .ok b := by
  cases x
  · simp
  · simp

theorem jsonFuel_pos (v : Json) : 1 ≤ jsonFuel v := by
  cases v <;> simp [jsonFuel]

/-- The discriminator values of the `SourceUnitNode` dispatch table. -/
def sourceUnitNodeKinds : List String :=
  [("ContractDefinition"), ("EnumDefinition"), ("ErrorDefinition"), ("EventDefinition"),
   ("FunctionDefinition"), ("ImportDirective"), ("PragmaDirective"), ("StructDefinition"),
   ("UserDefinedValueTypeDefinition"), ("UsingForDirective"), ("VariableDeclaration")]

/-- The discriminator values of the `Expression` dispatch table. -/
def expressionKinds : List String :=
  [("Assignment"), ("BinaryOperation"), ("Conditional"), ("ElementaryTypeNameExpression"),
   ("FunctionCall"), ("Identifier"), ("IndexAccess"), ("Literal"), ("MemberAccess"),
   ("NewExpression"), ("TupleExpression"), ("UnaryOperation"),
   ("VariableDeclarationStatement"), ("ExpressionStatement")]

theorem decodeExpressionF_unknown (fuel : Nat) (o : List (String × Json)) (k : String)
    (hl : lookupField o ("nodeType") = some (.str k)) (hk : k ∉ expressionKinds) :
    decodeExpressionF (fuel + 1) (.obj o) = .error ⟨[], .unknownVariant k⟩ := by
  simp only [expressionKinds, List.mem_cons, List.not_mem_nil, or_false, not_or] at hk
  obtain ⟨h1, h2, h3, h4, h5, h6, h7, h8, h9, h10, h11, h12, h13, h14⟩ := hk
  rw [decodeExpressionF, hl]
  dsimp only
  rw [if_neg h1, if_neg h2, if_neg h3, if_neg h4, if_neg h5, if_neg h6, if_neg h7,
    if_neg h8, if_neg h9, if_neg h10, if_neg h11, if_neg h12, if_neg h13, if_neg h14]

theorem decodeSourceUnitNodeF_unknown (fuel : Nat) (o : List (String × Json)) (k : String)
    (hl : lookupField o ("nodeType") = some (.str k)) (hk : k ∉ sourceUnitNodeKinds) :
    decodeSourceUnitNodeF (fuel + 1) (.obj o) = .error ⟨[], .unknownVariant k⟩ := by
  simp only [sourceUnitNodeKinds, List.mem_cons, List.not_mem_nil, or_false, not_or] at hk
  obtain ⟨h1, h2, h3, h4, h5, h6, h7, h8, h9, h10, h11⟩ := hk
  rw [decodeSourceUnitNodeF, hl]
  dsimp only
  rw [if_neg h1, if_neg h2, if_neg h3, if_neg h4, if_neg h5, if_neg h6, if_neg h7,
    if_neg h8, if_neg h9, if_neg h10, if_neg h11]

/-- C8: a JSON object whose `nodeType` is not in the fixed dispatch table
fails with an unknown-discriminator error (shown for the source-unit and
expression families); a malformed object of a known kind instead fails
with a field-level error, and the two error kinds are distinct
constructors. -/
theorem unknown_discriminator_distinct :
    (∀ (o : List (String × Json)) (k : String),
      lookupField o ("nodeType") = some (.str k) → k ∉ sourceUnitNodeKinds →
      decodeSourceUnitNode (.obj o) = .error ⟨[], .unknownVariant k⟩) ∧
    (∀ (o : List (String × Json)) (k : String),
      lookupField o ("nodeType") = some (.str k) → k ∉ expressionKinds →
      decodeExpression (.obj o) = .error ⟨[], .unknownVariant k⟩) ∧
    decodeExpression (.obj [(("nodeType"), .str ("Literal"))]) =
      .error ⟨[], .missingField ("id")⟩ ∧
    (∀ k f, ErrKind.unknownVariant k ≠ ErrKind.missingField f) := by
  refine ⟨?_, ?_, by rfl, fun k f h => by cases h⟩
  · intro o k hl hk
    rw [decodeSourceUnitNode]
    have h2 : 2 * jsonFuel (Json.obj o) = (2 * jsonFuel (Json.obj o) - 1) + 1 := by
      have := jsonFuel_pos (Json.obj o)
      omega
    rw [h2]
    exact decodeSourceUnitNodeF_unknown _ o k hl hk
  · intro o k hl hk
    rw [decodeExpression]
    have h2 : 2 * jsonFuel (Json.obj o) = (2 * jsonFuel (Json.obj o) - 1) + 1 := by
      have := jsonFuel_pos (Json.obj o)
      omega
    rw [h2]
    exact decodeExpressionF_unknown _ o k hl hk

/-- Witness for C8 at a discriminator value outside the table. -/
theorem unknown_discriminator_distinct_witness :
    decodeSourceUnitNode (.obj [(("nodeType"), .str ("FutureNodeKind"))]) =
      .error ⟨[], .unknownVariant ("FutureNodeKind")⟩ :=
  unknown_discriminator_distinct.1 _ _ (by rfl) (by decide)

/-- A contract-definition object whose documentation is a bare string. -/
def docContractWithStringDoc : Json :=
  .obj [(("id"), .num 1), (("name"), .str ("C")), (("contractKind"), .str ("contract")),
    (("abstract"), .bool false), (("fullyImplemented"), .bool true),
    (("linearizedBaseContracts"), .arr [.num 1]), (("src"), .str ("0:5:0")),
    (("documentation"), .str ("plain text"))]

/-- The same contract-definition object with structured documentation. -/
def docContractWithStructuredDoc : Json :=
  .obj [(("id"), .num 1), (("name"), .str ("C")), (("contractKind"), .str ("contract")),
    (("abstract"), .bool false), (("fullyImplemented"), .bool true),
    (("linearizedBaseContracts"), .arr [.num 1]), (("src"), .str ("0:5:0")),
    (("documentation"), .obj [(("id"), .num 2), (("text"), .str ("docs")),
      (("src"), .str ("0:1:0")),
      (("params"), .arr [.obj [(("name"), .str ("a")), (("description"), .str ("d"))]])])]

/-- C9: a documentation field decodes from either producer shape — a bare
JSON string or a structured object — and both land in the same
`documentation` field of the owning node, without caller branching. -/
theorem documentation_both_shapes :
    (∀ s : String, decodeDocumentation (.str s) = .ok (.String s)) ∧
    decodeContractDefinition docContractWithStringDoc =
      .ok (.mk 1 ("C") .Contract false true [1] [] none ⟨0, 5, 0⟩
        (some (.String ("plain text"))) none none none none none none) ∧
    decodeContractDefinition docContractWithStructuredDoc =
      .ok (.mk 1 ("C") .Contract false true [1] [] none ⟨0, 5, 0⟩
        (some (.Structured ⟨2, ("docs"), ⟨0, 1, 0⟩, none, none, none, none, none,
          [⟨("a"), ("d")⟩], [], []⟩)) none none none none none none) :=
  ⟨fun _ => rfl, by rfl, by rfl⟩

theorem contract_bad_abstract_never_ok (fuel : Nat) (o : List (String × Json)) (n : Int)
    (hl : lookupField o ("abstract") = some (.num n)) (h0 : n ≠ 0) (h1 : n ≠ 1)
    (u : ContractDefinition) :
    decodeContractDefinitionF fuel (.obj o) ≠ .ok u := by
  match fuel with
  | 0 =>
    intro h
    rw [decodeContractDefinitionF] at h
    cases h
  | fuel + 1 =>
    intro h
    rw [decodeContractDefinitionF] at h
    simp only [dres_bind_eq_ok] at h
    obtain ⟨x1, hx1, x2, hx2, x3, hx3, x4, hx4, _⟩ := h
    rw [reqField, hl] at hx4
    dsimp only at hx4
    rw [deserialize_bool_or_int.eq_def] at hx4
    dsimp only at hx4
    rw [if_neg h0, if_neg h1] at hx4
    cases hx4

theorem contract_bad_fully_implemented_never_ok (fuel : Nat)
    (o : List (String × Json)) (n : Int)
    (hl : lookupField o ("fullyImplemented") = some (.num n)) (h0 : n ≠ 0) (h1 : n ≠ 1)
    (u : ContractDefinition) :
    decodeContractDefinitionF fuel (.obj o) ≠ .ok u := by
  match fuel with
  | 0 =>
    intro h
    rw [decodeContractDefinitionF] at h
    cases h
  | fuel + 1 =>
    intro h
    rw [decodeContractDefinitionF] at h
    simp only [dres_bind_eq_ok] at h
    obtain ⟨x1, hx1, x2, hx2, x3, hx3, x4, hx4, x5, hx5, _⟩ := h
    rw [reqField, hl] at hx5
    dsimp only at hx5
    rw [deserialize_bool_or_int.eq_def] at hx5
    dsimp only at hx5
    rw [if_neg h0, if_neg h1] at hx5
    cases hx5

/-- A contract-definition object carrying its two boolean fields as the
integers 0 and 1. -/
def docContractBoolsAsInts : Json :=
  .obj [(("id"), .num 1), (("name"), .str ("C")), (("contractKind"), .str ("contract")),
    (("abstract"), .num 0), (("fullyImplemented"), .num 1),
    (("linearizedBaseContracts"), .arr []), (("src"), .str ("0:5:0"))]

/-- C10: the `abstract` and `fullyImplemented` fields of a contract
definition accept a JSON boolean or the integers 0 and 1 (decoded as
false and true); any other integer in either field makes the whole
record decode fail. -/
theorem bool_or_int_fields :
    (∀ b : Bool, deserialize_bool_or_int (.bool b) = .ok b) ∧
    deserialize_bool_or_int (.num 0) = .ok false ∧
    deserialize_bool_or_int (.num 1) = .ok true ∧
    (∀ n : Int, n ≠ 0 → n ≠ 1 →
      deserialize_bool_or_int (.num n) =
        .error ⟨[], .custom ("invalid integer value for boolean, expected 0 or 1")⟩) ∧
    decodeContractDefinition docContractBoolsAsInts =
      .ok (.mk 1 ("C") .Contract false true [] [] none ⟨0, 5, 0⟩
        none none none none none none none) ∧
    (∀ (o : List (String × Json)) (n : Int),
      lookupField o ("abstract") = some (.num n) → n ≠ 0 → n ≠ 1 →
      ∀ u, decodeContractDefinition (.obj o) ≠ .ok u) ∧
    (∀ (o : List (String × Json)) (n : Int),
      lookupField o ("fullyImplemented") = some (.num n) → n ≠ 0 → n ≠ 1 →
      ∀ u, decodeContractDefinition (.obj o) ≠ .ok u) := by
  refine ⟨fun b => rfl, by rfl, by rfl, ?_, by rfl, ?_, ?_⟩
  · intro n h0 h1
    rw [deserialize_bool_or_int.eq_def]
    dsimp only
    rw [if_neg h0, if_neg h1]
  · intro o n hl h0 h1 u
    rw [decodeContractDefinition]
    exact contract_bad_abstract_never_ok _ o n hl h0 h1 u
  · intro o n hl h0 h1 u
    rw [decodeContractDefinition]
    exact contract_bad_fully_implemented_never_ok _ o n hl h0 h1 u

/-- Witness for C10: the rejection of the integer 2 in a boolean field,
and of a record carrying it. -/
theorem bool_or_int_fields_witness :
    deserialize_bool_or_int (.num 2) =
      .error ⟨[], .custom ("invalid integer value for boolean, expected 0 or 1")⟩ ∧
    decodeContractDefinition (.obj [(("abstract"), .num 7)]) ≠
      .ok (.mk 0 ("") .Contract false false [] [] none ⟨0, 0, 0⟩
        none none none none none none none) :=
  ⟨bool_or_int_fields.2.2.2.1 2 (by decide) (by decide),
    bool_or_int_fields.2.2.2.2.2.1 _ 7 (by rfl) (by decide) (by decide) _⟩

/-! ## Error localization (tests module of src/ast.rs)

`find_error_in_value` walks a raw JSON value bottom-up: for an object it
first recurses into every member value and returns the first non-empty
report; only when all members produce no report does it test the object
itself (when a string `nodeType` member is present) by decoding it in
isolation with the single matched record decoder via `try_parse_node`.
For an array it recurses into the elements in order. serde_json's map
iteration order (sorted keys) only permutes sibling visits and is
modeled by the entry-list order of `Json.obj`.
-/

def natString (n : Nat) : String := String.mk (showNat n)

/-- Decimal rendering of an `i64`, as serde_json prints numbers. -/
def intString (n : Int) : String :=
  if n < 0 then "-" ++ natString n.natAbs else natString n.toNat

def hexDigit (d : Nat) : Char := if d < 10 then digitChar d else Char.ofNat (87 + d)

/-- serde_json's string escaping: quote, backslash, the five named control
escapes, and `\u00XX` for the remaining control characters. -/
def escapeJsonChar (c : Char) : String :=
  if c = '"' then "\\\""
  else if c = '\\' then "\\\\"
  else if c = Char.ofNat 8 then "\\b"
  else if c = '\t' then "\\t"
  else if c = '\n' then "\\n"
  else if c = Char.ofNat 12 then "\\f"
  else if c = '\r' then "\\r"
  else if c.toNat < 32 then
    "\\u00" ++ String.mk [hexDigit (c.toNat / 16), hexDigit (c.toNat % 16)]
  else String.singleton c

def escapeJson (s : String) : String := String.join (s.toList.map escapeJsonChar)

def nIndent (d : Nat) : String := String.mk (List.replicate (2 * d) ' ')

/-- serde_json::to_string_pretty: two-space indentation, `"key": value`
members, `[]`/`\x7b\x7d` for empty collections. Structurally recursive on
a fuel bounded below by the value's height. -/
def jsonPrettyF : Nat → Nat → Json → String
  | 0, _, _ => ""
  | fuel + 1, d, v =>
    match v with
    | .null => "null"
    | .bool b => if b then "true" else "false"
    | .num n => intString n
    | .str s => "\"" ++ escapeJson s ++ "\""
    | .arr [] => "[]"
    | .arr xs =>
        "[\n" ++
          String.intercalate (",\n")
            (xs.map (fun x => nIndent (d + 1) ++ jsonPrettyF fuel (d + 1) x)) ++
          "\n" ++ nIndent d ++ "]"
    | .obj [] => "\x7b\x7d"
    | .obj es =>
        "\x7b\n" ++
          String.intercalate (",\n")
            (es.map (fun e => nIndent (d + 1) ++ "\"" ++ escapeJson e.1 ++ "\": " ++
              jsonPrettyF fuel (d + 1) e.2)) ++
          "\n" ++ nIndent d ++ "\x7d"

def jsonPretty (v : Json) : String := jsonPrettyF (jsonFuel v) 0 v

/-- Display of a serde_path_to_error path: map keys are dot-separated,
sequence indices render as `[i]` with no separator before them. -/
def pathRender : List PathSeg → String → String
  | [], _ => ""
  | .idx i :: rest, _ => "[" ++ natString i ++ "]" ++ pathRender rest (".")
  | .key k :: rest, sep => sep ++ k ++ pathRender rest (".")

/-- An empty path displays as `.` (the error is at the decoded root). -/
def pathString (p : List PathSeg) : String :=
  match p with
  | [] => "."
  | _ => pathRender p ""

/-- Display of the underlying serde error. For `invalidType` and
`unknownVariant` the source's message also interpolates the unexpected
value and the expected-variant list, which `ErrKind` does not track;
only the `missingField` and `custom` renderings (the ones the
localization claim exercises) are verbatim. -/
def errMsg : ErrKind → String
  | .missingField f => "missing field `" ++ f ++ "`"
  | .unknownVariant v => "unknown variant `" ++ v ++ "`"
  | .invalidType e => "invalid type, expected " ++ e
  | .custom m => m

/-- The body of the `try_parse!` macro: an isolated decode that succeeds
produces the empty report, a failure formats node type, path, field path
and error over the pretty-printed JSON. -/
def parseReport {α : Type} (node_type path json_str : String) (r : DRes α) : String :=
  match r with
  | .ok _ => ""
  | .error err =>
      "Failed to parse " ++ node_type ++ " at path '" ++ path ++ "':\nField: '" ++
        pathString err.path ++ "'\nError: " ++ errMsg err.kind ++ "\nJSON:\n" ++ json_str

def try_parse_node (value : Json) (path : String) (node_type : String) : String :=
  let json_str := jsonPretty value
  if node_type = ("Literal") then parseReport node_type path json_str (decodeLiteral value)
  else if node_type = ("Identifier") then parseReport node_type path json_str (decodeIdentifier value)
  else if node_type = ("BinaryOperation") then parseReport node_type path json_str (decodeBinaryOperation value)
  else if node_type = ("UnaryOperation") then parseReport node_type path json_str (decodeUnaryOperation value)
  else if node_type = ("MemberAccess") then parseReport node_type path json_str (decodeMemberAccess value)
  else if node_type = ("IndexAccess") then parseReport node_type path json_str (decodeIndexAccess value)
  else if node_type = ("FunctionCall") then parseReport node_type path json_str (decodeFunctionCall value)
  else if node_type = ("Assignment") then parseReport node_type path json_str (decodeAssignment value)
  else if node_type = ("Conditional") then parseReport node_type path json_str (decodeConditional value)
  else if node_type = ("TupleExpression") then parseReport node_type path json_str (decodeTupleExpression value)
  else if node_type = ("VariableDeclaration") then parseReport node_type path json_str (decodeVariableDeclaration value)
  else if node_type = ("Block") then parseReport node_type path json_str (decodeBlock value)
  else if node_type = ("IfStatement") then parseReport node_type path json_str (decodeIfStatement value)
  else if node_type = ("ForStatement") then parseReport node_type path json_str (decodeForStatement value)
  else if node_type = ("WhileStatement") then parseReport node_type path json_str (decodeWhileStatement value)
  else if node_type = ("Return") then parseReport node_type path json_str (decodeReturn value)
  else if node_type = ("Break") then parseReport node_type path json_str (decodeBreak value)
  else if node_type = ("Continue") then parseReport node_type path json_str (decodeContinue value)
  else if node_type = ("VariableDeclarationStatement") then parseReport node_type path json_str (decodeVariableDeclarationStatement value)
  else if node_type = ("EmitStatement") then parseReport node_type path json_str (decodeEmitStatement value)
  else if node_type = ("RevertStatement") then parseReport node_type path json_str (decodeRevertStatement value)
  else if node_type = ("TryStatement") then parseReport node_type path json_str (decodeTryStatement value)
  else if node_type = ("UncheckedBlock") then parseReport node_type path json_str (decodeUncheckedBlock value)
  else if node_type = ("InlineAssembly") then parseReport node_type path json_str (decodeInlineAssembly value)
  else if node_type = ("PlaceholderStatement") then parseReport node_type path json_str (decodePlaceholderStatement value)
  else if node_type = ("NewExpression") then parseReport node_type path json_str (decodeNewExpression value)
  else if node_type = ("ElementaryTypeNameExpression") then parseReport node_type path json_str (decodeElementaryTypeNameExpression value)
  else if node_type = ("ExpressionStatement") then parseReport node_type path json_str (decodeExpressionStatement value)
  else if node_type = ("ContractDefinition") then parseReport node_type path json_str (decodeContractDefinition value)
  else if node_type = ("StructDefinition") then parseReport node_type path json_str (decodeStructDefinition value)
  else if node_type = ("EnumDefinition") then parseReport node_type path json_str (decodeEnumDefinition value)
  else if node_type = ("ErrorDefinition") then parseReport node_type path json_str (decodeErrorDefinition value)
  else if node_type = ("EventDefinition") then parseReport node_type path json_str (decodeEventDefinition value)
  else if node_type = ("FunctionDefinition") then parseReport node_type path json_str (decodeFunctionDefinition value)
  else if node_type = ("ModifierDefinition") then parseReport node_type path json_str (decodeModifierDefinition value)
  else if node_type = ("UserDefinedValueTypeDefinition") then parseReport node_type path json_str (decodeUserDefinedValueTypeDefinition value)
  else if node_type = ("ImportDirective") then parseReport node_type path json_str (decodeImportDirective value)
  else if node_type = ("PragmaDirective") then parseReport node_type path json_str (decodePragmaDirective value)
  else if node_type = ("UsingForDirective") then parseReport node_type path json_str (decodeUsingForDirective value)
  else if node_type = ("DoWhileStatement") then parseReport node_type path json_str (decodeDoWhileStatement value)
  else if node_type = ("SourceUnit") then parseReport node_type path json_str (decodeSourceUnit value)
  else ""

/-- First non-empty string of a list (the value of an early-returning
loop over per-child results), empty when all are empty. -/
def firstNonEmpty : List String → String
  | [] => ""
  | s :: rest => if s = "" then firstNonEmpty rest else s

def find_error_in_valueF : Nat → Json → String → String
  | 0, _, _ => ""
  | fuel + 1, v, path =>
    match v with
    | .obj o =>
        let childResult := firstNonEmpty
          (o.map (fun kv => find_error_in_valueF fuel kv.2 (path ++ "." ++ kv.1)))
        if childResult = "" then
          match lookupField o ("nodeType") with
          | some (.str t) => try_parse_node (.obj o) path t
          | _ => ""
        else childResult
    | .arr xs =>
        firstNonEmpty
          (xs.enum.map (fun p => find_error_in_valueF fuel p.2
            (path ++ "[" ++ natString p.1 ++ "]")))
    | _ => ""

def find_error_in_value (v : Json) (path : String) : String :=
  find_error_in_valueF (jsonFuel v) v path

/-- The entry point find_deserialization_error modulo JSON text parsing:
the walk is started at the parsed value with path `root`. -/
def find_deserialization_error (value : Json) : String :=
  find_error_in_value value ("root")

/-- The post-order enumeration of the testable nodes of a value: for an
object, all nodes inside its members (in member order) strictly before
the object's own entry; for an array, the nodes of its elements in
order. Each entry is (path, nodeType, value). -/
def testableNodesF : Nat → Json → String → List (String × String × Json)
  | 0, _, _ => []
  | fuel + 1, v, path =>
    match v with
    | .obj o =>
        (o.flatMap (fun kv => testableNodesF fuel kv.2 (path ++ "." ++ kv.1))) ++
        (match lookupField o ("nodeType") with
         | some (.str t) => [(path, t, .obj o)]
         | _ => [])
    | .arr xs =>
        xs.enum.flatMap (fun p => testableNodesF fuel p.2
          (path ++ "[" ++ natString p.1 ++ "]"))
    | _ => []

def testableNodes (v : Json) (path : String) : List (String × String × Json) :=
  testableNodesF (jsonFuel v) v path

def nodeReport (e : String × String × Json) : String := try_parse_node e.2.2 e.1 e.2.1

theorem firstNonEmpty_append (a b : List String) :
    firstNonEmpty (a ++ b) =
      (if firstNonEmpty a = "" then firstNonEmpty b else firstNonEmpty a) := by
  induction a with
  | nil => simp [firstNonEmpty]
  | cons s rest ih =>
    simp only [List.cons_append, firstNonEmpty]
    by_cases h : s = ""
    · simp only [if_pos h]
      exact ih
    · simp only [if_neg h]

theorem firstNonEmpty_singleton (s : String) : firstNonEmpty [s] = s := by
  by_cases h : s = ""
  · simp [firstNonEmpty, h]
  · simp [firstNonEmpty, h]

theorem firstNonEmpty_flatMap {α : Type} (l : List α) (g : α → List String) :
    firstNonEmpty (l.flatMap g) = firstNonEmpty (l.map (fun x => firstNonEmpty (g x))) := by
  induction l with
  | nil => rfl
  | cons x rest ih =>
    rw [List.flatMap_cons, List.map_cons, firstNonEmpty_append]
    by_cases h : firstNonEmpty (g x) = ""
    · rw [if_pos h, ih]
      show _ = firstNonEmpty (firstNonEmpty (g x) :: _)
      rw [firstNonEmpty]
      rw [if_pos h]
    · rw [if_neg h]
      show _ = firstNonEmpty (firstNonEmpty (g x) :: _)
      rw [firstNonEmpty]
      rw [if_neg h]

theorem firstNonEmpty_all_empty (l : List String) (h : ∀ s ∈ l, s = "") :
    firstNonEmpty l = "" := by
  induction l with
  | nil => rfl
  | cons s rest ih =>
    rw [firstNonEmpty, if_pos (h s (by simp))]
    exact ih (fun x hx => h x (by simp [hx]))

/-- The walk computes exactly the first non-empty isolated-decode report
of the post-order node enumeration. -/
theorem find_error_in_valueF_eq (fuel : Nat) : ∀ (v : Json) (path : String),
    find_error_in_valueF fuel v path =
      firstNonEmpty ((testableNodesF fuel v path).map nodeReport) := by
  induction fuel with
  | zero => intro v path; rfl
  | succ fuel ih =>
    intro v path
    match v with
    | .null => rfl
    | .bool _ => rfl
    | .num _ => rfl
    | .str _ => rfl
    | .arr xs =>
      rw [find_error_in_valueF, testableNodesF]
      try dsimp only
      rw [List.map_flatMap, firstNonEmpty_flatMap]
      congr 1
      apply List.map_congr_left
      intro p _
      exact ih p.2 _
    | .obj o =>
      rw [find_error_in_valueF, testableNodesF]
      try dsimp only
      rw [List.map_append, firstNonEmpty_append, List.map_flatMap, firstNonEmpty_flatMap]
      have hc : (o.map (fun kv => find_error_in_valueF fuel kv.2 (path ++ "." ++ kv.1))) =
          (o.map (fun kv => firstNonEmpty
            ((testableNodesF fuel kv.2 (path ++ "." ++ kv.1)).map nodeReport))) := by
        apply List.map_congr_left
        intro kv _
        exact ih kv.2 _
      rw [hc]
      rcases hl : lookupField o (("nodeType")) with _ | w
      · dsimp only
        by_cases h : firstNonEmpty (o.map (fun kv => firstNonEmpty
            ((testableNodesF fuel kv.2 (path ++ "." ++ kv.1)).map nodeReport))) = ""
        · rw [if_pos h, if_pos h]
          rfl
        · rw [if_neg h, if_neg h]
      · cases w <;>
          (first
            | (dsimp only
               by_cases h : firstNonEmpty (o.map (fun kv => firstNonEmpty
                   ((testableNodesF fuel kv.2 (path ++ "." ++ kv.1)).map nodeReport))) = ""
               · rw [if_pos h, if_pos h]
                 first
                   | rfl
                   | (rw [List.map_singleton, firstNonEmpty_singleton]; rfl)
               · rw [if_neg h, if_neg h]))

theorem find_error_in_value_eq (v : Json) (path : String) :
    find_error_in_value v path = firstNonEmpty ((testableNodes v path).map nodeReport) :=
  find_error_in_valueF_eq (jsonFuel v) v path

/-- When every node strictly before an entry in post-order decodes cleanly
in isolation and that entry's isolated decode fails, the walk reports
exactly that entry's report (its own path, not an ancestor's). -/
theorem find_error_first_failure (v : Json) (path : String)
    (pre post : List (String × String × Json)) (p t : String) (j : Json)
    (hsplit : testableNodes v path = pre ++ (p, t, j) :: post)
    (hpre : ∀ e ∈ pre, nodeReport e = "")
    (hbad : try_parse_node j p t ≠ "") :
    find_error_in_value v path = try_parse_node j p t := by
  rw [find_error_in_value_eq, hsplit, List.map_append, firstNonEmpty_append]
  rw [firstNonEmpty_all_empty (pre.map nodeReport)
    (by intro s hs; obtain ⟨e, he, rfl⟩ := List.mem_map.mp hs; exact hpre e he)]
  rw [if_pos rfl, List.map_cons, firstNonEmpty]
  have hnr : nodeReport (p, t, j) = try_parse_node j p t := rfl
  rw [hnr, if_neg hbad]


def goodIdentifier : Json :=
  .obj [(("id"), .num 2), (("name"), .str ("x")), (("nodeType"), .str ("Identifier")),
    (("src"), .str ("5:1:0")), (("typeDescriptions"), .obj [])]

def badLiteral : Json :=
  .obj [(("id"), .num 3), (("nodeType"), .str ("Literal")),
    (("src"), .str ("10:2:0")), (("value"), .str ("42"))]

def docLocalization : Json :=
  .obj [(("expression"), goodIdentifier), (("extra"), .arr [badLiteral]),
    (("id"), .num 1), (("nodeType"), .str ("ExpressionStatement")),
    (("src"), .str ("0:20:0"))]

/-- C1: the error-localization walk tests nodes in post-order — every
descendant of an object strictly before the object itself — and its
result is exactly the first non-empty isolated single-record decode
report of that enumeration; hence on a document whose only malformed
node is a Literal missing its required `kind` field (with all ancestors
and siblings decoding cleanly in isolation), the reported path is the
malformed node's own dot/bracket path `root.extra[0]` and the report
names the missing field, not any ancestor's path. -/
theorem error_localization_postorder :
    (∀ (v : Json) (path : String),
      find_error_in_value v path =
        firstNonEmpty ((testableNodes v path).map nodeReport)) ∧
    (∀ (v : Json) (path : String) (pre post : List (String × String × Json))
        (p t : String) (j : Json),
      testableNodes v path = pre ++ (p, t, j) :: post →
      (∀ e ∈ pre, nodeReport e = "") →
      try_parse_node j p t ≠ "" →
      find_error_in_value v path = try_parse_node j p t) ∧
    (testableNodes docLocalization ("root")).map (fun e => e.1) =
      [("root.expression"), ("root.extra[0]"), ("root")] ∧
    try_parse_node docLocalization ("root") ("ExpressionStatement") = "" ∧
    try_parse_node goodIdentifier ("root.expression") ("Identifier") = "" ∧
    find_deserialization_error docLocalization =
      "Failed to parse Literal at path 'root.extra[0]':\nField: '.'\nError: missing field `kind`\nJSON:\n\x7b\n  \"id\": 3,\n  \"nodeType\": \"Literal\",\n  \"src\": \"10:2:0\",\n  \"value\": \"42\"\n\x7d" := by
  refine ⟨find_error_in_value_eq, ?_, by rfl, by rfl, by rfl, by rfl⟩
  intro v path pre post p t j h1 h2 h3
  exact find_error_first_failure v path pre post p t j h1 h2 h3

/-- Witness for C1: the first-failure statement applied to the concrete
document with the malformed Literal under `root.extra[0]`. -/
theorem error_localization_postorder_witness :
    find_error_in_value docLocalization ("root") =
      try_parse_node badLiteral ("root.extra[0]") ("Literal") :=
  error_localization_postorder.2.1 docLocalization ("root")
    [(("root.expression"), ("Identifier"), goodIdentifier)]
    [(("root"), ("ExpressionStatement"), docLocalization)]
    ("root.extra[0]") ("Literal") badLiteral (by rfl)
    (by decide) (by decide)


/-! ## Serialization (C6)

Serde's derived `Serialize` emits every struct field in declaration order
under its renamed JSON key; `Option` fields serialize as JSON null when
`None` (the only `skip_serializing_if` attributes in the source are on
the two fields of `TypeDescriptions`); internally tagged enums emit the
`nodeType` tag first, then the variant record's fields; the fieldless
string enums emit their renamed variant name.  The recursive encoders
are fuel-indexed like the decoders; a budget at least the height of the
value yields the full serialization, and the round-trip theorem supplies
such budgets. -/

def encodeOpt {α : Type} (f : α → Json) : Option α → Json
  | none => .null
  | some a => f a

def encodeContractKind : ContractKind → String
  | .Contract => ("contract")
  | .Interface => ("interface")
  | .Library => ("library")

def encodeFunctionKind : FunctionKind → String
  | .Constructor => ("constructor")
  | .Function => ("function")
  | .Receive => ("receive")
  | .Fallback => ("fallback")
  | .FreeFunction => ("freeFunction")

def encodeVisibility : Visibility → String
  | .External => ("external")
  | .Public => ("public")
  | .Internal => ("internal")
  | .Private => ("private")

def encodeStateMutability : StateMutability → String
  | .Pure => ("pure")
  | .View => ("view")
  | .Nonpayable => ("nonpayable")
  | .Payable => ("payable")

def encodeStorageLocation : StorageLocation → String
  | .Default => ("default")
  | .Memory => ("memory")
  | .Storage => ("storage")
  | .Calldata => ("calldata")

def encodeMutability : Mutability → String
  | .Mutable => ("mutable")
  | .Immutable => ("immutable")
  | .Constant => ("constant")

def encodeLiteralKind : LiteralKind → String
  | .Bool => ("bool")
  | .Number => ("number")
  | .String => ("string")
  | .HexString => ("hexString")
  | .UnicodeString => ("unicodeString")

def encodeModifierInvocationKind : ModifierInvocationKind → String
  | .Modifier => ("modifier")
  | .BaseConstructorSpecifier => ("baseConstructorSpecifier")
  | .ModifierInvocationK => ("modifierInvocation")

/-- The two fields of `TypeDescriptions` carry
`skip_serializing_if = "Option::is_none"`: a `None` member is omitted
entirely instead of serializing as null. -/
def encodeTypeDescriptionsFields (td : TypeDescriptions) : List (String × Json) :=
  (match td.type_identifier with
   | none => []
   | some s => [(("typeIdentifier"), Json.str s)]) ++
  (match td.type_string with
   | none => []
   | some s => [(("typeString"), Json.str s)])

def encodeTypeDescriptions (td : TypeDescriptions) : Json :=
  .obj (encodeTypeDescriptionsFields td)

def encodeCommonTypeFields : CommonType → List (String × Json)
  | .mk x1 x2 =>
    [(("typeIdentifier"), Json.str x1),
     (("typeString"), Json.str x2)]

def encodeCommonType (a : CommonType) : Json := .obj (encodeCommonTypeFields a)

def encodeSDParameterFields : StructuredDocumentationParameter → List (String × Json)
  | .mk x1 x2 =>
    [(("name"), Json.str x1),
     (("description"), Json.str x2)]

def encodeSDParameter (a : StructuredDocumentationParameter) : Json := .obj (encodeSDParameterFields a)

def encodeSDReturnFields : StructuredDocumentationReturn → List (String × Json)
  | .mk x1 x2 =>
    [(("name"), encodeOpt (fun y => Json.str y) x1),
     (("description"), Json.str x2)]

def encodeSDReturn (a : StructuredDocumentationReturn) : Json := .obj (encodeSDReturnFields a)

def encodeSDCustomFields : StructuredDocumentationCustom → List (String × Json)
  | .mk x1 x2 =>
    [(("tag"), Json.str x1),
     (("content"), Json.str x2)]

def encodeSDCustom (a : StructuredDocumentationCustom) : Json := .obj (encodeSDCustomFields a)

def encodeStructuredDocumentationFields : StructuredDocumentation → List (String × Json)
  | .mk x1 x2 x3 x4 x5 x6 x7 x8 x9 x10 x11 =>
    [(("id"), Json.num x1),
     (("text"), Json.str x2),
     (("src"), Json.str (encode_location x3)),
     (("url"), encodeOpt (fun y => Json.str y) x4),
     (("author"), encodeOpt (fun y => Json.str y) x5),
     (("title"), encodeOpt (fun y => Json.str y) x6),
     (("notice"), encodeOpt (fun y => Json.str y) x7),
     (("dev"), encodeOpt (fun y => Json.str y) x8),
     (("params"), Json.arr (x9.map encodeSDParameter)),
     (("returns"), Json.arr (x10.map encodeSDReturn)),
     (("custom"), Json.arr (x11.map encodeSDCustom))]

def encodeStructuredDocumentation (a : StructuredDocumentation) : Json := .obj (encodeStructuredDocumentationFields a)

def encodeDocumentation : Documentation → Json
  | .String s => .str s
  | .Structured d => .obj (encodeStructuredDocumentationFields d)

def encodeEnumValueFields : EnumValue → List (String × Json)
  | .mk x1 x2 x3 x4 =>
    [(("id"), Json.num x1),
     (("name"), Json.str x2),
     (("nameLocation"), Json.str x3),
     (("src"), Json.str (encode_location x4))]

def encodeEnumValue (a : EnumValue) : Json := .obj (encodeEnumValueFields a)

def encodeIdentifierFields : Identifier → List (String × Json)
  | .mk x1 x2 x3 x4 x5 x6 x7 =>
    [(("id"), Json.num x1),
     (("name"), Json.str x2),
     (("overloadedDeclarations"), Json.arr (x3.map (fun y => Json.num y))),
     (("referencedDeclaration"), encodeOpt (fun y => Json.num y) x4),
     (("src"), Json.str (encode_location x5)),
     (("typeDescriptions"), encodeTypeDescriptions x6),
     (("argumentTypes"), encodeOpt (fun ys => Json.arr (ys.map encodeTypeDescriptions)) x7)]

def encodeIdentifier (a : Identifier) : Json := .obj (encodeIdentifierFields a)

def encodeIdentifierPathFields : IdentifierPath → List (String × Json)
  | .mk x1 x2 x3 x4 x5 =>
    [(("id"), Json.num x1),
     (("name"), Json.str x2),
     (("nameLocations"), encodeOpt (fun ys => Json.arr (ys.map (fun y => Json.str y))) x3),
     (("referencedDeclaration"), encodeOpt (fun y => Json.num y) x4),
     (("src"), Json.str (encode_location x5))]

def encodeIdentifierPath (a : IdentifierPath) : Json := .obj (encodeIdentifierPathFields a)

def encodeOverrideSpecifierFields : OverrideSpecifier → List (String × Json)
  | .mk x1 x2 x3 =>
    [(("id"), Json.num x1),
     (("overrides"), Json.arr (x2.map encodeIdentifierPath)),
     (("src"), Json.str (encode_location x3))]

def encodeOverrideSpecifier (a : OverrideSpecifier) : Json := .obj (encodeOverrideSpecifierFields a)

def encodeExternalReferenceFields : ExternalReference → List (String × Json)
  | .mk x1 x2 x3 x4 x5 =>
    [(("declaration"), Json.num x1),
     (("isOffset"), Json.bool x2),
     (("isSlot"), Json.bool x3),
     (("src"), Json.str (encode_location x4)),
     (("valueSize"), Json.num x5)]

def encodeExternalReference (a : ExternalReference) : Json := .obj (encodeExternalReferenceFields a)

def encodeSymbolAliasFields : SymbolAlias → List (String × Json)
  | .mk x1 x2 x3 =>
    [(("foreign"), encodeIdentifier x1),
     (("local"), encodeOpt (fun y => Json.str y) x2),
     (("nameLocation"), Json.str x3)]

def encodeSymbolAlias (a : SymbolAlias) : Json := .obj (encodeSymbolAliasFields a)

def encodeElementaryTypeNameFields : ElementaryTypeName → List (String × Json)
  | .mk x1 x2 x3 x4 x5 =>
    [(("id"), Json.num x1),
     (("name"), Json.str (encode_elementary x2)),
     (("src"), Json.str (encode_location x3)),
     (("stateMutability"), encodeOpt (fun y => Json.str y) x4),
     (("typeDescriptions"), encodeTypeDescriptions x5)]

def encodeElementaryTypeName (a : ElementaryTypeName) : Json := .obj (encodeElementaryTypeNameFields a)

def encodeUserDefinedTypeNameFields : UserDefinedTypeName → List (String × Json)
  | .mk x1 x2 x3 x4 x5 =>
    [(("id"), Json.num x1),
     (("pathNode"), encodeOpt encodeIdentifierPath x2),
     (("referenced_declaration"), encodeOpt (fun y => Json.num y) x3),
     (("src"), Json.str (encode_location x4)),
     (("typeDescriptions"), encodeTypeDescriptions x5)]

def encodeUserDefinedTypeName (a : UserDefinedTypeName) : Json := .obj (encodeUserDefinedTypeNameFields a)

def encodeBreakFields : Break → List (String × Json)
  | .mk x1 x2 =>
    [(("id"), Json.num x1),
     (("src"), Json.str (encode_location x2))]

def encodeBreak (a : Break) : Json := .obj (encodeBreakFields a)

def encodeContinueFields : Continue → List (String × Json)
  | .mk x1 x2 =>
    [(("id"), Json.num x1),
     (("src"), Json.str (encode_location x2))]

def encodeContinue (a : Continue) : Json := .obj (encodeContinueFields a)

def encodePlaceholderStatementFields : PlaceholderStatement → List (String × Json)
  | .mk x1 x2 =>
    [(("id"), Json.num x1),
     (("src"), Json.str (encode_location x2))]

def encodePlaceholderStatement (a : PlaceholderStatement) : Json := .obj (encodePlaceholderStatementFields a)

def encodeLiteralFields : Literal → List (String × Json)
  | .mk x1 x2 x3 x4 x5 x6 x7 x8 x9 x10 x11 x12 =>
    [(("id"), Json.num x1),
     (("kind"), Json.str (encodeLiteralKind x2)),
     (("value"), Json.str x3),
     (("hexValue"), encodeOpt (fun y => Json.str y) x4),
     (("subdenomination"), encodeOpt (fun y => Json.str y) x5),
     (("src"), Json.str (encode_location x6)),
     (("typeDescriptions"), encodeTypeDescriptions x7),
     (("isConstant"), Json.bool x8),
     (("isLValue"), Json.bool x9),
     (("isPure"), Json.bool x10),
     (("lValueRequested"), Json.bool x11),
     (("formattedValue"), encodeOpt (fun y => Json.str y) x12)]

def encodeLiteral (a : Literal) : Json := .obj (encodeLiteralFields a)

def encodePragmaDirectiveFields : PragmaDirective → List (String × Json)
  | .mk x1 x2 x3 x4 =>
    [(("id"), Json.num x1),
     (("literals"), Json.arr (x2.map (fun y => Json.str y))),
     (("src"), Json.str (encode_location x3)),
     (("nodes"), Json.arr (x4.map (fun n => nomatch n)))]

def encodePragmaDirective (a : PragmaDirective) : Json := .obj (encodePragmaDirectiveFields a)

def encodeImportDirectiveFields : ImportDirective → List (String × Json)
  | .mk x1 x2 x3 x4 x5 x6 x7 x8 x9 x10 =>
    [(("id"), Json.num x1),
     (("absolutePath"), Json.str x2),
     (("file"), Json.str x3),
     (("unitAlias"), encodeOpt (fun y => Json.str y) x4),
     (("symbolAliases"), Json.arr (x5.map encodeSymbolAlias)),
     (("scope"), encodeOpt (fun y => Json.num y) x6),
     (("sourceUnit"), encodeOpt (fun y => Json.num y) x7),
     (("src"), Json.str (encode_location x8)),
     (("nameLocation"), encodeOpt (fun y => Json.str y) x9),
     (("nodes"), Json.arr (x10.map (fun n => nomatch n)))]

def encodeImportDirective (a : ImportDirective) : Json := .obj (encodeImportDirectiveFields a)

def encodeEnumDefinitionFields : EnumDefinition → List (String × Json)
  | .mk x1 x2 x3 x4 x5 x6 x7 x8 =>
    [(("id"), Json.num x1),
     (("name"), Json.str x2),
     (("members"), Json.arr (x3.map encodeEnumValue)),
     (("src"), Json.str (encode_location x4)),
     (("scope"), encodeOpt (fun y => Json.num y) x5),
     (("documentation"), encodeOpt encodeDocumentation x6),
     (("canonicalName"), encodeOpt (fun y => Json.str y) x7),
     (("nodes"), Json.arr (x8.map (fun n => nomatch n)))]

def encodeEnumDefinition (a : EnumDefinition) : Json := .obj (encodeEnumDefinitionFields a)

def encodeUsingForDirectiveFields : UsingForDirective → List (String × Json)
  | .mk x1 x2 x3 x4 x5 x6 x7 x8 =>
    [(("id"), Json.num x1),
     (("libraryName"), encodeOpt encodeIdentifierPath x2),
     (("typeName"), encodeOpt encodeUserDefinedTypeName x3),
     (("operations"), encodeOpt (fun ys => Json.arr (ys.map (fun y => Json.str y))) x4),
     (("src"), Json.str (encode_location x5)),
     (("global"), encodeOpt (fun y => Json.bool y) x6),
     (("nodes"), Json.arr (x7.map (fun n => nomatch n))),
     (("scope"), encodeOpt (fun y => Json.num y) x8)]

def encodeUsingForDirective (a : UsingForDirective) : Json := .obj (encodeUsingForDirectiveFields a)

def encodeElementaryTypeNameExpressionFields : ElementaryTypeNameExpression → List (String × Json)
  | .mk x1 x2 x3 x4 x5 =>
    [(("id"), Json.num x1),
     (("typeName"), encodeElementaryTypeName x2),
     (("src"), Json.str (encode_location x3)),
     (("typeDescriptions"), encodeTypeDescriptions x4),
     (("argumentTypes"), encodeOpt (fun ys => Json.arr (ys.map encodeTypeDescriptions)) x5)]

def encodeElementaryTypeNameExpression (a : ElementaryTypeNameExpression) : Json := .obj (encodeElementaryTypeNameExpressionFields a)

def encodeInlineAssemblyFields : InlineAssembly → List (String × Json)
  | .mk x1 x2 x3 x4 x5 x6 =>
    [(("id"), Json.num x1),
     (("operations"), encodeOpt (fun y => y) x2),
     (("externalReferences"), encodeOpt (fun ys => Json.arr (ys.map encodeExternalReference)) x3),
     (("src"), Json.str (encode_location x4)),
     (("documentation"), encodeOpt encodeDocumentation x5),
     (("flags"), Json.arr (x6.map (fun y => Json.str y)))]

def encodeInlineAssembly (a : InlineAssembly) : Json := .obj (encodeInlineAssemblyFields a)

mutual

def encodeExpressionF : Nat → Expression → Json
  | 0, _ => .null
  | fuel + 1, .Assignment a => .obj ((("nodeType"), Json.str ("Assignment")) :: encodeAssignmentFieldsF fuel a)
  | fuel + 1, .BinaryOperation a => .obj ((("nodeType"), Json.str ("BinaryOperation")) :: encodeBinaryOperationFieldsF fuel a)
  | fuel + 1, .Conditional a => .obj ((("nodeType"), Json.str ("Conditional")) :: encodeConditionalFieldsF fuel a)
  | fuel + 1, .ElementaryTypeNameExpression a => .obj ((("nodeType"), Json.str ("ElementaryTypeNameExpression")) :: encodeElementaryTypeNameExpressionFields a)
  | fuel + 1, .FunctionCall a => .obj ((("nodeType"), Json.str ("FunctionCall")) :: encodeFunctionCallFieldsF fuel a)
  | fuel + 1, .Identifier a => .obj ((("nodeType"), Json.str ("Identifier")) :: encodeIdentifierFields a)
  | fuel + 1, .IndexAccess a => .obj ((("nodeType"), Json.str ("IndexAccess")) :: encodeIndexAccessFieldsF fuel a)
  | fuel + 1, .Literal a => .obj ((("nodeType"), Json.str ("Literal")) :: encodeLiteralFields a)
  | fuel + 1, .MemberAccess a => .obj ((("nodeType"), Json.str ("MemberAccess")) :: encodeMemberAccessFieldsF fuel a)
  | fuel + 1, .NewExpression a => .obj ((("nodeType"), Json.str ("NewExpression")) :: encodeNewExpressionFieldsF fuel a)
  | fuel + 1, .TupleExpression a => .obj ((("nodeType"), Json.str ("TupleExpression")) :: encodeTupleExpressionFieldsF fuel a)
  | fuel + 1, .UnaryOperation a => .obj ((("nodeType"), Json.str ("UnaryOperation")) :: encodeUnaryOperationFieldsF fuel a)
  | fuel + 1, .VariableDeclarationStatement a => .obj ((("nodeType"), Json.str ("VariableDeclarationStatement")) :: encodeVariableDeclarationStatementFieldsF fuel a)
  | fuel + 1, .ExpressionStatement a => .obj ((("nodeType"), Json.str ("ExpressionStatement")) :: encodeExpressionStatementFieldsF fuel a)

def encodeStatementF : Nat → Statement → Json
  | 0, _ => .null
  | fuel + 1, .Block a => .obj ((("nodeType"), Json.str ("Block")) :: encodeBlockFieldsF fuel a)
  | fuel + 1, .Break a => .obj ((("nodeType"), Json.str ("Break")) :: encodeBreakFields a)
  | fuel + 1, .Continue a => .obj ((("nodeType"), Json.str ("Continue")) :: encodeContinueFields a)
  | fuel + 1, .DoWhileStatement a => .obj ((("nodeType"), Json.str ("DoWhileStatement")) :: encodeDoWhileStatementFieldsF fuel a)
  | fuel + 1, .EmitStatement a => .obj ((("nodeType"), Json.str ("EmitStatement")) :: encodeEmitStatementFieldsF fuel a)
  | fuel + 1, .ExpressionStatement a => .obj ((("nodeType"), Json.str ("ExpressionStatement")) :: encodeExpressionStatementFieldsF fuel a)
  | fuel + 1, .ForStatement a => .obj ((("nodeType"), Json.str ("ForStatement")) :: encodeForStatementFieldsF fuel a)
  | fuel + 1, .IfStatement a => .obj ((("nodeType"), Json.str ("IfStatement")) :: encodeIfStatementFieldsF fuel a)
  | fuel + 1, .InlineAssembly a => .obj ((("nodeType"), Json.str ("InlineAssembly")) :: encodeInlineAssemblyFields a)
  | fuel + 1, .PlaceholderStatement a => .obj ((("nodeType"), Json.str ("PlaceholderStatement")) :: encodePlaceholderStatementFields a)
  | fuel + 1, .Return a => .obj ((("nodeType"), Json.str ("Return")) :: encodeReturnFieldsF fuel a)
  | fuel + 1, .RevertStatement a => .obj ((("nodeType"), Json.str ("RevertStatement")) :: encodeRevertStatementFieldsF fuel a)
  | fuel + 1, .TryStatement a => .obj ((("nodeType"), Json.str ("TryStatement")) :: encodeTryStatementFieldsF fuel a)
  | fuel + 1, .UncheckedBlock a => .obj ((("nodeType"), Json.str ("UncheckedBlock")) :: encodeUncheckedBlockFieldsF fuel a)
  | fuel + 1, .VariableDeclarationStatement a => .obj ((("nodeType"), Json.str ("VariableDeclarationStatement")) :: encodeVariableDeclarationStatementFieldsF fuel a)
  | fuel + 1, .WhileStatement a => .obj ((("nodeType"), Json.str ("WhileStatement")) :: encodeWhileStatementFieldsF fuel a)

def encodeTypeNameF : Nat → TypeName → Json
  | 0, _ => .null
  | fuel + 1, .ArrayTypeName a => .obj ((("nodeType"), Json.str ("ArrayTypeName")) :: encodeArrayTypeNameFieldsF fuel a)
  | fuel + 1, .ElementaryTypeName a => .obj ((("nodeType"), Json.str ("ElementaryTypeName")) :: encodeElementaryTypeNameFields a)
  | fuel + 1, .FunctionTypeName a => .obj ((("nodeType"), Json.str ("FunctionTypeName")) :: encodeFunctionTypeNameFieldsF fuel a)
  | fuel + 1, .Mapping a => .obj ((("nodeType"), Json.str ("Mapping")) :: encodeMappingFieldsF fuel a)
  | fuel + 1, .UserDefinedTypeName a => .obj ((("nodeType"), Json.str ("UserDefinedTypeName")) :: encodeUserDefinedTypeNameFields a)

def encodeFunctionCallExpressionF : Nat → FunctionCallExpression → Json
  | 0, _ => .null
  | fuel + 1, .ElementaryTypeNameExpression a => .obj ((("nodeType"), Json.str ("ElementaryTypeNameExpression")) :: encodeElementaryTypeNameExpressionFields a)
  | fuel + 1, .FunctionCall a => .obj ((("nodeType"), Json.str ("FunctionCall")) :: encodeFunctionCallFieldsF fuel a)
  | fuel + 1, .FunctionCallOptions a => .obj ((("nodeType"), Json.str ("FunctionCallOptions")) :: encodeFunctionCallOptionsFieldsF fuel a)
  | fuel + 1, .Identifier a => .obj ((("nodeType"), Json.str ("Identifier")) :: encodeIdentifierFields a)
  | fuel + 1, .MemberAccess a => .obj ((("nodeType"), Json.str ("MemberAccess")) :: encodeMemberAccessFieldsF fuel a)
  | fuel + 1, .NewExpression a => .obj ((("nodeType"), Json.str ("NewExpression")) :: encodeNewExpressionFieldsF fuel a)

def encodeContractDefinitionNodeF : Nat → ContractDefinitionNode → Json
  | 0, _ => .null
  | fuel + 1, .EnumDefinition a => .obj ((("nodeType"), Json.str ("EnumDefinition")) :: encodeEnumDefinitionFields a)
  | fuel + 1, .ErrorDefinition a => .obj ((("nodeType"), Json.str ("ErrorDefinition")) :: encodeErrorDefinitionFieldsF fuel a)
  | fuel + 1, .EventDefinition a => .obj ((("nodeType"), Json.str ("EventDefinition")) :: encodeEventDefinitionFieldsF fuel a)
  | fuel + 1, .FunctionDefinition a => .obj ((("nodeType"), Json.str ("FunctionDefinition")) :: encodeFunctionDefinitionFieldsF fuel a)
  | fuel + 1, .ModifierDefinition a => .obj ((("nodeType"), Json.str ("ModifierDefinition")) :: encodeModifierDefinitionFieldsF fuel a)
  | fuel + 1, .StructDefinition a => .obj ((("nodeType"), Json.str ("StructDefinition")) :: encodeStructDefinitionFieldsF fuel a)
  | fuel + 1, .UsingForDirective a => .obj ((("nodeType"), Json.str ("UsingForDirective")) :: encodeUsingForDirectiveFields a)
  | fuel + 1, .VariableDeclaration a => .obj ((("nodeType"), Json.str ("VariableDeclaration")) :: encodeVariableDeclarationFieldsF fuel a)

def encodeSourceUnitNodeF : Nat → SourceUnitNode → Json
  | 0, _ => .null
  | fuel + 1, .ContractDefinition a => .obj ((("nodeType"), Json.str ("ContractDefinition")) :: encodeContractDefinitionFieldsF fuel a)
  | fuel + 1, .EnumDefinition a => .obj ((("nodeType"), Json.str ("EnumDefinition")) :: encodeEnumDefinitionFields a)
  | fuel + 1, .ErrorDefinition a => .obj ((("nodeType"), Json.str ("ErrorDefinition")) :: encodeErrorDefinitionFieldsF fuel a)
  | fuel + 1, .EventDefinition a => .obj ((("nodeType"), Json.str ("EventDefinition")) :: encodeEventDefinitionFieldsF fuel a)
  | fuel + 1, .FunctionDefinition a => .obj ((("nodeType"), Json.str ("FunctionDefinition")) :: encodeFunctionDefinitionFieldsF fuel a)
  | fuel + 1, .ImportDirective a => .obj ((("nodeType"), Json.str ("ImportDirective")) :: encodeImportDirectiveFields a)
  | fuel + 1, .PragmaDirective a => .obj ((("nodeType"), Json.str ("PragmaDirective")) :: encodePragmaDirectiveFields a)
  | fuel + 1, .StructDefinition a => .obj ((("nodeType"), Json.str ("StructDefinition")) :: encodeStructDefinitionFieldsF fuel a)
  | fuel + 1, .UserDefinedValueTypeDefinition a => .obj ((("nodeType"), Json.str ("UserDefinedValueTypeDefinition")) :: encodeUserDefinedValueTypeDefinitionFieldsF fuel a)
  | fuel + 1, .UsingForDirective a => .obj ((("nodeType"), Json.str ("UsingForDirective")) :: encodeUsingForDirectiveFields a)
  | fuel + 1, .VariableDeclaration a => .obj ((("nodeType"), Json.str ("VariableDeclaration")) :: encodeVariableDeclarationFieldsF fuel a)

def encodeAssignmentFieldsF : Nat → Assignment → List (String × Json)
  | 0, _ => []
  | fuel + 1, .mk x1 x2 x3 x4 x5 x6 =>
    [(("id"), Json.num x1),
     (("leftHandSide"), encodeExpressionF fuel x2),
     (("rightHandSide"), encodeExpressionF fuel x3),
     (("operator"), Json.str x4),
     (("src"), Json.str (encode_location x5)),
     (("typeDescriptions"), encodeTypeDescriptions x6)]

def encodeBinaryOperationFieldsF : Nat → BinaryOperation → List (String × Json)
  | 0, _ => []
  | fuel + 1, .mk x1 x2 x3 x4 x5 x6 x7 x8 x9 x10 x11 =>
    [(("id"), Json.num x1),
     (("leftExpression"), encodeExpressionF fuel x2),
     (("rightExpression"), encodeExpressionF fuel x3),
     (("operator"), Json.str x4),
     (("commonType"), encodeCommonType x5),
     (("src"), Json.str (encode_location x6)),
     (("isConstant"), Json.bool x7),
     (("isLValue"), Json.bool x8),
     (("isPure"), Json.bool x9),
     (("lValueRequested"), Json.bool x10),
     (("typeDescriptions"), encodeTypeDescriptions x11)]

def encodeConditionalFieldsF : Nat → Conditional → List (String × Json)
  | 0, _ => []
  | fuel + 1, .mk x1 x2 x3 x4 x5 x6 x7 x8 x9 x10 =>
    [(("id"), Json.num x1),
     (("condition"), encodeExpressionF fuel x2),
     (("trueExpression"), encodeExpressionF fuel x3),
     (("falseExpression"), encodeExpressionF fuel x4),
     (("isConstant"), Json.bool x5),
     (("isLValue"), Json.bool x6),
     (("isPure"), Json.bool x7),
     (("lValueRequested"), Json.bool x8),
     (("src"), Json.str (encode_location x9)),
     (("typeDescriptions"), encodeTypeDescriptions x10)]

def encodeFunctionCallFieldsF : Nat → FunctionCall → List (String × Json)
  | 0, _ => []
  | fuel + 1, .mk x1 x2 x3 x4 x5 x6 x7 x8 x9 x10 x11 x12 x13 x14 =>
    [(("id"), Json.num x1),
     (("expression"), encodeFunctionCallExpressionF fuel x2),
     (("arguments"), Json.arr (x3.map (encodeExpressionF fuel))),
     (("names"), Json.arr (x4.map (fun y => Json.str y))),
     (("kind"), Json.str x5),
     (("src"), Json.str (encode_location x6)),
     (("tryCall"), Json.bool x7),
     (("nameLocations"), encodeOpt (fun ys => Json.arr (ys.map (fun y => Json.str y))) x8),
     (("isConstant"), Json.bool x9),
     (("isLValue"), Json.bool x10),
     (("isPure"), Json.bool x11),
     (("lValueRequested"), Json.bool x12),
     (("typeDescriptions"), encodeTypeDescriptions x13),
     (("argumentTypes"), encodeOpt (fun ys => Json.arr (ys.map encodeTypeDescriptions)) x14)]

def encodeFunctionCallOptionsFieldsF : Nat → FunctionCallOptions → List (String × Json)
  | 0, _ => []
  | fuel + 1, .mk x1 x2 x3 x4 x5 x6 x7 =>
    [(("id"), Json.num x1),
     (("expression"), encodeExpressionF fuel x2),
     (("names"), Json.arr (x3.map (fun y => Json.str y))),
     (("options"), Json.arr (x4.map (encodeExpressionF fuel))),
     (("src"), Json.str (encode_location x5)),
     (("typeDescriptions"), encodeTypeDescriptions x6),
     (("nameLocations"), encodeOpt (fun ys => Json.arr (ys.map (fun y => Json.str y))) x7)]

def encodeIndexAccessFieldsF : Nat → IndexAccess → List (String × Json)
  | 0, _ => []
  | fuel + 1, .mk x1 x2 x3 x4 x5 =>
    [(("id"), Json.num x1),
     (("baseExpression"), encodeExpressionF fuel x2),
     (("indexExpression"), encodeOpt (encodeExpressionF fuel) x3),
     (("src"), Json.str (encode_location x4)),
     (("typeDescriptions"), encodeTypeDescriptions x5)]

def encodeMemberAccessFieldsF : Nat → MemberAccess → List (String × Json)
  | 0, _ => []
  | fuel + 1, .mk x1 x2 x3 x4 x5 x6 x7 x8 x9 x10 x11 x12 =>
    [(("id"), Json.num x1),
     (("expression"), encodeExpressionF fuel x2),
     (("memberName"), Json.str x3),
     (("memberLocation"), encodeOpt (fun y => Json.str y) x4),
     (("src"), Json.str (encode_location x5)),
     (("referencedDeclaration"), encodeOpt (fun y => Json.num y) x6),
     (("typeDescriptions"), encodeTypeDescriptions x7),
     (("argumentTypes"), encodeOpt (fun ys => Json.arr (ys.map encodeTypeDescriptions)) x8),
     (("isConstant"), Json.bool x9),
     (("isLValue"), Json.bool x10),
     (("isPure"), Json.bool x11),
     (("lValueRequested"), Json.bool x12)]

def encodeNewExpressionFieldsF : Nat → NewExpression → List (String × Json)
  | 0, _ => []
  | fuel + 1, .mk x1 x2 x3 x4 x5 x6 x7 x8 x9 x10 =>
    [(("id"), Json.num x1),
     (("typeName"), encodeTypeNameF fuel x2),
     (("arguments"), encodeOpt (fun ys => Json.arr (ys.map (encodeExpressionF fuel))) x3),
     (("src"), Json.str (encode_location x4)),
     (("typeDescriptions"), encodeTypeDescriptions x5),
     (("argumentTypes"), encodeOpt (fun ys => Json.arr (ys.map encodeTypeDescriptions)) x6),
     (("isConstant"), Json.bool x7),
     (("isLValue"), Json.bool x8),
     (("isPure"), Json.bool x9),
     (("lValueRequested"), Json.bool x10)]

def encodeTupleExpressionFieldsF : Nat → TupleExpression → List (String × Json)
  | 0, _ => []
  | fuel + 1, .mk x1 x2 x3 x4 =>
    [(("id"), Json.num x1),
     (("components"), Json.arr (x2.map (encodeOpt (encodeExpressionF fuel)))),
     (("src"), Json.str (encode_location x3)),
     (("typeDescriptions"), encodeTypeDescriptions x4)]

def encodeUnaryOperationFieldsF : Nat → UnaryOperation → List (String × Json)
  | 0, _ => []
  | fuel + 1, .mk x1 x2 x3 x4 x5 x6 x7 x8 x9 x10 =>
    [(("id"), Json.num x1),
     (("subExpression"), encodeExpressionF fuel x2),
     (("operator"), Json.str x3),
     (("isPrefix"), Json.bool x4),
     (("src"), Json.str (encode_location x5)),
     (("typeDescriptions"), encodeTypeDescriptions x6),
     (("isConstant"), Json.bool x7),
     (("isLValue"), Json.bool x8),
     (("isPure"), Json.bool x9),
     (("lValueRequested"), Json.bool x10)]

def encodeVariableDeclarationStatementFieldsF : Nat → VariableDeclarationStatement → List (String × Json)
  | 0, _ => []
  | fuel + 1, .mk x1 x2 x3 x4 x5 x6 =>
    [(("id"), Json.num x1),
     (("assignments"), Json.arr (x2.map (encodeOpt (fun y => Json.num y)))),
     (("declarations"), Json.arr (x3.map (encodeOpt ((fun y => Json.obj (encodeVariableDeclarationFieldsF fuel y)))))),
     (("initialValue"), encodeOpt (encodeExpressionF fuel) x4),
     (("src"), Json.str (encode_location x5)),
     (("documentation"), encodeOpt encodeDocumentation x6)]

def encodeExpressionStatementFieldsF : Nat → ExpressionStatement → List (String × Json)
  | 0, _ => []
  | fuel + 1, .mk x1 x2 x3 =>
    [(("id"), Json.num x1),
     (("expression"), encodeExpressionF fuel x2),
     (("src"), Json.str (encode_location x3))]

def encodeBlockFieldsF : Nat → Block → List (String × Json)
  | 0, _ => []
  | fuel + 1, .mk x1 x2 x3 x4 =>
    [(("id"), Json.num x1),
     (("statements"), Json.arr (x2.map (encodeStatementF fuel))),
     (("src"), Json.str (encode_location x3)),
     (("nodes"), Json.arr (x4.map (fun n => nomatch n)))]

def encodeDoWhileStatementFieldsF : Nat → DoWhileStatement → List (String × Json)
  | 0, _ => []
  | fuel + 1, .mk x1 x2 x3 x4 =>
    [(("id"), Json.num x1),
     (("condition"), encodeExpressionF fuel x2),
     (("body"), encodeStatementF fuel x3),
     (("src"), Json.str (encode_location x4))]

def encodeEmitStatementFieldsF : Nat → EmitStatement → List (String × Json)
  | 0, _ => []
  | fuel + 1, .mk x1 x2 x3 =>
    [(("id"), Json.num x1),
     (("eventCall"), Json.obj (encodeFunctionCallFieldsF fuel x2)),
     (("src"), Json.str (encode_location x3))]

def encodeForStatementFieldsF : Nat → ForStatement → List (String × Json)
  | 0, _ => []
  | fuel + 1, .mk x1 x2 x3 x4 x5 x6 =>
    [(("id"), Json.num x1),
     (("initializationExpression"), encodeOpt (encodeExpressionF fuel) x2),
     (("condition"), encodeOpt (encodeExpressionF fuel) x3),
     (("loopExpression"), encodeOpt (encodeExpressionF fuel) x4),
     (("body"), encodeStatementF fuel x5),
     (("src"), Json.str (encode_location x6))]

def encodeIfStatementFieldsF : Nat → IfStatement → List (String × Json)
  | 0, _ => []
  | fuel + 1, .mk x1 x2 x3 x4 x5 =>
    [(("id"), Json.num x1),
     (("condition"), encodeExpressionF fuel x2),
     (("trueBody"), encodeStatementF fuel x3),
     (("falseBody"), encodeOpt (encodeStatementF fuel) x4),
     (("src"), Json.str (encode_location x5))]

def encodeReturnFieldsF : Nat → Return → List (String × Json)
  | 0, _ => []
  | fuel + 1, .mk x1 x2 x3 x4 =>
    [(("id"), Json.num x1),
     (("functionReturnParameters"), Json.num x2),
     (("expression"), encodeOpt (encodeExpressionF fuel) x3),
     (("src"), Json.str (encode_location x4))]

def encodeRevertStatementFieldsF : Nat → RevertStatement → List (String × Json)
  | 0, _ => []
  | fuel + 1, .mk x1 x2 x3 =>
    [(("id"), Json.num x1),
     (("errorCall"), Json.obj (encodeFunctionCallFieldsF fuel x2)),
     (("src"), Json.str (encode_location x3))]

def encodeTryCatchClauseFieldsF : Nat → TryCatchClause → List (String × Json)
  | 0, _ => []
  | fuel + 1, .mk x1 x2 x3 x4 x5 x6 =>
    [(("id"), Json.num x1),
     (("kind"), Json.str x2),
     (("errorName"), encodeOpt (fun y => Json.str y) x3),
     (("parameters"), encodeOpt (fun y => Json.obj (encodeParameterListFieldsF fuel y)) x4),
     (("block"), Json.obj (encodeBlockFieldsF fuel x5)),
     (("src"), Json.str (encode_location x6))]

def encodeTryStatementFieldsF : Nat → TryStatement → List (String × Json)
  | 0, _ => []
  | fuel + 1, .mk x1 x2 x3 x4 x5 =>
    [(("id"), Json.num x1),
     (("expression"), encodeExpressionF fuel x2),
     (("returnParameters"), Json.obj (encodeParameterListFieldsF fuel x3)),
     (("clauses"), Json.arr (x4.map ((fun y => Json.obj (encodeTryCatchClauseFieldsF fuel y))))),
     (("src"), Json.str (encode_location x5))]

def encodeUncheckedBlockFieldsF : Nat → UncheckedBlock → List (String × Json)
  | 0, _ => []
  | fuel + 1, .mk x1 x2 x3 x4 =>
    [(("id"), Json.num x1),
     (("statements"), Json.arr (x2.map (encodeStatementF fuel))),
     (("src"), Json.str (encode_location x3)),
     (("nodes"), Json.arr (x4.map (fun n => nomatch n)))]

def encodeWhileStatementFieldsF : Nat → WhileStatement → List (String × Json)
  | 0, _ => []
  | fuel + 1, .mk x1 x2 x3 x4 =>
    [(("id"), Json.num x1),
     (("condition"), encodeExpressionF fuel x2),
     (("body"), encodeStatementF fuel x3),
     (("src"), Json.str (encode_location x4))]

def encodeVariableDeclarationFieldsF : Nat → VariableDeclaration → List (String × Json)
  | 0, _ => []
  | fuel + 1, .mk x1 x2 x3 x4 x5 x6 x7 x8 x9 x10 x11 x12 x13 x14 x15 x16 x17 x18 =>
    [(("id"), Json.num x1),
     (("name"), Json.str x2),
     (("typeName"), encodeOpt (encodeTypeNameF fuel) x3),
     (("src"), Json.str (encode_location x4)),
     (("nameLocation"), encodeOpt (fun y => Json.str y) x5),
     (("visibility"), Json.str (encodeVisibility x6)),
     (("stateMutability"), encodeOpt (fun y => Json.str (encodeStateMutability y)) x7),
     (("mutability"), encodeOpt (fun y => Json.str (encodeMutability y)) x8),
     (("stateVariable"), encodeOpt (fun y => Json.bool y) x9),
     (("storageLocation"), encodeOpt (fun y => Json.str (encodeStorageLocation y)) x10),
     (("constant"), encodeOpt (fun y => Json.bool y) x11),
     (("immutable"), encodeOpt (fun y => Json.bool y) x12),
     (("indexed"), encodeOpt (fun y => Json.bool y) x13),
     (("value"), encodeOpt (encodeExpressionF fuel) x14),
     (("documentation"), encodeOpt encodeDocumentation x15),
     (("typeDescriptions"), encodeTypeDescriptions x16),
     (("overrides"), encodeOpt encodeOverrideSpecifier x17),
     (("scope"), encodeOpt (fun y => Json.num y) x18)]

def encodeArrayTypeNameFieldsF : Nat → ArrayTypeName → List (String × Json)
  | 0, _ => []
  | fuel + 1, .mk x1 x2 x3 x4 =>
    [(("id"), Json.num x1),
     (("baseType"), encodeTypeNameF fuel x2),
     (("length"), encodeOpt (encodeExpressionF fuel) x3),
     (("src"), Json.str (encode_location x4))]

def encodeMappingFieldsF : Nat → Mapping → List (String × Json)
  | 0, _ => []
  | fuel + 1, .mk x1 x2 x3 x4 =>
    [(("id"), Json.num x1),
     (("keyType"), encodeTypeNameF fuel x2),
     (("valueType"), encodeTypeNameF fuel x3),
     (("src"), Json.str (encode_location x4))]

def encodeFunctionTypeNameFieldsF : Nat → FunctionTypeName → List (String × Json)
  | 0, _ => []
  | fuel + 1, .mk x1 x2 x3 x4 x5 x6 =>
    [(("id"), Json.num x1),
     (("parameterTypes"), Json.arr (x2.map (encodeTypeNameF fuel))),
     (("returnParameterTypes"), Json.arr (x3.map (encodeTypeNameF fuel))),
     (("visibility"), Json.str x4),
     (("stateMutability"), Json.str x5),
     (("src"), Json.str (encode_location x6))]

def encodeParameterListFieldsF : Nat → ParameterList → List (String × Json)
  | 0, _ => []
  | fuel + 1, .mk x1 x2 x3 x4 =>
    [(("id"), Json.num x1),
     (("parameters"), Json.arr (x2.map ((fun y => Json.obj (encodeVariableDeclarationFieldsF fuel y))))),
     (("src"), Json.str (encode_location x3)),
     (("nodes"), Json.arr (x4.map (fun n => nomatch n)))]

def encodeModifierInvocationFieldsF : Nat → ModifierInvocation → List (String × Json)
  | 0, _ => []
  | fuel + 1, .mk x1 x2 x3 x4 x5 =>
    [(("id"), Json.num x1),
     (("kind"), encodeOpt (fun y => Json.str (encodeModifierInvocationKind y)) x2),
     (("modifierName"), encodeIdentifierPath x3),
     (("arguments"), encodeOpt (fun ys => Json.arr (ys.map (encodeExpressionF fuel))) x4),
     (("src"), Json.str (encode_location x5))]

def encodeModifierDefinitionFieldsF : Nat → ModifierDefinition → List (String × Json)
  | 0, _ => []
  | fuel + 1, .mk x1 x2 x3 x4 x5 x6 x7 x8 x9 x10 x11 =>
    [(("id"), Json.num x1),
     (("name"), Json.str x2),
     (("virtual"), Json.bool x3),
     (("visibility"), Json.str (encodeVisibility x4)),
     (("parameters"), Json.obj (encodeParameterListFieldsF fuel x5)),
     (("body"), encodeOpt (fun y => Json.obj (encodeBlockFieldsF fuel y)) x6),
     (("src"), Json.str (encode_location x7)),
     (("scope"), encodeOpt (fun y => Json.num y) x8),
     (("documentation"), encodeOpt encodeDocumentation x9),
     (("overrides"), encodeOpt encodeOverrideSpecifier x10),
     (("nodes"), Json.arr (x11.map (fun n => nomatch n)))]

def encodeFunctionDefinitionFieldsF : Nat → FunctionDefinition → List (String × Json)
  | 0, _ => []
  | fuel + 1, .mk x1 x2 x3 x4 x5 x6 x7 x8 x9 x10 x11 x12 x13 x14 x15 x16 x17 x18 x19 =>
    [(("id"), Json.num x1),
     (("name"), Json.str x2),
     (("virtual"), Json.bool x3),
     (("kind"), Json.str (encodeFunctionKind x4)),
     (("visibility"), Json.str (encodeVisibility x5)),
     (("stateMutability"), Json.str (encodeStateMutability x6)),
     (("body"), encodeOpt (fun y => Json.obj (encodeBlockFieldsF fuel y)) x7),
     (("parameters"), Json.obj (encodeParameterListFieldsF fuel x8)),
     (("returnParameters"), Json.obj (encodeParameterListFieldsF fuel x9)),
     (("modifiers"), Json.arr (x10.map ((fun y => Json.obj (encodeModifierInvocationFieldsF fuel y))))),
     (("src"), Json.str (encode_location x11)),
     (("scope"), Json.num x12),
     (("implemented"), Json.bool x13),
     (("documentation"), encodeOpt encodeDocumentation x14),
     (("overrides"), encodeOpt encodeOverrideSpecifier x15),
     (("baseFunctions"), encodeOpt (fun ys => Json.arr (ys.map (fun y => Json.num y))) x16),
     (("functionSelector"), encodeOpt (fun y => Json.str y) x17),
     (("nameLocation"), encodeOpt (fun y => Json.str y) x18),
     (("nodes"), Json.arr (x19.map (fun n => nomatch n)))]

def encodeEventDefinitionFieldsF : Nat → EventDefinition → List (String × Json)
  | 0, _ => []
  | fuel + 1, .mk x1 x2 x3 x4 x5 x6 x7 x8 x9 x10 =>
    [(("id"), Json.num x1),
     (("name"), Json.str x2),
     (("anonymous"), Json.bool x3),
     (("eventSelector"), encodeOpt (fun y => Json.str y) x4),
     (("parameters"), Json.obj (encodeParameterListFieldsF fuel x5)),
     (("src"), Json.str (encode_location x6)),
     (("scope"), encodeOpt (fun y => Json.num y) x7),
     (("nameLocation"), encodeOpt (fun y => Json.str y) x8),
     (("nodes"), Json.arr (x9.map (fun n => nomatch n))),
     (("documentation"), encodeOpt encodeDocumentation x10)]

def encodeErrorDefinitionFieldsF : Nat → ErrorDefinition → List (String × Json)
  | 0, _ => []
  | fuel + 1, .mk x1 x2 x3 x4 x5 x6 x7 =>
    [(("id"), Json.num x1),
     (("name"), Json.str x2),
     (("parameters"), Json.obj (encodeParameterListFieldsF fuel x3)),
     (("src"), Json.str (encode_location x4)),
     (("scope"), encodeOpt (fun y => Json.num y) x5),
     (("documentation"), encodeOpt encodeDocumentation x6),
     (("nodes"), Json.arr (x7.map (fun n => nomatch n)))]

def encodeStructDefinitionFieldsF : Nat → StructDefinition → List (String × Json)
  | 0, _ => []
  | fuel + 1, .mk x1 x2 x3 x4 x5 x6 x7 x8 x9 =>
    [(("id"), Json.num x1),
     (("name"), Json.str x2),
     (("members"), Json.arr (x3.map ((fun y => Json.obj (encodeVariableDeclarationFieldsF fuel y))))),
     (("src"), Json.str (encode_location x4)),
     (("scope"), encodeOpt (fun y => Json.num y) x5),
     (("documentation"), encodeOpt encodeDocumentation x6),
     (("canonicalName"), encodeOpt (fun y => Json.str y) x7),
     (("usedInEvents"), encodeOpt (fun y => Json.bool y) x8),
     (("nodes"), Json.arr (x9.map (fun n => nomatch n)))]

def encodeUserDefinedValueTypeDefinitionFieldsF : Nat → UserDefinedValueTypeDefinition → List (String × Json)
  | 0, _ => []
  | fuel + 1, .mk x1 x2 x3 x4 x5 x6 x7 =>
    [(("id"), Json.num x1),
     (("name"), Json.str x2),
     (("src"), Json.str (encode_location x3)),
     (("nodes"), Json.arr (x4.map (fun n => nomatch n))),
     (("canonicalName"), encodeOpt (fun y => Json.str y) x5),
     (("nameLocation"), encodeOpt (fun y => Json.str y) x6),
     (("underlyingType"), encodeTypeNameF fuel x7)]

def encodeInheritanceSpecifierFieldsF : Nat → InheritanceSpecifier → List (String × Json)
  | 0, _ => []
  | fuel + 1, .mk x1 x2 x3 x4 =>
    [(("id"), Json.num x1),
     (("baseName"), encodeIdentifierPath x2),
     (("arguments"), encodeOpt (fun ys => Json.arr (ys.map (encodeExpressionF fuel))) x3),
     (("src"), Json.str (encode_location x4))]

def encodeContractDefinitionFieldsF : Nat → ContractDefinition → List (String × Json)
  | 0, _ => []
  | fuel + 1, .mk x1 x2 x3 x4 x5 x6 x7 x8 x9 x10 x11 x12 x13 x14 x15 x16 =>
    [(("id"), Json.num x1),
     (("name"), Json.str x2),
     (("contractKind"), Json.str (encodeContractKind x3)),
     (("abstract"), Json.bool x4),
     (("fullyImplemented"), Json.bool x5),
     (("linearizedBaseContracts"), Json.arr (x6.map (fun y => Json.num y))),
     (("nodes"), Json.arr (x7.map (encodeContractDefinitionNodeF fuel))),
     (("scope"), encodeOpt (fun y => Json.num y) x8),
     (("src"), Json.str (encode_location x9)),
     (("documentation"), encodeOpt encodeDocumentation x10),
     (("baseContracts"), encodeOpt (fun ys => Json.arr (ys.map ((fun y => Json.obj (encodeInheritanceSpecifierFieldsF fuel y))))) x11),
     (("canonicalName"), encodeOpt (fun y => Json.str y) x12),
     (("contractDependencies"), encodeOpt (fun ys => Json.arr (ys.map (fun y => Json.num y))) x13),
     (("nameLocation"), encodeOpt (fun y => Json.str y) x14),
     (("usedErrors"), encodeOpt (fun ys => Json.arr (ys.map (fun y => Json.num y))) x15),
     (("usedEvents"), encodeOpt (fun ys => Json.arr (ys.map (fun y => Json.num y))) x16)]

end

def encodeSourceUnitFieldsF (fuel : Nat) : SourceUnit → List (String × Json)
  | .mk x1 x2 x3 x4 x5 x6 =>
    [(("id"), Json.num x1), (("absolutePath"), Json.str x2),
     (("exportedSymbols"), Json.obj (x3.map (fun e => (e.1, Json.arr (e.2.map (fun y => Json.num y)))))),
     (("src"), Json.str (encode_location x4)),
     (("nodes"), Json.arr (x5.map (encodeSourceUnitNodeF fuel))),
     (("license"), encodeOpt (fun y => Json.str y) x6)]

def encodeSourceUnit (fuel : Nat) (u : SourceUnit) : Json :=
  .obj (encodeSourceUnitFieldsF fuel u)

/-! ### Fuel and lookup lemmas for the round-trip -/

theorem jsonEntriesFuel_append (a b : List (String × Json)) :
    jsonEntriesFuel (a ++ b) = jsonEntriesFuel a + jsonEntriesFuel b := by
  induction a with
  | nil => simp [jsonEntriesFuel]
  | cons e rest ih =>
    obtain ⟨k, v⟩ := e
    rw [List.cons_append, jsonEntriesFuel, jsonEntriesFuel, ih]
    omega

theorem jsonListFuel_of_mem {v : Json} {l : List Json} (h : v ∈ l) :
    jsonFuel v ≤ jsonListFuel l := by
  induction l with
  | nil => cases h
  | cons x rest ih =>
    rw [jsonListFuel]
    rcases List.mem_cons.mp h with rfl | h2
    · omega
    · have := ih h2
      omega

theorem jsonEntriesFuel_of_mem {k : String} {v : Json} {l : List (String × Json)}
    (h : (k, v) ∈ l) : jsonFuel v ≤ jsonEntriesFuel l := by
  induction l with
  | nil => cases h
  | cons e rest ih =>
    obtain ⟨k0, v0⟩ := e
    rw [jsonEntriesFuel]
    rcases List.mem_cons.mp h with heq | h2
    · cases heq
      omega
    · have := ih h2
      omega

theorem lookupField_append_nt {nt : List (String × Json)}
    (hnt : ∀ e ∈ nt, e.1 = ("nodeType")) {k : String} (hk : k ≠ ("nodeType"))
    (l : List (String × Json)) : lookupField (nt ++ l) k = lookupField l k := by
  induction nt with
  | nil => rfl
  | cons e rest ih =>
    obtain ⟨k0, v0⟩ := e
    rw [List.cons_append, lookupField_cons]
    have hk0 : k0 = ("nodeType") := hnt (k0, v0) (by simp)
    rw [if_neg (by rw [hk0]; exact fun hh => hk hh.symm)]
    exact ih (fun e he => hnt e (by simp [he]))

/-! ### Field-combinator inversion and reconstruction -/

theorem inKey_ok_inv {α : Type} {k : String} {r : DRes α} {a : α}
    (h : inKey k r = .ok a) : r = .ok a := by
  match r with
  | .ok b => rw [inKey_ok] at h; exact h
  | .error e => rw [inKey_error] at h; exact Except.noConfusion h

theorem inKey_map_some_ok {α : Type} {k : String} {r : DRes α} {b : α}
    (h : inKey k (r.map Option.some) = .ok (some b)) : r = .ok b := by
  match r with
  | .ok c =>
    rw [dres_map_ok, inKey_ok] at h
    have := Except.ok.inj h
    rw [Option.some.inj this]
  | .error e => rw [dres_map_error, inKey_error] at h; exact Except.noConfusion h

theorem dres_map_some_ok {α : Type} {r : DRes α} {b : α}
    (h : r.map Option.some = .ok (some b)) : r = .ok b := by
  match r with
  | .ok c =>
    rw [dres_map_ok] at h
    have := Except.ok.inj h
    rw [Option.some.inj this]
  | .error e => rw [dres_map_error] at h; exact Except.noConfusion h

theorem reqField_ok {α : Type} {o : List (String × Json)} {k : String}
    {f : Json → DRes α} {a : α} (h : reqField o k f = .ok a) :
    ∃ v, lookupField o k = some v ∧ f v = .ok a := by
  rw [reqField] at h
  match hl : lookupField o k with
  | none => rw [hl] at h; exact Except.noConfusion h
  | some v =>
    rw [hl] at h
    exact ⟨v, rfl, inKey_ok_inv h⟩

theorem reqField_of_lookup {α : Type} {o : List (String × Json)} {k : String} {w : Json}
    {f : Json → DRes α} {a : α} (hl : lookupField o k = some w) (hf : f w = .ok a) :
    reqField o k f = .ok a := by
  rw [reqField, hl]
  dsimp only
  rw [hf, inKey_ok]

theorem optField_ok_some {α : Type} {o : List (String × Json)} {k : String}
    {f : Json → DRes α} {b : α} (h : optField o k f = .ok (some b)) :
    ∃ v, lookupField o k = some v ∧ v ≠ Json.null ∧ f v = .ok b := by
  rw [optField] at h
  match hl : lookupField o k with
  | none =>
    rw [hl] at h
    exact absurd (Except.ok.inj h) (by simp)
  | some v =>
    rw [hl] at h
    refine ⟨v, rfl, ?_⟩
    cases v
    case null => exact absurd (Except.ok.inj h) (by simp)
    all_goals exact ⟨fun hh => Json.noConfusion hh, inKey_map_some_ok h⟩

theorem optField_restore {α : Type} {o : List (String × Json)} {k : String}
    {f : Json → DRes α} {xo : Option α} {enc : α → Json}
    (hl : lookupField o k = some (encodeOpt enc xo))
    (htr : ∀ b, xo = some b → f (enc b) = .ok b ∧ enc b ≠ Json.null) :
    optField o k f = .ok xo := by
  cases xo with
  | none =>
    rw [optField, hl]
    rfl
  | some b =>
    obtain ⟨hf, hne⟩ := htr b rfl
    rw [optField, hl]
    show (match some (enc b) with
      | none => (.ok none : DRes (Option α))
      | some .null => .ok none
      | some v => inKey k ((f v).map Option.some)) = .ok (some b)
    rcases henc : enc b with _ | c | c | c | c | c
    · exact absurd henc hne
    all_goals (dsimp only; rw [← henc, hf, dres_map_ok, inKey_ok])

theorem defField_ok {α : Type} {o : List (String × Json)} {k : String} {dflt : α}
    {f : Json → DRes α} {x : α} (h : defField o k dflt f = .ok x) :
    x = dflt ∨ ∃ v, lookupField o k = some v ∧ f v = .ok x := by
  rw [defField] at h
  match hl : lookupField o k with
  | none =>
    rw [hl] at h
    exact Or.inl (Except.ok.inj h).symm
  | some v =>
    rw [hl] at h
    exact Or.inr ⟨v, rfl, inKey_ok_inv h⟩

theorem defField_of_lookup {α : Type} {o : List (String × Json)} {k : String} {w : Json}
    {dflt : α} {f : Json → DRes α} {x : α}
    (hl : lookupField o k = some w) (hf : f w = .ok x) :
    defField o k dflt f = .ok x := by
  rw [defField, hl]
  dsimp only
  rw [hf, inKey_ok]

theorem reqField2_ok {α : Type} {o : List (String × Json)} {k1 k2 : String}
    {f : Json → DRes α} {a : α} (h : reqField2 o k1 k2 f = .ok a) :
    ∃ v, f v = .ok a := by
  rw [reqField2] at h
  match hl1 : lookupField o k1 with
  | some v =>
    rw [hl1] at h
    exact ⟨v, inKey_ok_inv h⟩
  | none =>
    rw [hl1] at h
    match hl2 : lookupField o k2 with
    | some v =>
      rw [hl2] at h
      exact ⟨v, inKey_ok_inv h⟩
    | none => rw [hl2] at h; exact Except.noConfusion h

theorem reqField2_of_lookup1 {α : Type} {o : List (String × Json)} {k1 k2 : String}
    {w : Json} {f : Json → DRes α} {a : α}
    (hl : lookupField o k1 = some w) (hf : f w = .ok a) :
    reqField2 o k1 k2 f = .ok a := by
  rw [reqField2, hl]
  dsimp only
  rw [hf, inKey_ok]

theorem decodeListWith_restore {α : Type} {f g : Json → DRes α} {enc : α → Json} :
    ∀ (i : Nat) (vs : List Json) (xs : List α),
      decodeListWith f i vs = .ok xs →
      (∀ v x, v ∈ vs → x ∈ xs → f v = .ok x → g (enc x) = .ok x) →
      decodeListWith g i (xs.map enc) = .ok xs := by
  intro i vs
  induction vs generalizing i with
  | nil =>
    intro xs h htr
    rw [decodeListWith] at h
    have := Except.ok.inj h
    subst this
    rfl
  | cons v rest ih =>
    intro xs h htr
    rw [decodeListWith] at h
    match hf : f v with
    | .error e => rw [hf, inIdx_error] at h; exact Except.noConfusion h
    | .ok a =>
      rw [hf, inIdx_ok] at h
      dsimp only at h
      match hr : decodeListWith f (i + 1) rest with
      | .error e => rw [hr] at h; exact Except.noConfusion h
      | .ok as =>
        rw [hr] at h
        dsimp only at h
        have hxs := Except.ok.inj h
        subst hxs
        rw [List.map_cons, decodeListWith]
        have hga : g (enc a) = .ok a := htr v a (by simp) (by simp) hf
        rw [hga, inIdx_ok]
        dsimp only
        rw [ih (i + 1) as hr (fun w x hw hx hfx => htr w x (by simp [hw]) (by simp [hx]) hfx)]

theorem decodeArr_ok {α : Type} {f : Json → DRes α} {w : Json} {xs : List α}
    (h : decodeArr f w = .ok xs) :
    ∃ vs, w = .arr vs ∧ decodeListWith f 0 vs = .ok xs := by
  cases w <;> first
    | exact Except.noConfusion h
    | exact ⟨_, rfl, h⟩

theorem decodeArr_restore {α : Type} {f g : Json → DRes α} {enc : α → Json}
    {w : Json} {xs : List α} (h : decodeArr f w = .ok xs)
    (htr : ∀ v x, x ∈ xs → f v = .ok x → g (enc x) = .ok x) :
    decodeArr g (.arr (xs.map enc)) = .ok xs := by
  obtain ⟨vs, rfl, hl⟩ := decodeArr_ok h
  exact decodeListWith_restore 0 vs xs hl (fun v x hv hx hfx => htr v x hx hfx)

theorem decodeNullable_ok_some {α : Type} {f : Json → DRes α} {v : Json} {b : α}
    (h : decodeNullable f v = .ok (some b)) : ∃ w, f w = .ok b := by
  cases v
  case null => exact absurd (Except.ok.inj h) (by simp)
  all_goals exact ⟨_, dres_map_some_ok h⟩

theorem decodeNullable_restore {α : Type} {f g : Json → DRes α} {enc : α → Json}
    {v : Json} {xo : Option α} (h : decodeNullable f v = .ok xo)
    (htr : ∀ b, xo = some b → g (enc b) = .ok b ∧ enc b ≠ Json.null) :
    decodeNullable g (encodeOpt enc xo) = .ok xo := by
  cases xo with
  | none => rfl
  | some b =>
    obtain ⟨hg, hne⟩ := htr b rfl
    show decodeNullable g (enc b) = .ok (some b)
    rcases henc : enc b with _ | c | c | c | c | c
    · exact absurd henc hne
    all_goals (
      rw [← henc]
      have hd : decodeNullable g (enc b) = (g (enc b)).map Option.some := by
        rw [henc]
        rfl
      rw [hd, hg, dres_map_ok])

theorem decodeMapEntries_restore {α : Type} {f g : Json → DRes α} {enc : α → Json} :
    ∀ (es : List (String × Json)) (xs : List (String × α)),
      decodeMapEntries f es = .ok xs →
      (∀ v x, f v = .ok x → g (enc x) = .ok x) →
      decodeMapEntries g (xs.map (fun e => (e.1, enc e.2))) = .ok xs := by
  intro es
  induction es with
  | nil =>
    intro xs h htr
    rw [decodeMapEntries] at h
    have := Except.ok.inj h
    subst this
    rfl
  | cons e rest ih =>
    intro xs h htr
    obtain ⟨k, v⟩ := e
    rw [decodeMapEntries] at h
    match hf : f v with
    | .error er => rw [hf, inKey_error] at h; exact Except.noConfusion h
    | .ok a =>
      rw [hf, inKey_ok] at h
      dsimp only at h
      match hr : decodeMapEntries f rest with
      | .error er => rw [hr] at h; exact Except.noConfusion h
      | .ok as =>
        rw [hr] at h
        dsimp only at h
        have hxs := Except.ok.inj h
        subst hxs
        rw [List.map_cons]
        rw [decodeMapEntries]
        have hga : g (enc a) = .ok a := htr v a hf
        rw [hga, inKey_ok]
        dsimp only
        rw [ih as hr htr]

theorem decodeMap_ok {α : Type} {f : Json → DRes α} {w : Json} {xs : List (String × α)}
    (h : decodeMap f w = .ok xs) :
    ∃ es, w = .obj es ∧ decodeMapEntries f es = .ok xs := by
  cases w <;> first
    | exact Except.noConfusion h
    | exact ⟨_, rfl, h⟩

theorem decodeTaggedEmpty_error {α : Type} (v : Json) :
    ∃ e, decodeTaggedEmpty (α := α) v = .error e := by
  cases v
  case obj o =>
    rcases hl : lookupField o (("nodeType")) with _ | w
    · exact ⟨_, by rw [decodeTaggedEmpty, hl]⟩
    · cases w
      all_goals exact ⟨_, by rw [decodeTaggedEmpty, hl]⟩
  all_goals exact ⟨_, rfl⟩

theorem decodeListWith_taggedEmpty {α : Type} :
    ∀ (i : Nat) (vs : List Json) (xs : List α),
      decodeListWith decodeTaggedEmpty i vs = .ok xs → xs = [] := by
  intro i vs xs h
  match vs with
  | [] =>
    rw [decodeListWith] at h
    exact (Except.ok.inj h).symm
  | v :: rest =>
    obtain ⟨e, he⟩ := decodeTaggedEmpty_error (α := α) v
    rw [decodeListWith, he, inIdx_error] at h
    exact Except.noConfusion h

/-! ### Scalar restore lemmas -/

theorem decodeI64_restore {v : Json} {n : Int} (h : decodeI64 v = .ok n) :
    decodeI64 (.num n) = .ok n := by
  cases v <;> try exact Except.noConfusion h
  case num m =>
    rw [decodeI64] at h
    rw [decodeI64]
    split at h
    · have := Except.ok.inj h
      subst this
      rw [if_pos ‹_›]
    · exact Except.noConfusion h

theorem decodeString_restore {v : Json} {s : String} (h : decodeString v = .ok s) :
    decodeString (.str s) = .ok s := rfl

theorem decodeBool_restore {v : Json} {b : Bool} (h : decodeBool v = .ok b) :
    decodeBool (.bool b) = .ok b := rfl

theorem deserialize_bool_or_int_restore {v : Json} {b : Bool}
    (h : deserialize_bool_or_int v = .ok b) :
    deserialize_bool_or_int (.bool b) = .ok b := rfl

theorem decodeJson_ok {v w : Json} (h : decodeJson v = .ok w) : v = w :=
  Except.ok.inj h

theorem decodeContractKind_restore {v : Json} {k : ContractKind}
    (h : decodeContractKind v = .ok k) :
    decodeContractKind (.str (encodeContractKind k)) = .ok k := by
  cases k <;> rfl

theorem decodeFunctionKind_restore {v : Json} {k : FunctionKind}
    (h : decodeFunctionKind v = .ok k) :
    decodeFunctionKind (.str (encodeFunctionKind k)) = .ok k := by
  cases k <;> rfl

theorem decodeVisibility_restore {v : Json} {k : Visibility}
    (h : decodeVisibility v = .ok k) :
    decodeVisibility (.str (encodeVisibility k)) = .ok k := by
  cases k <;> rfl

theorem decodeStateMutability_restore {v : Json} {k : StateMutability}
    (h : decodeStateMutability v = .ok k) :
    decodeStateMutability (.str (encodeStateMutability k)) = .ok k := by
  cases k <;> rfl

theorem decodeStorageLocation_restore {v : Json} {k : StorageLocation}
    (h : decodeStorageLocation v = .ok k) :
    decodeStorageLocation (.str (encodeStorageLocation k)) = .ok k := by
  cases k <;> rfl

theorem decodeMutability_restore {v : Json} {k : Mutability}
    (h : decodeMutability v = .ok k) :
    decodeMutability (.str (encodeMutability k)) = .ok k := by
  cases k <;> rfl

theorem decodeLiteralKind_restore {v : Json} {k : LiteralKind}
    (h : decodeLiteralKind v = .ok k) :
    decodeLiteralKind (.str (encodeLiteralKind k)) = .ok k := by
  cases k <;> rfl

theorem decodeModifierInvocationKind_restore {v : Json} {k : ModifierInvocationKind}
    (h : decodeModifierInvocationKind v = .ok k) :
    decodeModifierInvocationKind (.str (encodeModifierInvocationKind k)) = .ok k := by
  cases k <;> rfl

theorem decodeTypeDescriptions_restore {v : Json} {td : TypeDescriptions}
    (h : decodeTypeDescriptions v = .ok td) :
    decodeTypeDescriptions (encodeTypeDescriptions td) = .ok td := by
  obtain ⟨ti, ts⟩ := td
  cases ti <;> cases ts <;> rfl


theorem decodeLocationChars_inRange {cs : List Char} {l : SourceLocation}
    (h : decodeLocationChars cs = .ok l) :
    l.offset < USIZE_BOUND ∧ l.length < USIZE_BOUND ∧ l.source_index < USIZE_BOUND := by
  rw [decodeLocationChars] at h
  match hsp : splitOnChar ':' cs with
  | [] => rw [hsp] at h; exact Except.noConfusion h
  | [p1] => rw [hsp] at h; exact Except.noConfusion h
  | [p1, p2] => rw [hsp] at h; exact Except.noConfusion h
  | p1 :: p2 :: p3 :: p4 :: rest => rw [hsp] at h; exact Except.noConfusion h
  | [p1, p2, p3] =>
    rw [hsp] at h
    dsimp only at h
    match hq1 : parseRustNat USIZE_BOUND p1 with
    | none => rw [hq1] at h; exact Except.noConfusion h
    | some o =>
      rw [hq1] at h
      dsimp only at h
      match hq2 : parseRustNat USIZE_BOUND p2 with
      | none => rw [hq2] at h; exact Except.noConfusion h
      | some ln =>
        rw [hq2] at h
        dsimp only at h
        match hq3 : parseRustNat USIZE_BOUND p3 with
        | none => rw [hq3] at h; exact Except.noConfusion h
        | some ix =>
          rw [hq3] at h
          dsimp only at h
          have he := Except.ok.inj h
          subst he
          exact ⟨parseRustNat_lt hq1, parseRustNat_lt hq2, parseRustNat_lt hq3⟩

/-- The source-location round-trip at in-range components (shared helper
for the document round-trip; the bounds come from decode success). -/
theorem decode_location_restore {l : SourceLocation}
    (h1 : l.offset < USIZE_BOUND) (h2 : l.length < USIZE_BOUND)
    (h3 : l.source_index < USIZE_BOUND) :
    decode_location (encode_location l) = .ok l := by
  obtain ⟨o, ln, i⟩ := l
  have hco : (':' : Char) ∉ showNatRec o := showNatRec_not_mem (by decide) o
  have hcl : (':' : Char) ∉ showNatRec ln := showNatRec_not_mem (by decide) ln
  have hci : (':' : Char) ∉ showNatRec i := showNatRec_not_mem (by decide) i
  have hsplit : splitOnChar ':' (encodeLocationChars ⟨o, ln, i⟩) =
      [showNatRec o, showNatRec ln, showNatRec i] := by
    rw [encodeLocationChars]
    simp only [showNat_eq]
    rw [splitOnChar_append_cons _ hco, splitOnChar_append_cons _ hcl,
      splitOnChar_of_not_mem hci]
  rw [decode_location, encode_location]
  show decodeLocationChars (encodeLocationChars ⟨o, ln, i⟩) = _
  rw [decodeLocationChars, hsplit]
  simp only [parseRustNat_showNatRec h1, parseRustNat_showNatRec h2,
    parseRustNat_showNatRec h3]

theorem decodeSrc_restore {v : Json} {l : SourceLocation} (h : decodeSrc v = .ok l) :
    decodeSrc (.str (encode_location l)) = .ok l := by
  have hb : l.offset < USIZE_BOUND ∧ l.length < USIZE_BOUND ∧
      l.source_index < USIZE_BOUND := by
    cases v <;> try exact Except.noConfusion h
    case str s =>
      rw [decodeSrc] at h
      match hd : decode_location s with
      | .ok l2 =>
        rw [hd] at h
        dsimp only at h
        have he := Except.ok.inj h
        subst he
        rw [decode_location] at hd
        exact decodeLocationChars_inRange hd
      | .error e => rw [hd] at h; exact Except.noConfusion h
  rw [decodeSrc, decode_location_restore hb.1 hb.2.1 hb.2.2]

/-- The value space of the inline elementary-type decoder of src/ast.rs:
widths fit in a u16, a fixed-size bytes width is nonzero (a zero suffix
collapses to dynamic bytes), and no ufixed/fixed value is ever
produced (that decoder has no branch for them). -/
def elemAstOk : ElementaryType → Prop
  | .Uint bits => bits < U16_BOUND
  | .Int bits => bits < U16_BOUND
  | .FixedBytes size => size ≠ 0 ∧ size < U16_BOUND
  | .Ufixed _ _ => False
  | .Fixed _ _ => False
  | _ => True

theorem decodeElementaryAstChars_ok {cs : List Char} {t : ElementaryType}
    (h : decodeElementaryAstChars cs = .ok t) : elemAstOk t := by
  rw [decodeElementaryAstChars] at h
  split_ifs at h with h1 h2 h3 h4 h5 h6 h7 h8 h9 h10
  · have := Except.ok.inj h
    subst this
    trivial
  · have := Except.ok.inj h
    subst this
    trivial
  · have := Except.ok.inj h
    subst this
    trivial
  · have := Except.ok.inj h
    subst this
    trivial
  · have := Except.ok.inj h
    subst this
    trivial
  · -- uint, length 4
    have := Except.ok.inj h
    subst this
    show (256 : Nat) < U16_BOUND
    decide
  · -- uint with suffix
    match hq : parseRustNat U16_BOUND (cs.drop 4) with
    | none => rw [hq] at h; exact Except.noConfusion h
    | some bits =>
      rw [hq] at h
      dsimp only at h
      have := Except.ok.inj h
      subst this
      exact parseRustNat_lt hq
  · -- int, length 3
    have := Except.ok.inj h
    subst this
    show (256 : Nat) < U16_BOUND
    decide
  · -- int with suffix
    match hq : parseRustNat U16_BOUND (cs.drop 3) with
    | none => rw [hq] at h; exact Except.noConfusion h
    | some bits =>
      rw [hq] at h
      dsimp only at h
      have := Except.ok.inj h
      subst this
      exact parseRustNat_lt hq
  · -- bytes, length 5
    have := Except.ok.inj h
    subst this
    trivial
  · -- bytes with suffix
    match hq : parseRustNat U16_BOUND (cs.drop 5) with
    | none => rw [hq] at h; exact Except.noConfusion h
    | some size =>
      rw [hq] at h
      dsimp only at h
      by_cases hz : size = 0
      · rw [if_pos hz] at h
        have := Except.ok.inj h
        subst this
        trivial
      · rw [if_neg hz] at h
        have := Except.ok.inj h
        subst this
        exact ⟨hz, parseRustNat_lt hq⟩

theorem decodeElementaryAstChars_restore {t : ElementaryType} (h : elemAstOk t) :
    decodeElementaryAstChars (encodeElementaryChars t) = .ok t := by
  match t with
  | .Address => decide
  | .Payable => decide
  | .Bool => decide
  | .String => decide
  | .Bytes => decide
  | .Ufixed a b => exact h.elim
  | .Fixed a b => exact h.elim
  | .Uint bits =>
    rw [encodeElementaryChars, showNat_eq]
    have hne := showNatRec_ne_nil bits
    rw [decodeElementaryAstChars]
    rw [if_neg (by simp), if_neg (by simp), if_neg (by simp), if_neg (by simp),
      if_neg (by simp)]
    rw [if_pos (by simp [List.isPrefixOf])]
    rw [if_neg (by
      intro hlen
      rw [List.length_append] at hlen
      have hp : 0 < (showNatRec bits).length := List.length_pos.mpr hne
      rw [show ((("uint").data).length) = 4 from rfl] at hlen
      omega)]
    rw [show ((("uint").data ++ showNatRec bits).drop 4) = showNatRec bits from
      List.drop_left ("uint").data (showNatRec bits)]
    rw [parseRustNat_showNatRec h]
  | .Int bits =>
    rw [encodeElementaryChars, showNat_eq]
    have hne := showNatRec_ne_nil bits
    rw [decodeElementaryAstChars]
    rw [if_neg (by simp), if_neg (by simp), if_neg (by simp), if_neg (by simp),
      if_neg (by simp), if_neg (by simp [List.isPrefixOf])]
    rw [if_pos (by simp [List.isPrefixOf])]
    rw [if_neg (by
      intro hlen
      rw [List.length_append] at hlen
      have hp : 0 < (showNatRec bits).length := List.length_pos.mpr hne
      rw [show ((("int").data).length) = 3 from rfl] at hlen
      omega)]
    rw [show ((("int").data ++ showNatRec bits).drop 3) = showNatRec bits from
      List.drop_left ("int").data (showNatRec bits)]
    rw [parseRustNat_showNatRec h]
  | .FixedBytes size =>
    obtain ⟨hz, hlt⟩ := h
    rw [encodeElementaryChars, showNat_eq]
    have hne := showNatRec_ne_nil size
    rw [decodeElementaryAstChars]
    rw [if_neg (by simp), if_neg (by simp), if_neg (by simp), if_neg (by simp),
      if_neg (by simp [hne]), if_neg (by simp [List.isPrefixOf]),
      if_neg (by simp [List.isPrefixOf])]
    rw [if_pos (by simp [List.isPrefixOf])]
    rw [if_neg (by
      intro hlen
      rw [List.length_append] at hlen
      have hp : 0 < (showNatRec size).length := List.length_pos.mpr hne
      rw [show ((("bytes").data).length) = 5 from rfl] at hlen
      omega)]
    rw [show ((("bytes").data ++ showNatRec size).drop 5) = showNatRec size from
      List.drop_left ("bytes").data (showNatRec size)]
    rw [parseRustNat_showNatRec hlt]
    dsimp only
    rw [if_neg hz]

theorem decodeElem_restore {v : Json} {t : ElementaryType} (h : decodeElem v = .ok t) :
    decodeElem (.str (encode_elementary t)) = .ok t := by
  have hok : elemAstOk t := by
    cases v <;> try exact Except.noConfusion h
    case str s =>
      rw [decodeElem] at h
      match hd : decodeElementaryAstChars s.data with
      | .ok t2 =>
        rw [hd] at h
        dsimp only at h
        have he := Except.ok.inj h
        subst he
        exact decodeElementaryAstChars_ok hd
      | .error e => rw [hd] at h; exact Except.noConfusion h
  rw [decodeElem]
  rw [show decodeElementaryAstChars ((encode_elementary t).data) = .ok t from
    decodeElementaryAstChars_restore hok]

theorem dres_map_ok_inv {α β : Type} {r : DRes α} {f : α → β} {b : β}
    (h : r.map f = .ok b) : ∃ c, r = .ok c ∧ b = f c := by
  match r with
  | .ok c => exact ⟨c, rfl, (Except.ok.inj h).symm⟩
  | .error e => exact Except.noConfusion h

theorem decodeCommonType_restore (nt : List (String × Json))
    (hnt : ∀ e ∈ nt, e.1 = ("nodeType")) {v : Json} {a : CommonType}
    (h : decodeCommonType v = .ok a) :
    decodeCommonType (.obj (nt ++ encodeCommonTypeFields a)) = .ok a := by
  cases v <;> try exact Except.noConfusion h
  case obj o =>
    rw [decodeCommonType] at h
    simp only [dres_bind_eq_ok] at h
    obtain ⟨x1, hx1, x2, hx2, hp⟩ := h
    simp only [dres_pure, Except.ok.injEq] at hp
    subst hp
    set enc2 := nt ++ encodeCommonTypeFields (.mk x1 x2) with henc2
    have hl1 : lookupField enc2 (("typeIdentifier")) = some (Json.str x1) := by
      rw [henc2, lookupField_append_nt hnt (by decide)]
      rfl
    obtain ⟨w1, hw1, hf1⟩ := reqField_ok hx1
    have hg1 : reqField enc2 (("typeIdentifier")) (decodeString) = .ok x1 :=
      reqField_of_lookup hl1 (decodeString_restore hf1)
    have hl2 : lookupField enc2 (("typeString")) = some (Json.str x2) := by
      rw [henc2, lookupField_append_nt hnt (by decide)]
      rfl
    obtain ⟨w2, hw2, hf2⟩ := reqField_ok hx2
    have hg2 : reqField enc2 (("typeString")) (decodeString) = .ok x2 :=
      reqField_of_lookup hl2 (decodeString_restore hf2)
    rw [decodeCommonType]
    simp only [hg1, hg2, dres_bind_ok, dres_pure]

theorem decodeSDParameter_restore (nt : List (String × Json))
    (hnt : ∀ e ∈ nt, e.1 = ("nodeType")) {v : Json} {a : StructuredDocumentationParameter}
    (h : decodeSDParameter v = .ok a) :
    decodeSDParameter (.obj (nt ++ encodeSDParameterFields a)) = .ok a := by
  cases v <;> try exact Except.noConfusion h
  case obj o =>
    rw [decodeSDParameter] at h
    simp only [dres_bind_eq_ok] at h
    obtain ⟨x1, hx1, x2, hx2, hp⟩ := h
    simp only [dres_pure, Except.ok.injEq] at hp
    subst hp
    set enc2 := nt ++ encodeSDParameterFields (.mk x1 x2) with henc2
    have hl1 : lookupField enc2 (("name")) = some (Json.str x1) := by
      rw [henc2, lookupField_append_nt hnt (by decide)]
      rfl
    obtain ⟨w1, hw1, hf1⟩ := reqField_ok hx1
    have hg1 : reqField enc2 (("name")) (decodeString) = .ok x1 :=
      reqField_of_lookup hl1 (decodeString_restore hf1)
    have hl2 : lookupField enc2 (("description")) = some (Json.str x2) := by
      rw [henc2, lookupField_append_nt hnt (by decide)]
      rfl
    obtain ⟨w2, hw2, hf2⟩ := reqField_ok hx2
    have hg2 : reqField enc2 (("description")) (decodeString) = .ok x2 :=
      reqField_of_lookup hl2 (decodeString_restore hf2)
    rw [decodeSDParameter]
    simp only [hg1, hg2, dres_bind_ok, dres_pure]

theorem decodeSDReturn_restore (nt : List (String × Json))
    (hnt : ∀ e ∈ nt, e.1 = ("nodeType")) {v : Json} {a : StructuredDocumentationReturn}
    (h : decodeSDReturn v = .ok a) :
    decodeSDReturn (.obj (nt ++ encodeSDReturnFields a)) = .ok a := by
  cases v <;> try exact Except.noConfusion h
  case obj o =>
    rw [decodeSDReturn] at h
    simp only [dres_bind_eq_ok] at h
    obtain ⟨x1, hx1, x2, hx2, hp⟩ := h
    simp only [dres_pure, Except.ok.injEq] at hp
    subst hp
    set enc2 := nt ++ encodeSDReturnFields (.mk x1 x2) with henc2
    have hl1 : lookupField enc2 (("name")) = some (encodeOpt (fun y => Json.str y) x1) := by
      rw [henc2, lookupField_append_nt hnt (by decide)]
      rfl
    have hg1 : optField enc2 (("name")) (decodeString) = .ok x1 :=
      optField_restore hl1 (fun b hb => by
        subst hb
        obtain ⟨w, hw, hwn, hfw⟩ := optField_ok_some hx1
        exact ⟨decodeString_restore hfw, fun hh => Json.noConfusion hh⟩)
    have hl2 : lookupField enc2 (("description")) = some (Json.str x2) := by
      rw [henc2, lookupField_append_nt hnt (by decide)]
      rfl
    obtain ⟨w2, hw2, hf2⟩ := reqField_ok hx2
    have hg2 : reqField enc2 (("description")) (decodeString) = .ok x2 :=
      reqField_of_lookup hl2 (decodeString_restore hf2)
    rw [decodeSDReturn]
    simp only [hg1, hg2, dres_bind_ok, dres_pure]

theorem decodeSDCustom_restore (nt : List (String × Json))
    (hnt : ∀ e ∈ nt, e.1 = ("nodeType")) {v : Json} {a : StructuredDocumentationCustom}
    (h : decodeSDCustom v = .ok a) :
    decodeSDCustom (.obj (nt ++ encodeSDCustomFields a)) = .ok a := by
  cases v <;> try exact Except.noConfusion h
  case obj o =>
    rw [decodeSDCustom] at h
    simp only [dres_bind_eq_ok] at h
    obtain ⟨x1, hx1, x2, hx2, hp⟩ := h
    simp only [dres_pure, Except.ok.injEq] at hp
    subst hp
    set enc2 := nt ++ encodeSDCustomFields (.mk x1 x2) with henc2
    have hl1 : lookupField enc2 (("tag")) = some (Json.str x1) := by
      rw [henc2, lookupField_append_nt hnt (by decide)]
      rfl
    obtain ⟨w1, hw1, hf1⟩ := reqField_ok hx1
    have hg1 : reqField enc2 (("tag")) (decodeString) = .ok x1 :=
      reqField_of_lookup hl1 (decodeString_restore hf1)
    have hl2 : lookupField enc2 (("content")) = some (Json.str x2) := by
      rw [henc2, lookupField_append_nt hnt (by decide)]
      rfl
    obtain ⟨w2, hw2, hf2⟩ := reqField_ok hx2
    have hg2 : reqField enc2 (("content")) (decodeString) = .ok x2 :=
      reqField_of_lookup hl2 (decodeString_restore hf2)
    rw [decodeSDCustom]
    simp only [hg1, hg2, dres_bind_ok, dres_pure]

theorem decodeStructuredDocumentation_restore (nt : List (String × Json))
    (hnt : ∀ e ∈ nt, e.1 = ("nodeType")) {v : Json} {a : StructuredDocumentation}
    (h : decodeStructuredDocumentation v = .ok a) :
    decodeStructuredDocumentation (.obj (nt ++ encodeStructuredDocumentationFields a)) = .ok a := by
  cases v <;> try exact Except.noConfusion h
  case obj o =>
    rw [decodeStructuredDocumentation] at h
    simp only [dres_bind_eq_ok] at h
    obtain ⟨x1, hx1, x2, hx2, x3, hx3, x4, hx4, x5, hx5, x6, hx6, x7, hx7, x8, hx8, x9, hx9, x10, hx10, x11, hx11, hp⟩ := h
    simp only [dres_pure, Except.ok.injEq] at hp
    subst hp
    set enc2 := nt ++ encodeStructuredDocumentationFields (.mk x1 x2 x3 x4 x5 x6 x7 x8 x9 x10 x11) with henc2
    have hl1 : lookupField enc2 (("id")) = some (Json.num x1) := by
      rw [henc2, lookupField_append_nt hnt (by decide)]
      rfl
    obtain ⟨w1, hw1, hf1⟩ := reqField_ok hx1
    have hg1 : reqField enc2 (("id")) (decodeI64) = .ok x1 :=
      reqField_of_lookup hl1 (decodeI64_restore hf1)
    have hl2 : lookupField enc2 (("text")) = some (Json.str x2) := by
      rw [henc2, lookupField_append_nt hnt (by decide)]
      rfl
    obtain ⟨w2, hw2, hf2⟩ := reqField_ok hx2
    have hg2 : reqField enc2 (("text")) (decodeString) = .ok x2 :=
      reqField_of_lookup hl2 (decodeString_restore hf2)
    have hl3 : lookupField enc2 (("src")) = some (Json.str (encode_location x3)) := by
      rw [henc2, lookupField_append_nt hnt (by decide)]
      rfl
    obtain ⟨w3, hw3, hf3⟩ := reqField_ok hx3
    have hg3 : reqField enc2 (("src")) (decodeSrc) = .ok x3 :=
      reqField_of_lookup hl3 (decodeSrc_restore hf3)
    have hl4 : lookupField enc2 (("url")) = some (encodeOpt (fun y => Json.str y) x4) := by
      rw [henc2, lookupField_append_nt hnt (by decide)]
      rfl
    have hg4 : optField enc2 (("url")) (decodeString) = .ok x4 :=
      optField_restore hl4 (fun b hb => by
        subst hb
        obtain ⟨w, hw, hwn, hfw⟩ := optField_ok_some hx4
        exact ⟨decodeString_restore hfw, fun hh => Json.noConfusion hh⟩)
    have hl5 : lookupField enc2 (("author")) = some (encodeOpt (fun y => Json.str y) x5) := by
      rw [henc2, lookupField_append_nt hnt (by decide)]
      rfl
    have hg5 : optField enc2 (("author")) (decodeString) = .ok x5 :=
      optField_restore hl5 (fun b hb => by
        subst hb
        obtain ⟨w, hw, hwn, hfw⟩ := optField_ok_some hx5
        exact ⟨decodeString_restore hfw, fun hh => Json.noConfusion hh⟩)
    have hl6 : lookupField enc2 (("title")) = some (encodeOpt (fun y => Json.str y) x6) := by
      rw [henc2, lookupField_append_nt hnt (by decide)]
      rfl
    have hg6 : optField enc2 (("title")) (decodeString) = .ok x6 :=
      optField_restore hl6 (fun b hb => by
        subst hb
        obtain ⟨w, hw, hwn, hfw⟩ := optField_ok_some hx6
        exact ⟨decodeString_restore hfw, fun hh => Json.noConfusion hh⟩)
    have hl7 : lookupField enc2 (("notice")) = some (encodeOpt (fun y => Json.str y) x7) := by
      rw [henc2, lookupField_append_nt hnt (by decide)]
      rfl
    have hg7 : optField enc2 (("notice")) (decodeString) = .ok x7 :=
      optField_restore hl7 (fun b hb => by
        subst hb
        obtain ⟨w, hw, hwn, hfw⟩ := optField_ok_some hx7
        exact ⟨decodeString_restore hfw, fun hh => Json.noConfusion hh⟩)
    have hl8 : lookupField enc2 (("dev")) = some (encodeOpt (fun y => Json.str y) x8) := by
      rw [henc2, lookupField_append_nt hnt (by decide)]
      rfl
    have hg8 : optField enc2 (("dev")) (decodeString) = .ok x8 :=
      optField_restore hl8 (fun b hb => by
        subst hb
        obtain ⟨w, hw, hwn, hfw⟩ := optField_ok_some hx8
        exact ⟨decodeString_restore hfw, fun hh => Json.noConfusion hh⟩)
    have hl9 : lookupField enc2 (("params")) = some (Json.arr (x9.map encodeSDParameter)) := by
      rw [henc2, lookupField_append_nt hnt (by decide)]
      rfl
    have hfe9 : decodeArr decodeSDParameter (Json.arr (x9.map encodeSDParameter)) = .ok x9 := by
      rcases defField_ok hx9 with h0 | ⟨w, hw, hfw⟩
      · subst h0
        rfl
      · exact decodeArr_restore hfw (fun v2 x hx hfx => decodeSDParameter_restore [] (fun e he => absurd he (List.not_mem_nil e)) hfx)
    have hg9 : defField enc2 (("params")) [] (decodeArr decodeSDParameter) = .ok x9 :=
      defField_of_lookup hl9 hfe9
    have hl10 : lookupField enc2 (("returns")) = some (Json.arr (x10.map encodeSDReturn)) := by
      rw [henc2, lookupField_append_nt hnt (by decide)]
      rfl
    have hfe10 : decodeArr decodeSDReturn (Json.arr (x10.map encodeSDReturn)) = .ok x10 := by
      rcases defField_ok hx10 with h0 | ⟨w, hw, hfw⟩
      · subst h0
        rfl
      · exact decodeArr_restore hfw (fun v2 x hx hfx => decodeSDReturn_restore [] (fun e he => absurd he (List.not_mem_nil e)) hfx)
    have hg10 : defField enc2 (("returns")) [] (decodeArr decodeSDReturn) = .ok x10 :=
      defField_of_lookup hl10 hfe10
    have hl11 : lookupField enc2 (("custom")) = some (Json.arr (x11.map encodeSDCustom)) := by
      rw [henc2, lookupField_append_nt hnt (by decide)]
      rfl
    have hfe11 : decodeArr decodeSDCustom (Json.arr (x11.map encodeSDCustom)) = .ok x11 := by
      rcases defField_ok hx11 with h0 | ⟨w, hw, hfw⟩
      · subst h0
        rfl
      · exact decodeArr_restore hfw (fun v2 x hx hfx => decodeSDCustom_restore [] (fun e he => absurd he (List.not_mem_nil e)) hfx)
    have hg11 : defField enc2 (("custom")) [] (decodeArr decodeSDCustom) = .ok x11 :=
      defField_of_lookup hl11 hfe11
    rw [decodeStructuredDocumentation]
    simp only [hg1, hg2, hg3, hg4, hg5, hg6, hg7, hg8, hg9, hg10, hg11, dres_bind_ok, dres_pure]

theorem decodeDocumentation_restore {v : Json} {d : Documentation}
    (h : decodeDocumentation v = .ok d) :
    decodeDocumentation (encodeDocumentation d) = .ok d := by
  cases d with
  | String s => rfl
  | Structured sd =>
    have hsd : ∃ w, decodeStructuredDocumentation w = .ok sd := by
      cases v
      case str s => exact absurd (Except.ok.inj h) (by simp)
      all_goals (
        dsimp only [decodeDocumentation] at h
        split at h
        · rename_i d2 hs
          have hd2 := Except.ok.inj h
          cases hd2
          exact ⟨_, hs⟩
        · exact Except.noConfusion h)
    obtain ⟨w, hw⟩ := hsd
    have hres := decodeStructuredDocumentation_restore []
      (fun e he => absurd he (List.not_mem_nil e)) hw
    show decodeDocumentation (.obj (encodeStructuredDocumentationFields sd)) =
      .ok (.Structured sd)
    rw [decodeDocumentation]
    rw [show decodeStructuredDocumentation
        (Json.obj (encodeStructuredDocumentationFields sd)) = .ok sd from hres]
    intro s hs2
    exact Json.noConfusion hs2

theorem encodeDocumentation_ne_null (d : Documentation) :
    encodeDocumentation d ≠ Json.null := by
  cases d <;> exact fun hh => Json.noConfusion hh

theorem decodeEnumValue_restore (nt : List (String × Json))
    (hnt : ∀ e ∈ nt, e.1 = ("nodeType")) {v : Json} {a : EnumValue}
    (h : decodeEnumValue v = .ok a) :
    decodeEnumValue (.obj (nt ++ encodeEnumValueFields a)) = .ok a := by
  cases v <;> try exact Except.noConfusion h
  case obj o =>
    rw [decodeEnumValue] at h
    simp only [dres_bind_eq_ok] at h
    obtain ⟨x1, hx1, x2, hx2, x3, hx3, x4, hx4, hp⟩ := h
    simp only [dres_pure, Except.ok.injEq] at hp
    subst hp
    set enc2 := nt ++ encodeEnumValueFields (.mk x1 x2 x3 x4) with henc2
    have hl1 : lookupField enc2 (("id")) = some (Json.num x1) := by
      rw [henc2, lookupField_append_nt hnt (by decide)]
      rfl
    obtain ⟨w1, hw1, hf1⟩ := reqField_ok hx1
    have hg1 : reqField enc2 (("id")) (decodeI64) = .ok x1 :=
      reqField_of_lookup hl1 (decodeI64_restore hf1)
    have hl2 : lookupField enc2 (("name")) = some (Json.str x2) := by
      rw [henc2, lookupField_append_nt hnt (by decide)]
      rfl
    obtain ⟨w2, hw2, hf2⟩ := reqField_ok hx2
    have hg2 : reqField enc2 (("name")) (decodeString) = .ok x2 :=
      reqField_of_lookup hl2 (decodeString_restore hf2)
    have hl3 : lookupField enc2 (("nameLocation")) = some (Json.str x3) := by
      rw [henc2, lookupField_append_nt hnt (by decide)]
      rfl
    obtain ⟨w3, hw3, hf3⟩ := reqField_ok hx3
    have hg3 : reqField enc2 (("nameLocation")) (decodeString) = .ok x3 :=
      reqField_of_lookup hl3 (decodeString_restore hf3)
    have hl4 : lookupField enc2 (("src")) = some (Json.str (encode_location x4)) := by
      rw [henc2, lookupField_append_nt hnt (by decide)]
      rfl
    obtain ⟨w4, hw4, hf4⟩ := reqField_ok hx4
    have hg4 : reqField enc2 (("src")) (decodeSrc) = .ok x4 :=
      reqField_of_lookup hl4 (decodeSrc_restore hf4)
    rw [decodeEnumValue]
    simp only [hg1, hg2, hg3, hg4, dres_bind_ok, dres_pure]

theorem decodeIdentifier_restore (nt : List (String × Json))
    (hnt : ∀ e ∈ nt, e.1 = ("nodeType")) {v : Json} {a : Identifier}
    (h : decodeIdentifier v = .ok a) :
    decodeIdentifier (.obj (nt ++ encodeIdentifierFields a)) = .ok a := by
  cases v <;> try exact Except.noConfusion h
  case obj o =>
    rw [decodeIdentifier] at h
    simp only [dres_bind_eq_ok] at h
    obtain ⟨x1, hx1, x2, hx2, x3, hx3, x4, hx4, x5, hx5, x6, hx6, x7, hx7, hp⟩ := h
    simp only [dres_pure, Except.ok.injEq] at hp
    subst hp
    set enc2 := nt ++ encodeIdentifierFields (.mk x1 x2 x3 x4 x5 x6 x7) with henc2
    have hl1 : lookupField enc2 (("id")) = some (Json.num x1) := by
      rw [henc2, lookupField_append_nt hnt (by decide)]
      rfl
    obtain ⟨w1, hw1, hf1⟩ := reqField_ok hx1
    have hg1 : reqField enc2 (("id")) (decodeI64) = .ok x1 :=
      reqField_of_lookup hl1 (decodeI64_restore hf1)
    have hl2 : lookupField enc2 (("name")) = some (Json.str x2) := by
      rw [henc2, lookupField_append_nt hnt (by decide)]
      rfl
    obtain ⟨w2, hw2, hf2⟩ := reqField_ok hx2
    have hg2 : reqField enc2 (("name")) (decodeString) = .ok x2 :=
      reqField_of_lookup hl2 (decodeString_restore hf2)
    have hl3 : lookupField enc2 (("overloadedDeclarations")) = some (Json.arr (x3.map (fun y => Json.num y))) := by
      rw [henc2, lookupField_append_nt hnt (by decide)]
      rfl
    have hfe3 : decodeArr decodeI64 (Json.arr (x3.map (fun y => Json.num y))) = .ok x3 := by
      rcases defField_ok hx3 with h0 | ⟨w, hw, hfw⟩
      · subst h0
        rfl
      · exact decodeArr_restore hfw (fun v2 x hx hfx => decodeI64_restore hfx)
    have hg3 : defField enc2 (("overloadedDeclarations")) [] (decodeArr decodeI64) = .ok x3 :=
      defField_of_lookup hl3 hfe3
    have hl4 : lookupField enc2 (("referencedDeclaration")) = some (encodeOpt (fun y => Json.num y) x4) := by
      rw [henc2, lookupField_append_nt hnt (by decide)]
      rfl
    have hg4 : optField enc2 (("referencedDeclaration")) (decodeI64) = .ok x4 :=
      optField_restore hl4 (fun b hb => by
        subst hb
        obtain ⟨w, hw, hwn, hfw⟩ := optField_ok_some hx4
        exact ⟨decodeI64_restore hfw, fun hh => Json.noConfusion hh⟩)
    have hl5 : lookupField enc2 (("src")) = some (Json.str (encode_location x5)) := by
      rw [henc2, lookupField_append_nt hnt (by decide)]
      rfl
    obtain ⟨w5, hw5, hf5⟩ := reqField_ok hx5
    have hg5 : reqField enc2 (("src")) (decodeSrc) = .ok x5 :=
      reqField_of_lookup hl5 (decodeSrc_restore hf5)
    have hl6 : lookupField enc2 (("typeDescriptions")) = some (encodeTypeDescriptions x6) := by
      rw [henc2, lookupField_append_nt hnt (by decide)]
      rfl
    obtain ⟨w6, hw6, hf6⟩ := reqField_ok hx6
    have hg6 : reqField enc2 (("typeDescriptions")) (decodeTypeDescriptions) = .ok x6 :=
      reqField_of_lookup hl6 (decodeTypeDescriptions_restore hf6)
    have hl7 : lookupField enc2 (("argumentTypes")) = some (encodeOpt (fun ys => Json.arr (ys.map encodeTypeDescriptions)) x7) := by
      rw [henc2, lookupField_append_nt hnt (by decide)]
      rfl
    have hg7 : optField enc2 (("argumentTypes")) (decodeArr decodeTypeDescriptions) = .ok x7 :=
      optField_restore hl7 (fun b hb => by
        subst hb
        obtain ⟨w, hw, hwn, hfw⟩ := optField_ok_some hx7
        exact ⟨decodeArr_restore hfw (fun v2 x hx hfx => decodeTypeDescriptions_restore hfx),
          fun hh => Json.noConfusion hh⟩)
    rw [decodeIdentifier]
    simp only [hg1, hg2, hg3, hg4, hg5, hg6, hg7, dres_bind_ok, dres_pure]

theorem decodeIdentifierPath_restore (nt : List (String × Json))
    (hnt : ∀ e ∈ nt, e.1 = ("nodeType")) {v : Json} {a : IdentifierPath}
    (h : decodeIdentifierPath v = .ok a) :
    decodeIdentifierPath (.obj (nt ++ encodeIdentifierPathFields a)) = .ok a := by
  cases v <;> try exact Except.noConfusion h
  case obj o =>
    rw [decodeIdentifierPath] at h
    simp only [dres_bind_eq_ok] at h
    obtain ⟨x1, hx1, x2, hx2, x3, hx3, x4, hx4, x5, hx5, hp⟩ := h
    simp only [dres_pure, Except.ok.injEq] at hp
    subst hp
    set enc2 := nt ++ encodeIdentifierPathFields (.mk x1 x2 x3 x4 x5) with henc2
    have hl1 : lookupField enc2 (("id")) = some (Json.num x1) := by
      rw [henc2, lookupField_append_nt hnt (by decide)]
      rfl
    obtain ⟨w1, hw1, hf1⟩ := reqField_ok hx1
    have hg1 : reqField enc2 (("id")) (decodeI64) = .ok x1 :=
      reqField_of_lookup hl1 (decodeI64_restore hf1)
    have hl2 : lookupField enc2 (("name")) = some (Json.str x2) := by
      rw [henc2, lookupField_append_nt hnt (by decide)]
      rfl
    obtain ⟨w2, hw2, hf2⟩ := reqField_ok hx2
    have hg2 : reqField enc2 (("name")) (decodeString) = .ok x2 :=
      reqField_of_lookup hl2 (decodeString_restore hf2)
    have hl3 : lookupField enc2 (("nameLocations")) = some (encodeOpt (fun ys => Json.arr (ys.map (fun y => Json.str y))) x3) := by
      rw [henc2, lookupField_append_nt hnt (by decide)]
      rfl
    have hg3 : optField enc2 (("nameLocations")) (decodeArr decodeString) = .ok x3 :=
      optField_restore hl3 (fun b hb => by
        subst hb
        obtain ⟨w, hw, hwn, hfw⟩ := optField_ok_some hx3
        exact ⟨decodeArr_restore hfw (fun v2 x hx hfx => decodeString_restore hfx),
          fun hh => Json.noConfusion hh⟩)
    have hl4 : lookupField enc2 (("referencedDeclaration")) = some (encodeOpt (fun y => Json.num y) x4) := by
      rw [henc2, lookupField_append_nt hnt (by decide)]
      rfl
    have hg4 : optField enc2 (("referencedDeclaration")) (decodeI64) = .ok x4 :=
      optField_restore hl4 (fun b hb => by
        subst hb
        obtain ⟨w, hw, hwn, hfw⟩ := optField_ok_some hx4
        exact ⟨decodeI64_restore hfw, fun hh => Json.noConfusion hh⟩)
    have hl5 : lookupField enc2 (("src")) = some (Json.str (encode_location x5)) := by
      rw [henc2, lookupField_append_nt hnt (by decide)]
      rfl
    obtain ⟨w5, hw5, hf5⟩ := reqField_ok hx5
    have hg5 : reqField enc2 (("src")) (decodeSrc) = .ok x5 :=
      reqField_of_lookup hl5 (decodeSrc_restore hf5)
    rw [decodeIdentifierPath]
    simp only [hg1, hg2, hg3, hg4, hg5, dres_bind_ok, dres_pure]

theorem decodeOverrideSpecifier_restore (nt : List (String × Json))
    (hnt : ∀ e ∈ nt, e.1 = ("nodeType")) {v : Json} {a : OverrideSpecifier}
    (h : decodeOverrideSpecifier v = .ok a) :
    decodeOverrideSpecifier (.obj (nt ++ encodeOverrideSpecifierFields a)) = .ok a := by
  cases v <;> try exact Except.noConfusion h
  case obj o =>
    rw [decodeOverrideSpecifier] at h
    simp only [dres_bind_eq_ok] at h
    obtain ⟨x1, hx1, x2, hx2, x3, hx3, hp⟩ := h
    simp only [dres_pure, Except.ok.injEq] at hp
    subst hp
    set enc2 := nt ++ encodeOverrideSpecifierFields (.mk x1 x2 x3) with henc2
    have hl1 : lookupField enc2 (("id")) = some (Json.num x1) := by
      rw [henc2, lookupField_append_nt hnt (by decide)]
      rfl
    obtain ⟨w1, hw1, hf1⟩ := reqField_ok hx1
    have hg1 : reqField enc2 (("id")) (decodeI64) = .ok x1 :=
      reqField_of_lookup hl1 (decodeI64_restore hf1)
    have hl2 : lookupField enc2 (("overrides")) = some (Json.arr (x2.map encodeIdentifierPath)) := by
      rw [henc2, lookupField_append_nt hnt (by decide)]
      rfl
    have hfe2 : decodeArr decodeIdentifierPath (Json.arr (x2.map encodeIdentifierPath)) = .ok x2 := by
      rcases defField_ok hx2 with h0 | ⟨w, hw, hfw⟩
      · subst h0
        rfl
      · exact decodeArr_restore hfw (fun v2 x hx hfx => decodeIdentifierPath_restore [] (fun e he => absurd he (List.not_mem_nil e)) hfx)
    have hg2 : defField enc2 (("overrides")) [] (decodeArr decodeIdentifierPath) = .ok x2 :=
      defField_of_lookup hl2 hfe2
    have hl3 : lookupField enc2 (("src")) = some (Json.str (encode_location x3)) := by
      rw [henc2, lookupField_append_nt hnt (by decide)]
      rfl
    obtain ⟨w3, hw3, hf3⟩ := reqField_ok hx3
    have hg3 : reqField enc2 (("src")) (decodeSrc) = .ok x3 :=
      reqField_of_lookup hl3 (decodeSrc_restore hf3)
    rw [decodeOverrideSpecifier]
    simp only [hg1, hg2, hg3, dres_bind_ok, dres_pure]

theorem decodeExternalReference_restore (nt : List (String × Json))
    (hnt : ∀ e ∈ nt, e.1 = ("nodeType")) {v : Json} {a : ExternalReference}
    (h : decodeExternalReference v = .ok a) :
    decodeExternalReference (.obj (nt ++ encodeExternalReferenceFields a)) = .ok a := by
  cases v <;> try exact Except.noConfusion h
  case obj o =>
    rw [decodeExternalReference] at h
    simp only [dres_bind_eq_ok] at h
    obtain ⟨x1, hx1, x2, hx2, x3, hx3, x4, hx4, x5, hx5, hp⟩ := h
    simp only [dres_pure, Except.ok.injEq] at hp
    subst hp
    set enc2 := nt ++ encodeExternalReferenceFields (.mk x1 x2 x3 x4 x5) with henc2
    have hl1 : lookupField enc2 (("declaration")) = some (Json.num x1) := by
      rw [henc2, lookupField_append_nt hnt (by decide)]
      rfl
    obtain ⟨w1, hw1, hf1⟩ := reqField_ok hx1
    have hg1 : reqField enc2 (("declaration")) (decodeI64) = .ok x1 :=
      reqField_of_lookup hl1 (decodeI64_restore hf1)
    have hl2 : lookupField enc2 (("isOffset")) = some (Json.bool x2) := by
      rw [henc2, lookupField_append_nt hnt (by decide)]
      rfl
    obtain ⟨w2, hw2, hf2⟩ := reqField_ok hx2
    have hg2 : reqField enc2 (("isOffset")) (decodeBool) = .ok x2 :=
      reqField_of_lookup hl2 (decodeBool_restore hf2)
    have hl3 : lookupField enc2 (("isSlot")) = some (Json.bool x3) := by
      rw [henc2, lookupField_append_nt hnt (by decide)]
      rfl
    obtain ⟨w3, hw3, hf3⟩ := reqField_ok hx3
    have hg3 : reqField enc2 (("isSlot")) (decodeBool) = .ok x3 :=
      reqField_of_lookup hl3 (decodeBool_restore hf3)
    have hl4 : lookupField enc2 (("src")) = some (Json.str (encode_location x4)) := by
      rw [henc2, lookupField_append_nt hnt (by decide)]
      rfl
    obtain ⟨w4, hw4, hf4⟩ := reqField_ok hx4
    have hg4 : reqField enc2 (("src")) (decodeSrc) = .ok x4 :=
      reqField_of_lookup hl4 (decodeSrc_restore hf4)
    have hl5 : lookupField enc2 (("valueSize")) = some (Json.num x5) := by
      rw [henc2, lookupField_append_nt hnt (by decide)]
      rfl
    obtain ⟨w5, hw5, hf5⟩ := reqField_ok hx5
    have hg5 : reqField enc2 (("valueSize")) (decodeI64) = .ok x5 :=
      reqField_of_lookup hl5 (decodeI64_restore hf5)
    rw [decodeExternalReference]
    simp only [hg1, hg2, hg3, hg4, hg5, dres_bind_ok, dres_pure]

theorem decodeSymbolAlias_restore (nt : List (String × Json))
    (hnt : ∀ e ∈ nt, e.1 = ("nodeType")) {v : Json} {a : SymbolAlias}
    (h : decodeSymbolAlias v = .ok a) :
    decodeSymbolAlias (.obj (nt ++ encodeSymbolAliasFields a)) = .ok a := by
  cases v <;> try exact Except.noConfusion h
  case obj o =>
    rw [decodeSymbolAlias] at h
    simp only [dres_bind_eq_ok] at h
    obtain ⟨x1, hx1, x2, hx2, x3, hx3, hp⟩ := h
    simp only [dres_pure, Except.ok.injEq] at hp
    subst hp
    set enc2 := nt ++ encodeSymbolAliasFields (.mk x1 x2 x3) with henc2
    have hl1 : lookupField enc2 (("foreign")) = some (encodeIdentifier x1) := by
      rw [henc2, lookupField_append_nt hnt (by decide)]
      rfl
    obtain ⟨w1, hw1, hf1⟩ := reqField_ok hx1
    have hg1 : reqField enc2 (("foreign")) (decodeIdentifier) = .ok x1 :=
      reqField_of_lookup hl1 (decodeIdentifier_restore [] (fun e he => absurd he (List.not_mem_nil e)) hf1)
    have hl2 : lookupField enc2 (("local")) = some (encodeOpt (fun y => Json.str y) x2) := by
      rw [henc2, lookupField_append_nt hnt (by decide)]
      rfl
    have hg2 : optField enc2 (("local")) (decodeString) = .ok x2 :=
      optField_restore hl2 (fun b hb => by
        subst hb
        obtain ⟨w, hw, hwn, hfw⟩ := optField_ok_some hx2
        exact ⟨decodeString_restore hfw, fun hh => Json.noConfusion hh⟩)
    have hl3 : lookupField enc2 (("nameLocation")) = some (Json.str x3) := by
      rw [henc2, lookupField_append_nt hnt (by decide)]
      rfl
    obtain ⟨w3, hw3, hf3⟩ := reqField_ok hx3
    have hg3 : reqField enc2 (("nameLocation")) (decodeString) = .ok x3 :=
      reqField_of_lookup hl3 (decodeString_restore hf3)
    rw [decodeSymbolAlias]
    simp only [hg1, hg2, hg3, dres_bind_ok, dres_pure]

theorem decodeElementaryTypeName_restore (nt : List (String × Json))
    (hnt : ∀ e ∈ nt, e.1 = ("nodeType")) {v : Json} {a : ElementaryTypeName}
    (h : decodeElementaryTypeName v = .ok a) :
    decodeElementaryTypeName (.obj (nt ++ encodeElementaryTypeNameFields a)) = .ok a := by
  cases v <;> try exact Except.noConfusion h
  case obj o =>
    rw [decodeElementaryTypeName] at h
    simp only [dres_bind_eq_ok] at h
    obtain ⟨x1, hx1, x2, hx2, x3, hx3, x4, hx4, x5, hx5, hp⟩ := h
    simp only [dres_pure, Except.ok.injEq] at hp
    subst hp
    set enc2 := nt ++ encodeElementaryTypeNameFields (.mk x1 x2 x3 x4 x5) with henc2
    have hl1 : lookupField enc2 (("id")) = some (Json.num x1) := by
      rw [henc2, lookupField_append_nt hnt (by decide)]
      rfl
    obtain ⟨w1, hw1, hf1⟩ := reqField_ok hx1
    have hg1 : reqField enc2 (("id")) (decodeI64) = .ok x1 :=
      reqField_of_lookup hl1 (decodeI64_restore hf1)
    have hl2 : lookupField enc2 (("name")) = some (Json.str (encode_elementary x2)) := by
      rw [henc2, lookupField_append_nt hnt (by decide)]
      rfl
    obtain ⟨w2, hw2, hf2⟩ := reqField_ok hx2
    have hg2 : reqField enc2 (("name")) (decodeElem) = .ok x2 :=
      reqField_of_lookup hl2 (decodeElem_restore hf2)
    have hl3 : lookupField enc2 (("src")) = some (Json.str (encode_location x3)) := by
      rw [henc2, lookupField_append_nt hnt (by decide)]
      rfl
    obtain ⟨w3, hw3, hf3⟩ := reqField_ok hx3
    have hg3 : reqField enc2 (("src")) (decodeSrc) = .ok x3 :=
      reqField_of_lookup hl3 (decodeSrc_restore hf3)
    have hl4 : lookupField enc2 (("stateMutability")) = some (encodeOpt (fun y => Json.str y) x4) := by
      rw [henc2, lookupField_append_nt hnt (by decide)]
      rfl
    have hg4 : optField enc2 (("stateMutability")) (decodeString) = .ok x4 :=
      optField_restore hl4 (fun b hb => by
        subst hb
        obtain ⟨w, hw, hwn, hfw⟩ := optField_ok_some hx4
        exact ⟨decodeString_restore hfw, fun hh => Json.noConfusion hh⟩)
    have hl5 : lookupField enc2 (("typeDescriptions")) = some (encodeTypeDescriptions x5) := by
      rw [henc2, lookupField_append_nt hnt (by decide)]
      rfl
    obtain ⟨w5, hw5, hf5⟩ := reqField_ok hx5
    have hg5 : reqField enc2 (("typeDescriptions")) (decodeTypeDescriptions) = .ok x5 :=
      reqField_of_lookup hl5 (decodeTypeDescriptions_restore hf5)
    rw [decodeElementaryTypeName]
    simp only [hg1, hg2, hg3, hg4, hg5, dres_bind_ok, dres_pure]

theorem decodeUserDefinedTypeName_restore (nt : List (String × Json))
    (hnt : ∀ e ∈ nt, e.1 = ("nodeType")) {v : Json} {a : UserDefinedTypeName}
    (h : decodeUserDefinedTypeName v = .ok a) :
    decodeUserDefinedTypeName (.obj (nt ++ encodeUserDefinedTypeNameFields a)) = .ok a := by
  cases v <;> try exact Except.noConfusion h
  case obj o =>
    rw [decodeUserDefinedTypeName] at h
    simp only [dres_bind_eq_ok] at h
    obtain ⟨x1, hx1, x2, hx2, x3, hx3, x4, hx4, x5, hx5, hp⟩ := h
    simp only [dres_pure, Except.ok.injEq] at hp
    subst hp
    set enc2 := nt ++ encodeUserDefinedTypeNameFields (.mk x1 x2 x3 x4 x5) with henc2
    have hl1 : lookupField enc2 (("id")) = some (Json.num x1) := by
      rw [henc2, lookupField_append_nt hnt (by decide)]
      rfl
    obtain ⟨w1, hw1, hf1⟩ := reqField_ok hx1
    have hg1 : reqField enc2 (("id")) (decodeI64) = .ok x1 :=
      reqField_of_lookup hl1 (decodeI64_restore hf1)
    have hl2 : lookupField enc2 (("pathNode")) = some (encodeOpt encodeIdentifierPath x2) := by
      rw [henc2, lookupField_append_nt hnt (by decide)]
      rfl
    have hg2 : optField enc2 (("pathNode")) (decodeIdentifierPath) = .ok x2 :=
      optField_restore hl2 (fun b hb => by
        subst hb
        obtain ⟨w, hw, hwn, hfw⟩ := optField_ok_some hx2
        exact ⟨decodeIdentifierPath_restore [] (fun e he => absurd he (List.not_mem_nil e)) hfw, fun hh => Json.noConfusion hh⟩)
    have hl3 : lookupField enc2 (("referenced_declaration")) = some (encodeOpt (fun y => Json.num y) x3) := by
      rw [henc2, lookupField_append_nt hnt (by decide)]
      rfl
    have hg3 : optField enc2 (("referenced_declaration")) (decodeI64) = .ok x3 :=
      optField_restore hl3 (fun b hb => by
        subst hb
        obtain ⟨w, hw, hwn, hfw⟩ := optField_ok_some hx3
        exact ⟨decodeI64_restore hfw, fun hh => Json.noConfusion hh⟩)
    have hl4 : lookupField enc2 (("src")) = some (Json.str (encode_location x4)) := by
      rw [henc2, lookupField_append_nt hnt (by decide)]
      rfl
    obtain ⟨w4, hw4, hf4⟩ := reqField_ok hx4
    have hg4 : reqField enc2 (("src")) (decodeSrc) = .ok x4 :=
      reqField_of_lookup hl4 (decodeSrc_restore hf4)
    have hl5 : lookupField enc2 (("typeDescriptions")) = some (encodeTypeDescriptions x5) := by
      rw [henc2, lookupField_append_nt hnt (by decide)]
      rfl
    obtain ⟨w5, hw5, hf5⟩ := reqField_ok hx5
    have hg5 : reqField enc2 (("typeDescriptions")) (decodeTypeDescriptions) = .ok x5 :=
      reqField_of_lookup hl5 (decodeTypeDescriptions_restore hf5)
    rw [decodeUserDefinedTypeName]
    simp only [hg1, hg2, hg3, hg4, hg5, dres_bind_ok, dres_pure]

theorem decodeBreak_restore (nt : List (String × Json))
    (hnt : ∀ e ∈ nt, e.1 = ("nodeType")) {v : Json} {a : Break}
    (h : decodeBreak v = .ok a) :
    decodeBreak (.obj (nt ++ encodeBreakFields a)) = .ok a := by
  cases v <;> try exact Except.noConfusion h
  case obj o =>
    rw [decodeBreak] at h
    simp only [dres_bind_eq_ok] at h
    obtain ⟨x1, hx1, x2, hx2, hp⟩ := h
    simp only [dres_pure, Except.ok.injEq] at hp
    subst hp
    set enc2 := nt ++ encodeBreakFields (.mk x1 x2) with henc2
    have hl1 : lookupField enc2 (("id")) = some (Json.num x1) := by
      rw [henc2, lookupField_append_nt hnt (by decide)]
      rfl
    obtain ⟨w1, hw1, hf1⟩ := reqField_ok hx1
    have hg1 : reqField enc2 (("id")) (decodeI64) = .ok x1 :=
      reqField_of_lookup hl1 (decodeI64_restore hf1)
    have hl2 : lookupField enc2 (("src")) = some (Json.str (encode_location x2)) := by
      rw [henc2, lookupField_append_nt hnt (by decide)]
      rfl
    obtain ⟨w2, hw2, hf2⟩ := reqField_ok hx2
    have hg2 : reqField enc2 (("src")) (decodeSrc) = .ok x2 :=
      reqField_of_lookup hl2 (decodeSrc_restore hf2)
    rw [decodeBreak]
    simp only [hg1, hg2, dres_bind_ok, dres_pure]

theorem decodeContinue_restore (nt : List (String × Json))
    (hnt : ∀ e ∈ nt, e.1 = ("nodeType")) {v : Json} {a : Continue}
    (h : decodeContinue v = .ok a) :
    decodeContinue (.obj (nt ++ encodeContinueFields a)) = .ok a := by
  cases v <;> try exact Except.noConfusion h
  case obj o =>
    rw [decodeContinue] at h
    simp only [dres_bind_eq_ok] at h
    obtain ⟨x1, hx1, x2, hx2, hp⟩ := h
    simp only [dres_pure, Except.ok.injEq] at hp
    subst hp
    set enc2 := nt ++ encodeContinueFields (.mk x1 x2) with henc2
    have hl1 : lookupField enc2 (("id")) = some (Json.num x1) := by
      rw [henc2, lookupField_append_nt hnt (by decide)]
      rfl
    obtain ⟨w1, hw1, hf1⟩ := reqField_ok hx1
    have hg1 : reqField enc2 (("id")) (decodeI64) = .ok x1 :=
      reqField_of_lookup hl1 (decodeI64_restore hf1)
    have hl2 : lookupField enc2 (("src")) = some (Json.str (encode_location x2)) := by
      rw [henc2, lookupField_append_nt hnt (by decide)]
      rfl
    obtain ⟨w2, hw2, hf2⟩ := reqField_ok hx2
    have hg2 : reqField enc2 (("src")) (decodeSrc) = .ok x2 :=
      reqField_of_lookup hl2 (decodeSrc_restore hf2)
    rw [decodeContinue]
    simp only [hg1, hg2, dres_bind_ok, dres_pure]

theorem decodePlaceholderStatement_restore (nt : List (String × Json))
    (hnt : ∀ e ∈ nt, e.1 = ("nodeType")) {v : Json} {a : PlaceholderStatement}
    (h : decodePlaceholderStatement v = .ok a) :
    decodePlaceholderStatement (.obj (nt ++ encodePlaceholderStatementFields a)) = .ok a := by
  cases v <;> try exact Except.noConfusion h
  case obj o =>
    rw [decodePlaceholderStatement] at h
    simp only [dres_bind_eq_ok] at h
    obtain ⟨x1, hx1, x2, hx2, hp⟩ := h
    simp only [dres_pure, Except.ok.injEq] at hp
    subst hp
    set enc2 := nt ++ encodePlaceholderStatementFields (.mk x1 x2) with henc2
    have hl1 : lookupField enc2 (("id")) = some (Json.num x1) := by
      rw [henc2, lookupField_append_nt hnt (by decide)]
      rfl
    obtain ⟨w1, hw1, hf1⟩ := reqField_ok hx1
    have hg1 : reqField enc2 (("id")) (decodeI64) = .ok x1 :=
      reqField_of_lookup hl1 (decodeI64_restore hf1)
    have hl2 : lookupField enc2 (("src")) = some (Json.str (encode_location x2)) := by
      rw [henc2, lookupField_append_nt hnt (by decide)]
      rfl
    obtain ⟨w2, hw2, hf2⟩ := reqField_ok hx2
    have hg2 : reqField enc2 (("src")) (decodeSrc) = .ok x2 :=
      reqField_of_lookup hl2 (decodeSrc_restore hf2)
    rw [decodePlaceholderStatement]
    simp only [hg1, hg2, dres_bind_ok, dres_pure]

theorem decodeLiteral_restore (nt : List (String × Json))
    (hnt : ∀ e ∈ nt, e.1 = ("nodeType")) {v : Json} {a : Literal}
    (h : decodeLiteral v = .ok a) :
    decodeLiteral (.obj (nt ++ encodeLiteralFields a)) = .ok a := by
  cases v <;> try exact Except.noConfusion h
  case obj o =>
    rw [decodeLiteral] at h
    simp only [dres_bind_eq_ok] at h
    obtain ⟨x1, hx1, x2, hx2, x3, hx3, x4, hx4, x5, hx5, x6, hx6, x7, hx7, x8, hx8, x9, hx9, x10, hx10, x11, hx11, x12, hx12, hp⟩ := h
    simp only [dres_pure, Except.ok.injEq] at hp
    subst hp
    set enc2 := nt ++ encodeLiteralFields (.mk x1 x2 x3 x4 x5 x6 x7 x8 x9 x10 x11 x12) with henc2
    have hl1 : lookupField enc2 (("id")) = some (Json.num x1) := by
      rw [henc2, lookupField_append_nt hnt (by decide)]
      rfl
    obtain ⟨w1, hw1, hf1⟩ := reqField_ok hx1
    have hg1 : reqField enc2 (("id")) (decodeI64) = .ok x1 :=
      reqField_of_lookup hl1 (decodeI64_restore hf1)
    have hl2 : lookupField enc2 (("kind")) = some (Json.str (encodeLiteralKind x2)) := by
      rw [henc2, lookupField_append_nt hnt (by decide)]
      rfl
    obtain ⟨w2, hw2, hf2⟩ := reqField_ok hx2
    have hg2 : reqField enc2 (("kind")) (decodeLiteralKind) = .ok x2 :=
      reqField_of_lookup hl2 (decodeLiteralKind_restore hf2)
    have hl3 : lookupField enc2 (("value")) = some (Json.str x3) := by
      rw [henc2, lookupField_append_nt hnt (by decide)]
      rfl
    obtain ⟨w3, hw3, hf3⟩ := reqField_ok hx3
    have hg3 : reqField enc2 (("value")) (decodeString) = .ok x3 :=
      reqField_of_lookup hl3 (decodeString_restore hf3)
    have hl4 : lookupField enc2 (("hexValue")) = some (encodeOpt (fun y => Json.str y) x4) := by
      rw [henc2, lookupField_append_nt hnt (by decide)]
      rfl
    have hg4 : optField enc2 (("hexValue")) (decodeString) = .ok x4 :=
      optField_restore hl4 (fun b hb => by
        subst hb
        obtain ⟨w, hw, hwn, hfw⟩ := optField_ok_some hx4
        exact ⟨decodeString_restore hfw, fun hh => Json.noConfusion hh⟩)
    have hl5 : lookupField enc2 (("subdenomination")) = some (encodeOpt (fun y => Json.str y) x5) := by
      rw [henc2, lookupField_append_nt hnt (by decide)]
      rfl
    have hg5 : optField enc2 (("subdenomination")) (decodeString) = .ok x5 :=
      optField_restore hl5 (fun b hb => by
        subst hb
        obtain ⟨w, hw, hwn, hfw⟩ := optField_ok_some hx5
        exact ⟨decodeString_restore hfw, fun hh => Json.noConfusion hh⟩)
    have hl6 : lookupField enc2 (("src")) = some (Json.str (encode_location x6)) := by
      rw [henc2, lookupField_append_nt hnt (by decide)]
      rfl
    obtain ⟨w6, hw6, hf6⟩ := reqField_ok hx6
    have hg6 : reqField enc2 (("src")) (decodeSrc) = .ok x6 :=
      reqField_of_lookup hl6 (decodeSrc_restore hf6)
    have hl7 : lookupField enc2 (("typeDescriptions")) = some (encodeTypeDescriptions x7) := by
      rw [henc2, lookupField_append_nt hnt (by decide)]
      rfl
    obtain ⟨w7, hw7, hf7⟩ := reqField_ok hx7
    have hg7 : reqField enc2 (("typeDescriptions")) (decodeTypeDescriptions) = .ok x7 :=
      reqField_of_lookup hl7 (decodeTypeDescriptions_restore hf7)
    have hl8 : lookupField enc2 (("isConstant")) = some (Json.bool x8) := by
      rw [henc2, lookupField_append_nt hnt (by decide)]
      rfl
    obtain ⟨w8, hw8, hf8⟩ := reqField_ok hx8
    have hg8 : reqField enc2 (("isConstant")) (decodeBool) = .ok x8 :=
      reqField_of_lookup hl8 (decodeBool_restore hf8)
    have hl9 : lookupField enc2 (("isLValue")) = some (Json.bool x9) := by
      rw [henc2, lookupField_append_nt hnt (by decide)]
      rfl
    obtain ⟨w9, hw9, hf9⟩ := reqField_ok hx9
    have hg9 : reqField enc2 (("isLValue")) (decodeBool) = .ok x9 :=
      reqField_of_lookup hl9 (decodeBool_restore hf9)
    have hl10 : lookupField enc2 (("isPure")) = some (Json.bool x10) := by
      rw [henc2, lookupField_append_nt hnt (by decide)]
      rfl
    obtain ⟨w10, hw10, hf10⟩ := reqField_ok hx10
    have hg10 : reqField enc2 (("isPure")) (decodeBool) = .ok x10 :=
      reqField_of_lookup hl10 (decodeBool_restore hf10)
    have hl11 : lookupField enc2 (("lValueRequested")) = some (Json.bool x11) := by
      rw [henc2, lookupField_append_nt hnt (by decide)]
      rfl
    obtain ⟨w11, hw11, hf11⟩ := reqField_ok hx11
    have hg11 : reqField enc2 (("lValueRequested")) (decodeBool) = .ok x11 :=
      reqField_of_lookup hl11 (decodeBool_restore hf11)
    have hl12 : lookupField enc2 (("formattedValue")) = some (encodeOpt (fun y => Json.str y) x12) := by
      rw [henc2, lookupField_append_nt hnt (by decide)]
      rfl
    have hg12 : optField enc2 (("formattedValue")) (decodeString) = .ok x12 :=
      optField_restore hl12 (fun b hb => by
        subst hb
        obtain ⟨w, hw, hwn, hfw⟩ := optField_ok_some hx12
        exact ⟨decodeString_restore hfw, fun hh => Json.noConfusion hh⟩)
    rw [decodeLiteral]
    simp only [hg1, hg2, hg3, hg4, hg5, hg6, hg7, hg8, hg9, hg10, hg11, hg12, dres_bind_ok, dres_pure]

theorem decodePragmaDirective_restore (nt : List (String × Json))
    (hnt : ∀ e ∈ nt, e.1 = ("nodeType")) {v : Json} {a : PragmaDirective}
    (h : decodePragmaDirective v = .ok a) :
    decodePragmaDirective (.obj (nt ++ encodePragmaDirectiveFields a)) = .ok a := by
  cases v <;> try exact Except.noConfusion h
  case obj o =>
    rw [decodePragmaDirective] at h
    simp only [dres_bind_eq_ok] at h
    obtain ⟨x1, hx1, x2, hx2, x3, hx3, x4, hx4, hp⟩ := h
    simp only [dres_pure, Except.ok.injEq] at hp
    subst hp
    have hn4 : x4 = [] := by
      rcases defField_ok hx4 with h0 | ⟨w, hw, hfw⟩
      · exact h0
      · obtain ⟨vs, hveq, hlw⟩ := decodeArr_ok hfw
        exact decodeListWith_taggedEmpty 0 vs x4 hlw
    subst hn4
    set enc2 := nt ++ encodePragmaDirectiveFields (.mk x1 x2 x3 []) with henc2
    have hl1 : lookupField enc2 (("id")) = some (Json.num x1) := by
      rw [henc2, lookupField_append_nt hnt (by decide)]
      rfl
    obtain ⟨w1, hw1, hf1⟩ := reqField_ok hx1
    have hg1 : reqField enc2 (("id")) (decodeI64) = .ok x1 :=
      reqField_of_lookup hl1 (decodeI64_restore hf1)
    have hl2 : lookupField enc2 (("literals")) = some (Json.arr (x2.map (fun y => Json.str y))) := by
      rw [henc2, lookupField_append_nt hnt (by decide)]
      rfl
    obtain ⟨w2, hw2, hf2⟩ := reqField_ok hx2
    have hfe2 : decodeArr decodeString (Json.arr (x2.map (fun y => Json.str y))) = .ok x2 :=
      decodeArr_restore hf2 (fun v2 x hx hfx => decodeString_restore hfx)
    have hg2 : reqField enc2 (("literals")) (decodeArr decodeString) = .ok x2 :=
      reqField_of_lookup hl2 hfe2
    have hl3 : lookupField enc2 (("src")) = some (Json.str (encode_location x3)) := by
      rw [henc2, lookupField_append_nt hnt (by decide)]
      rfl
    obtain ⟨w3, hw3, hf3⟩ := reqField_ok hx3
    have hg3 : reqField enc2 (("src")) (decodeSrc) = .ok x3 :=
      reqField_of_lookup hl3 (decodeSrc_restore hf3)
    have hl4 : lookupField enc2 (("nodes")) = some (Json.arr []) := by
      rw [henc2, lookupField_append_nt hnt (by decide)]
      rfl
    have hg4 : defField enc2 (("nodes")) ([] : List PragmaDirectiveNode) (decodeArr decodeTaggedEmpty) = .ok [] :=
      defField_of_lookup hl4 rfl
    rw [decodePragmaDirective]
    simp only [hg1, hg2, hg3, hg4, dres_bind_ok, dres_pure]

theorem decodeImportDirective_restore (nt : List (String × Json))
    (hnt : ∀ e ∈ nt, e.1 = ("nodeType")) {v : Json} {a : ImportDirective}
    (h : decodeImportDirective v = .ok a) :
    decodeImportDirective (.obj (nt ++ encodeImportDirectiveFields a)) = .ok a := by
  cases v <;> try exact Except.noConfusion h
  case obj o =>
    rw [decodeImportDirective] at h
    simp only [dres_bind_eq_ok] at h
    obtain ⟨x1, hx1, x2, hx2, x3, hx3, x4, hx4, x5, hx5, x6, hx6, x7, hx7, x8, hx8, x9, hx9, x10, hx10, hp⟩ := h
    simp only [dres_pure, Except.ok.injEq] at hp
    subst hp
    have hn10 : x10 = [] := by
      rcases defField_ok hx10 with h0 | ⟨w, hw, hfw⟩
      · exact h0
      · obtain ⟨vs, hveq, hlw⟩ := decodeArr_ok hfw
        exact decodeListWith_taggedEmpty 0 vs x10 hlw
    subst hn10
    set enc2 := nt ++ encodeImportDirectiveFields (.mk x1 x2 x3 x4 x5 x6 x7 x8 x9 []) with henc2
    have hl1 : lookupField enc2 (("id")) = some (Json.num x1) := by
      rw [henc2, lookupField_append_nt hnt (by decide)]
      rfl
    obtain ⟨w1, hw1, hf1⟩ := reqField_ok hx1
    have hg1 : reqField enc2 (("id")) (decodeI64) = .ok x1 :=
      reqField_of_lookup hl1 (decodeI64_restore hf1)
    have hl2 : lookupField enc2 (("absolutePath")) = some (Json.str x2) := by
      rw [henc2, lookupField_append_nt hnt (by decide)]
      rfl
    obtain ⟨w2, hw2, hf2⟩ := reqField_ok hx2
    have hg2 : reqField enc2 (("absolutePath")) (decodeString) = .ok x2 :=
      reqField_of_lookup hl2 (decodeString_restore hf2)
    have hl3 : lookupField enc2 (("file")) = some (Json.str x3) := by
      rw [henc2, lookupField_append_nt hnt (by decide)]
      rfl
    obtain ⟨w3, hw3, hf3⟩ := reqField_ok hx3
    have hg3 : reqField enc2 (("file")) (decodeString) = .ok x3 :=
      reqField_of_lookup hl3 (decodeString_restore hf3)
    have hl4 : lookupField enc2 (("unitAlias")) = some (encodeOpt (fun y => Json.str y) x4) := by
      rw [henc2, lookupField_append_nt hnt (by decide)]
      rfl
    have hg4 : optField enc2 (("unitAlias")) (decodeString) = .ok x4 :=
      optField_restore hl4 (fun b hb => by
        subst hb
        obtain ⟨w, hw, hwn, hfw⟩ := optField_ok_some hx4
        exact ⟨decodeString_restore hfw, fun hh => Json.noConfusion hh⟩)
    have hl5 : lookupField enc2 (("symbolAliases")) = some (Json.arr (x5.map encodeSymbolAlias)) := by
      rw [henc2, lookupField_append_nt hnt (by decide)]
      rfl
    have hfe5 : decodeArr decodeSymbolAlias (Json.arr (x5.map encodeSymbolAlias)) = .ok x5 := by
      rcases defField_ok hx5 with h0 | ⟨w, hw, hfw⟩
      · subst h0
        rfl
      · exact decodeArr_restore hfw (fun v2 x hx hfx => decodeSymbolAlias_restore [] (fun e he => absurd he (List.not_mem_nil e)) hfx)
    have hg5 : defField enc2 (("symbolAliases")) [] (decodeArr decodeSymbolAlias) = .ok x5 :=
      defField_of_lookup hl5 hfe5
    have hl6 : lookupField enc2 (("scope")) = some (encodeOpt (fun y => Json.num y) x6) := by
      rw [henc2, lookupField_append_nt hnt (by decide)]
      rfl
    have hg6 : optField enc2 (("scope")) (decodeI64) = .ok x6 :=
      optField_restore hl6 (fun b hb => by
        subst hb
        obtain ⟨w, hw, hwn, hfw⟩ := optField_ok_some hx6
        exact ⟨decodeI64_restore hfw, fun hh => Json.noConfusion hh⟩)
    have hl7 : lookupField enc2 (("sourceUnit")) = some (encodeOpt (fun y => Json.num y) x7) := by
      rw [henc2, lookupField_append_nt hnt (by decide)]
      rfl
    have hg7 : optField enc2 (("sourceUnit")) (decodeI64) = .ok x7 :=
      optField_restore hl7 (fun b hb => by
        subst hb
        obtain ⟨w, hw, hwn, hfw⟩ := optField_ok_some hx7
        exact ⟨decodeI64_restore hfw, fun hh => Json.noConfusion hh⟩)
    have hl8 : lookupField enc2 (("src")) = some (Json.str (encode_location x8)) := by
      rw [henc2, lookupField_append_nt hnt (by decide)]
      rfl
    obtain ⟨w8, hw8, hf8⟩ := reqField_ok hx8
    have hg8 : reqField enc2 (("src")) (decodeSrc) = .ok x8 :=
      reqField_of_lookup hl8 (decodeSrc_restore hf8)
    have hl9 : lookupField enc2 (("nameLocation")) = some (encodeOpt (fun y => Json.str y) x9) := by
      rw [henc2, lookupField_append_nt hnt (by decide)]
      rfl
    have hg9 : optField enc2 (("nameLocation")) (decodeString) = .ok x9 :=
      optField_restore hl9 (fun b hb => by
        subst hb
        obtain ⟨w, hw, hwn, hfw⟩ := optField_ok_some hx9
        exact ⟨decodeString_restore hfw, fun hh => Json.noConfusion hh⟩)
    have hl10 : lookupField enc2 (("nodes")) = some (Json.arr []) := by
      rw [henc2, lookupField_append_nt hnt (by decide)]
      rfl
    have hg10 : defField enc2 (("nodes")) ([] : List ImportDirectiveNode) (decodeArr decodeTaggedEmpty) = .ok [] :=
      defField_of_lookup hl10 rfl
    rw [decodeImportDirective]
    simp only [hg1, hg2, hg3, hg4, hg5, hg6, hg7, hg8, hg9, hg10, dres_bind_ok, dres_pure]

theorem decodeEnumDefinition_restore (nt : List (String × Json))
    (hnt : ∀ e ∈ nt, e.1 = ("nodeType")) {v : Json} {a : EnumDefinition}
    (h : decodeEnumDefinition v = .ok a) :
    decodeEnumDefinition (.obj (nt ++ encodeEnumDefinitionFields a)) = .ok a := by
  cases v <;> try exact Except.noConfusion h
  case obj o =>
    rw [decodeEnumDefinition] at h
    simp only [dres_bind_eq_ok] at h
    obtain ⟨x1, hx1, x2, hx2, x3, hx3, x4, hx4, x5, hx5, x6, hx6, x7, hx7, x8, hx8, hp⟩ := h
    simp only [dres_pure, Except.ok.injEq] at hp
    subst hp
    have hn8 : x8 = [] := by
      rcases defField_ok hx8 with h0 | ⟨w, hw, hfw⟩
      · exact h0
      · obtain ⟨vs, hveq, hlw⟩ := decodeArr_ok hfw
        exact decodeListWith_taggedEmpty 0 vs x8 hlw
    subst hn8
    set enc2 := nt ++ encodeEnumDefinitionFields (.mk x1 x2 x3 x4 x5 x6 x7 []) with henc2
    have hl1 : lookupField enc2 (("id")) = some (Json.num x1) := by
      rw [henc2, lookupField_append_nt hnt (by decide)]
      rfl
    obtain ⟨w1, hw1, hf1⟩ := reqField_ok hx1
    have hg1 : reqField enc2 (("id")) (decodeI64) = .ok x1 :=
      reqField_of_lookup hl1 (decodeI64_restore hf1)
    have hl2 : lookupField enc2 (("name")) = some (Json.str x2) := by
      rw [henc2, lookupField_append_nt hnt (by decide)]
      rfl
    obtain ⟨w2, hw2, hf2⟩ := reqField_ok hx2
    have hg2 : reqField enc2 (("name")) (decodeString) = .ok x2 :=
      reqField_of_lookup hl2 (decodeString_restore hf2)
    have hl3 : lookupField enc2 (("members")) = some (Json.arr (x3.map encodeEnumValue)) := by
      rw [henc2, lookupField_append_nt hnt (by decide)]
      rfl
    obtain ⟨w3, hw3, hf3⟩ := reqField_ok hx3
    have hfe3 : decodeArr decodeEnumValue (Json.arr (x3.map encodeEnumValue)) = .ok x3 :=
      decodeArr_restore hf3 (fun v2 x hx hfx => decodeEnumValue_restore [] (fun e he => absurd he (List.not_mem_nil e)) hfx)
    have hg3 : reqField enc2 (("members")) (decodeArr decodeEnumValue) = .ok x3 :=
      reqField_of_lookup hl3 hfe3
    have hl4 : lookupField enc2 (("src")) = some (Json.str (encode_location x4)) := by
      rw [henc2, lookupField_append_nt hnt (by decide)]
      rfl
    obtain ⟨w4, hw4, hf4⟩ := reqField_ok hx4
    have hg4 : reqField enc2 (("src")) (decodeSrc) = .ok x4 :=
      reqField_of_lookup hl4 (decodeSrc_restore hf4)
    have hl5 : lookupField enc2 (("scope")) = some (encodeOpt (fun y => Json.num y) x5) := by
      rw [henc2, lookupField_append_nt hnt (by decide)]
      rfl
    have hg5 : optField enc2 (("scope")) (decodeI64) = .ok x5 :=
      optField_restore hl5 (fun b hb => by
        subst hb
        obtain ⟨w, hw, hwn, hfw⟩ := optField_ok_some hx5
        exact ⟨decodeI64_restore hfw, fun hh => Json.noConfusion hh⟩)
    have hl6 : lookupField enc2 (("documentation")) = some (encodeOpt encodeDocumentation x6) := by
      rw [henc2, lookupField_append_nt hnt (by decide)]
      rfl
    have hg6 : optField enc2 (("documentation")) (decodeDocumentation) = .ok x6 :=
      optField_restore hl6 (fun b hb => by
        subst hb
        obtain ⟨w, hw, hwn, hfw⟩ := optField_ok_some hx6
        exact ⟨decodeDocumentation_restore hfw, encodeDocumentation_ne_null b⟩)
    have hl7 : lookupField enc2 (("canonicalName")) = some (encodeOpt (fun y => Json.str y) x7) := by
      rw [henc2, lookupField_append_nt hnt (by decide)]
      rfl
    have hg7 : optField enc2 (("canonicalName")) (decodeString) = .ok x7 :=
      optField_restore hl7 (fun b hb => by
        subst hb
        obtain ⟨w, hw, hwn, hfw⟩ := optField_ok_some hx7
        exact ⟨decodeString_restore hfw, fun hh => Json.noConfusion hh⟩)
    have hl8 : lookupField enc2 (("nodes")) = some (Json.arr []) := by
      rw [henc2, lookupField_append_nt hnt (by decide)]
      rfl
    have hg8 : defField enc2 (("nodes")) ([] : List EnumDefinitionNode) (decodeArr decodeTaggedEmpty) = .ok [] :=
      defField_of_lookup hl8 rfl
    rw [decodeEnumDefinition]
    simp only [hg1, hg2, hg3, hg4, hg5, hg6, hg7, hg8, dres_bind_ok, dres_pure]

theorem decodeUsingForDirective_restore (nt : List (String × Json))
    (hnt : ∀ e ∈ nt, e.1 = ("nodeType")) {v : Json} {a : UsingForDirective}
    (h : decodeUsingForDirective v = .ok a) :
    decodeUsingForDirective (.obj (nt ++ encodeUsingForDirectiveFields a)) = .ok a := by
  cases v <;> try exact Except.noConfusion h
  case obj o =>
    rw [decodeUsingForDirective] at h
    simp only [dres_bind_eq_ok] at h
    obtain ⟨x1, hx1, x2, hx2, x3, hx3, x4, hx4, x5, hx5, x6, hx6, x7, hx7, x8, hx8, hp⟩ := h
    simp only [dres_pure, Except.ok.injEq] at hp
    subst hp
    have hn7 : x7 = [] := by
      rcases defField_ok hx7 with h0 | ⟨w, hw, hfw⟩
      · exact h0
      · obtain ⟨vs, hveq, hlw⟩ := decodeArr_ok hfw
        exact decodeListWith_taggedEmpty 0 vs x7 hlw
    subst hn7
    set enc2 := nt ++ encodeUsingForDirectiveFields (.mk x1 x2 x3 x4 x5 x6 [] x8) with henc2
    have hl1 : lookupField enc2 (("id")) = some (Json.num x1) := by
      rw [henc2, lookupField_append_nt hnt (by decide)]
      rfl
    obtain ⟨w1, hw1, hf1⟩ := reqField_ok hx1
    have hg1 : reqField enc2 (("id")) (decodeI64) = .ok x1 :=
      reqField_of_lookup hl1 (decodeI64_restore hf1)
    have hl2 : lookupField enc2 (("libraryName")) = some (encodeOpt encodeIdentifierPath x2) := by
      rw [henc2, lookupField_append_nt hnt (by decide)]
      rfl
    have hg2 : optField enc2 (("libraryName")) (decodeIdentifierPath) = .ok x2 :=
      optField_restore hl2 (fun b hb => by
        subst hb
        obtain ⟨w, hw, hwn, hfw⟩ := optField_ok_some hx2
        exact ⟨decodeIdentifierPath_restore [] (fun e he => absurd he (List.not_mem_nil e)) hfw, fun hh => Json.noConfusion hh⟩)
    have hl3 : lookupField enc2 (("typeName")) = some (encodeOpt encodeUserDefinedTypeName x3) := by
      rw [henc2, lookupField_append_nt hnt (by decide)]
      rfl
    have hg3 : optField enc2 (("typeName")) (decodeUserDefinedTypeName) = .ok x3 :=
      optField_restore hl3 (fun b hb => by
        subst hb
        obtain ⟨w, hw, hwn, hfw⟩ := optField_ok_some hx3
        exact ⟨decodeUserDefinedTypeName_restore [] (fun e he => absurd he (List.not_mem_nil e)) hfw, fun hh => Json.noConfusion hh⟩)
    have hl4 : lookupField enc2 (("operations")) = some (encodeOpt (fun ys => Json.arr (ys.map (fun y => Json.str y))) x4) := by
      rw [henc2, lookupField_append_nt hnt (by decide)]
      rfl
    have hg4 : optField enc2 (("operations")) (decodeArr decodeString) = .ok x4 :=
      optField_restore hl4 (fun b hb => by
        subst hb
        obtain ⟨w, hw, hwn, hfw⟩ := optField_ok_some hx4
        exact ⟨decodeArr_restore hfw (fun v2 x hx hfx => decodeString_restore hfx),
          fun hh => Json.noConfusion hh⟩)
    have hl5 : lookupField enc2 (("src")) = some (Json.str (encode_location x5)) := by
      rw [henc2, lookupField_append_nt hnt (by decide)]
      rfl
    obtain ⟨w5, hw5, hf5⟩ := reqField_ok hx5
    have hg5 : reqField enc2 (("src")) (decodeSrc) = .ok x5 :=
      reqField_of_lookup hl5 (decodeSrc_restore hf5)
    have hl6 : lookupField enc2 (("global")) = some (encodeOpt (fun y => Json.bool y) x6) := by
      rw [henc2, lookupField_append_nt hnt (by decide)]
      rfl
    have hg6 : optField enc2 (("global")) (decodeBool) = .ok x6 :=
      optField_restore hl6 (fun b hb => by
        subst hb
        obtain ⟨w, hw, hwn, hfw⟩ := optField_ok_some hx6
        exact ⟨decodeBool_restore hfw, fun hh => Json.noConfusion hh⟩)
    have hl7 : lookupField enc2 (("nodes")) = some (Json.arr []) := by
      rw [henc2, lookupField_append_nt hnt (by decide)]
      rfl
    have hg7 : defField enc2 (("nodes")) ([] : List UsingForDirectiveNode) (decodeArr decodeTaggedEmpty) = .ok [] :=
      defField_of_lookup hl7 rfl
    have hl8 : lookupField enc2 (("scope")) = some (encodeOpt (fun y => Json.num y) x8) := by
      rw [henc2, lookupField_append_nt hnt (by decide)]
      rfl
    have hg8 : optField enc2 (("scope")) (decodeI64) = .ok x8 :=
      optField_restore hl8 (fun b hb => by
        subst hb
        obtain ⟨w, hw, hwn, hfw⟩ := optField_ok_some hx8
        exact ⟨decodeI64_restore hfw, fun hh => Json.noConfusion hh⟩)
    rw [decodeUsingForDirective]
    simp only [hg1, hg2, hg3, hg4, hg5, hg6, hg7, hg8, dres_bind_ok, dres_pure]

theorem decodeElementaryTypeNameExpression_restore (nt : List (String × Json))
    (hnt : ∀ e ∈ nt, e.1 = ("nodeType")) {v : Json} {a : ElementaryTypeNameExpression}
    (h : decodeElementaryTypeNameExpression v = .ok a) :
    decodeElementaryTypeNameExpression (.obj (nt ++ encodeElementaryTypeNameExpressionFields a)) = .ok a := by
  cases v <;> try exact Except.noConfusion h
  case obj o =>
    rw [decodeElementaryTypeNameExpression] at h
    simp only [dres_bind_eq_ok] at h
    obtain ⟨x1, hx1, x2, hx2, x3, hx3, x4, hx4, x5, hx5, hp⟩ := h
    simp only [dres_pure, Except.ok.injEq] at hp
    subst hp
    set enc2 := nt ++ encodeElementaryTypeNameExpressionFields (.mk x1 x2 x3 x4 x5) with henc2
    have hl1 : lookupField enc2 (("id")) = some (Json.num x1) := by
      rw [henc2, lookupField_append_nt hnt (by decide)]
      rfl
    obtain ⟨w1, hw1, hf1⟩ := reqField_ok hx1
    have hg1 : reqField enc2 (("id")) (decodeI64) = .ok x1 :=
      reqField_of_lookup hl1 (decodeI64_restore hf1)
    have hl2 : lookupField enc2 (("typeName")) = some (encodeElementaryTypeName x2) := by
      rw [henc2, lookupField_append_nt hnt (by decide)]
      rfl
    obtain ⟨w2, hw2, hf2⟩ := reqField_ok hx2
    have hg2 : reqField enc2 (("typeName")) (decodeElementaryTypeName) = .ok x2 :=
      reqField_of_lookup hl2 (decodeElementaryTypeName_restore [] (fun e he => absurd he (List.not_mem_nil e)) hf2)
    have hl3 : lookupField enc2 (("src")) = some (Json.str (encode_location x3)) := by
      rw [henc2, lookupField_append_nt hnt (by decide)]
      rfl
    obtain ⟨w3, hw3, hf3⟩ := reqField_ok hx3
    have hg3 : reqField enc2 (("src")) (decodeSrc) = .ok x3 :=
      reqField_of_lookup hl3 (decodeSrc_restore hf3)
    have hl4 : lookupField enc2 (("typeDescriptions")) = some (encodeTypeDescriptions x4) := by
      rw [henc2, lookupField_append_nt hnt (by decide)]
      rfl
    obtain ⟨w4, hw4, hf4⟩ := reqField_ok hx4
    have hg4 : reqField enc2 (("typeDescriptions")) (decodeTypeDescriptions) = .ok x4 :=
      reqField_of_lookup hl4 (decodeTypeDescriptions_restore hf4)
    have hl5 : lookupField enc2 (("argumentTypes")) = some (encodeOpt (fun ys => Json.arr (ys.map encodeTypeDescriptions)) x5) := by
      rw [henc2, lookupField_append_nt hnt (by decide)]
      rfl
    have hg5 : optField enc2 (("argumentTypes")) (decodeArr decodeTypeDescriptions) = .ok x5 :=
      optField_restore hl5 (fun b hb => by
        subst hb
        obtain ⟨w, hw, hwn, hfw⟩ := optField_ok_some hx5
        exact ⟨decodeArr_restore hfw (fun v2 x hx hfx => decodeTypeDescriptions_restore hfx),
          fun hh => Json.noConfusion hh⟩)
    rw [decodeElementaryTypeNameExpression]
    simp only [hg1, hg2, hg3, hg4, hg5, dres_bind_ok, dres_pure]

theorem decodeInlineAssembly_restore (nt : List (String × Json))
    (hnt : ∀ e ∈ nt, e.1 = ("nodeType")) {v : Json} {a : InlineAssembly}
    (h : decodeInlineAssembly v = .ok a) :
    decodeInlineAssembly (.obj (nt ++ encodeInlineAssemblyFields a)) = .ok a := by
  cases v <;> try exact Except.noConfusion h
  case obj o =>
    rw [decodeInlineAssembly] at h
    simp only [dres_bind_eq_ok] at h
    obtain ⟨x1, hx1, x2, hx2, x3, hx3, x4, hx4, x5, hx5, x6, hx6, hp⟩ := h
    simp only [dres_pure, Except.ok.injEq] at hp
    subst hp
    set enc2 := nt ++ encodeInlineAssemblyFields (.mk x1 x2 x3 x4 x5 x6) with henc2
    have hl1 : lookupField enc2 (("id")) = some (Json.num x1) := by
      rw [henc2, lookupField_append_nt hnt (by decide)]
      rfl
    obtain ⟨w1, hw1, hf1⟩ := reqField_ok hx1
    have hg1 : reqField enc2 (("id")) (decodeI64) = .ok x1 :=
      reqField_of_lookup hl1 (decodeI64_restore hf1)
    have hl2 : lookupField enc2 (("operations")) = some (encodeOpt (fun y => y) x2) := by
      rw [henc2, lookupField_append_nt hnt (by decide)]
      rfl
    have hg2 : optField enc2 (("operations")) (decodeJson) = .ok x2 :=
      optField_restore hl2 (fun b hb => by
        subst hb
        obtain ⟨w, hw, hwn, hfw⟩ := optField_ok_some hx2
        have hbw := decodeJson_ok hfw
        subst hbw
        exact ⟨rfl, hwn⟩)
    have hl3 : lookupField enc2 (("externalReferences")) = some (encodeOpt (fun ys => Json.arr (ys.map encodeExternalReference)) x3) := by
      rw [henc2, lookupField_append_nt hnt (by decide)]
      rfl
    have hg3 : optField enc2 (("externalReferences")) (decodeArr decodeExternalReference) = .ok x3 :=
      optField_restore hl3 (fun b hb => by
        subst hb
        obtain ⟨w, hw, hwn, hfw⟩ := optField_ok_some hx3
        exact ⟨decodeArr_restore hfw (fun v2 x hx hfx => decodeExternalReference_restore [] (fun e he => absurd he (List.not_mem_nil e)) hfx),
          fun hh => Json.noConfusion hh⟩)
    have hl4 : lookupField enc2 (("src")) = some (Json.str (encode_location x4)) := by
      rw [henc2, lookupField_append_nt hnt (by decide)]
      rfl
    obtain ⟨w4, hw4, hf4⟩ := reqField_ok hx4
    have hg4 : reqField enc2 (("src")) (decodeSrc) = .ok x4 :=
      reqField_of_lookup hl4 (decodeSrc_restore hf4)
    have hl5 : lookupField enc2 (("documentation")) = some (encodeOpt encodeDocumentation x5) := by
      rw [henc2, lookupField_append_nt hnt (by decide)]
      rfl
    have hg5 : optField enc2 (("documentation")) (decodeDocumentation) = .ok x5 :=
      optField_restore hl5 (fun b hb => by
        subst hb
        obtain ⟨w, hw, hwn, hfw⟩ := optField_ok_some hx5
        exact ⟨decodeDocumentation_restore hfw, encodeDocumentation_ne_null b⟩)
    have hl6 : lookupField enc2 (("flags")) = some (Json.arr (x6.map (fun y => Json.str y))) := by
      rw [henc2, lookupField_append_nt hnt (by decide)]
      rfl
    have hfe6 : decodeArr decodeString (Json.arr (x6.map (fun y => Json.str y))) = .ok x6 := by
      rcases defField_ok hx6 with h0 | ⟨w, hw, hfw⟩
      · subst h0
        rfl
      · exact decodeArr_restore hfw (fun v2 x hx hfx => decodeString_restore hfx)
    have hg6 : defField enc2 (("flags")) [] (decodeArr decodeString) = .ok x6 :=
      defField_of_lookup hl6 hfe6
    rw [decodeInlineAssembly]
    simp only [hg1, hg2, hg3, hg4, hg5, hg6, dres_bind_ok, dres_pure]

theorem encodeExpressionF_ne_null_of (fuel : Nat) (w : Json) (b : Expression)
    (h : decodeExpressionF fuel w = .ok b) : encodeExpressionF fuel b ≠ Json.null := by
  match fuel with
  | 0 => exact Except.noConfusion h
  | fuel + 1 => cases b <;> (rw [encodeExpressionF]; exact fun hh => Json.noConfusion hh)

theorem encodeStatementF_ne_null_of (fuel : Nat) (w : Json) (b : Statement)
    (h : decodeStatementF fuel w = .ok b) : encodeStatementF fuel b ≠ Json.null := by
  match fuel with
  | 0 => exact Except.noConfusion h
  | fuel + 1 => cases b <;> (rw [encodeStatementF]; exact fun hh => Json.noConfusion hh)

theorem encodeTypeNameF_ne_null_of (fuel : Nat) (w : Json) (b : TypeName)
    (h : decodeTypeNameF fuel w = .ok b) : encodeTypeNameF fuel b ≠ Json.null := by
  match fuel with
  | 0 => exact Except.noConfusion h
  | fuel + 1 => cases b <;> (rw [encodeTypeNameF]; exact fun hh => Json.noConfusion hh)

theorem encodeFunctionCallExpressionF_ne_null_of (fuel : Nat) (w : Json) (b : FunctionCallExpression)
    (h : decodeFunctionCallExpressionF fuel w = .ok b) : encodeFunctionCallExpressionF fuel b ≠ Json.null := by
  match fuel with
  | 0 => exact Except.noConfusion h
  | fuel + 1 => cases b <;> (rw [encodeFunctionCallExpressionF]; exact fun hh => Json.noConfusion hh)

theorem encodeContractDefinitionNodeF_ne_null_of (fuel : Nat) (w : Json) (b : ContractDefinitionNode)
    (h : decodeContractDefinitionNodeF fuel w = .ok b) : encodeContractDefinitionNodeF fuel b ≠ Json.null := by
  match fuel with
  | 0 => exact Except.noConfusion h
  | fuel + 1 => cases b <;> (rw [encodeContractDefinitionNodeF]; exact fun hh => Json.noConfusion hh)

theorem encodeSourceUnitNodeF_ne_null_of (fuel : Nat) (w : Json) (b : SourceUnitNode)
    (h : decodeSourceUnitNodeF fuel w = .ok b) : encodeSourceUnitNodeF fuel b ≠ Json.null := by
  match fuel with
  | 0 => exact Except.noConfusion h
  | fuel + 1 => cases b <;> (rw [encodeSourceUnitNodeF]; exact fun hh => Json.noConfusion hh)

mutual

theorem decodeExpressionF_restore (fuel : Nat) (v : Json) (a : Expression) (fuel2 : Nat)
    (h : decodeExpressionF fuel v = .ok a)
    (hb : 2 * jsonFuel (encodeExpressionF fuel a) ≤ fuel2) :
    decodeExpressionF fuel2 (encodeExpressionF fuel a) = .ok a := by
  match fuel with
  | 0 => exact Except.noConfusion h
  | fuel + 1 =>
    cases v <;> try exact Except.noConfusion h
    case obj o =>
      rw [decodeExpressionF] at h
      rcases hl : lookupField o (("nodeType")) with _ | w
      · rw [hl] at h
        exact Except.noConfusion h
      · rw [hl] at h
        cases w <;> try exact Except.noConfusion h
        case str k =>
          dsimp only at h
          by_cases ht1 : k = ("Assignment")
          · rw [if_pos ht1] at h
            obtain ⟨rec, hrec, ha⟩ := dres_map_ok_inv h
            subst ha
            rw [encodeExpressionF] at hb ⊢
            match fuel2 with
            | 0 =>
              have hp1 := jsonFuel_pos (Json.obj ((("nodeType"), Json.str ("Assignment")) :: encodeAssignmentFieldsF fuel rec))
              omega
            | f2 + 1 =>
              rw [decodeExpressionF]
              rw [show lookupField ((("nodeType"), Json.str ("Assignment")) :: encodeAssignmentFieldsF fuel rec) (("nodeType")) = some (Json.str ("Assignment")) from rfl]
              dsimp only
              rw [if_pos rfl]
              have hres := decodeAssignmentF_restore fuel (.obj o) rec
                [(("nodeType"), Json.str ("Assignment"))] f2 (by intro e he; rw [List.mem_singleton] at he; subst he; rfl) hrec hb
              rw [List.singleton_append] at hres
              rw [hres, dres_map_ok]
          · rw [if_neg ht1] at h
            by_cases ht2 : k = ("BinaryOperation")
            · rw [if_pos ht2] at h
              obtain ⟨rec, hrec, ha⟩ := dres_map_ok_inv h
              subst ha
              rw [encodeExpressionF] at hb ⊢
              match fuel2 with
              | 0 =>
                have hp1 := jsonFuel_pos (Json.obj ((("nodeType"), Json.str ("BinaryOperation")) :: encodeBinaryOperationFieldsF fuel rec))
                omega
              | f2 + 1 =>
                rw [decodeExpressionF]
                rw [show lookupField ((("nodeType"), Json.str ("BinaryOperation")) :: encodeBinaryOperationFieldsF fuel rec) (("nodeType")) = some (Json.str ("BinaryOperation")) from rfl]
                dsimp only
                rw [if_neg (by decide)]
                rw [if_pos rfl]
                have hres := decodeBinaryOperationF_restore fuel (.obj o) rec
                  [(("nodeType"), Json.str ("BinaryOperation"))] f2 (by intro e he; rw [List.mem_singleton] at he; subst he; rfl) hrec hb
                rw [List.singleton_append] at hres
                rw [hres, dres_map_ok]
            · rw [if_neg ht2] at h
              by_cases ht3 : k = ("Conditional")
              · rw [if_pos ht3] at h
                obtain ⟨rec, hrec, ha⟩ := dres_map_ok_inv h
                subst ha
                rw [encodeExpressionF] at hb ⊢
                match fuel2 with
                | 0 =>
                  have hp1 := jsonFuel_pos (Json.obj ((("nodeType"), Json.str ("Conditional")) :: encodeConditionalFieldsF fuel rec))
                  omega
                | f2 + 1 =>
                  rw [decodeExpressionF]
                  rw [show lookupField ((("nodeType"), Json.str ("Conditional")) :: encodeConditionalFieldsF fuel rec) (("nodeType")) = some (Json.str ("Conditional")) from rfl]
                  dsimp only
                  rw [if_neg (by decide)]
                  rw [if_neg (by decide)]
                  rw [if_pos rfl]
                  have hres := decodeConditionalF_restore fuel (.obj o) rec
                    [(("nodeType"), Json.str ("Conditional"))] f2 (by intro e he; rw [List.mem_singleton] at he; subst he; rfl) hrec hb
                  rw [List.singleton_append] at hres
                  rw [hres, dres_map_ok]
              · rw [if_neg ht3] at h
                by_cases ht4 : k = ("ElementaryTypeNameExpression")
                · rw [if_pos ht4] at h
                  obtain ⟨rec, hrec, ha⟩ := dres_map_ok_inv h
                  subst ha
                  rw [encodeExpressionF] at hb ⊢
                  match fuel2 with
                  | 0 =>
                    have hp1 := jsonFuel_pos (Json.obj ((("nodeType"), Json.str ("ElementaryTypeNameExpression")) :: encodeElementaryTypeNameExpressionFields rec))
                    omega
                  | f2 + 1 =>
                    rw [decodeExpressionF]
                    rw [show lookupField ((("nodeType"), Json.str ("ElementaryTypeNameExpression")) :: encodeElementaryTypeNameExpressionFields rec) (("nodeType")) = some (Json.str ("ElementaryTypeNameExpression")) from rfl]
                    dsimp only
                    rw [if_neg (by decide)]
                    rw [if_neg (by decide)]
                    rw [if_neg (by decide)]
                    rw [if_pos rfl]
                    have hres := decodeElementaryTypeNameExpression_restore [(("nodeType"), Json.str ("ElementaryTypeNameExpression"))] (by intro e he; rw [List.mem_singleton] at he; subst he; rfl) hrec
                    rw [List.singleton_append] at hres
                    rw [hres, dres_map_ok]
                · rw [if_neg ht4] at h
                  by_cases ht5 : k = ("FunctionCall")
                  · rw [if_pos ht5] at h
                    obtain ⟨rec, hrec, ha⟩ := dres_map_ok_inv h
                    subst ha
                    rw [encodeExpressionF] at hb ⊢
                    match fuel2 with
                    | 0 =>
                      have hp1 := jsonFuel_pos (Json.obj ((("nodeType"), Json.str ("FunctionCall")) :: encodeFunctionCallFieldsF fuel rec))
                      omega
                    | f2 + 1 =>
                      rw [decodeExpressionF]
                      rw [show lookupField ((("nodeType"), Json.str ("FunctionCall")) :: encodeFunctionCallFieldsF fuel rec) (("nodeType")) = some (Json.str ("FunctionCall")) from rfl]
                      dsimp only
                      rw [if_neg (by decide)]
                      rw [if_neg (by decide)]
                      rw [if_neg (by decide)]
                      rw [if_neg (by decide)]
                      rw [if_pos rfl]
                      have hres := decodeFunctionCallF_restore fuel (.obj o) rec
                        [(("nodeType"), Json.str ("FunctionCall"))] f2 (by intro e he; rw [List.mem_singleton] at he; subst he; rfl) hrec hb
                      rw [List.singleton_append] at hres
                      rw [hres, dres_map_ok]
                  · rw [if_neg ht5] at h
                    by_cases ht6 : k = ("Identifier")
                    · rw [if_pos ht6] at h
                      obtain ⟨rec, hrec, ha⟩ := dres_map_ok_inv h
                      subst ha
                      rw [encodeExpressionF] at hb ⊢
                      match fuel2 with
                      | 0 =>
                        have hp1 := jsonFuel_pos (Json.obj ((("nodeType"), Json.str ("Identifier")) :: encodeIdentifierFields rec))
                        omega
                      | f2 + 1 =>
                        rw [decodeExpressionF]
                        rw [show lookupField ((("nodeType"), Json.str ("Identifier")) :: encodeIdentifierFields rec) (("nodeType")) = some (Json.str ("Identifier")) from rfl]
                        dsimp only
                        rw [if_neg (by decide)]
                        rw [if_neg (by decide)]
                        rw [if_neg (by decide)]
                        rw [if_neg (by decide)]
                        rw [if_neg (by decide)]
                        rw [if_pos rfl]
                        have hres := decodeIdentifier_restore [(("nodeType"), Json.str ("Identifier"))] (by intro e he; rw [List.mem_singleton] at he; subst he; rfl) hrec
                        rw [List.singleton_append] at hres
                        rw [hres, dres_map_ok]
                    · rw [if_neg ht6] at h
                      by_cases ht7 : k = ("IndexAccess")
                      · rw [if_pos ht7] at h
                        obtain ⟨rec, hrec, ha⟩ := dres_map_ok_inv h
                        subst ha
                        rw [encodeExpressionF] at hb ⊢
                        match fuel2 with
                        | 0 =>
                          have hp1 := jsonFuel_pos (Json.obj ((("nodeType"), Json.str ("IndexAccess")) :: encodeIndexAccessFieldsF fuel rec))
                          omega
                        | f2 + 1 =>
                          rw [decodeExpressionF]
                          rw [show lookupField ((("nodeType"), Json.str ("IndexAccess")) :: encodeIndexAccessFieldsF fuel rec) (("nodeType")) = some (Json.str ("IndexAccess")) from rfl]
                          dsimp only
                          rw [if_neg (by decide)]
                          rw [if_neg (by decide)]
                          rw [if_neg (by decide)]
                          rw [if_neg (by decide)]
                          rw [if_neg (by decide)]
                          rw [if_neg (by decide)]
                          rw [if_pos rfl]
                          have hres := decodeIndexAccessF_restore fuel (.obj o) rec
                            [(("nodeType"), Json.str ("IndexAccess"))] f2 (by intro e he; rw [List.mem_singleton] at he; subst he; rfl) hrec hb
                          rw [List.singleton_append] at hres
                          rw [hres, dres_map_ok]
                      · rw [if_neg ht7] at h
                        by_cases ht8 : k = ("Literal")
                        · rw [if_pos ht8] at h
                          obtain ⟨rec, hrec, ha⟩ := dres_map_ok_inv h
                          subst ha
                          rw [encodeExpressionF] at hb ⊢
                          match fuel2 with
                          | 0 =>
                            have hp1 := jsonFuel_pos (Json.obj ((("nodeType"), Json.str ("Literal")) :: encodeLiteralFields rec))
                            omega
                          | f2 + 1 =>
                            rw [decodeExpressionF]
                            rw [show lookupField ((("nodeType"), Json.str ("Literal")) :: encodeLiteralFields rec) (("nodeType")) = some (Json.str ("Literal")) from rfl]
                            dsimp only
                            rw [if_neg (by decide)]
                            rw [if_neg (by decide)]
                            rw [if_neg (by decide)]
                            rw [if_neg (by decide)]
                            rw [if_neg (by decide)]
                            rw [if_neg (by decide)]
                            rw [if_neg (by decide)]
                            rw [if_pos rfl]
                            have hres := decodeLiteral_restore [(("nodeType"), Json.str ("Literal"))] (by intro e he; rw [List.mem_singleton] at he; subst he; rfl) hrec
                            rw [List.singleton_append] at hres
                            rw [hres, dres_map_ok]
                        · rw [if_neg ht8] at h
                          by_cases ht9 : k = ("MemberAccess")
                          · rw [if_pos ht9] at h
                            obtain ⟨rec, hrec, ha⟩ := dres_map_ok_inv h
                            subst ha
                            rw [encodeExpressionF] at hb ⊢
                            match fuel2 with
                            | 0 =>
                              have hp1 := jsonFuel_pos (Json.obj ((("nodeType"), Json.str ("MemberAccess")) :: encodeMemberAccessFieldsF fuel rec))
                              omega
                            | f2 + 1 =>
                              rw [decodeExpressionF]
                              rw [show lookupField ((("nodeType"), Json.str ("MemberAccess")) :: encodeMemberAccessFieldsF fuel rec) (("nodeType")) = some (Json.str ("MemberAccess")) from rfl]
                              dsimp only
                              rw [if_neg (by decide)]
                              rw [if_neg (by decide)]
                              rw [if_neg (by decide)]
                              rw [if_neg (by decide)]
                              rw [if_neg (by decide)]
                              rw [if_neg (by decide)]
                              rw [if_neg (by decide)]
                              rw [if_neg (by decide)]
                              rw [if_pos rfl]
                              have hres := decodeMemberAccessF_restore fuel (.obj o) rec
                                [(("nodeType"), Json.str ("MemberAccess"))] f2 (by intro e he; rw [List.mem_singleton] at he; subst he; rfl) hrec hb
                              rw [List.singleton_append] at hres
                              rw [hres, dres_map_ok]
                          · rw [if_neg ht9] at h
                            by_cases ht10 : k = ("NewExpression")
                            · rw [if_pos ht10] at h
                              obtain ⟨rec, hrec, ha⟩ := dres_map_ok_inv h
                              subst ha
                              rw [encodeExpressionF] at hb ⊢
                              match fuel2 with
                              | 0 =>
                                have hp1 := jsonFuel_pos (Json.obj ((("nodeType"), Json.str ("NewExpression")) :: encodeNewExpressionFieldsF fuel rec))
                                omega
                              | f2 + 1 =>
                                rw [decodeExpressionF]
                                rw [show lookupField ((("nodeType"), Json.str ("NewExpression")) :: encodeNewExpressionFieldsF fuel rec) (("nodeType")) = some (Json.str ("NewExpression")) from rfl]
                                dsimp only
                                rw [if_neg (by decide)]
                                rw [if_neg (by decide)]
                                rw [if_neg (by decide)]
                                rw [if_neg (by decide)]
                                rw [if_neg (by decide)]
                                rw [if_neg (by decide)]
                                rw [if_neg (by decide)]
                                rw [if_neg (by decide)]
                                rw [if_neg (by decide)]
                                rw [if_pos rfl]
                                have hres := decodeNewExpressionF_restore fuel (.obj o) rec
                                  [(("nodeType"), Json.str ("NewExpression"))] f2 (by intro e he; rw [List.mem_singleton] at he; subst he; rfl) hrec hb
                                rw [List.singleton_append] at hres
                                rw [hres, dres_map_ok]
                            · rw [if_neg ht10] at h
                              by_cases ht11 : k = ("TupleExpression")
                              · rw [if_pos ht11] at h
                                obtain ⟨rec, hrec, ha⟩ := dres_map_ok_inv h
                                subst ha
                                rw [encodeExpressionF] at hb ⊢
                                match fuel2 with
                                | 0 =>
                                  have hp1 := jsonFuel_pos (Json.obj ((("nodeType"), Json.str ("TupleExpression")) :: encodeTupleExpressionFieldsF fuel rec))
                                  omega
                                | f2 + 1 =>
                                  rw [decodeExpressionF]
                                  rw [show lookupField ((("nodeType"), Json.str ("TupleExpression")) :: encodeTupleExpressionFieldsF fuel rec) (("nodeType")) = some (Json.str ("TupleExpression")) from rfl]
                                  dsimp only
                                  rw [if_neg (by decide)]
                                  rw [if_neg (by decide)]
                                  rw [if_neg (by decide)]
                                  rw [if_neg (by decide)]
                                  rw [if_neg (by decide)]
                                  rw [if_neg (by decide)]
                                  rw [if_neg (by decide)]
                                  rw [if_neg (by decide)]
                                  rw [if_neg (by decide)]
                                  rw [if_neg (by decide)]
                                  rw [if_pos rfl]
                                  have hres := decodeTupleExpressionF_restore fuel (.obj o) rec
                                    [(("nodeType"), Json.str ("TupleExpression"))] f2 (by intro e he; rw [List.mem_singleton] at he; subst he; rfl) hrec hb
                                  rw [List.singleton_append] at hres
                                  rw [hres, dres_map_ok]
                              · rw [if_neg ht11] at h
                                by_cases ht12 : k = ("UnaryOperation")
                                · rw [if_pos ht12] at h
                                  obtain ⟨rec, hrec, ha⟩ := dres_map_ok_inv h
                                  subst ha
                                  rw [encodeExpressionF] at hb ⊢
                                  match fuel2 with
                                  | 0 =>
                                    have hp1 := jsonFuel_pos (Json.obj ((("nodeType"), Json.str ("UnaryOperation")) :: encodeUnaryOperationFieldsF fuel rec))
                                    omega
                                  | f2 + 1 =>
                                    rw [decodeExpressionF]
                                    rw [show lookupField ((("nodeType"), Json.str ("UnaryOperation")) :: encodeUnaryOperationFieldsF fuel rec) (("nodeType")) = some (Json.str ("UnaryOperation")) from rfl]
                                    dsimp only
                                    rw [if_neg (by decide)]
                                    rw [if_neg (by decide)]
                                    rw [if_neg (by decide)]
                                    rw [if_neg (by decide)]
                                    rw [if_neg (by decide)]
                                    rw [if_neg (by decide)]
                                    rw [if_neg (by decide)]
                                    rw [if_neg (by decide)]
                                    rw [if_neg (by decide)]
                                    rw [if_neg (by decide)]
                                    rw [if_neg (by decide)]
                                    rw [if_pos rfl]
                                    have hres := decodeUnaryOperationF_restore fuel (.obj o) rec
                                      [(("nodeType"), Json.str ("UnaryOperation"))] f2 (by intro e he; rw [List.mem_singleton] at he; subst he; rfl) hrec hb
                                    rw [List.singleton_append] at hres
                                    rw [hres, dres_map_ok]
                                · rw [if_neg ht12] at h
                                  by_cases ht13 : k = ("VariableDeclarationStatement")
                                  · rw [if_pos ht13] at h
                                    obtain ⟨rec, hrec, ha⟩ := dres_map_ok_inv h
                                    subst ha
                                    rw [encodeExpressionF] at hb ⊢
                                    match fuel2 with
                                    | 0 =>
                                      have hp1 := jsonFuel_pos (Json.obj ((("nodeType"), Json.str ("VariableDeclarationStatement")) :: encodeVariableDeclarationStatementFieldsF fuel rec))
                                      omega
                                    | f2 + 1 =>
                                      rw [decodeExpressionF]
                                      rw [show lookupField ((("nodeType"), Json.str ("VariableDeclarationStatement")) :: encodeVariableDeclarationStatementFieldsF fuel rec) (("nodeType")) = some (Json.str ("VariableDeclarationStatement")) from rfl]
                                      dsimp only
                                      rw [if_neg (by decide)]
                                      rw [if_neg (by decide)]
                                      rw [if_neg (by decide)]
                                      rw [if_neg (by decide)]
                                      rw [if_neg (by decide)]
                                      rw [if_neg (by decide)]
                                      rw [if_neg (by decide)]
                                      rw [if_neg (by decide)]
                                      rw [if_neg (by decide)]
                                      rw [if_neg (by decide)]
                                      rw [if_neg (by decide)]
                                      rw [if_neg (by decide)]
                                      rw [if_pos rfl]
                                      have hres := decodeVariableDeclarationStatementF_restore fuel (.obj o) rec
                                        [(("nodeType"), Json.str ("VariableDeclarationStatement"))] f2 (by intro e he; rw [List.mem_singleton] at he; subst he; rfl) hrec hb
                                      rw [List.singleton_append] at hres
                                      rw [hres, dres_map_ok]
                                  · rw [if_neg ht13] at h
                                    by_cases ht14 : k = ("ExpressionStatement")
                                    · rw [if_pos ht14] at h
                                      obtain ⟨rec, hrec, ha⟩ := dres_map_ok_inv h
                                      subst ha
                                      rw [encodeExpressionF] at hb ⊢
                                      match fuel2 with
                                      | 0 =>
                                        have hp1 := jsonFuel_pos (Json.obj ((("nodeType"), Json.str ("ExpressionStatement")) :: encodeExpressionStatementFieldsF fuel rec))
                                        omega
                                      | f2 + 1 =>
                                        rw [decodeExpressionF]
                                        rw [show lookupField ((("nodeType"), Json.str ("ExpressionStatement")) :: encodeExpressionStatementFieldsF fuel rec) (("nodeType")) = some (Json.str ("ExpressionStatement")) from rfl]
                                        dsimp only
                                        rw [if_neg (by decide)]
                                        rw [if_neg (by decide)]
                                        rw [if_neg (by decide)]
                                        rw [if_neg (by decide)]
                                        rw [if_neg (by decide)]
                                        rw [if_neg (by decide)]
                                        rw [if_neg (by decide)]
                                        rw [if_neg (by decide)]
                                        rw [if_neg (by decide)]
                                        rw [if_neg (by decide)]
                                        rw [if_neg (by decide)]
                                        rw [if_neg (by decide)]
                                        rw [if_neg (by decide)]
                                        rw [if_pos rfl]
                                        have hres := decodeExpressionStatementF_restore fuel (.obj o) rec
                                          [(("nodeType"), Json.str ("ExpressionStatement"))] f2 (by intro e he; rw [List.mem_singleton] at he; subst he; rfl) hrec hb
                                        rw [List.singleton_append] at hres
                                        rw [hres, dres_map_ok]
                                    · rw [if_neg ht14] at h
                                      exact Except.noConfusion h
termination_by fuel

theorem decodeStatementF_restore (fuel : Nat) (v : Json) (a : Statement) (fuel2 : Nat)
    (h : decodeStatementF fuel v = .ok a)
    (hb : 2 * jsonFuel (encodeStatementF fuel a) ≤ fuel2) :
    decodeStatementF fuel2 (encodeStatementF fuel a) = .ok a := by
  match fuel with
  | 0 => exact Except.noConfusion h
  | fuel + 1 =>
    cases v <;> try exact Except.noConfusion h
    case obj o =>
      rw [decodeStatementF] at h
      rcases hl : lookupField o (("nodeType")) with _ | w
      · rw [hl] at h
        exact Except.noConfusion h
      · rw [hl] at h
        cases w <;> try exact Except.noConfusion h
        case str k =>
          dsimp only at h
          by_cases ht1 : k = ("Block")
          · rw [if_pos ht1] at h
            obtain ⟨rec, hrec, ha⟩ := dres_map_ok_inv h
            subst ha
            rw [encodeStatementF] at hb ⊢
            match fuel2 with
            | 0 =>
              have hp1 := jsonFuel_pos (Json.obj ((("nodeType"), Json.str ("Block")) :: encodeBlockFieldsF fuel rec))
              omega
            | f2 + 1 =>
              rw [decodeStatementF]
              rw [show lookupField ((("nodeType"), Json.str ("Block")) :: encodeBlockFieldsF fuel rec) (("nodeType")) = some (Json.str ("Block")) from rfl]
              dsimp only
              rw [if_pos rfl]
              have hres := decodeBlockF_restore fuel (.obj o) rec
                [(("nodeType"), Json.str ("Block"))] f2 (by intro e he; rw [List.mem_singleton] at he; subst he; rfl) hrec hb
              rw [List.singleton_append] at hres
              rw [hres, dres_map_ok]
          · rw [if_neg ht1] at h
            by_cases ht2 : k = ("Break")
            · rw [if_pos ht2] at h
              obtain ⟨rec, hrec, ha⟩ := dres_map_ok_inv h
              subst ha
              rw [encodeStatementF] at hb ⊢
              match fuel2 with
              | 0 =>
                have hp1 := jsonFuel_pos (Json.obj ((("nodeType"), Json.str ("Break")) :: encodeBreakFields rec))
                omega
              | f2 + 1 =>
                rw [decodeStatementF]
                rw [show lookupField ((("nodeType"), Json.str ("Break")) :: encodeBreakFields rec) (("nodeType")) = some (Json.str ("Break")) from rfl]
                dsimp only
                rw [if_neg (by decide)]
                rw [if_pos rfl]
                have hres := decodeBreak_restore [(("nodeType"), Json.str ("Break"))] (by intro e he; rw [List.mem_singleton] at he; subst he; rfl) hrec
                rw [List.singleton_append] at hres
                rw [hres, dres_map_ok]
            · rw [if_neg ht2] at h
              by_cases ht3 : k = ("Continue")
              · rw [if_pos ht3] at h
                obtain ⟨rec, hrec, ha⟩ := dres_map_ok_inv h
                subst ha
                rw [encodeStatementF] at hb ⊢
                match fuel2 with
                | 0 =>
                  have hp1 := jsonFuel_pos (Json.obj ((("nodeType"), Json.str ("Continue")) :: encodeContinueFields rec))
                  omega
                | f2 + 1 =>
                  rw [decodeStatementF]
                  rw [show lookupField ((("nodeType"), Json.str ("Continue")) :: encodeContinueFields rec) (("nodeType")) = some (Json.str ("Continue")) from rfl]
                  dsimp only
                  rw [if_neg (by decide)]
                  rw [if_neg (by decide)]
                  rw [if_pos rfl]
                  have hres := decodeContinue_restore [(("nodeType"), Json.str ("Continue"))] (by intro e he; rw [List.mem_singleton] at he; subst he; rfl) hrec
                  rw [List.singleton_append] at hres
                  rw [hres, dres_map_ok]
              · rw [if_neg ht3] at h
                by_cases ht4 : k = ("DoWhileStatement")
                · rw [if_pos ht4] at h
                  obtain ⟨rec, hrec, ha⟩ := dres_map_ok_inv h
                  subst ha
                  rw [encodeStatementF] at hb ⊢
                  match fuel2 with
                  | 0 =>
                    have hp1 := jsonFuel_pos (Json.obj ((("nodeType"), Json.str ("DoWhileStatement")) :: encodeDoWhileStatementFieldsF fuel rec))
                    omega
                  | f2 + 1 =>
                    rw [decodeStatementF]
                    rw [show lookupField ((("nodeType"), Json.str ("DoWhileStatement")) :: encodeDoWhileStatementFieldsF fuel rec) (("nodeType")) = some (Json.str ("DoWhileStatement")) from rfl]
                    dsimp only
                    rw [if_neg (by decide)]
                    rw [if_neg (by decide)]
                    rw [if_neg (by decide)]
                    rw [if_pos rfl]
                    have hres := decodeDoWhileStatementF_restore fuel (.obj o) rec
                      [(("nodeType"), Json.str ("DoWhileStatement"))] f2 (by intro e he; rw [List.mem_singleton] at he; subst he; rfl) hrec hb
                    rw [List.singleton_append] at hres
                    rw [hres, dres_map_ok]
                · rw [if_neg ht4] at h
                  by_cases ht5 : k = ("EmitStatement")
                  · rw [if_pos ht5] at h
                    obtain ⟨rec, hrec, ha⟩ := dres_map_ok_inv h
                    subst ha
                    rw [encodeStatementF] at hb ⊢
                    match fuel2 with
                    | 0 =>
                      have hp1 := jsonFuel_pos (Json.obj ((("nodeType"), Json.str ("EmitStatement")) :: encodeEmitStatementFieldsF fuel rec))
                      omega
                    | f2 + 1 =>
                      rw [decodeStatementF]
                      rw [show lookupField ((("nodeType"), Json.str ("EmitStatement")) :: encodeEmitStatementFieldsF fuel rec) (("nodeType")) = some (Json.str ("EmitStatement")) from rfl]
                      dsimp only
                      rw [if_neg (by decide)]
                      rw [if_neg (by decide)]
                      rw [if_neg (by decide)]
                      rw [if_neg (by decide)]
                      rw [if_pos rfl]
                      have hres := decodeEmitStatementF_restore fuel (.obj o) rec
                        [(("nodeType"), Json.str ("EmitStatement"))] f2 (by intro e he; rw [List.mem_singleton] at he; subst he; rfl) hrec hb
                      rw [List.singleton_append] at hres
                      rw [hres, dres_map_ok]
                  · rw [if_neg ht5] at h
                    by_cases ht6 : k = ("ExpressionStatement")
                    · rw [if_pos ht6] at h
                      obtain ⟨rec, hrec, ha⟩ := dres_map_ok_inv h
                      subst ha
                      rw [encodeStatementF] at hb ⊢
                      match fuel2 with
                      | 0 =>
                        have hp1 := jsonFuel_pos (Json.obj ((("nodeType"), Json.str ("ExpressionStatement")) :: encodeExpressionStatementFieldsF fuel rec))
                        omega
                      | f2 + 1 =>
                        rw [decodeStatementF]
                        rw [show lookupField ((("nodeType"), Json.str ("ExpressionStatement")) :: encodeExpressionStatementFieldsF fuel rec) (("nodeType")) = some (Json.str ("ExpressionStatement")) from rfl]
                        dsimp only
                        rw [if_neg (by decide)]
                        rw [if_neg (by decide)]
                        rw [if_neg (by decide)]
                        rw [if_neg (by decide)]
                        rw [if_neg (by decide)]
                        rw [if_pos rfl]
                        have hres := decodeExpressionStatementF_restore fuel (.obj o) rec
                          [(("nodeType"), Json.str ("ExpressionStatement"))] f2 (by intro e he; rw [List.mem_singleton] at he; subst he; rfl) hrec hb
                        rw [List.singleton_append] at hres
                        rw [hres, dres_map_ok]
                    · rw [if_neg ht6] at h
                      by_cases ht7 : k = ("ForStatement")
                      · rw [if_pos ht7] at h
                        obtain ⟨rec, hrec, ha⟩ := dres_map_ok_inv h
                        subst ha
                        rw [encodeStatementF] at hb ⊢
                        match fuel2 with
                        | 0 =>
                          have hp1 := jsonFuel_pos (Json.obj ((("nodeType"), Json.str ("ForStatement")) :: encodeForStatementFieldsF fuel rec))
                          omega
                        | f2 + 1 =>
                          rw [decodeStatementF]
                          rw [show lookupField ((("nodeType"), Json.str ("ForStatement")) :: encodeForStatementFieldsF fuel rec) (("nodeType")) = some (Json.str ("ForStatement")) from rfl]
                          dsimp only
                          rw [if_neg (by decide)]
                          rw [if_neg (by decide)]
                          rw [if_neg (by decide)]
                          rw [if_neg (by decide)]
                          rw [if_neg (by decide)]
                          rw [if_neg (by decide)]
                          rw [if_pos rfl]
                          have hres := decodeForStatementF_restore fuel (.obj o) rec
                            [(("nodeType"), Json.str ("ForStatement"))] f2 (by intro e he; rw [List.mem_singleton] at he; subst he; rfl) hrec hb
                          rw [List.singleton_append] at hres
                          rw [hres, dres_map_ok]
                      · rw [if_neg ht7] at h
                        by_cases ht8 : k = ("IfStatement")
                        · rw [if_pos ht8] at h
                          obtain ⟨rec, hrec, ha⟩ := dres_map_ok_inv h
                          subst ha
                          rw [encodeStatementF] at hb ⊢
                          match fuel2 with
                          | 0 =>
                            have hp1 := jsonFuel_pos (Json.obj ((("nodeType"), Json.str ("IfStatement")) :: encodeIfStatementFieldsF fuel rec))
                            omega
                          | f2 + 1 =>
                            rw [decodeStatementF]
                            rw [show lookupField ((("nodeType"), Json.str ("IfStatement")) :: encodeIfStatementFieldsF fuel rec) (("nodeType")) = some (Json.str ("IfStatement")) from rfl]
                            dsimp only
                            rw [if_neg (by decide)]
                            rw [if_neg (by decide)]
                            rw [if_neg (by decide)]
                            rw [if_neg (by decide)]
                            rw [if_neg (by decide)]
                            rw [if_neg (by decide)]
                            rw [if_neg (by decide)]
                            rw [if_pos rfl]
                            have hres := decodeIfStatementF_restore fuel (.obj o) rec
                              [(("nodeType"), Json.str ("IfStatement"))] f2 (by intro e he; rw [List.mem_singleton] at he; subst he; rfl) hrec hb
                            rw [List.singleton_append] at hres
                            rw [hres, dres_map_ok]
                        · rw [if_neg ht8] at h
                          by_cases ht9 : k = ("InlineAssembly")
                          · rw [if_pos ht9] at h
                            obtain ⟨rec, hrec, ha⟩ := dres_map_ok_inv h
                            subst ha
                            rw [encodeStatementF] at hb ⊢
                            match fuel2 with
                            | 0 =>
                              have hp1 := jsonFuel_pos (Json.obj ((("nodeType"), Json.str ("InlineAssembly")) :: encodeInlineAssemblyFields rec))
                              omega
                            | f2 + 1 =>
                              rw [decodeStatementF]
                              rw [show lookupField ((("nodeType"), Json.str ("InlineAssembly")) :: encodeInlineAssemblyFields rec) (("nodeType")) = some (Json.str ("InlineAssembly")) from rfl]
                              dsimp only
                              rw [if_neg (by decide)]
                              rw [if_neg (by decide)]
                              rw [if_neg (by decide)]
                              rw [if_neg (by decide)]
                              rw [if_neg (by decide)]
                              rw [if_neg (by decide)]
                              rw [if_neg (by decide)]
                              rw [if_neg (by decide)]
                              rw [if_pos rfl]
                              have hres := decodeInlineAssembly_restore [(("nodeType"), Json.str ("InlineAssembly"))] (by intro e he; rw [List.mem_singleton] at he; subst he; rfl) hrec
                              rw [List.singleton_append] at hres
                              rw [hres, dres_map_ok]
                          · rw [if_neg ht9] at h
                            by_cases ht10 : k = ("PlaceholderStatement")
                            · rw [if_pos ht10] at h
                              obtain ⟨rec, hrec, ha⟩ := dres_map_ok_inv h
                              subst ha
                              rw [encodeStatementF] at hb ⊢
                              match fuel2 with
                              | 0 =>
                                have hp1 := jsonFuel_pos (Json.obj ((("nodeType"), Json.str ("PlaceholderStatement")) :: encodePlaceholderStatementFields rec))
                                omega
                              | f2 + 1 =>
                                rw [decodeStatementF]
                                rw [show lookupField ((("nodeType"), Json.str ("PlaceholderStatement")) :: encodePlaceholderStatementFields rec) (("nodeType")) = some (Json.str ("PlaceholderStatement")) from rfl]
                                dsimp only
                                rw [if_neg (by decide)]
                                rw [if_neg (by decide)]
                                rw [if_neg (by decide)]
                                rw [if_neg (by decide)]
                                rw [if_neg (by decide)]
                                rw [if_neg (by decide)]
                                rw [if_neg (by decide)]
                                rw [if_neg (by decide)]
                                rw [if_neg (by decide)]
                                rw [if_pos rfl]
                                have hres := decodePlaceholderStatement_restore [(("nodeType"), Json.str ("PlaceholderStatement"))] (by intro e he; rw [List.mem_singleton] at he; subst he; rfl) hrec
                                rw [List.singleton_append] at hres
                                rw [hres, dres_map_ok]
                            · rw [if_neg ht10] at h
                              by_cases ht11 : k = ("Return")
                              · rw [if_pos ht11] at h
                                obtain ⟨rec, hrec, ha⟩ := dres_map_ok_inv h
                                subst ha
                                rw [encodeStatementF] at hb ⊢
                                match fuel2 with
                                | 0 =>
                                  have hp1 := jsonFuel_pos (Json.obj ((("nodeType"), Json.str ("Return")) :: encodeReturnFieldsF fuel rec))
                                  omega
                                | f2 + 1 =>
                                  rw [decodeStatementF]
                                  rw [show lookupField ((("nodeType"), Json.str ("Return")) :: encodeReturnFieldsF fuel rec) (("nodeType")) = some (Json.str ("Return")) from rfl]
                                  dsimp only
                                  rw [if_neg (by decide)]
                                  rw [if_neg (by decide)]
                                  rw [if_neg (by decide)]
                                  rw [if_neg (by decide)]
                                  rw [if_neg (by decide)]
                                  rw [if_neg (by decide)]
                                  rw [if_neg (by decide)]
                                  rw [if_neg (by decide)]
                                  rw [if_neg (by decide)]
                                  rw [if_neg (by decide)]
                                  rw [if_pos rfl]
                                  have hres := decodeReturnF_restore fuel (.obj o) rec
                                    [(("nodeType"), Json.str ("Return"))] f2 (by intro e he; rw [List.mem_singleton] at he; subst he; rfl) hrec hb
                                  rw [List.singleton_append] at hres
                                  rw [hres, dres_map_ok]
                              · rw [if_neg ht11] at h
                                by_cases ht12 : k = ("RevertStatement")
                                · rw [if_pos ht12] at h
                                  obtain ⟨rec, hrec, ha⟩ := dres_map_ok_inv h
                                  subst ha
                                  rw [encodeStatementF] at hb ⊢
                                  match fuel2 with
                                  | 0 =>
                                    have hp1 := jsonFuel_pos (Json.obj ((("nodeType"), Json.str ("RevertStatement")) :: encodeRevertStatementFieldsF fuel rec))
                                    omega
                                  | f2 + 1 =>
                                    rw [decodeStatementF]
                                    rw [show lookupField ((("nodeType"), Json.str ("RevertStatement")) :: encodeRevertStatementFieldsF fuel rec) (("nodeType")) = some (Json.str ("RevertStatement")) from rfl]
                                    dsimp only
                                    rw [if_neg (by decide)]
                                    rw [if_neg (by decide)]
                                    rw [if_neg (by decide)]
                                    rw [if_neg (by decide)]
                                    rw [if_neg (by decide)]
                                    rw [if_neg (by decide)]
                                    rw [if_neg (by decide)]
                                    rw [if_neg (by decide)]
                                    rw [if_neg (by decide)]
                                    rw [if_neg (by decide)]
                                    rw [if_neg (by decide)]
                                    rw [if_pos rfl]
                                    have hres := decodeRevertStatementF_restore fuel (.obj o) rec
                                      [(("nodeType"), Json.str ("RevertStatement"))] f2 (by intro e he; rw [List.mem_singleton] at he; subst he; rfl) hrec hb
                                    rw [List.singleton_append] at hres
                                    rw [hres, dres_map_ok]
                                · rw [if_neg ht12] at h
                                  by_cases ht13 : k = ("TryStatement")
                                  · rw [if_pos ht13] at h
                                    obtain ⟨rec, hrec, ha⟩ := dres_map_ok_inv h
                                    subst ha
                                    rw [encodeStatementF] at hb ⊢
                                    match fuel2 with
                                    | 0 =>
                                      have hp1 := jsonFuel_pos (Json.obj ((("nodeType"), Json.str ("TryStatement")) :: encodeTryStatementFieldsF fuel rec))
                                      omega
                                    | f2 + 1 =>
                                      rw [decodeStatementF]
                                      rw [show lookupField ((("nodeType"), Json.str ("TryStatement")) :: encodeTryStatementFieldsF fuel rec) (("nodeType")) = some (Json.str ("TryStatement")) from rfl]
                                      dsimp only
                                      rw [if_neg (by decide)]
                                      rw [if_neg (by decide)]
                                      rw [if_neg (by decide)]
                                      rw [if_neg (by decide)]
                                      rw [if_neg (by decide)]
                                      rw [if_neg (by decide)]
                                      rw [if_neg (by decide)]
                                      rw [if_neg (by decide)]
                                      rw [if_neg (by decide)]
                                      rw [if_neg (by decide)]
                                      rw [if_neg (by decide)]
                                      rw [if_neg (by decide)]
                                      rw [if_pos rfl]
                                      have hres := decodeTryStatementF_restore fuel (.obj o) rec
                                        [(("nodeType"), Json.str ("TryStatement"))] f2 (by intro e he; rw [List.mem_singleton] at he; subst he; rfl) hrec hb
                                      rw [List.singleton_append] at hres
                                      rw [hres, dres_map_ok]
                                  · rw [if_neg ht13] at h
                                    by_cases ht14 : k = ("UncheckedBlock")
                                    · rw [if_pos ht14] at h
                                      obtain ⟨rec, hrec, ha⟩ := dres_map_ok_inv h
                                      subst ha
                                      rw [encodeStatementF] at hb ⊢
                                      match fuel2 with
                                      | 0 =>
                                        have hp1 := jsonFuel_pos (Json.obj ((("nodeType"), Json.str ("UncheckedBlock")) :: encodeUncheckedBlockFieldsF fuel rec))
                                        omega
                                      | f2 + 1 =>
                                        rw [decodeStatementF]
                                        rw [show lookupField ((("nodeType"), Json.str ("UncheckedBlock")) :: encodeUncheckedBlockFieldsF fuel rec) (("nodeType")) = some (Json.str ("UncheckedBlock")) from rfl]
                                        dsimp only
                                        rw [if_neg (by decide)]
                                        rw [if_neg (by decide)]
                                        rw [if_neg (by decide)]
                                        rw [if_neg (by decide)]
                                        rw [if_neg (by decide)]
                                        rw [if_neg (by decide)]
                                        rw [if_neg (by decide)]
                                        rw [if_neg (by decide)]
                                        rw [if_neg (by decide)]
                                        rw [if_neg (by decide)]
                                        rw [if_neg (by decide)]
                                        rw [if_neg (by decide)]
                                        rw [if_neg (by decide)]
                                        rw [if_pos rfl]
                                        have hres := decodeUncheckedBlockF_restore fuel (.obj o) rec
                                          [(("nodeType"), Json.str ("UncheckedBlock"))] f2 (by intro e he; rw [List.mem_singleton] at he; subst he; rfl) hrec hb
                                        rw [List.singleton_append] at hres
                                        rw [hres, dres_map_ok]
                                    · rw [if_neg ht14] at h
                                      by_cases ht15 : k = ("VariableDeclarationStatement")
                                      · rw [if_pos ht15] at h
                                        obtain ⟨rec, hrec, ha⟩ := dres_map_ok_inv h
                                        subst ha
                                        rw [encodeStatementF] at hb ⊢
                                        match fuel2 with
                                        | 0 =>
                                          have hp1 := jsonFuel_pos (Json.obj ((("nodeType"), Json.str ("VariableDeclarationStatement")) :: encodeVariableDeclarationStatementFieldsF fuel rec))
                                          omega
                                        | f2 + 1 =>
                                          rw [decodeStatementF]
                                          rw [show lookupField ((("nodeType"), Json.str ("VariableDeclarationStatement")) :: encodeVariableDeclarationStatementFieldsF fuel rec) (("nodeType")) = some (Json.str ("VariableDeclarationStatement")) from rfl]
                                          dsimp only
                                          rw [if_neg (by decide)]
                                          rw [if_neg (by decide)]
                                          rw [if_neg (by decide)]
                                          rw [if_neg (by decide)]
                                          rw [if_neg (by decide)]
                                          rw [if_neg (by decide)]
                                          rw [if_neg (by decide)]
                                          rw [if_neg (by decide)]
                                          rw [if_neg (by decide)]
                                          rw [if_neg (by decide)]
                                          rw [if_neg (by decide)]
                                          rw [if_neg (by decide)]
                                          rw [if_neg (by decide)]
                                          rw [if_neg (by decide)]
                                          rw [if_pos rfl]
                                          have hres := decodeVariableDeclarationStatementF_restore fuel (.obj o) rec
                                            [(("nodeType"), Json.str ("VariableDeclarationStatement"))] f2 (by intro e he; rw [List.mem_singleton] at he; subst he; rfl) hrec hb
                                          rw [List.singleton_append] at hres
                                          rw [hres, dres_map_ok]
                                      · rw [if_neg ht15] at h
                                        by_cases ht16 : k = ("WhileStatement")
                                        · rw [if_pos ht16] at h
                                          obtain ⟨rec, hrec, ha⟩ := dres_map_ok_inv h
                                          subst ha
                                          rw [encodeStatementF] at hb ⊢
                                          match fuel2 with
                                          | 0 =>
                                            have hp1 := jsonFuel_pos (Json.obj ((("nodeType"), Json.str ("WhileStatement")) :: encodeWhileStatementFieldsF fuel rec))
                                            omega
                                          | f2 + 1 =>
                                            rw [decodeStatementF]
                                            rw [show lookupField ((("nodeType"), Json.str ("WhileStatement")) :: encodeWhileStatementFieldsF fuel rec) (("nodeType")) = some (Json.str ("WhileStatement")) from rfl]
                                            dsimp only
                                            rw [if_neg (by decide)]
                                            rw [if_neg (by decide)]
                                            rw [if_neg (by decide)]
                                            rw [if_neg (by decide)]
                                            rw [if_neg (by decide)]
                                            rw [if_neg (by decide)]
                                            rw [if_neg (by decide)]
                                            rw [if_neg (by decide)]
                                            rw [if_neg (by decide)]
                                            rw [if_neg (by decide)]
                                            rw [if_neg (by decide)]
                                            rw [if_neg (by decide)]
                                            rw [if_neg (by decide)]
                                            rw [if_neg (by decide)]
                                            rw [if_neg (by decide)]
                                            rw [if_pos rfl]
                                            have hres := decodeWhileStatementF_restore fuel (.obj o) rec
                                              [(("nodeType"), Json.str ("WhileStatement"))] f2 (by intro e he; rw [List.mem_singleton] at he; subst he; rfl) hrec hb
                                            rw [List.singleton_append] at hres
                                            rw [hres, dres_map_ok]
                                        · rw [if_neg ht16] at h
                                          exact Except.noConfusion h
termination_by fuel

theorem decodeTypeNameF_restore (fuel : Nat) (v : Json) (a : TypeName) (fuel2 : Nat)
    (h : decodeTypeNameF fuel v = .ok a)
    (hb : 2 * jsonFuel (encodeTypeNameF fuel a) ≤ fuel2) :
    decodeTypeNameF fuel2 (encodeTypeNameF fuel a) = .ok a := by
  match fuel with
  | 0 => exact Except.noConfusion h
  | fuel + 1 =>
    cases v <;> try exact Except.noConfusion h
    case obj o =>
      rw [decodeTypeNameF] at h
      rcases hl : lookupField o (("nodeType")) with _ | w
      · rw [hl] at h
        exact Except.noConfusion h
      · rw [hl] at h
        cases w <;> try exact Except.noConfusion h
        case str k =>
          dsimp only at h
          by_cases ht1 : k = ("ArrayTypeName")
          · rw [if_pos ht1] at h
            obtain ⟨rec, hrec, ha⟩ := dres_map_ok_inv h
            subst ha
            rw [encodeTypeNameF] at hb ⊢
            match fuel2 with
            | 0 =>
              have hp1 := jsonFuel_pos (Json.obj ((("nodeType"), Json.str ("ArrayTypeName")) :: encodeArrayTypeNameFieldsF fuel rec))
              omega
            | f2 + 1 =>
              rw [decodeTypeNameF]
              rw [show lookupField ((("nodeType"), Json.str ("ArrayTypeName")) :: encodeArrayTypeNameFieldsF fuel rec) (("nodeType")) = some (Json.str ("ArrayTypeName")) from rfl]
              dsimp only
              rw [if_pos rfl]
              have hres := decodeArrayTypeNameF_restore fuel (.obj o) rec
                [(("nodeType"), Json.str ("ArrayTypeName"))] f2 (by intro e he; rw [List.mem_singleton] at he; subst he; rfl) hrec hb
              rw [List.singleton_append] at hres
              rw [hres, dres_map_ok]
          · rw [if_neg ht1] at h
            by_cases ht2 : k = ("ElementaryTypeName")
            · rw [if_pos ht2] at h
              obtain ⟨rec, hrec, ha⟩ := dres_map_ok_inv h
              subst ha
              rw [encodeTypeNameF] at hb ⊢
              match fuel2 with
              | 0 =>
                have hp1 := jsonFuel_pos (Json.obj ((("nodeType"), Json.str ("ElementaryTypeName")) :: encodeElementaryTypeNameFields rec))
                omega
              | f2 + 1 =>
                rw [decodeTypeNameF]
                rw [show lookupField ((("nodeType"), Json.str ("ElementaryTypeName")) :: encodeElementaryTypeNameFields rec) (("nodeType")) = some (Json.str ("ElementaryTypeName")) from rfl]
                dsimp only
                rw [if_neg (by decide)]
                rw [if_pos rfl]
                have hres := decodeElementaryTypeName_restore [(("nodeType"), Json.str ("ElementaryTypeName"))] (by intro e he; rw [List.mem_singleton] at he; subst he; rfl) hrec
                rw [List.singleton_append] at hres
                rw [hres, dres_map_ok]
            · rw [if_neg ht2] at h
              by_cases ht3 : k = ("FunctionTypeName")
              · rw [if_pos ht3] at h
                obtain ⟨rec, hrec, ha⟩ := dres_map_ok_inv h
                subst ha
                rw [encodeTypeNameF] at hb ⊢
                match fuel2 with
                | 0 =>
                  have hp1 := jsonFuel_pos (Json.obj ((("nodeType"), Json.str ("FunctionTypeName")) :: encodeFunctionTypeNameFieldsF fuel rec))
                  omega
                | f2 + 1 =>
                  rw [decodeTypeNameF]
                  rw [show lookupField ((("nodeType"), Json.str ("FunctionTypeName")) :: encodeFunctionTypeNameFieldsF fuel rec) (("nodeType")) = some (Json.str ("FunctionTypeName")) from rfl]
                  dsimp only
                  rw [if_neg (by decide)]
                  rw [if_neg (by decide)]
                  rw [if_pos rfl]
                  have hres := decodeFunctionTypeNameF_restore fuel (.obj o) rec
                    [(("nodeType"), Json.str ("FunctionTypeName"))] f2 (by intro e he; rw [List.mem_singleton] at he; subst he; rfl) hrec hb
                  rw [List.singleton_append] at hres
                  rw [hres, dres_map_ok]
              · rw [if_neg ht3] at h
                by_cases ht4 : k = ("Mapping")
                · rw [if_pos ht4] at h
                  obtain ⟨rec, hrec, ha⟩ := dres_map_ok_inv h
                  subst ha
                  rw [encodeTypeNameF] at hb ⊢
                  match fuel2 with
                  | 0 =>
                    have hp1 := jsonFuel_pos (Json.obj ((("nodeType"), Json.str ("Mapping")) :: encodeMappingFieldsF fuel rec))
                    omega
                  | f2 + 1 =>
                    rw [decodeTypeNameF]
                    rw [show lookupField ((("nodeType"), Json.str ("Mapping")) :: encodeMappingFieldsF fuel rec) (("nodeType")) = some (Json.str ("Mapping")) from rfl]
                    dsimp only
                    rw [if_neg (by decide)]
                    rw [if_neg (by decide)]
                    rw [if_neg (by decide)]
                    rw [if_pos rfl]
                    have hres := decodeMappingF_restore fuel (.obj o) rec
                      [(("nodeType"), Json.str ("Mapping"))] f2 (by intro e he; rw [List.mem_singleton] at he; subst he; rfl) hrec hb
                    rw [List.singleton_append] at hres
                    rw [hres, dres_map_ok]
                · rw [if_neg ht4] at h
                  by_cases ht5 : k = ("UserDefinedTypeName")
                  · rw [if_pos ht5] at h
                    obtain ⟨rec, hrec, ha⟩ := dres_map_ok_inv h
                    subst ha
                    rw [encodeTypeNameF] at hb ⊢
                    match fuel2 with
                    | 0 =>
                      have hp1 := jsonFuel_pos (Json.obj ((("nodeType"), Json.str ("UserDefinedTypeName")) :: encodeUserDefinedTypeNameFields rec))
                      omega
                    | f2 + 1 =>
                      rw [decodeTypeNameF]
                      rw [show lookupField ((("nodeType"), Json.str ("UserDefinedTypeName")) :: encodeUserDefinedTypeNameFields rec) (("nodeType")) = some (Json.str ("UserDefinedTypeName")) from rfl]
                      dsimp only
                      rw [if_neg (by decide)]
                      rw [if_neg (by decide)]
                      rw [if_neg (by decide)]
                      rw [if_neg (by decide)]
                      rw [if_pos rfl]
                      have hres := decodeUserDefinedTypeName_restore [(("nodeType"), Json.str ("UserDefinedTypeName"))] (by intro e he; rw [List.mem_singleton] at he; subst he; rfl) hrec
                      rw [List.singleton_append] at hres
                      rw [hres, dres_map_ok]
                  · rw [if_neg ht5] at h
                    exact Except.noConfusion h
termination_by fuel

theorem decodeFunctionCallExpressionF_restore (fuel : Nat) (v : Json) (a : FunctionCallExpression) (fuel2 : Nat)
    (h : decodeFunctionCallExpressionF fuel v = .ok a)
    (hb : 2 * jsonFuel (encodeFunctionCallExpressionF fuel a) ≤ fuel2) :
    decodeFunctionCallExpressionF fuel2 (encodeFunctionCallExpressionF fuel a) = .ok a := by
  match fuel with
  | 0 => exact Except.noConfusion h
  | fuel + 1 =>
    cases v <;> try exact Except.noConfusion h
    case obj o =>
      rw [decodeFunctionCallExpressionF] at h
      rcases hl : lookupField o (("nodeType")) with _ | w
      · rw [hl] at h
        exact Except.noConfusion h
      · rw [hl] at h
        cases w <;> try exact Except.noConfusion h
        case str k =>
          dsimp only at h
          by_cases ht1 : k = ("ElementaryTypeNameExpression")
          · rw [if_pos ht1] at h
            obtain ⟨rec, hrec, ha⟩ := dres_map_ok_inv h
            subst ha
            rw [encodeFunctionCallExpressionF] at hb ⊢
            match fuel2 with
            | 0 =>
              have hp1 := jsonFuel_pos (Json.obj ((("nodeType"), Json.str ("ElementaryTypeNameExpression")) :: encodeElementaryTypeNameExpressionFields rec))
              omega
            | f2 + 1 =>
              rw [decodeFunctionCallExpressionF]
              rw [show lookupField ((("nodeType"), Json.str ("ElementaryTypeNameExpression")) :: encodeElementaryTypeNameExpressionFields rec) (("nodeType")) = some (Json.str ("ElementaryTypeNameExpression")) from rfl]
              dsimp only
              rw [if_pos rfl]
              have hres := decodeElementaryTypeNameExpression_restore [(("nodeType"), Json.str ("ElementaryTypeNameExpression"))] (by intro e he; rw [List.mem_singleton] at he; subst he; rfl) hrec
              rw [List.singleton_append] at hres
              rw [hres, dres_map_ok]
          · rw [if_neg ht1] at h
            by_cases ht2 : k = ("FunctionCall")
            · rw [if_pos ht2] at h
              obtain ⟨rec, hrec, ha⟩ := dres_map_ok_inv h
              subst ha
              rw [encodeFunctionCallExpressionF] at hb ⊢
              match fuel2 with
              | 0 =>
                have hp1 := jsonFuel_pos (Json.obj ((("nodeType"), Json.str ("FunctionCall")) :: encodeFunctionCallFieldsF fuel rec))
                omega
              | f2 + 1 =>
                rw [decodeFunctionCallExpressionF]
                rw [show lookupField ((("nodeType"), Json.str ("FunctionCall")) :: encodeFunctionCallFieldsF fuel rec) (("nodeType")) = some (Json.str ("FunctionCall")) from rfl]
                dsimp only
                rw [if_neg (by decide)]
                rw [if_pos rfl]
                have hres := decodeFunctionCallF_restore fuel (.obj o) rec
                  [(("nodeType"), Json.str ("FunctionCall"))] f2 (by intro e he; rw [List.mem_singleton] at he; subst he; rfl) hrec hb
                rw [List.singleton_append] at hres
                rw [hres, dres_map_ok]
            · rw [if_neg ht2] at h
              by_cases ht3 : k = ("FunctionCallOptions")
              · rw [if_pos ht3] at h
                obtain ⟨rec, hrec, ha⟩ := dres_map_ok_inv h
                subst ha
                rw [encodeFunctionCallExpressionF] at hb ⊢
                match fuel2 with
                | 0 =>
                  have hp1 := jsonFuel_pos (Json.obj ((("nodeType"), Json.str ("FunctionCallOptions")) :: encodeFunctionCallOptionsFieldsF fuel rec))
                  omega
                | f2 + 1 =>
                  rw [decodeFunctionCallExpressionF]
                  rw [show lookupField ((("nodeType"), Json.str ("FunctionCallOptions")) :: encodeFunctionCallOptionsFieldsF fuel rec) (("nodeType")) = some (Json.str ("FunctionCallOptions")) from rfl]
                  dsimp only
                  rw [if_neg (by decide)]
                  rw [if_neg (by decide)]
                  rw [if_pos rfl]
                  have hres := decodeFunctionCallOptionsF_restore fuel (.obj o) rec
                    [(("nodeType"), Json.str ("FunctionCallOptions"))] f2 (by intro e he; rw [List.mem_singleton] at he; subst he; rfl) hrec hb
                  rw [List.singleton_append] at hres
                  rw [hres, dres_map_ok]
              · rw [if_neg ht3] at h
                by_cases ht4 : k = ("Identifier")
                · rw [if_pos ht4] at h
                  obtain ⟨rec, hrec, ha⟩ := dres_map_ok_inv h
                  subst ha
                  rw [encodeFunctionCallExpressionF] at hb ⊢
                  match fuel2 with
                  | 0 =>
                    have hp1 := jsonFuel_pos (Json.obj ((("nodeType"), Json.str ("Identifier")) :: encodeIdentifierFields rec))
                    omega
                  | f2 + 1 =>
                    rw [decodeFunctionCallExpressionF]
                    rw [show lookupField ((("nodeType"), Json.str ("Identifier")) :: encodeIdentifierFields rec) (("nodeType")) = some (Json.str ("Identifier")) from rfl]
                    dsimp only
                    rw [if_neg (by decide)]
                    rw [if_neg (by decide)]
                    rw [if_neg (by decide)]
                    rw [if_pos rfl]
                    have hres := decodeIdentifier_restore [(("nodeType"), Json.str ("Identifier"))] (by intro e he; rw [List.mem_singleton] at he; subst he; rfl) hrec
                    rw [List.singleton_append] at hres
                    rw [hres, dres_map_ok]
                · rw [if_neg ht4] at h
                  by_cases ht5 : k = ("MemberAccess")
                  · rw [if_pos ht5] at h
                    obtain ⟨rec, hrec, ha⟩ := dres_map_ok_inv h
                    subst ha
                    rw [encodeFunctionCallExpressionF] at hb ⊢
                    match fuel2 with
                    | 0 =>
                      have hp1 := jsonFuel_pos (Json.obj ((("nodeType"), Json.str ("MemberAccess")) :: encodeMemberAccessFieldsF fuel rec))
                      omega
                    | f2 + 1 =>
                      rw [decodeFunctionCallExpressionF]
                      rw [show lookupField ((("nodeType"), Json.str ("MemberAccess")) :: encodeMemberAccessFieldsF fuel rec) (("nodeType")) = some (Json.str ("MemberAccess")) from rfl]
                      dsimp only
                      rw [if_neg (by decide)]
                      rw [if_neg (by decide)]
                      rw [if_neg (by decide)]
                      rw [if_neg (by decide)]
                      rw [if_pos rfl]
                      have hres := decodeMemberAccessF_restore fuel (.obj o) rec
                        [(("nodeType"), Json.str ("MemberAccess"))] f2 (by intro e he; rw [List.mem_singleton] at he; subst he; rfl) hrec hb
                      rw [List.singleton_append] at hres
                      rw [hres, dres_map_ok]
                  · rw [if_neg ht5] at h
                    by_cases ht6 : k = ("NewExpression")
                    · rw [if_pos ht6] at h
                      obtain ⟨rec, hrec, ha⟩ := dres_map_ok_inv h
                      subst ha
                      rw [encodeFunctionCallExpressionF] at hb ⊢
                      match fuel2 with
                      | 0 =>
                        have hp1 := jsonFuel_pos (Json.obj ((("nodeType"), Json.str ("NewExpression")) :: encodeNewExpressionFieldsF fuel rec))
                        omega
                      | f2 + 1 =>
                        rw [decodeFunctionCallExpressionF]
                        rw [show lookupField ((("nodeType"), Json.str ("NewExpression")) :: encodeNewExpressionFieldsF fuel rec) (("nodeType")) = some (Json.str ("NewExpression")) from rfl]
                        dsimp only
                        rw [if_neg (by decide)]
                        rw [if_neg (by decide)]
                        rw [if_neg (by decide)]
                        rw [if_neg (by decide)]
                        rw [if_neg (by decide)]
                        rw [if_pos rfl]
                        have hres := decodeNewExpressionF_restore fuel (.obj o) rec
                          [(("nodeType"), Json.str ("NewExpression"))] f2 (by intro e he; rw [List.mem_singleton] at he; subst he; rfl) hrec hb
                        rw [List.singleton_append] at hres
                        rw [hres, dres_map_ok]
                    · rw [if_neg ht6] at h
                      exact Except.noConfusion h
termination_by fuel

theorem decodeContractDefinitionNodeF_restore (fuel : Nat) (v : Json) (a : ContractDefinitionNode) (fuel2 : Nat)
    (h : decodeContractDefinitionNodeF fuel v = .ok a)
    (hb : 2 * jsonFuel (encodeContractDefinitionNodeF fuel a) ≤ fuel2) :
    decodeContractDefinitionNodeF fuel2 (encodeContractDefinitionNodeF fuel a) = .ok a := by
  match fuel with
  | 0 => exact Except.noConfusion h
  | fuel + 1 =>
    cases v <;> try exact Except.noConfusion h
    case obj o =>
      rw [decodeContractDefinitionNodeF] at h
      rcases hl : lookupField o (("nodeType")) with _ | w
      · rw [hl] at h
        exact Except.noConfusion h
      · rw [hl] at h
        cases w <;> try exact Except.noConfusion h
        case str k =>
          dsimp only at h
          by_cases ht1 : k = ("EnumDefinition")
          · rw [if_pos ht1] at h
            obtain ⟨rec, hrec, ha⟩ := dres_map_ok_inv h
            subst ha
            rw [encodeContractDefinitionNodeF] at hb ⊢
            match fuel2 with
            | 0 =>
              have hp1 := jsonFuel_pos (Json.obj ((("nodeType"), Json.str ("EnumDefinition")) :: encodeEnumDefinitionFields rec))
              omega
            | f2 + 1 =>
              rw [decodeContractDefinitionNodeF]
              rw [show lookupField ((("nodeType"), Json.str ("EnumDefinition")) :: encodeEnumDefinitionFields rec) (("nodeType")) = some (Json.str ("EnumDefinition")) from rfl]
              dsimp only
              rw [if_pos rfl]
              have hres := decodeEnumDefinition_restore [(("nodeType"), Json.str ("EnumDefinition"))] (by intro e he; rw [List.mem_singleton] at he; subst he; rfl) hrec
              rw [List.singleton_append] at hres
              rw [hres, dres_map_ok]
          · rw [if_neg ht1] at h
            by_cases ht2 : k = ("ErrorDefinition")
            · rw [if_pos ht2] at h
              obtain ⟨rec, hrec, ha⟩ := dres_map_ok_inv h
              subst ha
              rw [encodeContractDefinitionNodeF] at hb ⊢
              match fuel2 with
              | 0 =>
                have hp1 := jsonFuel_pos (Json.obj ((("nodeType"), Json.str ("ErrorDefinition")) :: encodeErrorDefinitionFieldsF fuel rec))
                omega
              | f2 + 1 =>
                rw [decodeContractDefinitionNodeF]
                rw [show lookupField ((("nodeType"), Json.str ("ErrorDefinition")) :: encodeErrorDefinitionFieldsF fuel rec) (("nodeType")) = some (Json.str ("ErrorDefinition")) from rfl]
                dsimp only
                rw [if_neg (by decide)]
                rw [if_pos rfl]
                have hres := decodeErrorDefinitionF_restore fuel (.obj o) rec
                  [(("nodeType"), Json.str ("ErrorDefinition"))] f2 (by intro e he; rw [List.mem_singleton] at he; subst he; rfl) hrec hb
                rw [List.singleton_append] at hres
                rw [hres, dres_map_ok]
            · rw [if_neg ht2] at h
              by_cases ht3 : k = ("EventDefinition")
              · rw [if_pos ht3] at h
                obtain ⟨rec, hrec, ha⟩ := dres_map_ok_inv h
                subst ha
                rw [encodeContractDefinitionNodeF] at hb ⊢
                match fuel2 with
                | 0 =>
                  have hp1 := jsonFuel_pos (Json.obj ((("nodeType"), Json.str ("EventDefinition")) :: encodeEventDefinitionFieldsF fuel rec))
                  omega
                | f2 + 1 =>
                  rw [decodeContractDefinitionNodeF]
                  rw [show lookupField ((("nodeType"), Json.str ("EventDefinition")) :: encodeEventDefinitionFieldsF fuel rec) (("nodeType")) = some (Json.str ("EventDefinition")) from rfl]
                  dsimp only
                  rw [if_neg (by decide)]
                  rw [if_neg (by decide)]
                  rw [if_pos rfl]
                  have hres := decodeEventDefinitionF_restore fuel (.obj o) rec
                    [(("nodeType"), Json.str ("EventDefinition"))] f2 (by intro e he; rw [List.mem_singleton] at he; subst he; rfl) hrec hb
                  rw [List.singleton_append] at hres
                  rw [hres, dres_map_ok]
              · rw [if_neg ht3] at h
                by_cases ht4 : k = ("FunctionDefinition")
                · rw [if_pos ht4] at h
                  obtain ⟨rec, hrec, ha⟩ := dres_map_ok_inv h
                  subst ha
                  rw [encodeContractDefinitionNodeF] at hb ⊢
                  match fuel2 with
                  | 0 =>
                    have hp1 := jsonFuel_pos (Json.obj ((("nodeType"), Json.str ("FunctionDefinition")) :: encodeFunctionDefinitionFieldsF fuel rec))
                    omega
                  | f2 + 1 =>
                    rw [decodeContractDefinitionNodeF]
                    rw [show lookupField ((("nodeType"), Json.str ("FunctionDefinition")) :: encodeFunctionDefinitionFieldsF fuel rec) (("nodeType")) = some (Json.str ("FunctionDefinition")) from rfl]
                    dsimp only
                    rw [if_neg (by decide)]
                    rw [if_neg (by decide)]
                    rw [if_neg (by decide)]
                    rw [if_pos rfl]
                    have hres := decodeFunctionDefinitionF_restore fuel (.obj o) rec
                      [(("nodeType"), Json.str ("FunctionDefinition"))] f2 (by intro e he; rw [List.mem_singleton] at he; subst he; rfl) hrec hb
                    rw [List.singleton_append] at hres
                    rw [hres, dres_map_ok]
                · rw [if_neg ht4] at h
                  by_cases ht5 : k = ("ModifierDefinition")
                  · rw [if_pos ht5] at h
                    obtain ⟨rec, hrec, ha⟩ := dres_map_ok_inv h
                    subst ha
                    rw [encodeContractDefinitionNodeF] at hb ⊢
                    match fuel2 with
                    | 0 =>
                      have hp1 := jsonFuel_pos (Json.obj ((("nodeType"), Json.str ("ModifierDefinition")) :: encodeModifierDefinitionFieldsF fuel rec))
                      omega
                    | f2 + 1 =>
                      rw [decodeContractDefinitionNodeF]
                      rw [show lookupField ((("nodeType"), Json.str ("ModifierDefinition")) :: encodeModifierDefinitionFieldsF fuel rec) (("nodeType")) = some (Json.str ("ModifierDefinition")) from rfl]
                      dsimp only
                      rw [if_neg (by decide)]
                      rw [if_neg (by decide)]
                      rw [if_neg (by decide)]
                      rw [if_neg (by decide)]
                      rw [if_pos rfl]
                      have hres := decodeModifierDefinitionF_restore fuel (.obj o) rec
                        [(("nodeType"), Json.str ("ModifierDefinition"))] f2 (by intro e he; rw [List.mem_singleton] at he; subst he; rfl) hrec hb
                      rw [List.singleton_append] at hres
                      rw [hres, dres_map_ok]
                  · rw [if_neg ht5] at h
                    by_cases ht6 : k = ("StructDefinition")
                    · rw [if_pos ht6] at h
                      obtain ⟨rec, hrec, ha⟩ := dres_map_ok_inv h
                      subst ha
                      rw [encodeContractDefinitionNodeF] at hb ⊢
                      match fuel2 with
                      | 0 =>
                        have hp1 := jsonFuel_pos (Json.obj ((("nodeType"), Json.str ("StructDefinition")) :: encodeStructDefinitionFieldsF fuel rec))
                        omega
                      | f2 + 1 =>
                        rw [decodeContractDefinitionNodeF]
                        rw [show lookupField ((("nodeType"), Json.str ("StructDefinition")) :: encodeStructDefinitionFieldsF fuel rec) (("nodeType")) = some (Json.str ("StructDefinition")) from rfl]
                        dsimp only
                        rw [if_neg (by decide)]
                        rw [if_neg (by decide)]
                        rw [if_neg (by decide)]
                        rw [if_neg (by decide)]
                        rw [if_neg (by decide)]
                        rw [if_pos rfl]
                        have hres := decodeStructDefinitionF_restore fuel (.obj o) rec
                          [(("nodeType"), Json.str ("StructDefinition"))] f2 (by intro e he; rw [List.mem_singleton] at he; subst he; rfl) hrec hb
                        rw [List.singleton_append] at hres
                        rw [hres, dres_map_ok]
                    · rw [if_neg ht6] at h
                      by_cases ht7 : k = ("UsingForDirective")
                      · rw [if_pos ht7] at h
                        obtain ⟨rec, hrec, ha⟩ := dres_map_ok_inv h
                        subst ha
                        rw [encodeContractDefinitionNodeF] at hb ⊢
                        match fuel2 with
                        | 0 =>
                          have hp1 := jsonFuel_pos (Json.obj ((("nodeType"), Json.str ("UsingForDirective")) :: encodeUsingForDirectiveFields rec))
                          omega
                        | f2 + 1 =>
                          rw [decodeContractDefinitionNodeF]
                          rw [show lookupField ((("nodeType"), Json.str ("UsingForDirective")) :: encodeUsingForDirectiveFields rec) (("nodeType")) = some (Json.str ("UsingForDirective")) from rfl]
                          dsimp only
                          rw [if_neg (by decide)]
                          rw [if_neg (by decide)]
                          rw [if_neg (by decide)]
                          rw [if_neg (by decide)]
                          rw [if_neg (by decide)]
                          rw [if_neg (by decide)]
                          rw [if_pos rfl]
                          have hres := decodeUsingForDirective_restore [(("nodeType"), Json.str ("UsingForDirective"))] (by intro e he; rw [List.mem_singleton] at he; subst he; rfl) hrec
                          rw [List.singleton_append] at hres
                          rw [hres, dres_map_ok]
                      · rw [if_neg ht7] at h
                        by_cases ht8 : k = ("VariableDeclaration")
                        · rw [if_pos ht8] at h
                          obtain ⟨rec, hrec, ha⟩ := dres_map_ok_inv h
                          subst ha
                          rw [encodeContractDefinitionNodeF] at hb ⊢
                          match fuel2 with
                          | 0 =>
                            have hp1 := jsonFuel_pos (Json.obj ((("nodeType"), Json.str ("VariableDeclaration")) :: encodeVariableDeclarationFieldsF fuel rec))
                            omega
                          | f2 + 1 =>
                            rw [decodeContractDefinitionNodeF]
                            rw [show lookupField ((("nodeType"), Json.str ("VariableDeclaration")) :: encodeVariableDeclarationFieldsF fuel rec) (("nodeType")) = some (Json.str ("VariableDeclaration")) from rfl]
                            dsimp only
                            rw [if_neg (by decide)]
                            rw [if_neg (by decide)]
                            rw [if_neg (by decide)]
                            rw [if_neg (by decide)]
                            rw [if_neg (by decide)]
                            rw [if_neg (by decide)]
                            rw [if_neg (by decide)]
                            rw [if_pos rfl]
                            have hres := decodeVariableDeclarationF_restore fuel (.obj o) rec
                              [(("nodeType"), Json.str ("VariableDeclaration"))] f2 (by intro e he; rw [List.mem_singleton] at he; subst he; rfl) hrec hb
                            rw [List.singleton_append] at hres
                            rw [hres, dres_map_ok]
                        · rw [if_neg ht8] at h
                          exact Except.noConfusion h
termination_by fuel

theorem decodeSourceUnitNodeF_restore (fuel : Nat) (v : Json) (a : SourceUnitNode) (fuel2 : Nat)
    (h : decodeSourceUnitNodeF fuel v = .ok a)
    (hb : 2 * jsonFuel (encodeSourceUnitNodeF fuel a) ≤ fuel2) :
    decodeSourceUnitNodeF fuel2 (encodeSourceUnitNodeF fuel a) = .ok a := by
  match fuel with
  | 0 => exact Except.noConfusion h
  | fuel + 1 =>
    cases v <;> try exact Except.noConfusion h
    case obj o =>
      rw [decodeSourceUnitNodeF] at h
      rcases hl : lookupField o (("nodeType")) with _ | w
      · rw [hl] at h
        exact Except.noConfusion h
      · rw [hl] at h
        cases w <;> try exact Except.noConfusion h
        case str k =>
          dsimp only at h
          by_cases ht1 : k = ("ContractDefinition")
          · rw [if_pos ht1] at h
            obtain ⟨rec, hrec, ha⟩ := dres_map_ok_inv h
            subst ha
            rw [encodeSourceUnitNodeF] at hb ⊢
            match fuel2 with
            | 0 =>
              have hp1 := jsonFuel_pos (Json.obj ((("nodeType"), Json.str ("ContractDefinition")) :: encodeContractDefinitionFieldsF fuel rec))
              omega
            | f2 + 1 =>
              rw [decodeSourceUnitNodeF]
              rw [show lookupField ((("nodeType"), Json.str ("ContractDefinition")) :: encodeContractDefinitionFieldsF fuel rec) (("nodeType")) = some (Json.str ("ContractDefinition")) from rfl]
              dsimp only
              rw [if_pos rfl]
              have hres := decodeContractDefinitionF_restore fuel (.obj o) rec
                [(("nodeType"), Json.str ("ContractDefinition"))] f2 (by intro e he; rw [List.mem_singleton] at he; subst he; rfl) hrec hb
              rw [List.singleton_append] at hres
              rw [hres, dres_map_ok]
          · rw [if_neg ht1] at h
            by_cases ht2 : k = ("EnumDefinition")
            · rw [if_pos ht2] at h
              obtain ⟨rec, hrec, ha⟩ := dres_map_ok_inv h
              subst ha
              rw [encodeSourceUnitNodeF] at hb ⊢
              match fuel2 with
              | 0 =>
                have hp1 := jsonFuel_pos (Json.obj ((("nodeType"), Json.str ("EnumDefinition")) :: encodeEnumDefinitionFields rec))
                omega
              | f2 + 1 =>
                rw [decodeSourceUnitNodeF]
                rw [show lookupField ((("nodeType"), Json.str ("EnumDefinition")) :: encodeEnumDefinitionFields rec) (("nodeType")) = some (Json.str ("EnumDefinition")) from rfl]
                dsimp only
                rw [if_neg (by decide)]
                rw [if_pos rfl]
                have hres := decodeEnumDefinition_restore [(("nodeType"), Json.str ("EnumDefinition"))] (by intro e he; rw [List.mem_singleton] at he; subst he; rfl) hrec
                rw [List.singleton_append] at hres
                rw [hres, dres_map_ok]
            · rw [if_neg ht2] at h
              by_cases ht3 : k = ("ErrorDefinition")
              · rw [if_pos ht3] at h
                obtain ⟨rec, hrec, ha⟩ := dres_map_ok_inv h
                subst ha
                rw [encodeSourceUnitNodeF] at hb ⊢
                match fuel2 with
                | 0 =>
                  have hp1 := jsonFuel_pos (Json.obj ((("nodeType"), Json.str ("ErrorDefinition")) :: encodeErrorDefinitionFieldsF fuel rec))
                  omega
                | f2 + 1 =>
                  rw [decodeSourceUnitNodeF]
                  rw [show lookupField ((("nodeType"), Json.str ("ErrorDefinition")) :: encodeErrorDefinitionFieldsF fuel rec) (("nodeType")) = some (Json.str ("ErrorDefinition")) from rfl]
                  dsimp only
                  rw [if_neg (by decide)]
                  rw [if_neg (by decide)]
                  rw [if_pos rfl]
                  have hres := decodeErrorDefinitionF_restore fuel (.obj o) rec
                    [(("nodeType"), Json.str ("ErrorDefinition"))] f2 (by intro e he; rw [List.mem_singleton] at he; subst he; rfl) hrec hb
                  rw [List.singleton_append] at hres
                  rw [hres, dres_map_ok]
              · rw [if_neg ht3] at h
                by_cases ht4 : k = ("EventDefinition")
                · rw [if_pos ht4] at h
                  obtain ⟨rec, hrec, ha⟩ := dres_map_ok_inv h
                  subst ha
                  rw [encodeSourceUnitNodeF] at hb ⊢
                  match fuel2 with
                  | 0 =>
                    have hp1 := jsonFuel_pos (Json.obj ((("nodeType"), Json.str ("EventDefinition")) :: encodeEventDefinitionFieldsF fuel rec))
                    omega
                  | f2 + 1 =>
                    rw [decodeSourceUnitNodeF]
                    rw [show lookupField ((("nodeType"), Json.str ("EventDefinition")) :: encodeEventDefinitionFieldsF fuel rec) (("nodeType")) = some (Json.str ("EventDefinition")) from rfl]
                    dsimp only
                    rw [if_neg (by decide)]
                    rw [if_neg (by decide)]
                    rw [if_neg (by decide)]
                    rw [if_pos rfl]
                    have hres := decodeEventDefinitionF_restore fuel (.obj o) rec
                      [(("nodeType"), Json.str ("EventDefinition"))] f2 (by intro e he; rw [List.mem_singleton] at he; subst he; rfl) hrec hb
                    rw [List.singleton_append] at hres
                    rw [hres, dres_map_ok]
                · rw [if_neg ht4] at h
                  by_cases ht5 : k = ("FunctionDefinition")
                  · rw [if_pos ht5] at h
                    obtain ⟨rec, hrec, ha⟩ := dres_map_ok_inv h
                    subst ha
                    rw [encodeSourceUnitNodeF] at hb ⊢
                    match fuel2 with
                    | 0 =>
                      have hp1 := jsonFuel_pos (Json.obj ((("nodeType"), Json.str ("FunctionDefinition")) :: encodeFunctionDefinitionFieldsF fuel rec))
                      omega
                    | f2 + 1 =>
                      rw [decodeSourceUnitNodeF]
                      rw [show lookupField ((("nodeType"), Json.str ("FunctionDefinition")) :: encodeFunctionDefinitionFieldsF fuel rec) (("nodeType")) = some (Json.str ("FunctionDefinition")) from rfl]
                      dsimp only
                      rw [if_neg (by decide)]
                      rw [if_neg (by decide)]
                      rw [if_neg (by decide)]
                      rw [if_neg (by decide)]
                      rw [if_pos rfl]
                      have hres := decodeFunctionDefinitionF_restore fuel (.obj o) rec
                        [(("nodeType"), Json.str ("FunctionDefinition"))] f2 (by intro e he; rw [List.mem_singleton] at he; subst he; rfl) hrec hb
                      rw [List.singleton_append] at hres
                      rw [hres, dres_map_ok]
                  · rw [if_neg ht5] at h
                    by_cases ht6 : k = ("ImportDirective")
                    · rw [if_pos ht6] at h
                      obtain ⟨rec, hrec, ha⟩ := dres_map_ok_inv h
                      subst ha
                      rw [encodeSourceUnitNodeF] at hb ⊢
                      match fuel2 with
                      | 0 =>
                        have hp1 := jsonFuel_pos (Json.obj ((("nodeType"), Json.str ("ImportDirective")) :: encodeImportDirectiveFields rec))
                        omega
                      | f2 + 1 =>
                        rw [decodeSourceUnitNodeF]
                        rw [show lookupField ((("nodeType"), Json.str ("ImportDirective")) :: encodeImportDirectiveFields rec) (("nodeType")) = some (Json.str ("ImportDirective")) from rfl]
                        dsimp only
                        rw [if_neg (by decide)]
                        rw [if_neg (by decide)]
                        rw [if_neg (by decide)]
                        rw [if_neg (by decide)]
                        rw [if_neg (by decide)]
                        rw [if_pos rfl]
                        have hres := decodeImportDirective_restore [(("nodeType"), Json.str ("ImportDirective"))] (by intro e he; rw [List.mem_singleton] at he; subst he; rfl) hrec
                        rw [List.singleton_append] at hres
                        rw [hres, dres_map_ok]
                    · rw [if_neg ht6] at h
                      by_cases ht7 : k = ("PragmaDirective")
                      · rw [if_pos ht7] at h
                        obtain ⟨rec, hrec, ha⟩ := dres_map_ok_inv h
                        subst ha
                        rw [encodeSourceUnitNodeF] at hb ⊢
                        match fuel2 with
                        | 0 =>
                          have hp1 := jsonFuel_pos (Json.obj ((("nodeType"), Json.str ("PragmaDirective")) :: encodePragmaDirectiveFields rec))
                          omega
                        | f2 + 1 =>
                          rw [decodeSourceUnitNodeF]
                          rw [show lookupField ((("nodeType"), Json.str ("PragmaDirective")) :: encodePragmaDirectiveFields rec) (("nodeType")) = some (Json.str ("PragmaDirective")) from rfl]
                          dsimp only
                          rw [if_neg (by decide)]
                          rw [if_neg (by decide)]
                          rw [if_neg (by decide)]
                          rw [if_neg (by decide)]
                          rw [if_neg (by decide)]
                          rw [if_neg (by decide)]
                          rw [if_pos rfl]
                          have hres := decodePragmaDirective_restore [(("nodeType"), Json.str ("PragmaDirective"))] (by intro e he; rw [List.mem_singleton] at he; subst he; rfl) hrec
                          rw [List.singleton_append] at hres
                          rw [hres, dres_map_ok]
                      · rw [if_neg ht7] at h
                        by_cases ht8 : k = ("StructDefinition")
                        · rw [if_pos ht8] at h
                          obtain ⟨rec, hrec, ha⟩ := dres_map_ok_inv h
                          subst ha
                          rw [encodeSourceUnitNodeF] at hb ⊢
                          match fuel2 with
                          | 0 =>
                            have hp1 := jsonFuel_pos (Json.obj ((("nodeType"), Json.str ("StructDefinition")) :: encodeStructDefinitionFieldsF fuel rec))
                            omega
                          | f2 + 1 =>
                            rw [decodeSourceUnitNodeF]
                            rw [show lookupField ((("nodeType"), Json.str ("StructDefinition")) :: encodeStructDefinitionFieldsF fuel rec) (("nodeType")) = some (Json.str ("StructDefinition")) from rfl]
                            dsimp only
                            rw [if_neg (by decide)]
                            rw [if_neg (by decide)]
                            rw [if_neg (by decide)]
                            rw [if_neg (by decide)]
                            rw [if_neg (by decide)]
                            rw [if_neg (by decide)]
                            rw [if_neg (by decide)]
                            rw [if_pos rfl]
                            have hres := decodeStructDefinitionF_restore fuel (.obj o) rec
                              [(("nodeType"), Json.str ("StructDefinition"))] f2 (by intro e he; rw [List.mem_singleton] at he; subst he; rfl) hrec hb
                            rw [List.singleton_append] at hres
                            rw [hres, dres_map_ok]
                        · rw [if_neg ht8] at h
                          by_cases ht9 : k = ("UserDefinedValueTypeDefinition")
                          · rw [if_pos ht9] at h
                            obtain ⟨rec, hrec, ha⟩ := dres_map_ok_inv h
                            subst ha
                            rw [encodeSourceUnitNodeF] at hb ⊢
                            match fuel2 with
                            | 0 =>
                              have hp1 := jsonFuel_pos (Json.obj ((("nodeType"), Json.str ("UserDefinedValueTypeDefinition")) :: encodeUserDefinedValueTypeDefinitionFieldsF fuel rec))
                              omega
                            | f2 + 1 =>
                              rw [decodeSourceUnitNodeF]
                              rw [show lookupField ((("nodeType"), Json.str ("UserDefinedValueTypeDefinition")) :: encodeUserDefinedValueTypeDefinitionFieldsF fuel rec) (("nodeType")) = some (Json.str ("UserDefinedValueTypeDefinition")) from rfl]
                              dsimp only
                              rw [if_neg (by decide)]
                              rw [if_neg (by decide)]
                              rw [if_neg (by decide)]
                              rw [if_neg (by decide)]
                              rw [if_neg (by decide)]
                              rw [if_neg (by decide)]
                              rw [if_neg (by decide)]
                              rw [if_neg (by decide)]
                              rw [if_pos rfl]
                              have hres := decodeUserDefinedValueTypeDefinitionF_restore fuel (.obj o) rec
                                [(("nodeType"), Json.str ("UserDefinedValueTypeDefinition"))] f2 (by intro e he; rw [List.mem_singleton] at he; subst he; rfl) hrec hb
                              rw [List.singleton_append] at hres
                              rw [hres, dres_map_ok]
                          · rw [if_neg ht9] at h
                            by_cases ht10 : k = ("UsingForDirective")
                            · rw [if_pos ht10] at h
                              obtain ⟨rec, hrec, ha⟩ := dres_map_ok_inv h
                              subst ha
                              rw [encodeSourceUnitNodeF] at hb ⊢
                              match fuel2 with
                              | 0 =>
                                have hp1 := jsonFuel_pos (Json.obj ((("nodeType"), Json.str ("UsingForDirective")) :: encodeUsingForDirectiveFields rec))
                                omega
                              | f2 + 1 =>
                                rw [decodeSourceUnitNodeF]
                                rw [show lookupField ((("nodeType"), Json.str ("UsingForDirective")) :: encodeUsingForDirectiveFields rec) (("nodeType")) = some (Json.str ("UsingForDirective")) from rfl]
                                dsimp only
                                rw [if_neg (by decide)]
                                rw [if_neg (by decide)]
                                rw [if_neg (by decide)]
                                rw [if_neg (by decide)]
                                rw [if_neg (by decide)]
                                rw [if_neg (by decide)]
                                rw [if_neg (by decide)]
                                rw [if_neg (by decide)]
                                rw [if_neg (by decide)]
                                rw [if_pos rfl]
                                have hres := decodeUsingForDirective_restore [(("nodeType"), Json.str ("UsingForDirective"))] (by intro e he; rw [List.mem_singleton] at he; subst he; rfl) hrec
                                rw [List.singleton_append] at hres
                                rw [hres, dres_map_ok]
                            · rw [if_neg ht10] at h
                              by_cases ht11 : k = ("VariableDeclaration")
                              · rw [if_pos ht11] at h
                                obtain ⟨rec, hrec, ha⟩ := dres_map_ok_inv h
                                subst ha
                                rw [encodeSourceUnitNodeF] at hb ⊢
                                match fuel2 with
                                | 0 =>
                                  have hp1 := jsonFuel_pos (Json.obj ((("nodeType"), Json.str ("VariableDeclaration")) :: encodeVariableDeclarationFieldsF fuel rec))
                                  omega
                                | f2 + 1 =>
                                  rw [decodeSourceUnitNodeF]
                                  rw [show lookupField ((("nodeType"), Json.str ("VariableDeclaration")) :: encodeVariableDeclarationFieldsF fuel rec) (("nodeType")) = some (Json.str ("VariableDeclaration")) from rfl]
                                  dsimp only
                                  rw [if_neg (by decide)]
                                  rw [if_neg (by decide)]
                                  rw [if_neg (by decide)]
                                  rw [if_neg (by decide)]
                                  rw [if_neg (by decide)]
                                  rw [if_neg (by decide)]
                                  rw [if_neg (by decide)]
                                  rw [if_neg (by decide)]
                                  rw [if_neg (by decide)]
                                  rw [if_neg (by decide)]
                                  rw [if_pos rfl]
                                  have hres := decodeVariableDeclarationF_restore fuel (.obj o) rec
                                    [(("nodeType"), Json.str ("VariableDeclaration"))] f2 (by intro e he; rw [List.mem_singleton] at he; subst he; rfl) hrec hb
                                  rw [List.singleton_append] at hres
                                  rw [hres, dres_map_ok]
                              · rw [if_neg ht11] at h
                                exact Except.noConfusion h
termination_by fuel

theorem decodeAssignmentF_restore (fuel : Nat) (v : Json) (a : Assignment)
    (nt : List (String × Json)) (fuel2 : Nat)
    (hnt : ∀ e ∈ nt, e.1 = ("nodeType"))
    (h : decodeAssignmentF fuel v = .ok a)
    (hb : 2 * jsonFuel (Json.obj (nt ++ encodeAssignmentFieldsF fuel a)) ≤ fuel2 + 1) :
    decodeAssignmentF fuel2 (.obj (nt ++ encodeAssignmentFieldsF fuel a)) = .ok a := by
  match fuel, fuel2 with
  | 0, _ => exact Except.noConfusion h
  | fuel + 1, 0 =>
    have hp1 := jsonFuel_pos (Json.obj (nt ++ encodeAssignmentFieldsF (fuel + 1) a))
    omega
  | fuel + 1, f2 + 1 =>
    cases v <;> try exact Except.noConfusion h
    case obj o =>
      rw [decodeAssignmentF] at h
      simp only [dres_bind_eq_ok] at h
      obtain ⟨x1, hx1, x2, hx2, x3, hx3, x4, hx4, x5, hx5, x6, hx6, hp⟩ := h
      simp only [dres_pure, Except.ok.injEq] at hp
      subst hp
      rw [encodeAssignmentFieldsF] at hb ⊢
      try simp only [List.map_nil] at hb ⊢
      simp only [jsonFuel, jsonEntriesFuel_append, jsonEntriesFuel, jsonListFuel] at hb
      set enc2 := nt ++ [(("id"), Json.num x1),
        (("leftHandSide"), encodeExpressionF fuel x2),
        (("rightHandSide"), encodeExpressionF fuel x3),
        (("operator"), Json.str x4),
        (("src"), Json.str (encode_location x5)),
        (("typeDescriptions"), encodeTypeDescriptions x6)] with henc2
      have hl1 : lookupField enc2 (("id")) = some (Json.num x1) := by
        rw [henc2, lookupField_append_nt hnt (by decide)]
        rfl
      obtain ⟨w1, hw1, hf1⟩ := reqField_ok hx1
      have hg1 : reqField enc2 (("id")) (decodeI64) = .ok x1 :=
        reqField_of_lookup hl1 (decodeI64_restore hf1)
      have hl2 : lookupField enc2 (("leftHandSide")) = some (encodeExpressionF fuel x2) := by
        rw [henc2, lookupField_append_nt hnt (by decide)]
        rfl
      obtain ⟨w2, hw2, hf2⟩ := reqField_ok hx2
      have hg2 : reqField enc2 (("leftHandSide")) (decodeExpressionF f2) = .ok x2 :=
        reqField_of_lookup hl2 (decodeExpressionF_restore fuel w2 x2 f2 hf2 (by omega))
      have hl3 : lookupField enc2 (("rightHandSide")) = some (encodeExpressionF fuel x3) := by
        rw [henc2, lookupField_append_nt hnt (by decide)]
        rfl
      obtain ⟨w3, hw3, hf3⟩ := reqField_ok hx3
      have hg3 : reqField enc2 (("rightHandSide")) (decodeExpressionF f2) = .ok x3 :=
        reqField_of_lookup hl3 (decodeExpressionF_restore fuel w3 x3 f2 hf3 (by omega))
      have hl4 : lookupField enc2 (("operator")) = some (Json.str x4) := by
        rw [henc2, lookupField_append_nt hnt (by decide)]
        rfl
      obtain ⟨w4, hw4, hf4⟩ := reqField_ok hx4
      have hg4 : reqField enc2 (("operator")) (decodeString) = .ok x4 :=
        reqField_of_lookup hl4 (decodeString_restore hf4)
      have hl5 : lookupField enc2 (("src")) = some (Json.str (encode_location x5)) := by
        rw [henc2, lookupField_append_nt hnt (by decide)]
        rfl
      obtain ⟨w5, hw5, hf5⟩ := reqField_ok hx5
      have hg5 : reqField enc2 (("src")) (decodeSrc) = .ok x5 :=
        reqField_of_lookup hl5 (decodeSrc_restore hf5)
      have hl6 : lookupField enc2 (("typeDescriptions")) = some (encodeTypeDescriptions x6) := by
        rw [henc2, lookupField_append_nt hnt (by decide)]
        rfl
      obtain ⟨w6, hw6, hf6⟩ := reqField_ok hx6
      have hg6 : reqField enc2 (("typeDescriptions")) (decodeTypeDescriptions) = .ok x6 :=
        reqField_of_lookup hl6 (decodeTypeDescriptions_restore hf6)
      rw [decodeAssignmentF]
      simp only [hg1, hg2, hg3, hg4, hg5, hg6, dres_bind_ok, dres_pure]
termination_by fuel

theorem decodeBinaryOperationF_restore (fuel : Nat) (v : Json) (a : BinaryOperation)
    (nt : List (String × Json)) (fuel2 : Nat)
    (hnt : ∀ e ∈ nt, e.1 = ("nodeType"))
    (h : decodeBinaryOperationF fuel v = .ok a)
    (hb : 2 * jsonFuel (Json.obj (nt ++ encodeBinaryOperationFieldsF fuel a)) ≤ fuel2 + 1) :
    decodeBinaryOperationF fuel2 (.obj (nt ++ encodeBinaryOperationFieldsF fuel a)) = .ok a := by
  match fuel, fuel2 with
  | 0, _ => exact Except.noConfusion h
  | fuel + 1, 0 =>
    have hp1 := jsonFuel_pos (Json.obj (nt ++ encodeBinaryOperationFieldsF (fuel + 1) a))
    omega
  | fuel + 1, f2 + 1 =>
    cases v <;> try exact Except.noConfusion h
    case obj o =>
      rw [decodeBinaryOperationF] at h
      simp only [dres_bind_eq_ok] at h
      obtain ⟨x1, hx1, x2, hx2, x3, hx3, x4, hx4, x5, hx5, x6, hx6, x7, hx7, x8, hx8, x9, hx9, x10, hx10, x11, hx11, hp⟩ := h
      simp only [dres_pure, Except.ok.injEq] at hp
      subst hp
      rw [encodeBinaryOperationFieldsF] at hb ⊢
      try simp only [List.map_nil] at hb ⊢
      simp only [jsonFuel, jsonEntriesFuel_append, jsonEntriesFuel, jsonListFuel] at hb
      set enc2 := nt ++ [(("id"), Json.num x1),
        (("leftExpression"), encodeExpressionF fuel x2),
        (("rightExpression"), encodeExpressionF fuel x3),
        (("operator"), Json.str x4),
        (("commonType"), encodeCommonType x5),
        (("src"), Json.str (encode_location x6)),
        (("isConstant"), Json.bool x7),
        (("isLValue"), Json.bool x8),
        (("isPure"), Json.bool x9),
        (("lValueRequested"), Json.bool x10),
        (("typeDescriptions"), encodeTypeDescriptions x11)] with henc2
      have hl1 : lookupField enc2 (("id")) = some (Json.num x1) := by
        rw [henc2, lookupField_append_nt hnt (by decide)]
        rfl
      obtain ⟨w1, hw1, hf1⟩ := reqField_ok hx1
      have hg1 : reqField enc2 (("id")) (decodeI64) = .ok x1 :=
        reqField_of_lookup hl1 (decodeI64_restore hf1)
      have hl2 : lookupField enc2 (("leftExpression")) = some (encodeExpressionF fuel x2) := by
        rw [henc2, lookupField_append_nt hnt (by decide)]
        rfl
      obtain ⟨w2, hw2, hf2⟩ := reqField_ok hx2
      have hg2 : reqField enc2 (("leftExpression")) (decodeExpressionF f2) = .ok x2 :=
        reqField_of_lookup hl2 (decodeExpressionF_restore fuel w2 x2 f2 hf2 (by omega))
      have hl3 : lookupField enc2 (("rightExpression")) = some (encodeExpressionF fuel x3) := by
        rw [henc2, lookupField_append_nt hnt (by decide)]
        rfl
      obtain ⟨w3, hw3, hf3⟩ := reqField_ok hx3
      have hg3 : reqField enc2 (("rightExpression")) (decodeExpressionF f2) = .ok x3 :=
        reqField_of_lookup hl3 (decodeExpressionF_restore fuel w3 x3 f2 hf3 (by omega))
      have hl4 : lookupField enc2 (("operator")) = some (Json.str x4) := by
        rw [henc2, lookupField_append_nt hnt (by decide)]
        rfl
      obtain ⟨w4, hw4, hf4⟩ := reqField_ok hx4
      have hg4 : reqField enc2 (("operator")) (decodeString) = .ok x4 :=
        reqField_of_lookup hl4 (decodeString_restore hf4)
      have hl5 : lookupField enc2 (("commonType")) = some (encodeCommonType x5) := by
        rw [henc2, lookupField_append_nt hnt (by decide)]
        rfl
      obtain ⟨w5, hw5, hf5⟩ := reqField_ok hx5
      have hg5 : reqField enc2 (("commonType")) (decodeCommonType) = .ok x5 :=
        reqField_of_lookup hl5 (decodeCommonType_restore [] (fun e he => absurd he (List.not_mem_nil e)) hf5)
      have hl6 : lookupField enc2 (("src")) = some (Json.str (encode_location x6)) := by
        rw [henc2, lookupField_append_nt hnt (by decide)]
        rfl
      obtain ⟨w6, hw6, hf6⟩ := reqField_ok hx6
      have hg6 : reqField enc2 (("src")) (decodeSrc) = .ok x6 :=
        reqField_of_lookup hl6 (decodeSrc_restore hf6)
      have hl7 : lookupField enc2 (("isConstant")) = some (Json.bool x7) := by
        rw [henc2, lookupField_append_nt hnt (by decide)]
        rfl
      obtain ⟨w7, hw7, hf7⟩ := reqField_ok hx7
      have hg7 : reqField enc2 (("isConstant")) (decodeBool) = .ok x7 :=
        reqField_of_lookup hl7 (decodeBool_restore hf7)
      have hl8 : lookupField enc2 (("isLValue")) = some (Json.bool x8) := by
        rw [henc2, lookupField_append_nt hnt (by decide)]
        rfl
      obtain ⟨w8, hw8, hf8⟩ := reqField_ok hx8
      have hg8 : reqField enc2 (("isLValue")) (decodeBool) = .ok x8 :=
        reqField_of_lookup hl8 (decodeBool_restore hf8)
      have hl9 : lookupField enc2 (("isPure")) = some (Json.bool x9) := by
        rw [henc2, lookupField_append_nt hnt (by decide)]
        rfl
      obtain ⟨w9, hw9, hf9⟩ := reqField_ok hx9
      have hg9 : reqField enc2 (("isPure")) (decodeBool) = .ok x9 :=
        reqField_of_lookup hl9 (decodeBool_restore hf9)
      have hl10 : lookupField enc2 (("lValueRequested")) = some (Json.bool x10) := by
        rw [henc2, lookupField_append_nt hnt (by decide)]
        rfl
      obtain ⟨w10, hw10, hf10⟩ := reqField_ok hx10
      have hg10 : reqField enc2 (("lValueRequested")) (decodeBool) = .ok x10 :=
        reqField_of_lookup hl10 (decodeBool_restore hf10)
      have hl11 : lookupField enc2 (("typeDescriptions")) = some (encodeTypeDescriptions x11) := by
        rw [henc2, lookupField_append_nt hnt (by decide)]
        rfl
      obtain ⟨w11, hw11, hf11⟩ := reqField_ok hx11
      have hg11 : reqField enc2 (("typeDescriptions")) (decodeTypeDescriptions) = .ok x11 :=
        reqField_of_lookup hl11 (decodeTypeDescriptions_restore hf11)
      rw [decodeBinaryOperationF]
      simp only [hg1, hg2, hg3, hg4, hg5, hg6, hg7, hg8, hg9, hg10, hg11, dres_bind_ok, dres_pure]
termination_by fuel

theorem decodeConditionalF_restore (fuel : Nat) (v : Json) (a : Conditional)
    (nt : List (String × Json)) (fuel2 : Nat)
    (hnt : ∀ e ∈ nt, e.1 = ("nodeType"))
    (h : decodeConditionalF fuel v = .ok a)
    (hb : 2 * jsonFuel (Json.obj (nt ++ encodeConditionalFieldsF fuel a)) ≤ fuel2 + 1) :
    decodeConditionalF fuel2 (.obj (nt ++ encodeConditionalFieldsF fuel a)) = .ok a := by
  match fuel, fuel2 with
  | 0, _ => exact Except.noConfusion h
  | fuel + 1, 0 =>
    have hp1 := jsonFuel_pos (Json.obj (nt ++ encodeConditionalFieldsF (fuel + 1) a))
    omega
  | fuel + 1, f2 + 1 =>
    cases v <;> try exact Except.noConfusion h
    case obj o =>
      rw [decodeConditionalF] at h
      simp only [dres_bind_eq_ok] at h
      obtain ⟨x1, hx1, x2, hx2, x3, hx3, x4, hx4, x5, hx5, x6, hx6, x7, hx7, x8, hx8, x9, hx9, x10, hx10, hp⟩ := h
      simp only [dres_pure, Except.ok.injEq] at hp
      subst hp
      rw [encodeConditionalFieldsF] at hb ⊢
      try simp only [List.map_nil] at hb ⊢
      simp only [jsonFuel, jsonEntriesFuel_append, jsonEntriesFuel, jsonListFuel] at hb
      set enc2 := nt ++ [(("id"), Json.num x1),
        (("condition"), encodeExpressionF fuel x2),
        (("trueExpression"), encodeExpressionF fuel x3),
        (("falseExpression"), encodeExpressionF fuel x4),
        (("isConstant"), Json.bool x5),
        (("isLValue"), Json.bool x6),
        (("isPure"), Json.bool x7),
        (("lValueRequested"), Json.bool x8),
        (("src"), Json.str (encode_location x9)),
        (("typeDescriptions"), encodeTypeDescriptions x10)] with henc2
      have hl1 : lookupField enc2 (("id")) = some (Json.num x1) := by
        rw [henc2, lookupField_append_nt hnt (by decide)]
        rfl
      obtain ⟨w1, hw1, hf1⟩ := reqField_ok hx1
      have hg1 : reqField enc2 (("id")) (decodeI64) = .ok x1 :=
        reqField_of_lookup hl1 (decodeI64_restore hf1)
      have hl2 : lookupField enc2 (("condition")) = some (encodeExpressionF fuel x2) := by
        rw [henc2, lookupField_append_nt hnt (by decide)]
        rfl
      obtain ⟨w2, hw2, hf2⟩ := reqField_ok hx2
      have hg2 : reqField enc2 (("condition")) (decodeExpressionF f2) = .ok x2 :=
        reqField_of_lookup hl2 (decodeExpressionF_restore fuel w2 x2 f2 hf2 (by omega))
      have hl3 : lookupField enc2 (("trueExpression")) = some (encodeExpressionF fuel x3) := by
        rw [henc2, lookupField_append_nt hnt (by decide)]
        rfl
      obtain ⟨w3, hw3, hf3⟩ := reqField_ok hx3
      have hg3 : reqField enc2 (("trueExpression")) (decodeExpressionF f2) = .ok x3 :=
        reqField_of_lookup hl3 (decodeExpressionF_restore fuel w3 x3 f2 hf3 (by omega))
      have hl4 : lookupField enc2 (("falseExpression")) = some (encodeExpressionF fuel x4) := by
        rw [henc2, lookupField_append_nt hnt (by decide)]
        rfl
      obtain ⟨w4, hw4, hf4⟩ := reqField_ok hx4
      have hg4 : reqField enc2 (("falseExpression")) (decodeExpressionF f2) = .ok x4 :=
        reqField_of_lookup hl4 (decodeExpressionF_restore fuel w4 x4 f2 hf4 (by omega))
      have hl5 : lookupField enc2 (("isConstant")) = some (Json.bool x5) := by
        rw [henc2, lookupField_append_nt hnt (by decide)]
        rfl
      obtain ⟨w5, hw5, hf5⟩ := reqField_ok hx5
      have hg5 : reqField enc2 (("isConstant")) (decodeBool) = .ok x5 :=
        reqField_of_lookup hl5 (decodeBool_restore hf5)
      have hl6 : lookupField enc2 (("isLValue")) = some (Json.bool x6) := by
        rw [henc2, lookupField_append_nt hnt (by decide)]
        rfl
      obtain ⟨w6, hw6, hf6⟩ := reqField_ok hx6
      have hg6 : reqField enc2 (("isLValue")) (decodeBool) = .ok x6 :=
        reqField_of_lookup hl6 (decodeBool_restore hf6)
      have hl7 : lookupField enc2 (("isPure")) = some (Json.bool x7) := by
        rw [henc2, lookupField_append_nt hnt (by decide)]
        rfl
      obtain ⟨w7, hw7, hf7⟩ := reqField_ok hx7
      have hg7 : reqField enc2 (("isPure")) (decodeBool) = .ok x7 :=
        reqField_of_lookup hl7 (decodeBool_restore hf7)
      have hl8 : lookupField enc2 (("lValueRequested")) = some (Json.bool x8) := by
        rw [henc2, lookupField_append_nt hnt (by decide)]
        rfl
      obtain ⟨w8, hw8, hf8⟩ := reqField_ok hx8
      have hg8 : reqField enc2 (("lValueRequested")) (decodeBool) = .ok x8 :=
        reqField_of_lookup hl8 (decodeBool_restore hf8)
      have hl9 : lookupField enc2 (("src")) = some (Json.str (encode_location x9)) := by
        rw [henc2, lookupField_append_nt hnt (by decide)]
        rfl
      obtain ⟨w9, hw9, hf9⟩ := reqField_ok hx9
      have hg9 : reqField enc2 (("src")) (decodeSrc) = .ok x9 :=
        reqField_of_lookup hl9 (decodeSrc_restore hf9)
      have hl10 : lookupField enc2 (("typeDescriptions")) = some (encodeTypeDescriptions x10) := by
        rw [henc2, lookupField_append_nt hnt (by decide)]
        rfl
      obtain ⟨w10, hw10, hf10⟩ := reqField_ok hx10
      have hg10 : reqField enc2 (("typeDescriptions")) (decodeTypeDescriptions) = .ok x10 :=
        reqField_of_lookup hl10 (decodeTypeDescriptions_restore hf10)
      rw [decodeConditionalF]
      simp only [hg1, hg2, hg3, hg4, hg5, hg6, hg7, hg8, hg9, hg10, dres_bind_ok, dres_pure]
termination_by fuel

theorem decodeFunctionCallF_restore (fuel : Nat) (v : Json) (a : FunctionCall)
    (nt : List (String × Json)) (fuel2 : Nat)
    (hnt : ∀ e ∈ nt, e.1 = ("nodeType"))
    (h : decodeFunctionCallF fuel v = .ok a)
    (hb : 2 * jsonFuel (Json.obj (nt ++ encodeFunctionCallFieldsF fuel a)) ≤ fuel2 + 1) :
    decodeFunctionCallF fuel2 (.obj (nt ++ encodeFunctionCallFieldsF fuel a)) = .ok a := by
  match fuel, fuel2 with
  | 0, _ => exact Except.noConfusion h
  | fuel + 1, 0 =>
    have hp1 := jsonFuel_pos (Json.obj (nt ++ encodeFunctionCallFieldsF (fuel + 1) a))
    omega
  | fuel + 1, f2 + 1 =>
    cases v <;> try exact Except.noConfusion h
    case obj o =>
      rw [decodeFunctionCallF] at h
      simp only [dres_bind_eq_ok] at h
      obtain ⟨x1, hx1, x2, hx2, x3, hx3, x4, hx4, x5, hx5, x6, hx6, x7, hx7, x8, hx8, x9, hx9, x10, hx10, x11, hx11, x12, hx12, x13, hx13, x14, hx14, hp⟩ := h
      simp only [dres_pure, Except.ok.injEq] at hp
      subst hp
      rw [encodeFunctionCallFieldsF] at hb ⊢
      try simp only [List.map_nil] at hb ⊢
      simp only [jsonFuel, jsonEntriesFuel_append, jsonEntriesFuel, jsonListFuel] at hb
      set enc2 := nt ++ [(("id"), Json.num x1),
        (("expression"), encodeFunctionCallExpressionF fuel x2),
        (("arguments"), Json.arr (x3.map (encodeExpressionF fuel))),
        (("names"), Json.arr (x4.map (fun y => Json.str y))),
        (("kind"), Json.str x5),
        (("src"), Json.str (encode_location x6)),
        (("tryCall"), Json.bool x7),
        (("nameLocations"), encodeOpt (fun ys => Json.arr (ys.map (fun y => Json.str y))) x8),
        (("isConstant"), Json.bool x9),
        (("isLValue"), Json.bool x10),
        (("isPure"), Json.bool x11),
        (("lValueRequested"), Json.bool x12),
        (("typeDescriptions"), encodeTypeDescriptions x13),
        (("argumentTypes"), encodeOpt (fun ys => Json.arr (ys.map encodeTypeDescriptions)) x14)] with henc2
      have hl1 : lookupField enc2 (("id")) = some (Json.num x1) := by
        rw [henc2, lookupField_append_nt hnt (by decide)]
        rfl
      obtain ⟨w1, hw1, hf1⟩ := reqField_ok hx1
      have hg1 : reqField enc2 (("id")) (decodeI64) = .ok x1 :=
        reqField_of_lookup hl1 (decodeI64_restore hf1)
      have hl2 : lookupField enc2 (("expression")) = some (encodeFunctionCallExpressionF fuel x2) := by
        rw [henc2, lookupField_append_nt hnt (by decide)]
        rfl
      obtain ⟨w2, hw2, hf2⟩ := reqField_ok hx2
      have hg2 : reqField enc2 (("expression")) (decodeFunctionCallExpressionF f2) = .ok x2 :=
        reqField_of_lookup hl2 (decodeFunctionCallExpressionF_restore fuel w2 x2 f2 hf2 (by omega))
      have hl3 : lookupField enc2 (("arguments")) = some (Json.arr (x3.map (encodeExpressionF fuel))) := by
        rw [henc2, lookupField_append_nt hnt (by decide)]
        rfl
      obtain ⟨w3, hw3, hf3⟩ := reqField_ok hx3
      have hfe3 : decodeArr (decodeExpressionF f2) (Json.arr (x3.map (encodeExpressionF fuel))) = .ok x3 :=
        decodeArr_restore hf3 (fun v2 x hx hfx =>
        decodeExpressionF_restore fuel v2 x f2 hfx (by
          have hm := jsonListFuel_of_mem (List.mem_map_of_mem (encodeExpressionF fuel) hx)
          omega))
      have hg3 : reqField enc2 (("arguments")) (decodeArr (decodeExpressionF f2)) = .ok x3 :=
        reqField_of_lookup hl3 hfe3
      have hl4 : lookupField enc2 (("names")) = some (Json.arr (x4.map (fun y => Json.str y))) := by
        rw [henc2, lookupField_append_nt hnt (by decide)]
        rfl
      obtain ⟨w4, hw4, hf4⟩ := reqField_ok hx4
      have hfe4 : decodeArr decodeString (Json.arr (x4.map (fun y => Json.str y))) = .ok x4 :=
        decodeArr_restore hf4 (fun v2 x hx hfx => decodeString_restore hfx)
      have hg4 : reqField enc2 (("names")) (decodeArr decodeString) = .ok x4 :=
        reqField_of_lookup hl4 hfe4
      have hl5 : lookupField enc2 (("kind")) = some (Json.str x5) := by
        rw [henc2, lookupField_append_nt hnt (by decide)]
        rfl
      obtain ⟨w5, hw5, hf5⟩ := reqField_ok hx5
      have hg5 : reqField enc2 (("kind")) (decodeString) = .ok x5 :=
        reqField_of_lookup hl5 (decodeString_restore hf5)
      have hl6 : lookupField enc2 (("src")) = some (Json.str (encode_location x6)) := by
        rw [henc2, lookupField_append_nt hnt (by decide)]
        rfl
      obtain ⟨w6, hw6, hf6⟩ := reqField_ok hx6
      have hg6 : reqField enc2 (("src")) (decodeSrc) = .ok x6 :=
        reqField_of_lookup hl6 (decodeSrc_restore hf6)
      have hl7 : lookupField enc2 (("tryCall")) = some (Json.bool x7) := by
        rw [henc2, lookupField_append_nt hnt (by decide)]
        rfl
      obtain ⟨w7, hw7, hf7⟩ := reqField_ok hx7
      have hg7 : reqField enc2 (("tryCall")) (decodeBool) = .ok x7 :=
        reqField_of_lookup hl7 (decodeBool_restore hf7)
      have hl8 : lookupField enc2 (("nameLocations")) = some (encodeOpt (fun ys => Json.arr (ys.map (fun y => Json.str y))) x8) := by
        rw [henc2, lookupField_append_nt hnt (by decide)]
        rfl
      have hg8 : optField enc2 (("nameLocations")) (decodeArr decodeString) = .ok x8 :=
        optField_restore hl8 (fun b hb3 => by
          subst hb3
          obtain ⟨w, hw, hwn, hfw⟩ := optField_ok_some hx8
          exact ⟨decodeArr_restore hfw (fun v2 x hx hfx => decodeString_restore hfx),
            fun hh => Json.noConfusion hh⟩)
      have hl9 : lookupField enc2 (("isConstant")) = some (Json.bool x9) := by
        rw [henc2, lookupField_append_nt hnt (by decide)]
        rfl
      obtain ⟨w9, hw9, hf9⟩ := reqField_ok hx9
      have hg9 : reqField enc2 (("isConstant")) (decodeBool) = .ok x9 :=
        reqField_of_lookup hl9 (decodeBool_restore hf9)
      have hl10 : lookupField enc2 (("isLValue")) = some (Json.bool x10) := by
        rw [henc2, lookupField_append_nt hnt (by decide)]
        rfl
      obtain ⟨w10, hw10, hf10⟩ := reqField_ok hx10
      have hg10 : reqField enc2 (("isLValue")) (decodeBool) = .ok x10 :=
        reqField_of_lookup hl10 (decodeBool_restore hf10)
      have hl11 : lookupField enc2 (("isPure")) = some (Json.bool x11) := by
        rw [henc2, lookupField_append_nt hnt (by decide)]
        rfl
      obtain ⟨w11, hw11, hf11⟩ := reqField_ok hx11
      have hg11 : reqField enc2 (("isPure")) (decodeBool) = .ok x11 :=
        reqField_of_lookup hl11 (decodeBool_restore hf11)
      have hl12 : lookupField enc2 (("lValueRequested")) = some (Json.bool x12) := by
        rw [henc2, lookupField_append_nt hnt (by decide)]
        rfl
      obtain ⟨w12, hw12, hf12⟩ := reqField_ok hx12
      have hg12 : reqField enc2 (("lValueRequested")) (decodeBool) = .ok x12 :=
        reqField_of_lookup hl12 (decodeBool_restore hf12)
      have hl13 : lookupField enc2 (("typeDescriptions")) = some (encodeTypeDescriptions x13) := by
        rw [henc2, lookupField_append_nt hnt (by decide)]
        rfl
      obtain ⟨w13, hw13, hf13⟩ := reqField_ok hx13
      have hg13 : reqField enc2 (("typeDescriptions")) (decodeTypeDescriptions) = .ok x13 :=
        reqField_of_lookup hl13 (decodeTypeDescriptions_restore hf13)
      have hl14 : lookupField enc2 (("argumentTypes")) = some (encodeOpt (fun ys => Json.arr (ys.map encodeTypeDescriptions)) x14) := by
        rw [henc2, lookupField_append_nt hnt (by decide)]
        rfl
      have hg14 : optField enc2 (("argumentTypes")) (decodeArr decodeTypeDescriptions) = .ok x14 :=
        optField_restore hl14 (fun b hb3 => by
          subst hb3
          obtain ⟨w, hw, hwn, hfw⟩ := optField_ok_some hx14
          exact ⟨decodeArr_restore hfw (fun v2 x hx hfx => decodeTypeDescriptions_restore hfx),
            fun hh => Json.noConfusion hh⟩)
      rw [decodeFunctionCallF]
      simp only [hg1, hg2, hg3, hg4, hg5, hg6, hg7, hg8, hg9, hg10, hg11, hg12, hg13, hg14, dres_bind_ok, dres_pure]
termination_by fuel

theorem decodeFunctionCallOptionsF_restore (fuel : Nat) (v : Json) (a : FunctionCallOptions)
    (nt : List (String × Json)) (fuel2 : Nat)
    (hnt : ∀ e ∈ nt, e.1 = ("nodeType"))
    (h : decodeFunctionCallOptionsF fuel v = .ok a)
    (hb : 2 * jsonFuel (Json.obj (nt ++ encodeFunctionCallOptionsFieldsF fuel a)) ≤ fuel2 + 1) :
    decodeFunctionCallOptionsF fuel2 (.obj (nt ++ encodeFunctionCallOptionsFieldsF fuel a)) = .ok a := by
  match fuel, fuel2 with
  | 0, _ => exact Except.noConfusion h
  | fuel + 1, 0 =>
    have hp1 := jsonFuel_pos (Json.obj (nt ++ encodeFunctionCallOptionsFieldsF (fuel + 1) a))
    omega
  | fuel + 1, f2 + 1 =>
    cases v <;> try exact Except.noConfusion h
    case obj o =>
      rw [decodeFunctionCallOptionsF] at h
      simp only [dres_bind_eq_ok] at h
      obtain ⟨x1, hx1, x2, hx2, x3, hx3, x4, hx4, x5, hx5, x6, hx6, x7, hx7, hp⟩ := h
      simp only [dres_pure, Except.ok.injEq] at hp
      subst hp
      rw [encodeFunctionCallOptionsFieldsF] at hb ⊢
      try simp only [List.map_nil] at hb ⊢
      simp only [jsonFuel, jsonEntriesFuel_append, jsonEntriesFuel, jsonListFuel] at hb
      set enc2 := nt ++ [(("id"), Json.num x1),
        (("expression"), encodeExpressionF fuel x2),
        (("names"), Json.arr (x3.map (fun y => Json.str y))),
        (("options"), Json.arr (x4.map (encodeExpressionF fuel))),
        (("src"), Json.str (encode_location x5)),
        (("typeDescriptions"), encodeTypeDescriptions x6),
        (("nameLocations"), encodeOpt (fun ys => Json.arr (ys.map (fun y => Json.str y))) x7)] with henc2
      have hl1 : lookupField enc2 (("id")) = some (Json.num x1) := by
        rw [henc2, lookupField_append_nt hnt (by decide)]
        rfl
      obtain ⟨w1, hw1, hf1⟩ := reqField_ok hx1
      have hg1 : reqField enc2 (("id")) (decodeI64) = .ok x1 :=
        reqField_of_lookup hl1 (decodeI64_restore hf1)
      have hl2 : lookupField enc2 (("expression")) = some (encodeExpressionF fuel x2) := by
        rw [henc2, lookupField_append_nt hnt (by decide)]
        rfl
      obtain ⟨w2, hw2, hf2⟩ := reqField_ok hx2
      have hg2 : reqField enc2 (("expression")) (decodeExpressionF f2) = .ok x2 :=
        reqField_of_lookup hl2 (decodeExpressionF_restore fuel w2 x2 f2 hf2 (by omega))
      have hl3 : lookupField enc2 (("names")) = some (Json.arr (x3.map (fun y => Json.str y))) := by
        rw [henc2, lookupField_append_nt hnt (by decide)]
        rfl
      obtain ⟨w3, hw3, hf3⟩ := reqField_ok hx3
      have hfe3 : decodeArr decodeString (Json.arr (x3.map (fun y => Json.str y))) = .ok x3 :=
        decodeArr_restore hf3 (fun v2 x hx hfx => decodeString_restore hfx)
      have hg3 : reqField enc2 (("names")) (decodeArr decodeString) = .ok x3 :=
        reqField_of_lookup hl3 hfe3
      have hl4 : lookupField enc2 (("options")) = some (Json.arr (x4.map (encodeExpressionF fuel))) := by
        rw [henc2, lookupField_append_nt hnt (by decide)]
        rfl
      obtain ⟨w4, hw4, hf4⟩ := reqField_ok hx4
      have hfe4 : decodeArr (decodeExpressionF f2) (Json.arr (x4.map (encodeExpressionF fuel))) = .ok x4 :=
        decodeArr_restore hf4 (fun v2 x hx hfx =>
        decodeExpressionF_restore fuel v2 x f2 hfx (by
          have hm := jsonListFuel_of_mem (List.mem_map_of_mem (encodeExpressionF fuel) hx)
          omega))
      have hg4 : reqField enc2 (("options")) (decodeArr (decodeExpressionF f2)) = .ok x4 :=
        reqField_of_lookup hl4 hfe4
      have hl5 : lookupField enc2 (("src")) = some (Json.str (encode_location x5)) := by
        rw [henc2, lookupField_append_nt hnt (by decide)]
        rfl
      obtain ⟨w5, hw5, hf5⟩ := reqField_ok hx5
      have hg5 : reqField enc2 (("src")) (decodeSrc) = .ok x5 :=
        reqField_of_lookup hl5 (decodeSrc_restore hf5)
      have hl6 : lookupField enc2 (("typeDescriptions")) = some (encodeTypeDescriptions x6) := by
        rw [henc2, lookupField_append_nt hnt (by decide)]
        rfl
      obtain ⟨w6, hw6, hf6⟩ := reqField_ok hx6
      have hg6 : reqField enc2 (("typeDescriptions")) (decodeTypeDescriptions) = .ok x6 :=
        reqField_of_lookup hl6 (decodeTypeDescriptions_restore hf6)
      have hl7 : lookupField enc2 (("nameLocations")) = some (encodeOpt (fun ys => Json.arr (ys.map (fun y => Json.str y))) x7) := by
        rw [henc2, lookupField_append_nt hnt (by decide)]
        rfl
      have hg7 : optField enc2 (("nameLocations")) (decodeArr decodeString) = .ok x7 :=
        optField_restore hl7 (fun b hb3 => by
          subst hb3
          obtain ⟨w, hw, hwn, hfw⟩ := optField_ok_some hx7
          exact ⟨decodeArr_restore hfw (fun v2 x hx hfx => decodeString_restore hfx),
            fun hh => Json.noConfusion hh⟩)
      rw [decodeFunctionCallOptionsF]
      simp only [hg1, hg2, hg3, hg4, hg5, hg6, hg7, dres_bind_ok, dres_pure]
termination_by fuel

theorem decodeIndexAccessF_restore (fuel : Nat) (v : Json) (a : IndexAccess)
    (nt : List (String × Json)) (fuel2 : Nat)
    (hnt : ∀ e ∈ nt, e.1 = ("nodeType"))
    (h : decodeIndexAccessF fuel v = .ok a)
    (hb : 2 * jsonFuel (Json.obj (nt ++ encodeIndexAccessFieldsF fuel a)) ≤ fuel2 + 1) :
    decodeIndexAccessF fuel2 (.obj (nt ++ encodeIndexAccessFieldsF fuel a)) = .ok a := by
  match fuel, fuel2 with
  | 0, _ => exact Except.noConfusion h
  | fuel + 1, 0 =>
    have hp1 := jsonFuel_pos (Json.obj (nt ++ encodeIndexAccessFieldsF (fuel + 1) a))
    omega
  | fuel + 1, f2 + 1 =>
    cases v <;> try exact Except.noConfusion h
    case obj o =>
      rw [decodeIndexAccessF] at h
      simp only [dres_bind_eq_ok] at h
      obtain ⟨x1, hx1, x2, hx2, x3, hx3, x4, hx4, x5, hx5, hp⟩ := h
      simp only [dres_pure, Except.ok.injEq] at hp
      subst hp
      rw [encodeIndexAccessFieldsF] at hb ⊢
      try simp only [List.map_nil] at hb ⊢
      simp only [jsonFuel, jsonEntriesFuel_append, jsonEntriesFuel, jsonListFuel] at hb
      set enc2 := nt ++ [(("id"), Json.num x1),
        (("baseExpression"), encodeExpressionF fuel x2),
        (("indexExpression"), encodeOpt (encodeExpressionF fuel) x3),
        (("src"), Json.str (encode_location x4)),
        (("typeDescriptions"), encodeTypeDescriptions x5)] with henc2
      have hl1 : lookupField enc2 (("id")) = some (Json.num x1) := by
        rw [henc2, lookupField_append_nt hnt (by decide)]
        rfl
      obtain ⟨w1, hw1, hf1⟩ := reqField_ok hx1
      have hg1 : reqField enc2 (("id")) (decodeI64) = .ok x1 :=
        reqField_of_lookup hl1 (decodeI64_restore hf1)
      have hl2 : lookupField enc2 (("baseExpression")) = some (encodeExpressionF fuel x2) := by
        rw [henc2, lookupField_append_nt hnt (by decide)]
        rfl
      obtain ⟨w2, hw2, hf2⟩ := reqField_ok hx2
      have hg2 : reqField enc2 (("baseExpression")) (decodeExpressionF f2) = .ok x2 :=
        reqField_of_lookup hl2 (decodeExpressionF_restore fuel w2 x2 f2 hf2 (by omega))
      have hl3 : lookupField enc2 (("indexExpression")) = some (encodeOpt (encodeExpressionF fuel) x3) := by
        rw [henc2, lookupField_append_nt hnt (by decide)]
        rfl
      have hg3 : optField enc2 (("indexExpression")) (decodeExpressionF f2) = .ok x3 :=
        optField_restore hl3 (fun b hb3 => by
          subst hb3
          obtain ⟨w, hw, hwn, hfw⟩ := optField_ok_some hx3
          refine ⟨decodeExpressionF_restore fuel w b f2 hfw ?_,
            encodeExpressionF_ne_null_of fuel w b hfw⟩
          simp only [encodeOpt, jsonFuel] at hb
          omega)
      have hl4 : lookupField enc2 (("src")) = some (Json.str (encode_location x4)) := by
        rw [henc2, lookupField_append_nt hnt (by decide)]
        rfl
      obtain ⟨w4, hw4, hf4⟩ := reqField_ok hx4
      have hg4 : reqField enc2 (("src")) (decodeSrc) = .ok x4 :=
        reqField_of_lookup hl4 (decodeSrc_restore hf4)
      have hl5 : lookupField enc2 (("typeDescriptions")) = some (encodeTypeDescriptions x5) := by
        rw [henc2, lookupField_append_nt hnt (by decide)]
        rfl
      obtain ⟨w5, hw5, hf5⟩ := reqField_ok hx5
      have hg5 : reqField enc2 (("typeDescriptions")) (decodeTypeDescriptions) = .ok x5 :=
        reqField_of_lookup hl5 (decodeTypeDescriptions_restore hf5)
      rw [decodeIndexAccessF]
      simp only [hg1, hg2, hg3, hg4, hg5, dres_bind_ok, dres_pure]
termination_by fuel

theorem decodeMemberAccessF_restore (fuel : Nat) (v : Json) (a : MemberAccess)
    (nt : List (String × Json)) (fuel2 : Nat)
    (hnt : ∀ e ∈ nt, e.1 = ("nodeType"))
    (h : decodeMemberAccessF fuel v = .ok a)
    (hb : 2 * jsonFuel (Json.obj (nt ++ encodeMemberAccessFieldsF fuel a)) ≤ fuel2 + 1) :
    decodeMemberAccessF fuel2 (.obj (nt ++ encodeMemberAccessFieldsF fuel a)) = .ok a := by
  match fuel, fuel2 with
  | 0, _ => exact Except.noConfusion h
  | fuel + 1, 0 =>
    have hp1 := jsonFuel_pos (Json.obj (nt ++ encodeMemberAccessFieldsF (fuel + 1) a))
    omega
  | fuel + 1, f2 + 1 =>
    cases v <;> try exact Except.noConfusion h
    case obj o =>
      rw [decodeMemberAccessF] at h
      simp only [dres_bind_eq_ok] at h
      obtain ⟨x1, hx1, x2, hx2, x3, hx3, x4, hx4, x5, hx5, x6, hx6, x7, hx7, x8, hx8, x9, hx9, x10, hx10, x11, hx11, x12, hx12, hp⟩ := h
      simp only [dres_pure, Except.ok.injEq] at hp
      subst hp
      rw [encodeMemberAccessFieldsF] at hb ⊢
      try simp only [List.map_nil] at hb ⊢
      simp only [jsonFuel, jsonEntriesFuel_append, jsonEntriesFuel, jsonListFuel] at hb
      set enc2 := nt ++ [(("id"), Json.num x1),
        (("expression"), encodeExpressionF fuel x2),
        (("memberName"), Json.str x3),
        (("memberLocation"), encodeOpt (fun y => Json.str y) x4),
        (("src"), Json.str (encode_location x5)),
        (("referencedDeclaration"), encodeOpt (fun y => Json.num y) x6),
        (("typeDescriptions"), encodeTypeDescriptions x7),
        (("argumentTypes"), encodeOpt (fun ys => Json.arr (ys.map encodeTypeDescriptions)) x8),
        (("isConstant"), Json.bool x9),
        (("isLValue"), Json.bool x10),
        (("isPure"), Json.bool x11),
        (("lValueRequested"), Json.bool x12)] with henc2
      have hl1 : lookupField enc2 (("id")) = some (Json.num x1) := by
        rw [henc2, lookupField_append_nt hnt (by decide)]
        rfl
      obtain ⟨w1, hw1, hf1⟩ := reqField_ok hx1
      have hg1 : reqField enc2 (("id")) (decodeI64) = .ok x1 :=
        reqField_of_lookup hl1 (decodeI64_restore hf1)
      have hl2 : lookupField enc2 (("expression")) = some (encodeExpressionF fuel x2) := by
        rw [henc2, lookupField_append_nt hnt (by decide)]
        rfl
      obtain ⟨w2, hw2, hf2⟩ := reqField_ok hx2
      have hg2 : reqField enc2 (("expression")) (decodeExpressionF f2) = .ok x2 :=
        reqField_of_lookup hl2 (decodeExpressionF_restore fuel w2 x2 f2 hf2 (by omega))
      have hl3 : lookupField enc2 (("memberName")) = some (Json.str x3) := by
        rw [henc2, lookupField_append_nt hnt (by decide)]
        rfl
      obtain ⟨w3, hw3, hf3⟩ := reqField_ok hx3
      have hg3 : reqField enc2 (("memberName")) (decodeString) = .ok x3 :=
        reqField_of_lookup hl3 (decodeString_restore hf3)
      have hl4 : lookupField enc2 (("memberLocation")) = some (encodeOpt (fun y => Json.str y) x4) := by
        rw [henc2, lookupField_append_nt hnt (by decide)]
        rfl
      have hg4 : optField enc2 (("memberLocation")) (decodeString) = .ok x4 :=
        optField_restore hl4 (fun b hb3 => by
          subst hb3
          obtain ⟨w, hw, hwn, hfw⟩ := optField_ok_some hx4
          exact ⟨decodeString_restore hfw, fun hh => Json.noConfusion hh⟩)
      have hl5 : lookupField enc2 (("src")) = some (Json.str (encode_location x5)) := by
        rw [henc2, lookupField_append_nt hnt (by decide)]
        rfl
      obtain ⟨w5, hw5, hf5⟩ := reqField_ok hx5
      have hg5 : reqField enc2 (("src")) (decodeSrc) = .ok x5 :=
        reqField_of_lookup hl5 (decodeSrc_restore hf5)
      have hl6 : lookupField enc2 (("referencedDeclaration")) = some (encodeOpt (fun y => Json.num y) x6) := by
        rw [henc2, lookupField_append_nt hnt (by decide)]
        rfl
      have hg6 : optField enc2 (("referencedDeclaration")) (decodeI64) = .ok x6 :=
        optField_restore hl6 (fun b hb3 => by
          subst hb3
          obtain ⟨w, hw, hwn, hfw⟩ := optField_ok_some hx6
          exact ⟨decodeI64_restore hfw, fun hh => Json.noConfusion hh⟩)
      have hl7 : lookupField enc2 (("typeDescriptions")) = some (encodeTypeDescriptions x7) := by
        rw [henc2, lookupField_append_nt hnt (by decide)]
        rfl
      obtain ⟨w7, hw7, hf7⟩ := reqField_ok hx7
      have hg7 : reqField enc2 (("typeDescriptions")) (decodeTypeDescriptions) = .ok x7 :=
        reqField_of_lookup hl7 (decodeTypeDescriptions_restore hf7)
      have hl8 : lookupField enc2 (("argumentTypes")) = some (encodeOpt (fun ys => Json.arr (ys.map encodeTypeDescriptions)) x8) := by
        rw [henc2, lookupField_append_nt hnt (by decide)]
        rfl
      have hg8 : optField enc2 (("argumentTypes")) (decodeArr decodeTypeDescriptions) = .ok x8 :=
        optField_restore hl8 (fun b hb3 => by
          subst hb3
          obtain ⟨w, hw, hwn, hfw⟩ := optField_ok_some hx8
          exact ⟨decodeArr_restore hfw (fun v2 x hx hfx => decodeTypeDescriptions_restore hfx),
            fun hh => Json.noConfusion hh⟩)
      have hl9 : lookupField enc2 (("isConstant")) = some (Json.bool x9) := by
        rw [henc2, lookupField_append_nt hnt (by decide)]
        rfl
      obtain ⟨w9, hw9, hf9⟩ := reqField_ok hx9
      have hg9 : reqField enc2 (("isConstant")) (decodeBool) = .ok x9 :=
        reqField_of_lookup hl9 (decodeBool_restore hf9)
      have hl10 : lookupField enc2 (("isLValue")) = some (Json.bool x10) := by
        rw [henc2, lookupField_append_nt hnt (by decide)]
        rfl
      obtain ⟨w10, hw10, hf10⟩ := reqField_ok hx10
      have hg10 : reqField enc2 (("isLValue")) (decodeBool) = .ok x10 :=
        reqField_of_lookup hl10 (decodeBool_restore hf10)
      have hl11 : lookupField enc2 (("isPure")) = some (Json.bool x11) := by
        rw [henc2, lookupField_append_nt hnt (by decide)]
        rfl
      obtain ⟨w11, hw11, hf11⟩ := reqField_ok hx11
      have hg11 : reqField enc2 (("isPure")) (decodeBool) = .ok x11 :=
        reqField_of_lookup hl11 (decodeBool_restore hf11)
      have hl12 : lookupField enc2 (("lValueRequested")) = some (Json.bool x12) := by
        rw [henc2, lookupField_append_nt hnt (by decide)]
        rfl
      obtain ⟨w12, hw12, hf12⟩ := reqField_ok hx12
      have hg12 : reqField enc2 (("lValueRequested")) (decodeBool) = .ok x12 :=
        reqField_of_lookup hl12 (decodeBool_restore hf12)
      rw [decodeMemberAccessF]
      simp only [hg1, hg2, hg3, hg4, hg5, hg6, hg7, hg8, hg9, hg10, hg11, hg12, dres_bind_ok, dres_pure]
termination_by fuel

theorem decodeNewExpressionF_restore (fuel : Nat) (v : Json) (a : NewExpression)
    (nt : List (String × Json)) (fuel2 : Nat)
    (hnt : ∀ e ∈ nt, e.1 = ("nodeType"))
    (h : decodeNewExpressionF fuel v = .ok a)
    (hb : 2 * jsonFuel (Json.obj (nt ++ encodeNewExpressionFieldsF fuel a)) ≤ fuel2 + 1) :
    decodeNewExpressionF fuel2 (.obj (nt ++ encodeNewExpressionFieldsF fuel a)) = .ok a := by
  match fuel, fuel2 with
  | 0, _ => exact Except.noConfusion h
  | fuel + 1, 0 =>
    have hp1 := jsonFuel_pos (Json.obj (nt ++ encodeNewExpressionFieldsF (fuel + 1) a))
    omega
  | fuel + 1, f2 + 1 =>
    cases v <;> try exact Except.noConfusion h
    case obj o =>
      rw [decodeNewExpressionF] at h
      simp only [dres_bind_eq_ok] at h
      obtain ⟨x1, hx1, x2, hx2, x3, hx3, x4, hx4, x5, hx5, x6, hx6, x7, hx7, x8, hx8, x9, hx9, x10, hx10, hp⟩ := h
      simp only [dres_pure, Except.ok.injEq] at hp
      subst hp
      rw [encodeNewExpressionFieldsF] at hb ⊢
      try simp only [List.map_nil] at hb ⊢
      simp only [jsonFuel, jsonEntriesFuel_append, jsonEntriesFuel, jsonListFuel] at hb
      set enc2 := nt ++ [(("id"), Json.num x1),
        (("typeName"), encodeTypeNameF fuel x2),
        (("arguments"), encodeOpt (fun ys => Json.arr (ys.map (encodeExpressionF fuel))) x3),
        (("src"), Json.str (encode_location x4)),
        (("typeDescriptions"), encodeTypeDescriptions x5),
        (("argumentTypes"), encodeOpt (fun ys => Json.arr (ys.map encodeTypeDescriptions)) x6),
        (("isConstant"), Json.bool x7),
        (("isLValue"), Json.bool x8),
        (("isPure"), Json.bool x9),
        (("lValueRequested"), Json.bool x10)] with henc2
      have hl1 : lookupField enc2 (("id")) = some (Json.num x1) := by
        rw [henc2, lookupField_append_nt hnt (by decide)]
        rfl
      obtain ⟨w1, hw1, hf1⟩ := reqField_ok hx1
      have hg1 : reqField enc2 (("id")) (decodeI64) = .ok x1 :=
        reqField_of_lookup hl1 (decodeI64_restore hf1)
      have hl2 : lookupField enc2 (("typeName")) = some (encodeTypeNameF fuel x2) := by
        rw [henc2, lookupField_append_nt hnt (by decide)]
        rfl
      obtain ⟨w2, hw2, hf2⟩ := reqField_ok hx2
      have hg2 : reqField enc2 (("typeName")) (decodeTypeNameF f2) = .ok x2 :=
        reqField_of_lookup hl2 (decodeTypeNameF_restore fuel w2 x2 f2 hf2 (by omega))
      have hl3 : lookupField enc2 (("arguments")) = some (encodeOpt (fun ys => Json.arr (ys.map (encodeExpressionF fuel))) x3) := by
        rw [henc2, lookupField_append_nt hnt (by decide)]
        rfl
      have hg3 : optField enc2 (("arguments")) (decodeArr (decodeExpressionF f2)) = .ok x3 :=
        optField_restore hl3 (fun b hb3 => by
          subst hb3
          obtain ⟨w, hw, hwn, hfw⟩ := optField_ok_some hx3
          exact ⟨decodeArr_restore hfw (fun v2 x hx hfx =>
            decodeExpressionF_restore fuel v2 x f2 hfx (by
              simp only [encodeOpt, jsonFuel] at hb
              have hm := jsonListFuel_of_mem (List.mem_map_of_mem (encodeExpressionF fuel) hx)
              omega)),
            fun hh => Json.noConfusion hh⟩)
      have hl4 : lookupField enc2 (("src")) = some (Json.str (encode_location x4)) := by
        rw [henc2, lookupField_append_nt hnt (by decide)]
        rfl
      obtain ⟨w4, hw4, hf4⟩ := reqField_ok hx4
      have hg4 : reqField enc2 (("src")) (decodeSrc) = .ok x4 :=
        reqField_of_lookup hl4 (decodeSrc_restore hf4)
      have hl5 : lookupField enc2 (("typeDescriptions")) = some (encodeTypeDescriptions x5) := by
        rw [henc2, lookupField_append_nt hnt (by decide)]
        rfl
      obtain ⟨w5, hw5, hf5⟩ := reqField_ok hx5
      have hg5 : reqField enc2 (("typeDescriptions")) (decodeTypeDescriptions) = .ok x5 :=
        reqField_of_lookup hl5 (decodeTypeDescriptions_restore hf5)
      have hl6 : lookupField enc2 (("argumentTypes")) = some (encodeOpt (fun ys => Json.arr (ys.map encodeTypeDescriptions)) x6) := by
        rw [henc2, lookupField_append_nt hnt (by decide)]
        rfl
      have hg6 : optField enc2 (("argumentTypes")) (decodeArr decodeTypeDescriptions) = .ok x6 :=
        optField_restore hl6 (fun b hb3 => by
          subst hb3
          obtain ⟨w, hw, hwn, hfw⟩ := optField_ok_some hx6
          exact ⟨decodeArr_restore hfw (fun v2 x hx hfx => decodeTypeDescriptions_restore hfx),
            fun hh => Json.noConfusion hh⟩)
      have hl7 : lookupField enc2 (("isConstant")) = some (Json.bool x7) := by
        rw [henc2, lookupField_append_nt hnt (by decide)]
        rfl
      obtain ⟨w7, hw7, hf7⟩ := reqField_ok hx7
      have hg7 : reqField enc2 (("isConstant")) (decodeBool) = .ok x7 :=
        reqField_of_lookup hl7 (decodeBool_restore hf7)
      have hl8 : lookupField enc2 (("isLValue")) = some (Json.bool x8) := by
        rw [henc2, lookupField_append_nt hnt (by decide)]
        rfl
      obtain ⟨w8, hw8, hf8⟩ := reqField_ok hx8
      have hg8 : reqField enc2 (("isLValue")) (decodeBool) = .ok x8 :=
        reqField_of_lookup hl8 (decodeBool_restore hf8)
      have hl9 : lookupField enc2 (("isPure")) = some (Json.bool x9) := by
        rw [henc2, lookupField_append_nt hnt (by decide)]
        rfl
      obtain ⟨w9, hw9, hf9⟩ := reqField_ok hx9
      have hg9 : reqField enc2 (("isPure")) (decodeBool) = .ok x9 :=
        reqField_of_lookup hl9 (decodeBool_restore hf9)
      have hl10 : lookupField enc2 (("lValueRequested")) = some (Json.bool x10) := by
        rw [henc2, lookupField_append_nt hnt (by decide)]
        rfl
      obtain ⟨w10, hw10, hf10⟩ := reqField_ok hx10
      have hg10 : reqField enc2 (("lValueRequested")) (decodeBool) = .ok x10 :=
        reqField_of_lookup hl10 (decodeBool_restore hf10)
      rw [decodeNewExpressionF]
      simp only [hg1, hg2, hg3, hg4, hg5, hg6, hg7, hg8, hg9, hg10, dres_bind_ok, dres_pure]
termination_by fuel

theorem decodeTupleExpressionF_restore (fuel : Nat) (v : Json) (a : TupleExpression)
    (nt : List (String × Json)) (fuel2 : Nat)
    (hnt : ∀ e ∈ nt, e.1 = ("nodeType"))
    (h : decodeTupleExpressionF fuel v = .ok a)
    (hb : 2 * jsonFuel (Json.obj (nt ++ encodeTupleExpressionFieldsF fuel a)) ≤ fuel2 + 1) :
    decodeTupleExpressionF fuel2 (.obj (nt ++ encodeTupleExpressionFieldsF fuel a)) = .ok a := by
  match fuel, fuel2 with
  | 0, _ => exact Except.noConfusion h
  | fuel + 1, 0 =>
    have hp1 := jsonFuel_pos (Json.obj (nt ++ encodeTupleExpressionFieldsF (fuel + 1) a))
    omega
  | fuel + 1, f2 + 1 =>
    cases v <;> try exact Except.noConfusion h
    case obj o =>
      rw [decodeTupleExpressionF] at h
      simp only [dres_bind_eq_ok] at h
      obtain ⟨x1, hx1, x2, hx2, x3, hx3, x4, hx4, hp⟩ := h
      simp only [dres_pure, Except.ok.injEq] at hp
      subst hp
      rw [encodeTupleExpressionFieldsF] at hb ⊢
      try simp only [List.map_nil] at hb ⊢
      simp only [jsonFuel, jsonEntriesFuel_append, jsonEntriesFuel, jsonListFuel] at hb
      set enc2 := nt ++ [(("id"), Json.num x1),
        (("components"), Json.arr (x2.map (encodeOpt (encodeExpressionF fuel)))),
        (("src"), Json.str (encode_location x3)),
        (("typeDescriptions"), encodeTypeDescriptions x4)] with henc2
      have hl1 : lookupField enc2 (("id")) = some (Json.num x1) := by
        rw [henc2, lookupField_append_nt hnt (by decide)]
        rfl
      obtain ⟨w1, hw1, hf1⟩ := reqField_ok hx1
      have hg1 : reqField enc2 (("id")) (decodeI64) = .ok x1 :=
        reqField_of_lookup hl1 (decodeI64_restore hf1)
      have hl2 : lookupField enc2 (("components")) = some (Json.arr (x2.map (encodeOpt (encodeExpressionF fuel)))) := by
        rw [henc2, lookupField_append_nt hnt (by decide)]
        rfl
      obtain ⟨w2, hw2, hf2⟩ := reqField_ok hx2
      have hfe2 : decodeArr (decodeNullable (decodeExpressionF f2)) (Json.arr (x2.map (encodeOpt (encodeExpressionF fuel)))) = .ok x2 :=
        decodeArr_restore hf2 (fun v2 x hx hfx => decodeNullable_restore hfx (fun b hb3 => by
        rw [hb3] at hfx
        obtain ⟨w2, hfw2⟩ := decodeNullable_ok_some hfx
        refine ⟨decodeExpressionF_restore fuel w2 b f2 hfw2 ?_,
          encodeExpressionF_ne_null_of fuel w2 b hfw2⟩
        have hm := jsonListFuel_of_mem (List.mem_map_of_mem (encodeOpt (encodeExpressionF fuel)) hx)
        rw [hb3] at hm
        simp only [encodeOpt, jsonFuel] at hm
        omega))
      have hg2 : reqField enc2 (("components")) (decodeArr (decodeNullable (decodeExpressionF f2))) = .ok x2 :=
        reqField_of_lookup hl2 hfe2
      have hl3 : lookupField enc2 (("src")) = some (Json.str (encode_location x3)) := by
        rw [henc2, lookupField_append_nt hnt (by decide)]
        rfl
      obtain ⟨w3, hw3, hf3⟩ := reqField_ok hx3
      have hg3 : reqField enc2 (("src")) (decodeSrc) = .ok x3 :=
        reqField_of_lookup hl3 (decodeSrc_restore hf3)
      have hl4 : lookupField enc2 (("typeDescriptions")) = some (encodeTypeDescriptions x4) := by
        rw [henc2, lookupField_append_nt hnt (by decide)]
        rfl
      obtain ⟨w4, hw4, hf4⟩ := reqField_ok hx4
      have hg4 : reqField enc2 (("typeDescriptions")) (decodeTypeDescriptions) = .ok x4 :=
        reqField_of_lookup hl4 (decodeTypeDescriptions_restore hf4)
      rw [decodeTupleExpressionF]
      simp only [hg1, hg2, hg3, hg4, dres_bind_ok, dres_pure]
termination_by fuel

theorem decodeUnaryOperationF_restore (fuel : Nat) (v : Json) (a : UnaryOperation)
    (nt : List (String × Json)) (fuel2 : Nat)
    (hnt : ∀ e ∈ nt, e.1 = ("nodeType"))
    (h : decodeUnaryOperationF fuel v = .ok a)
    (hb : 2 * jsonFuel (Json.obj (nt ++ encodeUnaryOperationFieldsF fuel a)) ≤ fuel2 + 1) :
    decodeUnaryOperationF fuel2 (.obj (nt ++ encodeUnaryOperationFieldsF fuel a)) = .ok a := by
  match fuel, fuel2 with
  | 0, _ => exact Except.noConfusion h
  | fuel + 1, 0 =>
    have hp1 := jsonFuel_pos (Json.obj (nt ++ encodeUnaryOperationFieldsF (fuel + 1) a))
    omega
  | fuel + 1, f2 + 1 =>
    cases v <;> try exact Except.noConfusion h
    case obj o =>
      rw [decodeUnaryOperationF] at h
      simp only [dres_bind_eq_ok] at h
      obtain ⟨x1, hx1, x2, hx2, x3, hx3, x4, hx4, x5, hx5, x6, hx6, x7, hx7, x8, hx8, x9, hx9, x10, hx10, hp⟩ := h
      simp only [dres_pure, Except.ok.injEq] at hp
      subst hp
      rw [encodeUnaryOperationFieldsF] at hb ⊢
      try simp only [List.map_nil] at hb ⊢
      simp only [jsonFuel, jsonEntriesFuel_append, jsonEntriesFuel, jsonListFuel] at hb
      set enc2 := nt ++ [(("id"), Json.num x1),
        (("subExpression"), encodeExpressionF fuel x2),
        (("operator"), Json.str x3),
        (("isPrefix"), Json.bool x4),
        (("src"), Json.str (encode_location x5)),
        (("typeDescriptions"), encodeTypeDescriptions x6),
        (("isConstant"), Json.bool x7),
        (("isLValue"), Json.bool x8),
        (("isPure"), Json.bool x9),
        (("lValueRequested"), Json.bool x10)] with henc2
      have hl1 : lookupField enc2 (("id")) = some (Json.num x1) := by
        rw [henc2, lookupField_append_nt hnt (by decide)]
        rfl
      obtain ⟨w1, hw1, hf1⟩ := reqField_ok hx1
      have hg1 : reqField enc2 (("id")) (decodeI64) = .ok x1 :=
        reqField_of_lookup hl1 (decodeI64_restore hf1)
      have hl2 : lookupField enc2 (("subExpression")) = some (encodeExpressionF fuel x2) := by
        rw [henc2, lookupField_append_nt hnt (by decide)]
        rfl
      obtain ⟨w2, hw2, hf2⟩ := reqField_ok hx2
      have hg2 : reqField enc2 (("subExpression")) (decodeExpressionF f2) = .ok x2 :=
        reqField_of_lookup hl2 (decodeExpressionF_restore fuel w2 x2 f2 hf2 (by omega))
      have hl3 : lookupField enc2 (("operator")) = some (Json.str x3) := by
        rw [henc2, lookupField_append_nt hnt (by decide)]
        rfl
      obtain ⟨w3, hw3, hf3⟩ := reqField_ok hx3
      have hg3 : reqField enc2 (("operator")) (decodeString) = .ok x3 :=
        reqField_of_lookup hl3 (decodeString_restore hf3)
      have hl4 : lookupField enc2 (("isPrefix")) = some (Json.bool x4) := by
        rw [henc2, lookupField_append_nt hnt (by decide)]
        rfl
      obtain ⟨w4, hf4⟩ := reqField2_ok hx4
      have hg4 : reqField2 enc2 (("isPrefix")) (("prefix")) (decodeBool) = .ok x4 :=
        reqField2_of_lookup1 hl4 (decodeBool_restore hf4)
      have hl5 : lookupField enc2 (("src")) = some (Json.str (encode_location x5)) := by
        rw [henc2, lookupField_append_nt hnt (by decide)]
        rfl
      obtain ⟨w5, hw5, hf5⟩ := reqField_ok hx5
      have hg5 : reqField enc2 (("src")) (decodeSrc) = .ok x5 :=
        reqField_of_lookup hl5 (decodeSrc_restore hf5)
      have hl6 : lookupField enc2 (("typeDescriptions")) = some (encodeTypeDescriptions x6) := by
        rw [henc2, lookupField_append_nt hnt (by decide)]
        rfl
      obtain ⟨w6, hw6, hf6⟩ := reqField_ok hx6
      have hg6 : reqField enc2 (("typeDescriptions")) (decodeTypeDescriptions) = .ok x6 :=
        reqField_of_lookup hl6 (decodeTypeDescriptions_restore hf6)
      have hl7 : lookupField enc2 (("isConstant")) = some (Json.bool x7) := by
        rw [henc2, lookupField_append_nt hnt (by decide)]
        rfl
      obtain ⟨w7, hw7, hf7⟩ := reqField_ok hx7
      have hg7 : reqField enc2 (("isConstant")) (decodeBool) = .ok x7 :=
        reqField_of_lookup hl7 (decodeBool_restore hf7)
      have hl8 : lookupField enc2 (("isLValue")) = some (Json.bool x8) := by
        rw [henc2, lookupField_append_nt hnt (by decide)]
        rfl
      obtain ⟨w8, hw8, hf8⟩ := reqField_ok hx8
      have hg8 : reqField enc2 (("isLValue")) (decodeBool) = .ok x8 :=
        reqField_of_lookup hl8 (decodeBool_restore hf8)
      have hl9 : lookupField enc2 (("isPure")) = some (Json.bool x9) := by
        rw [henc2, lookupField_append_nt hnt (by decide)]
        rfl
      obtain ⟨w9, hw9, hf9⟩ := reqField_ok hx9
      have hg9 : reqField enc2 (("isPure")) (decodeBool) = .ok x9 :=
        reqField_of_lookup hl9 (decodeBool_restore hf9)
      have hl10 : lookupField enc2 (("lValueRequested")) = some (Json.bool x10) := by
        rw [henc2, lookupField_append_nt hnt (by decide)]
        rfl
      obtain ⟨w10, hw10, hf10⟩ := reqField_ok hx10
      have hg10 : reqField enc2 (("lValueRequested")) (decodeBool) = .ok x10 :=
        reqField_of_lookup hl10 (decodeBool_restore hf10)
      rw [decodeUnaryOperationF]
      simp only [hg1, hg2, hg3, hg4, hg5, hg6, hg7, hg8, hg9, hg10, dres_bind_ok, dres_pure]
termination_by fuel

theorem decodeVariableDeclarationStatementF_restore (fuel : Nat) (v : Json) (a : VariableDeclarationStatement)
    (nt : List (String × Json)) (fuel2 : Nat)
    (hnt : ∀ e ∈ nt, e.1 = ("nodeType"))
    (h : decodeVariableDeclarationStatementF fuel v = .ok a)
    (hb : 2 * jsonFuel (Json.obj (nt ++ encodeVariableDeclarationStatementFieldsF fuel a)) ≤ fuel2 + 1) :
    decodeVariableDeclarationStatementF fuel2 (.obj (nt ++ encodeVariableDeclarationStatementFieldsF fuel a)) = .ok a := by
  match fuel, fuel2 with
  | 0, _ => exact Except.noConfusion h
  | fuel + 1, 0 =>
    have hp1 := jsonFuel_pos (Json.obj (nt ++ encodeVariableDeclarationStatementFieldsF (fuel + 1) a))
    omega
  | fuel + 1, f2 + 1 =>
    cases v <;> try exact Except.noConfusion h
    case obj o =>
      rw [decodeVariableDeclarationStatementF] at h
      simp only [dres_bind_eq_ok] at h
      obtain ⟨x1, hx1, x2, hx2, x3, hx3, x4, hx4, x5, hx5, x6, hx6, hp⟩ := h
      simp only [dres_pure, Except.ok.injEq] at hp
      subst hp
      rw [encodeVariableDeclarationStatementFieldsF] at hb ⊢
      try simp only [List.map_nil] at hb ⊢
      simp only [jsonFuel, jsonEntriesFuel_append, jsonEntriesFuel, jsonListFuel] at hb
      set enc2 := nt ++ [(("id"), Json.num x1),
        (("assignments"), Json.arr (x2.map (encodeOpt (fun y => Json.num y)))),
        (("declarations"), Json.arr (x3.map (encodeOpt ((fun y => Json.obj (encodeVariableDeclarationFieldsF fuel y)))))),
        (("initialValue"), encodeOpt (encodeExpressionF fuel) x4),
        (("src"), Json.str (encode_location x5)),
        (("documentation"), encodeOpt encodeDocumentation x6)] with henc2
      have hl1 : lookupField enc2 (("id")) = some (Json.num x1) := by
        rw [henc2, lookupField_append_nt hnt (by decide)]
        rfl
      obtain ⟨w1, hw1, hf1⟩ := reqField_ok hx1
      have hg1 : reqField enc2 (("id")) (decodeI64) = .ok x1 :=
        reqField_of_lookup hl1 (decodeI64_restore hf1)
      have hl2 : lookupField enc2 (("assignments")) = some (Json.arr (x2.map (encodeOpt (fun y => Json.num y)))) := by
        rw [henc2, lookupField_append_nt hnt (by decide)]
        rfl
      obtain ⟨w2, hw2, hf2⟩ := reqField_ok hx2
      have hfe2 : decodeArr (decodeNullable decodeI64) (Json.arr (x2.map (encodeOpt (fun y => Json.num y)))) = .ok x2 :=
        decodeArr_restore hf2 (fun v2 x hx hfx => decodeNullable_restore hfx (fun b hb3 => by
          rw [hb3] at hfx
          obtain ⟨w2, hfw2⟩ := decodeNullable_ok_some hfx
          exact ⟨decodeI64_restore hfw2, fun hh => Json.noConfusion hh⟩))
      have hg2 : reqField enc2 (("assignments")) (decodeArr (decodeNullable decodeI64)) = .ok x2 :=
        reqField_of_lookup hl2 hfe2
      have hl3 : lookupField enc2 (("declarations")) = some (Json.arr (x3.map (encodeOpt ((fun y => Json.obj (encodeVariableDeclarationFieldsF fuel y)))))) := by
        rw [henc2, lookupField_append_nt hnt (by decide)]
        rfl
      obtain ⟨w3, hw3, hf3⟩ := reqField_ok hx3
      have hfe3 : decodeArr (decodeNullable (decodeVariableDeclarationF f2)) (Json.arr (x3.map (encodeOpt ((fun y => Json.obj (encodeVariableDeclarationFieldsF fuel y)))))) = .ok x3 :=
        decodeArr_restore hf3 (fun v2 x hx hfx => decodeNullable_restore hfx (fun b hb3 => by
        rw [hb3] at hfx
        obtain ⟨w2, hfw2⟩ := decodeNullable_ok_some hfx
        have hres := decodeVariableDeclarationF_restore fuel w2 b [] f2
          (fun e he => absurd he (List.not_mem_nil e)) hfw2 (by
          have hm := jsonListFuel_of_mem (List.mem_map_of_mem (encodeOpt (fun y => Json.obj (encodeVariableDeclarationFieldsF fuel y))) hx)
          rw [hb3] at hm
          simp only [encodeOpt, jsonFuel] at hm
          simp only [jsonFuel, List.nil_append]
          omega)
        rw [List.nil_append] at hres
        exact ⟨hres, fun hh => Json.noConfusion hh⟩))
      have hg3 : reqField enc2 (("declarations")) (decodeArr (decodeNullable (decodeVariableDeclarationF f2))) = .ok x3 :=
        reqField_of_lookup hl3 hfe3
      have hl4 : lookupField enc2 (("initialValue")) = some (encodeOpt (encodeExpressionF fuel) x4) := by
        rw [henc2, lookupField_append_nt hnt (by decide)]
        rfl
      have hg4 : optField enc2 (("initialValue")) (decodeExpressionF f2) = .ok x4 :=
        optField_restore hl4 (fun b hb3 => by
          subst hb3
          obtain ⟨w, hw, hwn, hfw⟩ := optField_ok_some hx4
          refine ⟨decodeExpressionF_restore fuel w b f2 hfw ?_,
            encodeExpressionF_ne_null_of fuel w b hfw⟩
          simp only [encodeOpt, jsonFuel] at hb
          omega)
      have hl5 : lookupField enc2 (("src")) = some (Json.str (encode_location x5)) := by
        rw [henc2, lookupField_append_nt hnt (by decide)]
        rfl
      obtain ⟨w5, hw5, hf5⟩ := reqField_ok hx5
      have hg5 : reqField enc2 (("src")) (decodeSrc) = .ok x5 :=
        reqField_of_lookup hl5 (decodeSrc_restore hf5)
      have hl6 : lookupField enc2 (("documentation")) = some (encodeOpt encodeDocumentation x6) := by
        rw [henc2, lookupField_append_nt hnt (by decide)]
        rfl
      have hg6 : optField enc2 (("documentation")) (decodeDocumentation) = .ok x6 :=
        optField_restore hl6 (fun b hb3 => by
          subst hb3
          obtain ⟨w, hw, hwn, hfw⟩ := optField_ok_some hx6
          exact ⟨decodeDocumentation_restore hfw, encodeDocumentation_ne_null b⟩)
      rw [decodeVariableDeclarationStatementF]
      simp only [hg1, hg2, hg3, hg4, hg5, hg6, dres_bind_ok, dres_pure]
termination_by fuel

theorem decodeExpressionStatementF_restore (fuel : Nat) (v : Json) (a : ExpressionStatement)
    (nt : List (String × Json)) (fuel2 : Nat)
    (hnt : ∀ e ∈ nt, e.1 = ("nodeType"))
    (h : decodeExpressionStatementF fuel v = .ok a)
    (hb : 2 * jsonFuel (Json.obj (nt ++ encodeExpressionStatementFieldsF fuel a)) ≤ fuel2 + 1) :
    decodeExpressionStatementF fuel2 (.obj (nt ++ encodeExpressionStatementFieldsF fuel a)) = .ok a := by
  match fuel, fuel2 with
  | 0, _ => exact Except.noConfusion h
  | fuel + 1, 0 =>
    have hp1 := jsonFuel_pos (Json.obj (nt ++ encodeExpressionStatementFieldsF (fuel + 1) a))
    omega
  | fuel + 1, f2 + 1 =>
    cases v <;> try exact Except.noConfusion h
    case obj o =>
      rw [decodeExpressionStatementF] at h
      simp only [dres_bind_eq_ok] at h
      obtain ⟨x1, hx1, x2, hx2, x3, hx3, hp⟩ := h
      simp only [dres_pure, Except.ok.injEq] at hp
      subst hp
      rw [encodeExpressionStatementFieldsF] at hb ⊢
      try simp only [List.map_nil] at hb ⊢
      simp only [jsonFuel, jsonEntriesFuel_append, jsonEntriesFuel, jsonListFuel] at hb
      set enc2 := nt ++ [(("id"), Json.num x1),
        (("expression"), encodeExpressionF fuel x2),
        (("src"), Json.str (encode_location x3))] with henc2
      have hl1 : lookupField enc2 (("id")) = some (Json.num x1) := by
        rw [henc2, lookupField_append_nt hnt (by decide)]
        rfl
      obtain ⟨w1, hw1, hf1⟩ := reqField_ok hx1
      have hg1 : reqField enc2 (("id")) (decodeI64) = .ok x1 :=
        reqField_of_lookup hl1 (decodeI64_restore hf1)
      have hl2 : lookupField enc2 (("expression")) = some (encodeExpressionF fuel x2) := by
        rw [henc2, lookupField_append_nt hnt (by decide)]
        rfl
      obtain ⟨w2, hw2, hf2⟩ := reqField_ok hx2
      have hg2 : reqField enc2 (("expression")) (decodeExpressionF f2) = .ok x2 :=
        reqField_of_lookup hl2 (decodeExpressionF_restore fuel w2 x2 f2 hf2 (by omega))
      have hl3 : lookupField enc2 (("src")) = some (Json.str (encode_location x3)) := by
        rw [henc2, lookupField_append_nt hnt (by decide)]
        rfl
      obtain ⟨w3, hw3, hf3⟩ := reqField_ok hx3
      have hg3 : reqField enc2 (("src")) (decodeSrc) = .ok x3 :=
        reqField_of_lookup hl3 (decodeSrc_restore hf3)
      rw [decodeExpressionStatementF]
      simp only [hg1, hg2, hg3, dres_bind_ok, dres_pure]
termination_by fuel

theorem decodeBlockF_restore (fuel : Nat) (v : Json) (a : Block)
    (nt : List (String × Json)) (fuel2 : Nat)
    (hnt : ∀ e ∈ nt, e.1 = ("nodeType"))
    (h : decodeBlockF fuel v = .ok a)
    (hb : 2 * jsonFuel (Json.obj (nt ++ encodeBlockFieldsF fuel a)) ≤ fuel2 + 1) :
    decodeBlockF fuel2 (.obj (nt ++ encodeBlockFieldsF fuel a)) = .ok a := by
  match fuel, fuel2 with
  | 0, _ => exact Except.noConfusion h
  | fuel + 1, 0 =>
    have hp1 := jsonFuel_pos (Json.obj (nt ++ encodeBlockFieldsF (fuel + 1) a))
    omega
  | fuel + 1, f2 + 1 =>
    cases v <;> try exact Except.noConfusion h
    case obj o =>
      rw [decodeBlockF] at h
      simp only [dres_bind_eq_ok] at h
      obtain ⟨x1, hx1, x2, hx2, x3, hx3, x4, hx4, hp⟩ := h
      simp only [dres_pure, Except.ok.injEq] at hp
      subst hp
      have hn4 : x4 = [] := by
        rcases defField_ok hx4 with h0 | ⟨w, hw, hfw⟩
        · exact h0
        · obtain ⟨vs, hveq, hlw⟩ := decodeArr_ok hfw
          exact decodeListWith_taggedEmpty 0 vs x4 hlw
      subst hn4
      rw [encodeBlockFieldsF] at hb ⊢
      try simp only [List.map_nil] at hb ⊢
      simp only [jsonFuel, jsonEntriesFuel_append, jsonEntriesFuel, jsonListFuel] at hb
      set enc2 := nt ++ [(("id"), Json.num x1),
        (("statements"), Json.arr (x2.map (encodeStatementF fuel))),
        (("src"), Json.str (encode_location x3)),
        (("nodes"), Json.arr [])] with henc2
      have hl1 : lookupField enc2 (("id")) = some (Json.num x1) := by
        rw [henc2, lookupField_append_nt hnt (by decide)]
        rfl
      obtain ⟨w1, hw1, hf1⟩ := reqField_ok hx1
      have hg1 : reqField enc2 (("id")) (decodeI64) = .ok x1 :=
        reqField_of_lookup hl1 (decodeI64_restore hf1)
      have hl2 : lookupField enc2 (("statements")) = some (Json.arr (x2.map (encodeStatementF fuel))) := by
        rw [henc2, lookupField_append_nt hnt (by decide)]
        rfl
      obtain ⟨w2, hw2, hf2⟩ := reqField_ok hx2
      have hfe2 : decodeArr (decodeStatementF f2) (Json.arr (x2.map (encodeStatementF fuel))) = .ok x2 :=
        decodeArr_restore hf2 (fun v2 x hx hfx =>
        decodeStatementF_restore fuel v2 x f2 hfx (by
          have hm := jsonListFuel_of_mem (List.mem_map_of_mem (encodeStatementF fuel) hx)
          omega))
      have hg2 : reqField enc2 (("statements")) (decodeArr (decodeStatementF f2)) = .ok x2 :=
        reqField_of_lookup hl2 hfe2
      have hl3 : lookupField enc2 (("src")) = some (Json.str (encode_location x3)) := by
        rw [henc2, lookupField_append_nt hnt (by decide)]
        rfl
      obtain ⟨w3, hw3, hf3⟩ := reqField_ok hx3
      have hg3 : reqField enc2 (("src")) (decodeSrc) = .ok x3 :=
        reqField_of_lookup hl3 (decodeSrc_restore hf3)
      have hl4 : lookupField enc2 (("nodes")) = some (Json.arr []) := by
        rw [henc2, lookupField_append_nt hnt (by decide)]
        rfl
      have hg4 : defField enc2 (("nodes")) ([] : List BlockNode) (decodeArr decodeTaggedEmpty) = .ok [] :=
        defField_of_lookup hl4 rfl
      rw [decodeBlockF]
      simp only [hg1, hg2, hg3, hg4, dres_bind_ok, dres_pure]
termination_by fuel

theorem decodeDoWhileStatementF_restore (fuel : Nat) (v : Json) (a : DoWhileStatement)
    (nt : List (String × Json)) (fuel2 : Nat)
    (hnt : ∀ e ∈ nt, e.1 = ("nodeType"))
    (h : decodeDoWhileStatementF fuel v = .ok a)
    (hb : 2 * jsonFuel (Json.obj (nt ++ encodeDoWhileStatementFieldsF fuel a)) ≤ fuel2 + 1) :
    decodeDoWhileStatementF fuel2 (.obj (nt ++ encodeDoWhileStatementFieldsF fuel a)) = .ok a := by
  match fuel, fuel2 with
  | 0, _ => exact Except.noConfusion h
  | fuel + 1, 0 =>
    have hp1 := jsonFuel_pos (Json.obj (nt ++ encodeDoWhileStatementFieldsF (fuel + 1) a))
    omega
  | fuel + 1, f2 + 1 =>
    cases v <;> try exact Except.noConfusion h
    case obj o =>
      rw [decodeDoWhileStatementF] at h
      simp only [dres_bind_eq_ok] at h
      obtain ⟨x1, hx1, x2, hx2, x3, hx3, x4, hx4, hp⟩ := h
      simp only [dres_pure, Except.ok.injEq] at hp
      subst hp
      rw [encodeDoWhileStatementFieldsF] at hb ⊢
      try simp only [List.map_nil] at hb ⊢
      simp only [jsonFuel, jsonEntriesFuel_append, jsonEntriesFuel, jsonListFuel] at hb
      set enc2 := nt ++ [(("id"), Json.num x1),
        (("condition"), encodeExpressionF fuel x2),
        (("body"), encodeStatementF fuel x3),
        (("src"), Json.str (encode_location x4))] with henc2
      have hl1 : lookupField enc2 (("id")) = some (Json.num x1) := by
        rw [henc2, lookupField_append_nt hnt (by decide)]
        rfl
      obtain ⟨w1, hw1, hf1⟩ := reqField_ok hx1
      have hg1 : reqField enc2 (("id")) (decodeI64) = .ok x1 :=
        reqField_of_lookup hl1 (decodeI64_restore hf1)
      have hl2 : lookupField enc2 (("condition")) = some (encodeExpressionF fuel x2) := by
        rw [henc2, lookupField_append_nt hnt (by decide)]
        rfl
      obtain ⟨w2, hw2, hf2⟩ := reqField_ok hx2
      have hg2 : reqField enc2 (("condition")) (decodeExpressionF f2) = .ok x2 :=
        reqField_of_lookup hl2 (decodeExpressionF_restore fuel w2 x2 f2 hf2 (by omega))
      have hl3 : lookupField enc2 (("body")) = some (encodeStatementF fuel x3) := by
        rw [henc2, lookupField_append_nt hnt (by decide)]
        rfl
      obtain ⟨w3, hw3, hf3⟩ := reqField_ok hx3
      have hg3 : reqField enc2 (("body")) (decodeStatementF f2) = .ok x3 :=
        reqField_of_lookup hl3 (decodeStatementF_restore fuel w3 x3 f2 hf3 (by omega))
      have hl4 : lookupField enc2 (("src")) = some (Json.str (encode_location x4)) := by
        rw [henc2, lookupField_append_nt hnt (by decide)]
        rfl
      obtain ⟨w4, hw4, hf4⟩ := reqField_ok hx4
      have hg4 : reqField enc2 (("src")) (decodeSrc) = .ok x4 :=
        reqField_of_lookup hl4 (decodeSrc_restore hf4)
      rw [decodeDoWhileStatementF]
      simp only [hg1, hg2, hg3, hg4, dres_bind_ok, dres_pure]
termination_by fuel

theorem decodeEmitStatementF_restore (fuel : Nat) (v : Json) (a : EmitStatement)
    (nt : List (String × Json)) (fuel2 : Nat)
    (hnt : ∀ e ∈ nt, e.1 = ("nodeType"))
    (h : decodeEmitStatementF fuel v = .ok a)
    (hb : 2 * jsonFuel (Json.obj (nt ++ encodeEmitStatementFieldsF fuel a)) ≤ fuel2 + 1) :
    decodeEmitStatementF fuel2 (.obj (nt ++ encodeEmitStatementFieldsF fuel a)) = .ok a := by
  match fuel, fuel2 with
  | 0, _ => exact Except.noConfusion h
  | fuel + 1, 0 =>
    have hp1 := jsonFuel_pos (Json.obj (nt ++ encodeEmitStatementFieldsF (fuel + 1) a))
    omega
  | fuel + 1, f2 + 1 =>
    cases v <;> try exact Except.noConfusion h
    case obj o =>
      rw [decodeEmitStatementF] at h
      simp only [dres_bind_eq_ok] at h
      obtain ⟨x1, hx1, x2, hx2, x3, hx3, hp⟩ := h
      simp only [dres_pure, Except.ok.injEq] at hp
      subst hp
      rw [encodeEmitStatementFieldsF] at hb ⊢
      try simp only [List.map_nil] at hb ⊢
      simp only [jsonFuel, jsonEntriesFuel_append, jsonEntriesFuel, jsonListFuel] at hb
      set enc2 := nt ++ [(("id"), Json.num x1),
        (("eventCall"), Json.obj (encodeFunctionCallFieldsF fuel x2)),
        (("src"), Json.str (encode_location x3))] with henc2
      have hl1 : lookupField enc2 (("id")) = some (Json.num x1) := by
        rw [henc2, lookupField_append_nt hnt (by decide)]
        rfl
      obtain ⟨w1, hw1, hf1⟩ := reqField_ok hx1
      have hg1 : reqField enc2 (("id")) (decodeI64) = .ok x1 :=
        reqField_of_lookup hl1 (decodeI64_restore hf1)
      have hl2 : lookupField enc2 (("eventCall")) = some (Json.obj (encodeFunctionCallFieldsF fuel x2)) := by
        rw [henc2, lookupField_append_nt hnt (by decide)]
        rfl
      obtain ⟨w2, hw2, hf2⟩ := reqField_ok hx2
      have hres2 := decodeFunctionCallF_restore fuel w2 x2 [] f2
        (fun e he => absurd he (List.not_mem_nil e)) hf2 (by
        simp only [jsonFuel, List.nil_append]
        omega)
      rw [List.nil_append] at hres2
      have hg2 : reqField enc2 (("eventCall")) (decodeFunctionCallF f2) = .ok x2 :=
        reqField_of_lookup hl2 hres2
      have hl3 : lookupField enc2 (("src")) = some (Json.str (encode_location x3)) := by
        rw [henc2, lookupField_append_nt hnt (by decide)]
        rfl
      obtain ⟨w3, hw3, hf3⟩ := reqField_ok hx3
      have hg3 : reqField enc2 (("src")) (decodeSrc) = .ok x3 :=
        reqField_of_lookup hl3 (decodeSrc_restore hf3)
      rw [decodeEmitStatementF]
      simp only [hg1, hg2, hg3, dres_bind_ok, dres_pure]
termination_by fuel

theorem decodeForStatementF_restore (fuel : Nat) (v : Json) (a : ForStatement)
    (nt : List (String × Json)) (fuel2 : Nat)
    (hnt : ∀ e ∈ nt, e.1 = ("nodeType"))
    (h : decodeForStatementF fuel v = .ok a)
    (hb : 2 * jsonFuel (Json.obj (nt ++ encodeForStatementFieldsF fuel a)) ≤ fuel2 + 1) :
    decodeForStatementF fuel2 (.obj (nt ++ encodeForStatementFieldsF fuel a)) = .ok a := by
  match fuel, fuel2 with
  | 0, _ => exact Except.noConfusion h
  | fuel + 1, 0 =>
    have hp1 := jsonFuel_pos (Json.obj (nt ++ encodeForStatementFieldsF (fuel + 1) a))
    omega
  | fuel + 1, f2 + 1 =>
    cases v <;> try exact Except.noConfusion h
    case obj o =>
      rw [decodeForStatementF] at h
      simp only [dres_bind_eq_ok] at h
      obtain ⟨x1, hx1, x2, hx2, x3, hx3, x4, hx4, x5, hx5, x6, hx6, hp⟩ := h
      simp only [dres_pure, Except.ok.injEq] at hp
      subst hp
      rw [encodeForStatementFieldsF] at hb ⊢
      try simp only [List.map_nil] at hb ⊢
      simp only [jsonFuel, jsonEntriesFuel_append, jsonEntriesFuel, jsonListFuel] at hb
      set enc2 := nt ++ [(("id"), Json.num x1),
        (("initializationExpression"), encodeOpt (encodeExpressionF fuel) x2),
        (("condition"), encodeOpt (encodeExpressionF fuel) x3),
        (("loopExpression"), encodeOpt (encodeExpressionF fuel) x4),
        (("body"), encodeStatementF fuel x5),
        (("src"), Json.str (encode_location x6))] with henc2
      have hl1 : lookupField enc2 (("id")) = some (Json.num x1) := by
        rw [henc2, lookupField_append_nt hnt (by decide)]
        rfl
      obtain ⟨w1, hw1, hf1⟩ := reqField_ok hx1
      have hg1 : reqField enc2 (("id")) (decodeI64) = .ok x1 :=
        reqField_of_lookup hl1 (decodeI64_restore hf1)
      have hl2 : lookupField enc2 (("initializationExpression")) = some (encodeOpt (encodeExpressionF fuel) x2) := by
        rw [henc2, lookupField_append_nt hnt (by decide)]
        rfl
      have hg2 : optField enc2 (("initializationExpression")) (decodeExpressionF f2) = .ok x2 :=
        optField_restore hl2 (fun b hb3 => by
          subst hb3
          obtain ⟨w, hw, hwn, hfw⟩ := optField_ok_some hx2
          refine ⟨decodeExpressionF_restore fuel w b f2 hfw ?_,
            encodeExpressionF_ne_null_of fuel w b hfw⟩
          simp only [encodeOpt, jsonFuel] at hb
          omega)
      have hl3 : lookupField enc2 (("condition")) = some (encodeOpt (encodeExpressionF fuel) x3) := by
        rw [henc2, lookupField_append_nt hnt (by decide)]
        rfl
      have hg3 : optField enc2 (("condition")) (decodeExpressionF f2) = .ok x3 :=
        optField_restore hl3 (fun b hb3 => by
          subst hb3
          obtain ⟨w, hw, hwn, hfw⟩ := optField_ok_some hx3
          refine ⟨decodeExpressionF_restore fuel w b f2 hfw ?_,
            encodeExpressionF_ne_null_of fuel w b hfw⟩
          simp only [encodeOpt, jsonFuel] at hb
          omega)
      have hl4 : lookupField enc2 (("loopExpression")) = some (encodeOpt (encodeExpressionF fuel) x4) := by
        rw [henc2, lookupField_append_nt hnt (by decide)]
        rfl
      have hg4 : optField enc2 (("loopExpression")) (decodeExpressionF f2) = .ok x4 :=
        optField_restore hl4 (fun b hb3 => by
          subst hb3
          obtain ⟨w, hw, hwn, hfw⟩ := optField_ok_some hx4
          refine ⟨decodeExpressionF_restore fuel w b f2 hfw ?_,
            encodeExpressionF_ne_null_of fuel w b hfw⟩
          simp only [encodeOpt, jsonFuel] at hb
          omega)
      have hl5 : lookupField enc2 (("body")) = some (encodeStatementF fuel x5) := by
        rw [henc2, lookupField_append_nt hnt (by decide)]
        rfl
      obtain ⟨w5, hw5, hf5⟩ := reqField_ok hx5
      have hg5 : reqField enc2 (("body")) (decodeStatementF f2) = .ok x5 :=
        reqField_of_lookup hl5 (decodeStatementF_restore fuel w5 x5 f2 hf5 (by omega))
      have hl6 : lookupField enc2 (("src")) = some (Json.str (encode_location x6)) := by
        rw [henc2, lookupField_append_nt hnt (by decide)]
        rfl
      obtain ⟨w6, hw6, hf6⟩ := reqField_ok hx6
      have hg6 : reqField enc2 (("src")) (decodeSrc) = .ok x6 :=
        reqField_of_lookup hl6 (decodeSrc_restore hf6)
      rw [decodeForStatementF]
      simp only [hg1, hg2, hg3, hg4, hg5, hg6, dres_bind_ok, dres_pure]
termination_by fuel

theorem decodeIfStatementF_restore (fuel : Nat) (v : Json) (a : IfStatement)
    (nt : List (String × Json)) (fuel2 : Nat)
    (hnt : ∀ e ∈ nt, e.1 = ("nodeType"))
    (h : decodeIfStatementF fuel v = .ok a)
    (hb : 2 * jsonFuel (Json.obj (nt ++ encodeIfStatementFieldsF fuel a)) ≤ fuel2 + 1) :
    decodeIfStatementF fuel2 (.obj (nt ++ encodeIfStatementFieldsF fuel a)) = .ok a := by
  match fuel, fuel2 with
  | 0, _ => exact Except.noConfusion h
  | fuel + 1, 0 =>
    have hp1 := jsonFuel_pos (Json.obj (nt ++ encodeIfStatementFieldsF (fuel + 1) a))
    omega
  | fuel + 1, f2 + 1 =>
    cases v <;> try exact Except.noConfusion h
    case obj o =>
      rw [decodeIfStatementF] at h
      simp only [dres_bind_eq_ok] at h
      obtain ⟨x1, hx1, x2, hx2, x3, hx3, x4, hx4, x5, hx5, hp⟩ := h
      simp only [dres_pure, Except.ok.injEq] at hp
      subst hp
      rw [encodeIfStatementFieldsF] at hb ⊢
      try simp only [List.map_nil] at hb ⊢
      simp only [jsonFuel, jsonEntriesFuel_append, jsonEntriesFuel, jsonListFuel] at hb
      set enc2 := nt ++ [(("id"), Json.num x1),
        (("condition"), encodeExpressionF fuel x2),
        (("trueBody"), encodeStatementF fuel x3),
        (("falseBody"), encodeOpt (encodeStatementF fuel) x4),
        (("src"), Json.str (encode_location x5))] with henc2
      have hl1 : lookupField enc2 (("id")) = some (Json.num x1) := by
        rw [henc2, lookupField_append_nt hnt (by decide)]
        rfl
      obtain ⟨w1, hw1, hf1⟩ := reqField_ok hx1
      have hg1 : reqField enc2 (("id")) (decodeI64) = .ok x1 :=
        reqField_of_lookup hl1 (decodeI64_restore hf1)
      have hl2 : lookupField enc2 (("condition")) = some (encodeExpressionF fuel x2) := by
        rw [henc2, lookupField_append_nt hnt (by decide)]
        rfl
      obtain ⟨w2, hw2, hf2⟩ := reqField_ok hx2
      have hg2 : reqField enc2 (("condition")) (decodeExpressionF f2) = .ok x2 :=
        reqField_of_lookup hl2 (decodeExpressionF_restore fuel w2 x2 f2 hf2 (by omega))
      have hl3 : lookupField enc2 (("trueBody")) = some (encodeStatementF fuel x3) := by
        rw [henc2, lookupField_append_nt hnt (by decide)]
        rfl
      obtain ⟨w3, hw3, hf3⟩ := reqField_ok hx3
      have hg3 : reqField enc2 (("trueBody")) (decodeStatementF f2) = .ok x3 :=
        reqField_of_lookup hl3 (decodeStatementF_restore fuel w3 x3 f2 hf3 (by omega))
      have hl4 : lookupField enc2 (("falseBody")) = some (encodeOpt (encodeStatementF fuel) x4) := by
        rw [henc2, lookupField_append_nt hnt (by decide)]
        rfl
      have hg4 : optField enc2 (("falseBody")) (decodeStatementF f2) = .ok x4 :=
        optField_restore hl4 (fun b hb3 => by
          subst hb3
          obtain ⟨w, hw, hwn, hfw⟩ := optField_ok_some hx4
          refine ⟨decodeStatementF_restore fuel w b f2 hfw ?_,
            encodeStatementF_ne_null_of fuel w b hfw⟩
          simp only [encodeOpt, jsonFuel] at hb
          omega)
      have hl5 : lookupField enc2 (("src")) = some (Json.str (encode_location x5)) := by
        rw [henc2, lookupField_append_nt hnt (by decide)]
        rfl
      obtain ⟨w5, hw5, hf5⟩ := reqField_ok hx5
      have hg5 : reqField enc2 (("src")) (decodeSrc) = .ok x5 :=
        reqField_of_lookup hl5 (decodeSrc_restore hf5)
      rw [decodeIfStatementF]
      simp only [hg1, hg2, hg3, hg4, hg5, dres_bind_ok, dres_pure]
termination_by fuel

theorem decodeReturnF_restore (fuel : Nat) (v : Json) (a : Return)
    (nt : List (String × Json)) (fuel2 : Nat)
    (hnt : ∀ e ∈ nt, e.1 = ("nodeType"))
    (h : decodeReturnF fuel v = .ok a)
    (hb : 2 * jsonFuel (Json.obj (nt ++ encodeReturnFieldsF fuel a)) ≤ fuel2 + 1) :
    decodeReturnF fuel2 (.obj (nt ++ encodeReturnFieldsF fuel a)) = .ok a := by
  match fuel, fuel2 with
  | 0, _ => exact Except.noConfusion h
  | fuel + 1, 0 =>
    have hp1 := jsonFuel_pos (Json.obj (nt ++ encodeReturnFieldsF (fuel + 1) a))
    omega
  | fuel + 1, f2 + 1 =>
    cases v <;> try exact Except.noConfusion h
    case obj o =>
      rw [decodeReturnF] at h
      simp only [dres_bind_eq_ok] at h
      obtain ⟨x1, hx1, x2, hx2, x3, hx3, x4, hx4, hp⟩ := h
      simp only [dres_pure, Except.ok.injEq] at hp
      subst hp
      rw [encodeReturnFieldsF] at hb ⊢
      try simp only [List.map_nil] at hb ⊢
      simp only [jsonFuel, jsonEntriesFuel_append, jsonEntriesFuel, jsonListFuel] at hb
      set enc2 := nt ++ [(("id"), Json.num x1),
        (("functionReturnParameters"), Json.num x2),
        (("expression"), encodeOpt (encodeExpressionF fuel) x3),
        (("src"), Json.str (encode_location x4))] with henc2
      have hl1 : lookupField enc2 (("id")) = some (Json.num x1) := by
        rw [henc2, lookupField_append_nt hnt (by decide)]
        rfl
      obtain ⟨w1, hw1, hf1⟩ := reqField_ok hx1
      have hg1 : reqField enc2 (("id")) (decodeI64) = .ok x1 :=
        reqField_of_lookup hl1 (decodeI64_restore hf1)
      have hl2 : lookupField enc2 (("functionReturnParameters")) = some (Json.num x2) := by
        rw [henc2, lookupField_append_nt hnt (by decide)]
        rfl
      obtain ⟨w2, hw2, hf2⟩ := reqField_ok hx2
      have hg2 : reqField enc2 (("functionReturnParameters")) (decodeI64) = .ok x2 :=
        reqField_of_lookup hl2 (decodeI64_restore hf2)
      have hl3 : lookupField enc2 (("expression")) = some (encodeOpt (encodeExpressionF fuel) x3) := by
        rw [henc2, lookupField_append_nt hnt (by decide)]
        rfl
      have hg3 : optField enc2 (("expression")) (decodeExpressionF f2) = .ok x3 :=
        optField_restore hl3 (fun b hb3 => by
          subst hb3
          obtain ⟨w, hw, hwn, hfw⟩ := optField_ok_some hx3
          refine ⟨decodeExpressionF_restore fuel w b f2 hfw ?_,
            encodeExpressionF_ne_null_of fuel w b hfw⟩
          simp only [encodeOpt, jsonFuel] at hb
          omega)
      have hl4 : lookupField enc2 (("src")) = some (Json.str (encode_location x4)) := by
        rw [henc2, lookupField_append_nt hnt (by decide)]
        rfl
      obtain ⟨w4, hw4, hf4⟩ := reqField_ok hx4
      have hg4 : reqField enc2 (("src")) (decodeSrc) = .ok x4 :=
        reqField_of_lookup hl4 (decodeSrc_restore hf4)
      rw [decodeReturnF]
      simp only [hg1, hg2, hg3, hg4, dres_bind_ok, dres_pure]
termination_by fuel

theorem decodeRevertStatementF_restore (fuel : Nat) (v : Json) (a : RevertStatement)
    (nt : List (String × Json)) (fuel2 : Nat)
    (hnt : ∀ e ∈ nt, e.1 = ("nodeType"))
    (h : decodeRevertStatementF fuel v = .ok a)
    (hb : 2 * jsonFuel (Json.obj (nt ++ encodeRevertStatementFieldsF fuel a)) ≤ fuel2 + 1) :
    decodeRevertStatementF fuel2 (.obj (nt ++ encodeRevertStatementFieldsF fuel a)) = .ok a := by
  match fuel, fuel2 with
  | 0, _ => exact Except.noConfusion h
  | fuel + 1, 0 =>
    have hp1 := jsonFuel_pos (Json.obj (nt ++ encodeRevertStatementFieldsF (fuel + 1) a))
    omega
  | fuel + 1, f2 + 1 =>
    cases v <;> try exact Except.noConfusion h
    case obj o =>
      rw [decodeRevertStatementF] at h
      simp only [dres_bind_eq_ok] at h
      obtain ⟨x1, hx1, x2, hx2, x3, hx3, hp⟩ := h
      simp only [dres_pure, Except.ok.injEq] at hp
      subst hp
      rw [encodeRevertStatementFieldsF] at hb ⊢
      try simp only [List.map_nil] at hb ⊢
      simp only [jsonFuel, jsonEntriesFuel_append, jsonEntriesFuel, jsonListFuel] at hb
      set enc2 := nt ++ [(("id"), Json.num x1),
        (("errorCall"), Json.obj (encodeFunctionCallFieldsF fuel x2)),
        (("src"), Json.str (encode_location x3))] with henc2
      have hl1 : lookupField enc2 (("id")) = some (Json.num x1) := by
        rw [henc2, lookupField_append_nt hnt (by decide)]
        rfl
      obtain ⟨w1, hw1, hf1⟩ := reqField_ok hx1
      have hg1 : reqField enc2 (("id")) (decodeI64) = .ok x1 :=
        reqField_of_lookup hl1 (decodeI64_restore hf1)
      have hl2 : lookupField enc2 (("errorCall")) = some (Json.obj (encodeFunctionCallFieldsF fuel x2)) := by
        rw [henc2, lookupField_append_nt hnt (by decide)]
        rfl
      obtain ⟨w2, hw2, hf2⟩ := reqField_ok hx2
      have hres2 := decodeFunctionCallF_restore fuel w2 x2 [] f2
        (fun e he => absurd he (List.not_mem_nil e)) hf2 (by
        simp only [jsonFuel, List.nil_append]
        omega)
      rw [List.nil_append] at hres2
      have hg2 : reqField enc2 (("errorCall")) (decodeFunctionCallF f2) = .ok x2 :=
        reqField_of_lookup hl2 hres2
      have hl3 : lookupField enc2 (("src")) = some (Json.str (encode_location x3)) := by
        rw [henc2, lookupField_append_nt hnt (by decide)]
        rfl
      obtain ⟨w3, hw3, hf3⟩ := reqField_ok hx3
      have hg3 : reqField enc2 (("src")) (decodeSrc) = .ok x3 :=
        reqField_of_lookup hl3 (decodeSrc_restore hf3)
      rw [decodeRevertStatementF]
      simp only [hg1, hg2, hg3, dres_bind_ok, dres_pure]
termination_by fuel

theorem decodeTryCatchClauseF_restore (fuel : Nat) (v : Json) (a : TryCatchClause)
    (nt : List (String × Json)) (fuel2 : Nat)
    (hnt : ∀ e ∈ nt, e.1 = ("nodeType"))
    (h : decodeTryCatchClauseF fuel v = .ok a)
    (hb : 2 * jsonFuel (Json.obj (nt ++ encodeTryCatchClauseFieldsF fuel a)) ≤ fuel2 + 1) :
    decodeTryCatchClauseF fuel2 (.obj (nt ++ encodeTryCatchClauseFieldsF fuel a)) = .ok a := by
  match fuel, fuel2 with
  | 0, _ => exact Except.noConfusion h
  | fuel + 1, 0 =>
    have hp1 := jsonFuel_pos (Json.obj (nt ++ encodeTryCatchClauseFieldsF (fuel + 1) a))
    omega
  | fuel + 1, f2 + 1 =>
    cases v <;> try exact Except.noConfusion h
    case obj o =>
      rw [decodeTryCatchClauseF] at h
      simp only [dres_bind_eq_ok] at h
      obtain ⟨x1, hx1, x2, hx2, x3, hx3, x4, hx4, x5, hx5, x6, hx6, hp⟩ := h
      simp only [dres_pure, Except.ok.injEq] at hp
      subst hp
      rw [encodeTryCatchClauseFieldsF] at hb ⊢
      try simp only [List.map_nil] at hb ⊢
      simp only [jsonFuel, jsonEntriesFuel_append, jsonEntriesFuel, jsonListFuel] at hb
      set enc2 := nt ++ [(("id"), Json.num x1),
        (("kind"), Json.str x2),
        (("errorName"), encodeOpt (fun y => Json.str y) x3),
        (("parameters"), encodeOpt (fun y => Json.obj (encodeParameterListFieldsF fuel y)) x4),
        (("block"), Json.obj (encodeBlockFieldsF fuel x5)),
        (("src"), Json.str (encode_location x6))] with henc2
      have hl1 : lookupField enc2 (("id")) = some (Json.num x1) := by
        rw [henc2, lookupField_append_nt hnt (by decide)]
        rfl
      obtain ⟨w1, hw1, hf1⟩ := reqField_ok hx1
      have hg1 : reqField enc2 (("id")) (decodeI64) = .ok x1 :=
        reqField_of_lookup hl1 (decodeI64_restore hf1)
      have hl2 : lookupField enc2 (("kind")) = some (Json.str x2) := by
        rw [henc2, lookupField_append_nt hnt (by decide)]
        rfl
      obtain ⟨w2, hw2, hf2⟩ := reqField_ok hx2
      have hg2 : reqField enc2 (("kind")) (decodeString) = .ok x2 :=
        reqField_of_lookup hl2 (decodeString_restore hf2)
      have hl3 : lookupField enc2 (("errorName")) = some (encodeOpt (fun y => Json.str y) x3) := by
        rw [henc2, lookupField_append_nt hnt (by decide)]
        rfl
      have hg3 : optField enc2 (("errorName")) (decodeString) = .ok x3 :=
        optField_restore hl3 (fun b hb3 => by
          subst hb3
          obtain ⟨w, hw, hwn, hfw⟩ := optField_ok_some hx3
          exact ⟨decodeString_restore hfw, fun hh => Json.noConfusion hh⟩)
      have hl4 : lookupField enc2 (("parameters")) = some (encodeOpt (fun y => Json.obj (encodeParameterListFieldsF fuel y)) x4) := by
        rw [henc2, lookupField_append_nt hnt (by decide)]
        rfl
      have hg4 : optField enc2 (("parameters")) (decodeParameterListF f2) = .ok x4 :=
        optField_restore hl4 (fun b hb3 => by
          subst hb3
          obtain ⟨w, hw, hwn, hfw⟩ := optField_ok_some hx4
          have hres := decodeParameterListF_restore fuel w b [] f2
            (fun e he => absurd he (List.not_mem_nil e)) hfw (by
            simp only [encodeOpt, jsonFuel] at hb
            simp only [jsonFuel, List.nil_append]
            omega)
          rw [List.nil_append] at hres
          exact ⟨hres, fun hh => Json.noConfusion hh⟩)
      have hl5 : lookupField enc2 (("block")) = some (Json.obj (encodeBlockFieldsF fuel x5)) := by
        rw [henc2, lookupField_append_nt hnt (by decide)]
        rfl
      obtain ⟨w5, hw5, hf5⟩ := reqField_ok hx5
      have hres5 := decodeBlockF_restore fuel w5 x5 [] f2
        (fun e he => absurd he (List.not_mem_nil e)) hf5 (by
        simp only [jsonFuel, List.nil_append]
        omega)
      rw [List.nil_append] at hres5
      have hg5 : reqField enc2 (("block")) (decodeBlockF f2) = .ok x5 :=
        reqField_of_lookup hl5 hres5
      have hl6 : lookupField enc2 (("src")) = some (Json.str (encode_location x6)) := by
        rw [henc2, lookupField_append_nt hnt (by decide)]
        rfl
      obtain ⟨w6, hw6, hf6⟩ := reqField_ok hx6
      have hg6 : reqField enc2 (("src")) (decodeSrc) = .ok x6 :=
        reqField_of_lookup hl6 (decodeSrc_restore hf6)
      rw [decodeTryCatchClauseF]
      simp only [hg1, hg2, hg3, hg4, hg5, hg6, dres_bind_ok, dres_pure]
termination_by fuel

theorem decodeTryStatementF_restore (fuel : Nat) (v : Json) (a : TryStatement)
    (nt : List (String × Json)) (fuel2 : Nat)
    (hnt : ∀ e ∈ nt, e.1 = ("nodeType"))
    (h : decodeTryStatementF fuel v = .ok a)
    (hb : 2 * jsonFuel (Json.obj (nt ++ encodeTryStatementFieldsF fuel a)) ≤ fuel2 + 1) :
    decodeTryStatementF fuel2 (.obj (nt ++ encodeTryStatementFieldsF fuel a)) = .ok a := by
  match fuel, fuel2 with
  | 0, _ => exact Except.noConfusion h
  | fuel + 1, 0 =>
    have hp1 := jsonFuel_pos (Json.obj (nt ++ encodeTryStatementFieldsF (fuel + 1) a))
    omega
  | fuel + 1, f2 + 1 =>
    cases v <;> try exact Except.noConfusion h
    case obj o =>
      rw [decodeTryStatementF] at h
      simp only [dres_bind_eq_ok] at h
      obtain ⟨x1, hx1, x2, hx2, x3, hx3, x4, hx4, x5, hx5, hp⟩ := h
      simp only [dres_pure, Except.ok.injEq] at hp
      subst hp
      rw [encodeTryStatementFieldsF] at hb ⊢
      try simp only [List.map_nil] at hb ⊢
      simp only [jsonFuel, jsonEntriesFuel_append, jsonEntriesFuel, jsonListFuel] at hb
      set enc2 := nt ++ [(("id"), Json.num x1),
        (("expression"), encodeExpressionF fuel x2),
        (("returnParameters"), Json.obj (encodeParameterListFieldsF fuel x3)),
        (("clauses"), Json.arr (x4.map ((fun y => Json.obj (encodeTryCatchClauseFieldsF fuel y))))),
        (("src"), Json.str (encode_location x5))] with henc2
      have hl1 : lookupField enc2 (("id")) = some (Json.num x1) := by
        rw [henc2, lookupField_append_nt hnt (by decide)]
        rfl
      obtain ⟨w1, hw1, hf1⟩ := reqField_ok hx1
      have hg1 : reqField enc2 (("id")) (decodeI64) = .ok x1 :=
        reqField_of_lookup hl1 (decodeI64_restore hf1)
      have hl2 : lookupField enc2 (("expression")) = some (encodeExpressionF fuel x2) := by
        rw [henc2, lookupField_append_nt hnt (by decide)]
        rfl
      obtain ⟨w2, hw2, hf2⟩ := reqField_ok hx2
      have hg2 : reqField enc2 (("expression")) (decodeExpressionF f2) = .ok x2 :=
        reqField_of_lookup hl2 (decodeExpressionF_restore fuel w2 x2 f2 hf2 (by omega))
      have hl3 : lookupField enc2 (("returnParameters")) = some (Json.obj (encodeParameterListFieldsF fuel x3)) := by
        rw [henc2, lookupField_append_nt hnt (by decide)]
        rfl
      obtain ⟨w3, hw3, hf3⟩ := reqField_ok hx3
      have hres3 := decodeParameterListF_restore fuel w3 x3 [] f2
        (fun e he => absurd he (List.not_mem_nil e)) hf3 (by
        simp only [jsonFuel, List.nil_append]
        omega)
      rw [List.nil_append] at hres3
      have hg3 : reqField enc2 (("returnParameters")) (decodeParameterListF f2) = .ok x3 :=
        reqField_of_lookup hl3 hres3
      have hl4 : lookupField enc2 (("clauses")) = some (Json.arr (x4.map ((fun y => Json.obj (encodeTryCatchClauseFieldsF fuel y))))) := by
        rw [henc2, lookupField_append_nt hnt (by decide)]
        rfl
      obtain ⟨w4, hw4, hf4⟩ := reqField_ok hx4
      have hfe4 : decodeArr (decodeTryCatchClauseF f2) (Json.arr (x4.map ((fun y => Json.obj (encodeTryCatchClauseFieldsF fuel y))))) = .ok x4 :=
        decodeArr_restore hf4 (fun v2 x hx hfx => by
        have hres := decodeTryCatchClauseF_restore fuel v2 x [] f2
          (fun e he => absurd he (List.not_mem_nil e)) hfx (by
          have hm := jsonListFuel_of_mem (List.mem_map_of_mem (fun y => Json.obj (encodeTryCatchClauseFieldsF fuel y)) hx)
          simp only [jsonFuel] at hm
          simp only [jsonFuel, List.nil_append]
          omega)
        rw [List.nil_append] at hres
        exact hres)
      have hg4 : reqField enc2 (("clauses")) (decodeArr (decodeTryCatchClauseF f2)) = .ok x4 :=
        reqField_of_lookup hl4 hfe4
      have hl5 : lookupField enc2 (("src")) = some (Json.str (encode_location x5)) := by
        rw [henc2, lookupField_append_nt hnt (by decide)]
        rfl
      obtain ⟨w5, hw5, hf5⟩ := reqField_ok hx5
      have hg5 : reqField enc2 (("src")) (decodeSrc) = .ok x5 :=
        reqField_of_lookup hl5 (decodeSrc_restore hf5)
      rw [decodeTryStatementF]
      simp only [hg1, hg2, hg3, hg4, hg5, dres_bind_ok, dres_pure]
termination_by fuel

theorem decodeUncheckedBlockF_restore (fuel : Nat) (v : Json) (a : UncheckedBlock)
    (nt : List (String × Json)) (fuel2 : Nat)
    (hnt : ∀ e ∈ nt, e.1 = ("nodeType"))
    (h : decodeUncheckedBlockF fuel v = .ok a)
    (hb : 2 * jsonFuel (Json.obj (nt ++ encodeUncheckedBlockFieldsF fuel a)) ≤ fuel2 + 1) :
    decodeUncheckedBlockF fuel2 (.obj (nt ++ encodeUncheckedBlockFieldsF fuel a)) = .ok a := by
  match fuel, fuel2 with
  | 0, _ => exact Except.noConfusion h
  | fuel + 1, 0 =>
    have hp1 := jsonFuel_pos (Json.obj (nt ++ encodeUncheckedBlockFieldsF (fuel + 1) a))
    omega
  | fuel + 1, f2 + 1 =>
    cases v <;> try exact Except.noConfusion h
    case obj o =>
      rw [decodeUncheckedBlockF] at h
      simp only [dres_bind_eq_ok] at h
      obtain ⟨x1, hx1, x2, hx2, x3, hx3, x4, hx4, hp⟩ := h
      simp only [dres_pure, Except.ok.injEq] at hp
      subst hp
      have hn4 : x4 = [] := by
        rcases defField_ok hx4 with h0 | ⟨w, hw, hfw⟩
        · exact h0
        · obtain ⟨vs, hveq, hlw⟩ := decodeArr_ok hfw
          exact decodeListWith_taggedEmpty 0 vs x4 hlw
      subst hn4
      rw [encodeUncheckedBlockFieldsF] at hb ⊢
      try simp only [List.map_nil] at hb ⊢
      simp only [jsonFuel, jsonEntriesFuel_append, jsonEntriesFuel, jsonListFuel] at hb
      set enc2 := nt ++ [(("id"), Json.num x1),
        (("statements"), Json.arr (x2.map (encodeStatementF fuel))),
        (("src"), Json.str (encode_location x3)),
        (("nodes"), Json.arr [])] with henc2
      have hl1 : lookupField enc2 (("id")) = some (Json.num x1) := by
        rw [henc2, lookupField_append_nt hnt (by decide)]
        rfl
      obtain ⟨w1, hw1, hf1⟩ := reqField_ok hx1
      have hg1 : reqField enc2 (("id")) (decodeI64) = .ok x1 :=
        reqField_of_lookup hl1 (decodeI64_restore hf1)
      have hl2 : lookupField enc2 (("statements")) = some (Json.arr (x2.map (encodeStatementF fuel))) := by
        rw [henc2, lookupField_append_nt hnt (by decide)]
        rfl
      obtain ⟨w2, hw2, hf2⟩ := reqField_ok hx2
      have hfe2 : decodeArr (decodeStatementF f2) (Json.arr (x2.map (encodeStatementF fuel))) = .ok x2 :=
        decodeArr_restore hf2 (fun v2 x hx hfx =>
        decodeStatementF_restore fuel v2 x f2 hfx (by
          have hm := jsonListFuel_of_mem (List.mem_map_of_mem (encodeStatementF fuel) hx)
          omega))
      have hg2 : reqField enc2 (("statements")) (decodeArr (decodeStatementF f2)) = .ok x2 :=
        reqField_of_lookup hl2 hfe2
      have hl3 : lookupField enc2 (("src")) = some (Json.str (encode_location x3)) := by
        rw [henc2, lookupField_append_nt hnt (by decide)]
        rfl
      obtain ⟨w3, hw3, hf3⟩ := reqField_ok hx3
      have hg3 : reqField enc2 (("src")) (decodeSrc) = .ok x3 :=
        reqField_of_lookup hl3 (decodeSrc_restore hf3)
      have hl4 : lookupField enc2 (("nodes")) = some (Json.arr []) := by
        rw [henc2, lookupField_append_nt hnt (by decide)]
        rfl
      have hg4 : defField enc2 (("nodes")) ([] : List UncheckedBlockNode) (decodeArr decodeTaggedEmpty) = .ok [] :=
        defField_of_lookup hl4 rfl
      rw [decodeUncheckedBlockF]
      simp only [hg1, hg2, hg3, hg4, dres_bind_ok, dres_pure]
termination_by fuel

theorem decodeWhileStatementF_restore (fuel : Nat) (v : Json) (a : WhileStatement)
    (nt : List (String × Json)) (fuel2 : Nat)
    (hnt : ∀ e ∈ nt, e.1 = ("nodeType"))
    (h : decodeWhileStatementF fuel v = .ok a)
    (hb : 2 * jsonFuel (Json.obj (nt ++ encodeWhileStatementFieldsF fuel a)) ≤ fuel2 + 1) :
    decodeWhileStatementF fuel2 (.obj (nt ++ encodeWhileStatementFieldsF fuel a)) = .ok a := by
  match fuel, fuel2 with
  | 0, _ => exact Except.noConfusion h
  | fuel + 1, 0 =>
    have hp1 := jsonFuel_pos (Json.obj (nt ++ encodeWhileStatementFieldsF (fuel + 1) a))
    omega
  | fuel + 1, f2 + 1 =>
    cases v <;> try exact Except.noConfusion h
    case obj o =>
      rw [decodeWhileStatementF] at h
      simp only [dres_bind_eq_ok] at h
      obtain ⟨x1, hx1, x2, hx2, x3, hx3, x4, hx4, hp⟩ := h
      simp only [dres_pure, Except.ok.injEq] at hp
      subst hp
      rw [encodeWhileStatementFieldsF] at hb ⊢
      try simp only [List.map_nil] at hb ⊢
      simp only [jsonFuel, jsonEntriesFuel_append, jsonEntriesFuel, jsonListFuel] at hb
      set enc2 := nt ++ [(("id"), Json.num x1),
        (("condition"), encodeExpressionF fuel x2),
        (("body"), encodeStatementF fuel x3),
        (("src"), Json.str (encode_location x4))] with henc2
      have hl1 : lookupField enc2 (("id")) = some (Json.num x1) := by
        rw [henc2, lookupField_append_nt hnt (by decide)]
        rfl
      obtain ⟨w1, hw1, hf1⟩ := reqField_ok hx1
      have hg1 : reqField enc2 (("id")) (decodeI64) = .ok x1 :=
        reqField_of_lookup hl1 (decodeI64_restore hf1)
      have hl2 : lookupField enc2 (("condition")) = some (encodeExpressionF fuel x2) := by
        rw [henc2, lookupField_append_nt hnt (by decide)]
        rfl
      obtain ⟨w2, hw2, hf2⟩ := reqField_ok hx2
      have hg2 : reqField enc2 (("condition")) (decodeExpressionF f2) = .ok x2 :=
        reqField_of_lookup hl2 (decodeExpressionF_restore fuel w2 x2 f2 hf2 (by omega))
      have hl3 : lookupField enc2 (("body")) = some (encodeStatementF fuel x3) := by
        rw [henc2, lookupField_append_nt hnt (by decide)]
        rfl
      obtain ⟨w3, hw3, hf3⟩ := reqField_ok hx3
      have hg3 : reqField enc2 (("body")) (decodeStatementF f2) = .ok x3 :=
        reqField_of_lookup hl3 (decodeStatementF_restore fuel w3 x3 f2 hf3 (by omega))
      have hl4 : lookupField enc2 (("src")) = some (Json.str (encode_location x4)) := by
        rw [henc2, lookupField_append_nt hnt (by decide)]
        rfl
      obtain ⟨w4, hw4, hf4⟩ := reqField_ok hx4
      have hg4 : reqField enc2 (("src")) (decodeSrc) = .ok x4 :=
        reqField_of_lookup hl4 (decodeSrc_restore hf4)
      rw [decodeWhileStatementF]
      simp only [hg1, hg2, hg3, hg4, dres_bind_ok, dres_pure]
termination_by fuel

theorem decodeVariableDeclarationF_restore (fuel : Nat) (v : Json) (a : VariableDeclaration)
    (nt : List (String × Json)) (fuel2 : Nat)
    (hnt : ∀ e ∈ nt, e.1 = ("nodeType"))
    (h : decodeVariableDeclarationF fuel v = .ok a)
    (hb : 2 * jsonFuel (Json.obj (nt ++ encodeVariableDeclarationFieldsF fuel a)) ≤ fuel2 + 1) :
    decodeVariableDeclarationF fuel2 (.obj (nt ++ encodeVariableDeclarationFieldsF fuel a)) = .ok a := by
  match fuel, fuel2 with
  | 0, _ => exact Except.noConfusion h
  | fuel + 1, 0 =>
    have hp1 := jsonFuel_pos (Json.obj (nt ++ encodeVariableDeclarationFieldsF (fuel + 1) a))
    omega
  | fuel + 1, f2 + 1 =>
    cases v <;> try exact Except.noConfusion h
    case obj o =>
      rw [decodeVariableDeclarationF] at h
      simp only [dres_bind_eq_ok] at h
      obtain ⟨x1, hx1, x2, hx2, x3, hx3, x4, hx4, x5, hx5, x6, hx6, x7, hx7, x8, hx8, x9, hx9, x10, hx10, x11, hx11, x12, hx12, x13, hx13, x14, hx14, x15, hx15, x16, hx16, x17, hx17, x18, hx18, hp⟩ := h
      simp only [dres_pure, Except.ok.injEq] at hp
      subst hp
      rw [encodeVariableDeclarationFieldsF] at hb ⊢
      try simp only [List.map_nil] at hb ⊢
      simp only [jsonFuel, jsonEntriesFuel_append, jsonEntriesFuel, jsonListFuel] at hb
      set enc2 := nt ++ [(("id"), Json.num x1),
        (("name"), Json.str x2),
        (("typeName"), encodeOpt (encodeTypeNameF fuel) x3),
        (("src"), Json.str (encode_location x4)),
        (("nameLocation"), encodeOpt (fun y => Json.str y) x5),
        (("visibility"), Json.str (encodeVisibility x6)),
        (("stateMutability"), encodeOpt (fun y => Json.str (encodeStateMutability y)) x7),
        (("mutability"), encodeOpt (fun y => Json.str (encodeMutability y)) x8),
        (("stateVariable"), encodeOpt (fun y => Json.bool y) x9),
        (("storageLocation"), encodeOpt (fun y => Json.str (encodeStorageLocation y)) x10),
        (("constant"), encodeOpt (fun y => Json.bool y) x11),
        (("immutable"), encodeOpt (fun y => Json.bool y) x12),
        (("indexed"), encodeOpt (fun y => Json.bool y) x13),
        (("value"), encodeOpt (encodeExpressionF fuel) x14),
        (("documentation"), encodeOpt encodeDocumentation x15),
        (("typeDescriptions"), encodeTypeDescriptions x16),
        (("overrides"), encodeOpt encodeOverrideSpecifier x17),
        (("scope"), encodeOpt (fun y => Json.num y) x18)] with henc2
      have hl1 : lookupField enc2 (("id")) = some (Json.num x1) := by
        rw [henc2, lookupField_append_nt hnt (by decide)]
        rfl
      obtain ⟨w1, hw1, hf1⟩ := reqField_ok hx1
      have hg1 : reqField enc2 (("id")) (decodeI64) = .ok x1 :=
        reqField_of_lookup hl1 (decodeI64_restore hf1)
      have hl2 : lookupField enc2 (("name")) = some (Json.str x2) := by
        rw [henc2, lookupField_append_nt hnt (by decide)]
        rfl
      obtain ⟨w2, hw2, hf2⟩ := reqField_ok hx2
      have hg2 : reqField enc2 (("name")) (decodeString) = .ok x2 :=
        reqField_of_lookup hl2 (decodeString_restore hf2)
      have hl3 : lookupField enc2 (("typeName")) = some (encodeOpt (encodeTypeNameF fuel) x3) := by
        rw [henc2, lookupField_append_nt hnt (by decide)]
        rfl
      have hg3 : optField enc2 (("typeName")) (decodeTypeNameF f2) = .ok x3 :=
        optField_restore hl3 (fun b hb3 => by
          subst hb3
          obtain ⟨w, hw, hwn, hfw⟩ := optField_ok_some hx3
          refine ⟨decodeTypeNameF_restore fuel w b f2 hfw ?_,
            encodeTypeNameF_ne_null_of fuel w b hfw⟩
          simp only [encodeOpt, jsonFuel] at hb
          omega)
      have hl4 : lookupField enc2 (("src")) = some (Json.str (encode_location x4)) := by
        rw [henc2, lookupField_append_nt hnt (by decide)]
        rfl
      obtain ⟨w4, hw4, hf4⟩ := reqField_ok hx4
      have hg4 : reqField enc2 (("src")) (decodeSrc) = .ok x4 :=
        reqField_of_lookup hl4 (decodeSrc_restore hf4)
      have hl5 : lookupField enc2 (("nameLocation")) = some (encodeOpt (fun y => Json.str y) x5) := by
        rw [henc2, lookupField_append_nt hnt (by decide)]
        rfl
      have hg5 : optField enc2 (("nameLocation")) (decodeString) = .ok x5 :=
        optField_restore hl5 (fun b hb3 => by
          subst hb3
          obtain ⟨w, hw, hwn, hfw⟩ := optField_ok_some hx5
          exact ⟨decodeString_restore hfw, fun hh => Json.noConfusion hh⟩)
      have hl6 : lookupField enc2 (("visibility")) = some (Json.str (encodeVisibility x6)) := by
        rw [henc2, lookupField_append_nt hnt (by decide)]
        rfl
      obtain ⟨w6, hw6, hf6⟩ := reqField_ok hx6
      have hg6 : reqField enc2 (("visibility")) (decodeVisibility) = .ok x6 :=
        reqField_of_lookup hl6 (decodeVisibility_restore hf6)
      have hl7 : lookupField enc2 (("stateMutability")) = some (encodeOpt (fun y => Json.str (encodeStateMutability y)) x7) := by
        rw [henc2, lookupField_append_nt hnt (by decide)]
        rfl
      have hg7 : optField enc2 (("stateMutability")) (decodeStateMutability) = .ok x7 :=
        optField_restore hl7 (fun b hb3 => by
          subst hb3
          obtain ⟨w, hw, hwn, hfw⟩ := optField_ok_some hx7
          exact ⟨decodeStateMutability_restore hfw, fun hh => Json.noConfusion hh⟩)
      have hl8 : lookupField enc2 (("mutability")) = some (encodeOpt (fun y => Json.str (encodeMutability y)) x8) := by
        rw [henc2, lookupField_append_nt hnt (by decide)]
        rfl
      have hg8 : optField enc2 (("mutability")) (decodeMutability) = .ok x8 :=
        optField_restore hl8 (fun b hb3 => by
          subst hb3
          obtain ⟨w, hw, hwn, hfw⟩ := optField_ok_some hx8
          exact ⟨decodeMutability_restore hfw, fun hh => Json.noConfusion hh⟩)
      have hl9 : lookupField enc2 (("stateVariable")) = some (encodeOpt (fun y => Json.bool y) x9) := by
        rw [henc2, lookupField_append_nt hnt (by decide)]
        rfl
      have hg9 : optField enc2 (("stateVariable")) (decodeBool) = .ok x9 :=
        optField_restore hl9 (fun b hb3 => by
          subst hb3
          obtain ⟨w, hw, hwn, hfw⟩ := optField_ok_some hx9
          exact ⟨decodeBool_restore hfw, fun hh => Json.noConfusion hh⟩)
      have hl10 : lookupField enc2 (("storageLocation")) = some (encodeOpt (fun y => Json.str (encodeStorageLocation y)) x10) := by
        rw [henc2, lookupField_append_nt hnt (by decide)]
        rfl
      have hg10 : optField enc2 (("storageLocation")) (decodeStorageLocation) = .ok x10 :=
        optField_restore hl10 (fun b hb3 => by
          subst hb3
          obtain ⟨w, hw, hwn, hfw⟩ := optField_ok_some hx10
          exact ⟨decodeStorageLocation_restore hfw, fun hh => Json.noConfusion hh⟩)
      have hl11 : lookupField enc2 (("constant")) = some (encodeOpt (fun y => Json.bool y) x11) := by
        rw [henc2, lookupField_append_nt hnt (by decide)]
        rfl
      have hg11 : optField enc2 (("constant")) (decodeBool) = .ok x11 :=
        optField_restore hl11 (fun b hb3 => by
          subst hb3
          obtain ⟨w, hw, hwn, hfw⟩ := optField_ok_some hx11
          exact ⟨decodeBool_restore hfw, fun hh => Json.noConfusion hh⟩)
      have hl12 : lookupField enc2 (("immutable")) = some (encodeOpt (fun y => Json.bool y) x12) := by
        rw [henc2, lookupField_append_nt hnt (by decide)]
        rfl
      have hg12 : optField enc2 (("immutable")) (decodeBool) = .ok x12 :=
        optField_restore hl12 (fun b hb3 => by
          subst hb3
          obtain ⟨w, hw, hwn, hfw⟩ := optField_ok_some hx12
          exact ⟨decodeBool_restore hfw, fun hh => Json.noConfusion hh⟩)
      have hl13 : lookupField enc2 (("indexed")) = some (encodeOpt (fun y => Json.bool y) x13) := by
        rw [henc2, lookupField_append_nt hnt (by decide)]
        rfl
      have hg13 : optField enc2 (("indexed")) (decodeBool) = .ok x13 :=
        optField_restore hl13 (fun b hb3 => by
          subst hb3
          obtain ⟨w, hw, hwn, hfw⟩ := optField_ok_some hx13
          exact ⟨decodeBool_restore hfw, fun hh => Json.noConfusion hh⟩)
      have hl14 : lookupField enc2 (("value")) = some (encodeOpt (encodeExpressionF fuel) x14) := by
        rw [henc2, lookupField_append_nt hnt (by decide)]
        rfl
      have hg14 : optField enc2 (("value")) (decodeExpressionF f2) = .ok x14 :=
        optField_restore hl14 (fun b hb3 => by
          subst hb3
          obtain ⟨w, hw, hwn, hfw⟩ := optField_ok_some hx14
          refine ⟨decodeExpressionF_restore fuel w b f2 hfw ?_,
            encodeExpressionF_ne_null_of fuel w b hfw⟩
          simp only [encodeOpt, jsonFuel] at hb
          omega)
      have hl15 : lookupField enc2 (("documentation")) = some (encodeOpt encodeDocumentation x15) := by
        rw [henc2, lookupField_append_nt hnt (by decide)]
        rfl
      have hg15 : optField enc2 (("documentation")) (decodeDocumentation) = .ok x15 :=
        optField_restore hl15 (fun b hb3 => by
          subst hb3
          obtain ⟨w, hw, hwn, hfw⟩ := optField_ok_some hx15
          exact ⟨decodeDocumentation_restore hfw, encodeDocumentation_ne_null b⟩)
      have hl16 : lookupField enc2 (("typeDescriptions")) = some (encodeTypeDescriptions x16) := by
        rw [henc2, lookupField_append_nt hnt (by decide)]
        rfl
      obtain ⟨w16, hw16, hf16⟩ := reqField_ok hx16
      have hg16 : reqField enc2 (("typeDescriptions")) (decodeTypeDescriptions) = .ok x16 :=
        reqField_of_lookup hl16 (decodeTypeDescriptions_restore hf16)
      have hl17 : lookupField enc2 (("overrides")) = some (encodeOpt encodeOverrideSpecifier x17) := by
        rw [henc2, lookupField_append_nt hnt (by decide)]
        rfl
      have hg17 : optField enc2 (("overrides")) (decodeOverrideSpecifier) = .ok x17 :=
        optField_restore hl17 (fun b hb3 => by
          subst hb3
          obtain ⟨w, hw, hwn, hfw⟩ := optField_ok_some hx17
          exact ⟨decodeOverrideSpecifier_restore [] (fun e he => absurd he (List.not_mem_nil e)) hfw, fun hh => Json.noConfusion hh⟩)
      have hl18 : lookupField enc2 (("scope")) = some (encodeOpt (fun y => Json.num y) x18) := by
        rw [henc2, lookupField_append_nt hnt (by decide)]
        rfl
      have hg18 : optField enc2 (("scope")) (decodeI64) = .ok x18 :=
        optField_restore hl18 (fun b hb3 => by
          subst hb3
          obtain ⟨w, hw, hwn, hfw⟩ := optField_ok_some hx18
          exact ⟨decodeI64_restore hfw, fun hh => Json.noConfusion hh⟩)
      rw [decodeVariableDeclarationF]
      simp only [hg1, hg2, hg3, hg4, hg5, hg6, hg7, hg8, hg9, hg10, hg11, hg12, hg13, hg14, hg15, hg16, hg17, hg18, dres_bind_ok, dres_pure]
termination_by fuel

theorem decodeArrayTypeNameF_restore (fuel : Nat) (v : Json) (a : ArrayTypeName)
    (nt : List (String × Json)) (fuel2 : Nat)
    (hnt : ∀ e ∈ nt, e.1 = ("nodeType"))
    (h : decodeArrayTypeNameF fuel v = .ok a)
    (hb : 2 * jsonFuel (Json.obj (nt ++ encodeArrayTypeNameFieldsF fuel a)) ≤ fuel2 + 1) :
    decodeArrayTypeNameF fuel2 (.obj (nt ++ encodeArrayTypeNameFieldsF fuel a)) = .ok a := by
  match fuel, fuel2 with
  | 0, _ => exact Except.noConfusion h
  | fuel + 1, 0 =>
    have hp1 := jsonFuel_pos (Json.obj (nt ++ encodeArrayTypeNameFieldsF (fuel + 1) a))
    omega
  | fuel + 1, f2 + 1 =>
    cases v <;> try exact Except.noConfusion h
    case obj o =>
      rw [decodeArrayTypeNameF] at h
      simp only [dres_bind_eq_ok] at h
      obtain ⟨x1, hx1, x2, hx2, x3, hx3, x4, hx4, hp⟩ := h
      simp only [dres_pure, Except.ok.injEq] at hp
      subst hp
      rw [encodeArrayTypeNameFieldsF] at hb ⊢
      try simp only [List.map_nil] at hb ⊢
      simp only [jsonFuel, jsonEntriesFuel_append, jsonEntriesFuel, jsonListFuel] at hb
      set enc2 := nt ++ [(("id"), Json.num x1),
        (("baseType"), encodeTypeNameF fuel x2),
        (("length"), encodeOpt (encodeExpressionF fuel) x3),
        (("src"), Json.str (encode_location x4))] with henc2
      have hl1 : lookupField enc2 (("id")) = some (Json.num x1) := by
        rw [henc2, lookupField_append_nt hnt (by decide)]
        rfl
      obtain ⟨w1, hw1, hf1⟩ := reqField_ok hx1
      have hg1 : reqField enc2 (("id")) (decodeI64) = .ok x1 :=
        reqField_of_lookup hl1 (decodeI64_restore hf1)
      have hl2 : lookupField enc2 (("baseType")) = some (encodeTypeNameF fuel x2) := by
        rw [henc2, lookupField_append_nt hnt (by decide)]
        rfl
      obtain ⟨w2, hw2, hf2⟩ := reqField_ok hx2
      have hg2 : reqField enc2 (("baseType")) (decodeTypeNameF f2) = .ok x2 :=
        reqField_of_lookup hl2 (decodeTypeNameF_restore fuel w2 x2 f2 hf2 (by omega))
      have hl3 : lookupField enc2 (("length")) = some (encodeOpt (encodeExpressionF fuel) x3) := by
        rw [henc2, lookupField_append_nt hnt (by decide)]
        rfl
      have hg3 : optField enc2 (("length")) (decodeExpressionF f2) = .ok x3 :=
        optField_restore hl3 (fun b hb3 => by
          subst hb3
          obtain ⟨w, hw, hwn, hfw⟩ := optField_ok_some hx3
          refine ⟨decodeExpressionF_restore fuel w b f2 hfw ?_,
            encodeExpressionF_ne_null_of fuel w b hfw⟩
          simp only [encodeOpt, jsonFuel] at hb
          omega)
      have hl4 : lookupField enc2 (("src")) = some (Json.str (encode_location x4)) := by
        rw [henc2, lookupField_append_nt hnt (by decide)]
        rfl
      obtain ⟨w4, hw4, hf4⟩ := reqField_ok hx4
      have hg4 : reqField enc2 (("src")) (decodeSrc) = .ok x4 :=
        reqField_of_lookup hl4 (decodeSrc_restore hf4)
      rw [decodeArrayTypeNameF]
      simp only [hg1, hg2, hg3, hg4, dres_bind_ok, dres_pure]
termination_by fuel

theorem decodeMappingF_restore (fuel : Nat) (v : Json) (a : Mapping)
    (nt : List (String × Json)) (fuel2 : Nat)
    (hnt : ∀ e ∈ nt, e.1 = ("nodeType"))
    (h : decodeMappingF fuel v = .ok a)
    (hb : 2 * jsonFuel (Json.obj (nt ++ encodeMappingFieldsF fuel a)) ≤ fuel2 + 1) :
    decodeMappingF fuel2 (.obj (nt ++ encodeMappingFieldsF fuel a)) = .ok a := by
  match fuel, fuel2 with
  | 0, _ => exact Except.noConfusion h
  | fuel + 1, 0 =>
    have hp1 := jsonFuel_pos (Json.obj (nt ++ encodeMappingFieldsF (fuel + 1) a))
    omega
  | fuel + 1, f2 + 1 =>
    cases v <;> try exact Except.noConfusion h
    case obj o =>
      rw [decodeMappingF] at h
      simp only [dres_bind_eq_ok] at h
      obtain ⟨x1, hx1, x2, hx2, x3, hx3, x4, hx4, hp⟩ := h
      simp only [dres_pure, Except.ok.injEq] at hp
      subst hp
      rw [encodeMappingFieldsF] at hb ⊢
      try simp only [List.map_nil] at hb ⊢
      simp only [jsonFuel, jsonEntriesFuel_append, jsonEntriesFuel, jsonListFuel] at hb
      set enc2 := nt ++ [(("id"), Json.num x1),
        (("keyType"), encodeTypeNameF fuel x2),
        (("valueType"), encodeTypeNameF fuel x3),
        (("src"), Json.str (encode_location x4))] with henc2
      have hl1 : lookupField enc2 (("id")) = some (Json.num x1) := by
        rw [henc2, lookupField_append_nt hnt (by decide)]
        rfl
      obtain ⟨w1, hw1, hf1⟩ := reqField_ok hx1
      have hg1 : reqField enc2 (("id")) (decodeI64) = .ok x1 :=
        reqField_of_lookup hl1 (decodeI64_restore hf1)
      have hl2 : lookupField enc2 (("keyType")) = some (encodeTypeNameF fuel x2) := by
        rw [henc2, lookupField_append_nt hnt (by decide)]
        rfl
      obtain ⟨w2, hw2, hf2⟩ := reqField_ok hx2
      have hg2 : reqField enc2 (("keyType")) (decodeTypeNameF f2) = .ok x2 :=
        reqField_of_lookup hl2 (decodeTypeNameF_restore fuel w2 x2 f2 hf2 (by omega))
      have hl3 : lookupField enc2 (("valueType")) = some (encodeTypeNameF fuel x3) := by
        rw [henc2, lookupField_append_nt hnt (by decide)]
        rfl
      obtain ⟨w3, hw3, hf3⟩ := reqField_ok hx3
      have hg3 : reqField enc2 (("valueType")) (decodeTypeNameF f2) = .ok x3 :=
        reqField_of_lookup hl3 (decodeTypeNameF_restore fuel w3 x3 f2 hf3 (by omega))
      have hl4 : lookupField enc2 (("src")) = some (Json.str (encode_location x4)) := by
        rw [henc2, lookupField_append_nt hnt (by decide)]
        rfl
      obtain ⟨w4, hw4, hf4⟩ := reqField_ok hx4
      have hg4 : reqField enc2 (("src")) (decodeSrc) = .ok x4 :=
        reqField_of_lookup hl4 (decodeSrc_restore hf4)
      rw [decodeMappingF]
      simp only [hg1, hg2, hg3, hg4, dres_bind_ok, dres_pure]
termination_by fuel

theorem decodeFunctionTypeNameF_restore (fuel : Nat) (v : Json) (a : FunctionTypeName)
    (nt : List (String × Json)) (fuel2 : Nat)
    (hnt : ∀ e ∈ nt, e.1 = ("nodeType"))
    (h : decodeFunctionTypeNameF fuel v = .ok a)
    (hb : 2 * jsonFuel (Json.obj (nt ++ encodeFunctionTypeNameFieldsF fuel a)) ≤ fuel2 + 1) :
    decodeFunctionTypeNameF fuel2 (.obj (nt ++ encodeFunctionTypeNameFieldsF fuel a)) = .ok a := by
  match fuel, fuel2 with
  | 0, _ => exact Except.noConfusion h
  | fuel + 1, 0 =>
    have hp1 := jsonFuel_pos (Json.obj (nt ++ encodeFunctionTypeNameFieldsF (fuel + 1) a))
    omega
  | fuel + 1, f2 + 1 =>
    cases v <;> try exact Except.noConfusion h
    case obj o =>
      rw [decodeFunctionTypeNameF] at h
      simp only [dres_bind_eq_ok] at h
      obtain ⟨x1, hx1, x2, hx2, x3, hx3, x4, hx4, x5, hx5, x6, hx6, hp⟩ := h
      simp only [dres_pure, Except.ok.injEq] at hp
      subst hp
      rw [encodeFunctionTypeNameFieldsF] at hb ⊢
      try simp only [List.map_nil] at hb ⊢
      simp only [jsonFuel, jsonEntriesFuel_append, jsonEntriesFuel, jsonListFuel] at hb
      set enc2 := nt ++ [(("id"), Json.num x1),
        (("parameterTypes"), Json.arr (x2.map (encodeTypeNameF fuel))),
        (("returnParameterTypes"), Json.arr (x3.map (encodeTypeNameF fuel))),
        (("visibility"), Json.str x4),
        (("stateMutability"), Json.str x5),
        (("src"), Json.str (encode_location x6))] with henc2
      have hl1 : lookupField enc2 (("id")) = some (Json.num x1) := by
        rw [henc2, lookupField_append_nt hnt (by decide)]
        rfl
      obtain ⟨w1, hw1, hf1⟩ := reqField_ok hx1
      have hg1 : reqField enc2 (("id")) (decodeI64) = .ok x1 :=
        reqField_of_lookup hl1 (decodeI64_restore hf1)
      have hl2 : lookupField enc2 (("parameterTypes")) = some (Json.arr (x2.map (encodeTypeNameF fuel))) := by
        rw [henc2, lookupField_append_nt hnt (by decide)]
        rfl
      obtain ⟨w2, hw2, hf2⟩ := reqField_ok hx2
      have hfe2 : decodeArr (decodeTypeNameF f2) (Json.arr (x2.map (encodeTypeNameF fuel))) = .ok x2 :=
        decodeArr_restore hf2 (fun v2 x hx hfx =>
        decodeTypeNameF_restore fuel v2 x f2 hfx (by
          have hm := jsonListFuel_of_mem (List.mem_map_of_mem (encodeTypeNameF fuel) hx)
          omega))
      have hg2 : reqField enc2 (("parameterTypes")) (decodeArr (decodeTypeNameF f2)) = .ok x2 :=
        reqField_of_lookup hl2 hfe2
      have hl3 : lookupField enc2 (("returnParameterTypes")) = some (Json.arr (x3.map (encodeTypeNameF fuel))) := by
        rw [henc2, lookupField_append_nt hnt (by decide)]
        rfl
      obtain ⟨w3, hw3, hf3⟩ := reqField_ok hx3
      have hfe3 : decodeArr (decodeTypeNameF f2) (Json.arr (x3.map (encodeTypeNameF fuel))) = .ok x3 :=
        decodeArr_restore hf3 (fun v2 x hx hfx =>
        decodeTypeNameF_restore fuel v2 x f2 hfx (by
          have hm := jsonListFuel_of_mem (List.mem_map_of_mem (encodeTypeNameF fuel) hx)
          omega))
      have hg3 : reqField enc2 (("returnParameterTypes")) (decodeArr (decodeTypeNameF f2)) = .ok x3 :=
        reqField_of_lookup hl3 hfe3
      have hl4 : lookupField enc2 (("visibility")) = some (Json.str x4) := by
        rw [henc2, lookupField_append_nt hnt (by decide)]
        rfl
      obtain ⟨w4, hw4, hf4⟩ := reqField_ok hx4
      have hg4 : reqField enc2 (("visibility")) (decodeString) = .ok x4 :=
        reqField_of_lookup hl4 (decodeString_restore hf4)
      have hl5 : lookupField enc2 (("stateMutability")) = some (Json.str x5) := by
        rw [henc2, lookupField_append_nt hnt (by decide)]
        rfl
      obtain ⟨w5, hw5, hf5⟩ := reqField_ok hx5
      have hg5 : reqField enc2 (("stateMutability")) (decodeString) = .ok x5 :=
        reqField_of_lookup hl5 (decodeString_restore hf5)
      have hl6 : lookupField enc2 (("src")) = some (Json.str (encode_location x6)) := by
        rw [henc2, lookupField_append_nt hnt (by decide)]
        rfl
      obtain ⟨w6, hw6, hf6⟩ := reqField_ok hx6
      have hg6 : reqField enc2 (("src")) (decodeSrc) = .ok x6 :=
        reqField_of_lookup hl6 (decodeSrc_restore hf6)
      rw [decodeFunctionTypeNameF]
      simp only [hg1, hg2, hg3, hg4, hg5, hg6, dres_bind_ok, dres_pure]
termination_by fuel

theorem decodeParameterListF_restore (fuel : Nat) (v : Json) (a : ParameterList)
    (nt : List (String × Json)) (fuel2 : Nat)
    (hnt : ∀ e ∈ nt, e.1 = ("nodeType"))
    (h : decodeParameterListF fuel v = .ok a)
    (hb : 2 * jsonFuel (Json.obj (nt ++ encodeParameterListFieldsF fuel a)) ≤ fuel2 + 1) :
    decodeParameterListF fuel2 (.obj (nt ++ encodeParameterListFieldsF fuel a)) = .ok a := by
  match fuel, fuel2 with
  | 0, _ => exact Except.noConfusion h
  | fuel + 1, 0 =>
    have hp1 := jsonFuel_pos (Json.obj (nt ++ encodeParameterListFieldsF (fuel + 1) a))
    omega
  | fuel + 1, f2 + 1 =>
    cases v <;> try exact Except.noConfusion h
    case obj o =>
      rw [decodeParameterListF] at h
      simp only [dres_bind_eq_ok] at h
      obtain ⟨x1, hx1, x2, hx2, x3, hx3, x4, hx4, hp⟩ := h
      simp only [dres_pure, Except.ok.injEq] at hp
      subst hp
      have hn4 : x4 = [] := by
        rcases defField_ok hx4 with h0 | ⟨w, hw, hfw⟩
        · exact h0
        · obtain ⟨vs, hveq, hlw⟩ := decodeArr_ok hfw
          exact decodeListWith_taggedEmpty 0 vs x4 hlw
      subst hn4
      rw [encodeParameterListFieldsF] at hb ⊢
      try simp only [List.map_nil] at hb ⊢
      simp only [jsonFuel, jsonEntriesFuel_append, jsonEntriesFuel, jsonListFuel] at hb
      set enc2 := nt ++ [(("id"), Json.num x1),
        (("parameters"), Json.arr (x2.map ((fun y => Json.obj (encodeVariableDeclarationFieldsF fuel y))))),
        (("src"), Json.str (encode_location x3)),
        (("nodes"), Json.arr [])] with henc2
      have hl1 : lookupField enc2 (("id")) = some (Json.num x1) := by
        rw [henc2, lookupField_append_nt hnt (by decide)]
        rfl
      obtain ⟨w1, hw1, hf1⟩ := reqField_ok hx1
      have hg1 : reqField enc2 (("id")) (decodeI64) = .ok x1 :=
        reqField_of_lookup hl1 (decodeI64_restore hf1)
      have hl2 : lookupField enc2 (("parameters")) = some (Json.arr (x2.map ((fun y => Json.obj (encodeVariableDeclarationFieldsF fuel y))))) := by
        rw [henc2, lookupField_append_nt hnt (by decide)]
        rfl
      obtain ⟨w2, hw2, hf2⟩ := reqField_ok hx2
      have hfe2 : decodeArr (decodeVariableDeclarationF f2) (Json.arr (x2.map ((fun y => Json.obj (encodeVariableDeclarationFieldsF fuel y))))) = .ok x2 :=
        decodeArr_restore hf2 (fun v2 x hx hfx => by
        have hres := decodeVariableDeclarationF_restore fuel v2 x [] f2
          (fun e he => absurd he (List.not_mem_nil e)) hfx (by
          have hm := jsonListFuel_of_mem (List.mem_map_of_mem (fun y => Json.obj (encodeVariableDeclarationFieldsF fuel y)) hx)
          simp only [jsonFuel] at hm
          simp only [jsonFuel, List.nil_append]
          omega)
        rw [List.nil_append] at hres
        exact hres)
      have hg2 : reqField enc2 (("parameters")) (decodeArr (decodeVariableDeclarationF f2)) = .ok x2 :=
        reqField_of_lookup hl2 hfe2
      have hl3 : lookupField enc2 (("src")) = some (Json.str (encode_location x3)) := by
        rw [henc2, lookupField_append_nt hnt (by decide)]
        rfl
      obtain ⟨w3, hw3, hf3⟩ := reqField_ok hx3
      have hg3 : reqField enc2 (("src")) (decodeSrc) = .ok x3 :=
        reqField_of_lookup hl3 (decodeSrc_restore hf3)
      have hl4 : lookupField enc2 (("nodes")) = some (Json.arr []) := by
        rw [henc2, lookupField_append_nt hnt (by decide)]
        rfl
      have hg4 : defField enc2 (("nodes")) ([] : List ParameterListNode) (decodeArr decodeTaggedEmpty) = .ok [] :=
        defField_of_lookup hl4 rfl
      rw [decodeParameterListF]
      simp only [hg1, hg2, hg3, hg4, dres_bind_ok, dres_pure]
termination_by fuel

theorem decodeModifierInvocationF_restore (fuel : Nat) (v : Json) (a : ModifierInvocation)
    (nt : List (String × Json)) (fuel2 : Nat)
    (hnt : ∀ e ∈ nt, e.1 = ("nodeType"))
    (h : decodeModifierInvocationF fuel v = .ok a)
    (hb : 2 * jsonFuel (Json.obj (nt ++ encodeModifierInvocationFieldsF fuel a)) ≤ fuel2 + 1) :
    decodeModifierInvocationF fuel2 (.obj (nt ++ encodeModifierInvocationFieldsF fuel a)) = .ok a := by
  match fuel, fuel2 with
  | 0, _ => exact Except.noConfusion h
  | fuel + 1, 0 =>
    have hp1 := jsonFuel_pos (Json.obj (nt ++ encodeModifierInvocationFieldsF (fuel + 1) a))
    omega
  | fuel + 1, f2 + 1 =>
    cases v <;> try exact Except.noConfusion h
    case obj o =>
      rw [decodeModifierInvocationF] at h
      simp only [dres_bind_eq_ok] at h
      obtain ⟨x1, hx1, x2, hx2, x3, hx3, x4, hx4, x5, hx5, hp⟩ := h
      simp only [dres_pure, Except.ok.injEq] at hp
      subst hp
      rw [encodeModifierInvocationFieldsF] at hb ⊢
      try simp only [List.map_nil] at hb ⊢
      simp only [jsonFuel, jsonEntriesFuel_append, jsonEntriesFuel, jsonListFuel] at hb
      set enc2 := nt ++ [(("id"), Json.num x1),
        (("kind"), encodeOpt (fun y => Json.str (encodeModifierInvocationKind y)) x2),
        (("modifierName"), encodeIdentifierPath x3),
        (("arguments"), encodeOpt (fun ys => Json.arr (ys.map (encodeExpressionF fuel))) x4),
        (("src"), Json.str (encode_location x5))] with henc2
      have hl1 : lookupField enc2 (("id")) = some (Json.num x1) := by
        rw [henc2, lookupField_append_nt hnt (by decide)]
        rfl
      obtain ⟨w1, hw1, hf1⟩ := reqField_ok hx1
      have hg1 : reqField enc2 (("id")) (decodeI64) = .ok x1 :=
        reqField_of_lookup hl1 (decodeI64_restore hf1)
      have hl2 : lookupField enc2 (("kind")) = some (encodeOpt (fun y => Json.str (encodeModifierInvocationKind y)) x2) := by
        rw [henc2, lookupField_append_nt hnt (by decide)]
        rfl
      have hg2 : optField enc2 (("kind")) (decodeModifierInvocationKind) = .ok x2 :=
        optField_restore hl2 (fun b hb3 => by
          subst hb3
          obtain ⟨w, hw, hwn, hfw⟩ := optField_ok_some hx2
          exact ⟨decodeModifierInvocationKind_restore hfw, fun hh => Json.noConfusion hh⟩)
      have hl3 : lookupField enc2 (("modifierName")) = some (encodeIdentifierPath x3) := by
        rw [henc2, lookupField_append_nt hnt (by decide)]
        rfl
      obtain ⟨w3, hw3, hf3⟩ := reqField_ok hx3
      have hg3 : reqField enc2 (("modifierName")) (decodeIdentifierPath) = .ok x3 :=
        reqField_of_lookup hl3 (decodeIdentifierPath_restore [] (fun e he => absurd he (List.not_mem_nil e)) hf3)
      have hl4 : lookupField enc2 (("arguments")) = some (encodeOpt (fun ys => Json.arr (ys.map (encodeExpressionF fuel))) x4) := by
        rw [henc2, lookupField_append_nt hnt (by decide)]
        rfl
      have hg4 : optField enc2 (("arguments")) (decodeArr (decodeExpressionF f2)) = .ok x4 :=
        optField_restore hl4 (fun b hb3 => by
          subst hb3
          obtain ⟨w, hw, hwn, hfw⟩ := optField_ok_some hx4
          exact ⟨decodeArr_restore hfw (fun v2 x hx hfx =>
            decodeExpressionF_restore fuel v2 x f2 hfx (by
              simp only [encodeOpt, jsonFuel] at hb
              have hm := jsonListFuel_of_mem (List.mem_map_of_mem (encodeExpressionF fuel) hx)
              omega)),
            fun hh => Json.noConfusion hh⟩)
      have hl5 : lookupField enc2 (("src")) = some (Json.str (encode_location x5)) := by
        rw [henc2, lookupField_append_nt hnt (by decide)]
        rfl
      obtain ⟨w5, hw5, hf5⟩ := reqField_ok hx5
      have hg5 : reqField enc2 (("src")) (decodeSrc) = .ok x5 :=
        reqField_of_lookup hl5 (decodeSrc_restore hf5)
      rw [decodeModifierInvocationF]
      simp only [hg1, hg2, hg3, hg4, hg5, dres_bind_ok, dres_pure]
termination_by fuel

theorem decodeModifierDefinitionF_restore (fuel : Nat) (v : Json) (a : ModifierDefinition)
    (nt : List (String × Json)) (fuel2 : Nat)
    (hnt : ∀ e ∈ nt, e.1 = ("nodeType"))
    (h : decodeModifierDefinitionF fuel v = .ok a)
    (hb : 2 * jsonFuel (Json.obj (nt ++ encodeModifierDefinitionFieldsF fuel a)) ≤ fuel2 + 1) :
    decodeModifierDefinitionF fuel2 (.obj (nt ++ encodeModifierDefinitionFieldsF fuel a)) = .ok a := by
  match fuel, fuel2 with
  | 0, _ => exact Except.noConfusion h
  | fuel + 1, 0 =>
    have hp1 := jsonFuel_pos (Json.obj (nt ++ encodeModifierDefinitionFieldsF (fuel + 1) a))
    omega
  | fuel + 1, f2 + 1 =>
    cases v <;> try exact Except.noConfusion h
    case obj o =>
      rw [decodeModifierDefinitionF] at h
      simp only [dres_bind_eq_ok] at h
      obtain ⟨x1, hx1, x2, hx2, x3, hx3, x4, hx4, x5, hx5, x6, hx6, x7, hx7, x8, hx8, x9, hx9, x10, hx10, x11, hx11, hp⟩ := h
      simp only [dres_pure, Except.ok.injEq] at hp
      subst hp
      have hn11 : x11 = [] := by
        rcases defField_ok hx11 with h0 | ⟨w, hw, hfw⟩
        · exact h0
        · obtain ⟨vs, hveq, hlw⟩ := decodeArr_ok hfw
          exact decodeListWith_taggedEmpty 0 vs x11 hlw
      subst hn11
      rw [encodeModifierDefinitionFieldsF] at hb ⊢
      try simp only [List.map_nil] at hb ⊢
      simp only [jsonFuel, jsonEntriesFuel_append, jsonEntriesFuel, jsonListFuel] at hb
      set enc2 := nt ++ [(("id"), Json.num x1),
        (("name"), Json.str x2),
        (("virtual"), Json.bool x3),
        (("visibility"), Json.str (encodeVisibility x4)),
        (("parameters"), Json.obj (encodeParameterListFieldsF fuel x5)),
        (("body"), encodeOpt (fun y => Json.obj (encodeBlockFieldsF fuel y)) x6),
        (("src"), Json.str (encode_location x7)),
        (("scope"), encodeOpt (fun y => Json.num y) x8),
        (("documentation"), encodeOpt encodeDocumentation x9),
        (("overrides"), encodeOpt encodeOverrideSpecifier x10),
        (("nodes"), Json.arr [])] with henc2
      have hl1 : lookupField enc2 (("id")) = some (Json.num x1) := by
        rw [henc2, lookupField_append_nt hnt (by decide)]
        rfl
      obtain ⟨w1, hw1, hf1⟩ := reqField_ok hx1
      have hg1 : reqField enc2 (("id")) (decodeI64) = .ok x1 :=
        reqField_of_lookup hl1 (decodeI64_restore hf1)
      have hl2 : lookupField enc2 (("name")) = some (Json.str x2) := by
        rw [henc2, lookupField_append_nt hnt (by decide)]
        rfl
      obtain ⟨w2, hw2, hf2⟩ := reqField_ok hx2
      have hg2 : reqField enc2 (("name")) (decodeString) = .ok x2 :=
        reqField_of_lookup hl2 (decodeString_restore hf2)
      have hl3 : lookupField enc2 (("virtual")) = some (Json.bool x3) := by
        rw [henc2, lookupField_append_nt hnt (by decide)]
        rfl
      obtain ⟨w3, hw3, hf3⟩ := reqField_ok hx3
      have hg3 : reqField enc2 (("virtual")) (decodeBool) = .ok x3 :=
        reqField_of_lookup hl3 (decodeBool_restore hf3)
      have hl4 : lookupField enc2 (("visibility")) = some (Json.str (encodeVisibility x4)) := by
        rw [henc2, lookupField_append_nt hnt (by decide)]
        rfl
      obtain ⟨w4, hw4, hf4⟩ := reqField_ok hx4
      have hg4 : reqField enc2 (("visibility")) (decodeVisibility) = .ok x4 :=
        reqField_of_lookup hl4 (decodeVisibility_restore hf4)
      have hl5 : lookupField enc2 (("parameters")) = some (Json.obj (encodeParameterListFieldsF fuel x5)) := by
        rw [henc2, lookupField_append_nt hnt (by decide)]
        rfl
      obtain ⟨w5, hw5, hf5⟩ := reqField_ok hx5
      have hres5 := decodeParameterListF_restore fuel w5 x5 [] f2
        (fun e he => absurd he (List.not_mem_nil e)) hf5 (by
        simp only [jsonFuel, List.nil_append]
        omega)
      rw [List.nil_append] at hres5
      have hg5 : reqField enc2 (("parameters")) (decodeParameterListF f2) = .ok x5 :=
        reqField_of_lookup hl5 hres5
      have hl6 : lookupField enc2 (("body")) = some (encodeOpt (fun y => Json.obj (encodeBlockFieldsF fuel y)) x6) := by
        rw [henc2, lookupField_append_nt hnt (by decide)]
        rfl
      have hg6 : optField enc2 (("body")) (decodeBlockF f2) = .ok x6 :=
        optField_restore hl6 (fun b hb3 => by
          subst hb3
          obtain ⟨w, hw, hwn, hfw⟩ := optField_ok_some hx6
          have hres := decodeBlockF_restore fuel w b [] f2
            (fun e he => absurd he (List.not_mem_nil e)) hfw (by
            simp only [encodeOpt, jsonFuel] at hb
            simp only [jsonFuel, List.nil_append]
            omega)
          rw [List.nil_append] at hres
          exact ⟨hres, fun hh => Json.noConfusion hh⟩)
      have hl7 : lookupField enc2 (("src")) = some (Json.str (encode_location x7)) := by
        rw [henc2, lookupField_append_nt hnt (by decide)]
        rfl
      obtain ⟨w7, hw7, hf7⟩ := reqField_ok hx7
      have hg7 : reqField enc2 (("src")) (decodeSrc) = .ok x7 :=
        reqField_of_lookup hl7 (decodeSrc_restore hf7)
      have hl8 : lookupField enc2 (("scope")) = some (encodeOpt (fun y => Json.num y) x8) := by
        rw [henc2, lookupField_append_nt hnt (by decide)]
        rfl
      have hg8 : optField enc2 (("scope")) (decodeI64) = .ok x8 :=
        optField_restore hl8 (fun b hb3 => by
          subst hb3
          obtain ⟨w, hw, hwn, hfw⟩ := optField_ok_some hx8
          exact ⟨decodeI64_restore hfw, fun hh => Json.noConfusion hh⟩)
      have hl9 : lookupField enc2 (("documentation")) = some (encodeOpt encodeDocumentation x9) := by
        rw [henc2, lookupField_append_nt hnt (by decide)]
        rfl
      have hg9 : optField enc2 (("documentation")) (decodeDocumentation) = .ok x9 :=
        optField_restore hl9 (fun b hb3 => by
          subst hb3
          obtain ⟨w, hw, hwn, hfw⟩ := optField_ok_some hx9
          exact ⟨decodeDocumentation_restore hfw, encodeDocumentation_ne_null b⟩)
      have hl10 : lookupField enc2 (("overrides")) = some (encodeOpt encodeOverrideSpecifier x10) := by
        rw [henc2, lookupField_append_nt hnt (by decide)]
        rfl
      have hg10 : optField enc2 (("overrides")) (decodeOverrideSpecifier) = .ok x10 :=
        optField_restore hl10 (fun b hb3 => by
          subst hb3
          obtain ⟨w, hw, hwn, hfw⟩ := optField_ok_some hx10
          exact ⟨decodeOverrideSpecifier_restore [] (fun e he => absurd he (List.not_mem_nil e)) hfw, fun hh => Json.noConfusion hh⟩)
      have hl11 : lookupField enc2 (("nodes")) = some (Json.arr []) := by
        rw [henc2, lookupField_append_nt hnt (by decide)]
        rfl
      have hg11 : defField enc2 (("nodes")) ([] : List ModifierDefinitionNode) (decodeArr decodeTaggedEmpty) = .ok [] :=
        defField_of_lookup hl11 rfl
      rw [decodeModifierDefinitionF]
      simp only [hg1, hg2, hg3, hg4, hg5, hg6, hg7, hg8, hg9, hg10, hg11, dres_bind_ok, dres_pure]
termination_by fuel

theorem decodeFunctionDefinitionF_restore (fuel : Nat) (v : Json) (a : FunctionDefinition)
    (nt : List (String × Json)) (fuel2 : Nat)
    (hnt : ∀ e ∈ nt, e.1 = ("nodeType"))
    (h : decodeFunctionDefinitionF fuel v = .ok a)
    (hb : 2 * jsonFuel (Json.obj (nt ++ encodeFunctionDefinitionFieldsF fuel a)) ≤ fuel2 + 1) :
    decodeFunctionDefinitionF fuel2 (.obj (nt ++ encodeFunctionDefinitionFieldsF fuel a)) = .ok a := by
  match fuel, fuel2 with
  | 0, _ => exact Except.noConfusion h
  | fuel + 1, 0 =>
    have hp1 := jsonFuel_pos (Json.obj (nt ++ encodeFunctionDefinitionFieldsF (fuel + 1) a))
    omega
  | fuel + 1, f2 + 1 =>
    cases v <;> try exact Except.noConfusion h
    case obj o =>
      rw [decodeFunctionDefinitionF] at h
      simp only [dres_bind_eq_ok] at h
      obtain ⟨x1, hx1, x2, hx2, x3, hx3, x4, hx4, x5, hx5, x6, hx6, x7, hx7, x8, hx8, x9, hx9, x10, hx10, x11, hx11, x12, hx12, x13, hx13, x14, hx14, x15, hx15, x16, hx16, x17, hx17, x18, hx18, x19, hx19, hp⟩ := h
      simp only [dres_pure, Except.ok.injEq] at hp
      subst hp
      have hn19 : x19 = [] := by
        rcases defField_ok hx19 with h0 | ⟨w, hw, hfw⟩
        · exact h0
        · obtain ⟨vs, hveq, hlw⟩ := decodeArr_ok hfw
          exact decodeListWith_taggedEmpty 0 vs x19 hlw
      subst hn19
      rw [encodeFunctionDefinitionFieldsF] at hb ⊢
      try simp only [List.map_nil] at hb ⊢
      simp only [jsonFuel, jsonEntriesFuel_append, jsonEntriesFuel, jsonListFuel] at hb
      set enc2 := nt ++ [(("id"), Json.num x1),
        (("name"), Json.str x2),
        (("virtual"), Json.bool x3),
        (("kind"), Json.str (encodeFunctionKind x4)),
        (("visibility"), Json.str (encodeVisibility x5)),
        (("stateMutability"), Json.str (encodeStateMutability x6)),
        (("body"), encodeOpt (fun y => Json.obj (encodeBlockFieldsF fuel y)) x7),
        (("parameters"), Json.obj (encodeParameterListFieldsF fuel x8)),
        (("returnParameters"), Json.obj (encodeParameterListFieldsF fuel x9)),
        (("modifiers"), Json.arr (x10.map ((fun y => Json.obj (encodeModifierInvocationFieldsF fuel y))))),
        (("src"), Json.str (encode_location x11)),
        (("scope"), Json.num x12),
        (("implemented"), Json.bool x13),
        (("documentation"), encodeOpt encodeDocumentation x14),
        (("overrides"), encodeOpt encodeOverrideSpecifier x15),
        (("baseFunctions"), encodeOpt (fun ys => Json.arr (ys.map (fun y => Json.num y))) x16),
        (("functionSelector"), encodeOpt (fun y => Json.str y) x17),
        (("nameLocation"), encodeOpt (fun y => Json.str y) x18),
        (("nodes"), Json.arr [])] with henc2
      have hl1 : lookupField enc2 (("id")) = some (Json.num x1) := by
        rw [henc2, lookupField_append_nt hnt (by decide)]
        rfl
      obtain ⟨w1, hw1, hf1⟩ := reqField_ok hx1
      have hg1 : reqField enc2 (("id")) (decodeI64) = .ok x1 :=
        reqField_of_lookup hl1 (decodeI64_restore hf1)
      have hl2 : lookupField enc2 (("name")) = some (Json.str x2) := by
        rw [henc2, lookupField_append_nt hnt (by decide)]
        rfl
      obtain ⟨w2, hw2, hf2⟩ := reqField_ok hx2
      have hg2 : reqField enc2 (("name")) (decodeString) = .ok x2 :=
        reqField_of_lookup hl2 (decodeString_restore hf2)
      have hl3 : lookupField enc2 (("virtual")) = some (Json.bool x3) := by
        rw [henc2, lookupField_append_nt hnt (by decide)]
        rfl
      obtain ⟨w3, hw3, hf3⟩ := reqField_ok hx3
      have hg3 : reqField enc2 (("virtual")) (decodeBool) = .ok x3 :=
        reqField_of_lookup hl3 (decodeBool_restore hf3)
      have hl4 : lookupField enc2 (("kind")) = some (Json.str (encodeFunctionKind x4)) := by
        rw [henc2, lookupField_append_nt hnt (by decide)]
        rfl
      obtain ⟨w4, hw4, hf4⟩ := reqField_ok hx4
      have hg4 : reqField enc2 (("kind")) (decodeFunctionKind) = .ok x4 :=
        reqField_of_lookup hl4 (decodeFunctionKind_restore hf4)
      have hl5 : lookupField enc2 (("visibility")) = some (Json.str (encodeVisibility x5)) := by
        rw [henc2, lookupField_append_nt hnt (by decide)]
        rfl
      obtain ⟨w5, hw5, hf5⟩ := reqField_ok hx5
      have hg5 : reqField enc2 (("visibility")) (decodeVisibility) = .ok x5 :=
        reqField_of_lookup hl5 (decodeVisibility_restore hf5)
      have hl6 : lookupField enc2 (("stateMutability")) = some (Json.str (encodeStateMutability x6)) := by
        rw [henc2, lookupField_append_nt hnt (by decide)]
        rfl
      obtain ⟨w6, hw6, hf6⟩ := reqField_ok hx6
      have hg6 : reqField enc2 (("stateMutability")) (decodeStateMutability) = .ok x6 :=
        reqField_of_lookup hl6 (decodeStateMutability_restore hf6)
      have hl7 : lookupField enc2 (("body")) = some (encodeOpt (fun y => Json.obj (encodeBlockFieldsF fuel y)) x7) := by
        rw [henc2, lookupField_append_nt hnt (by decide)]
        rfl
      have hg7 : optField enc2 (("body")) (decodeBlockF f2) = .ok x7 :=
        optField_restore hl7 (fun b hb3 => by
          subst hb3
          obtain ⟨w, hw, hwn, hfw⟩ := optField_ok_some hx7
          have hres := decodeBlockF_restore fuel w b [] f2
            (fun e he => absurd he (List.not_mem_nil e)) hfw (by
            simp only [encodeOpt, jsonFuel] at hb
            simp only [jsonFuel, List.nil_append]
            omega)
          rw [List.nil_append] at hres
          exact ⟨hres, fun hh => Json.noConfusion hh⟩)
      have hl8 : lookupField enc2 (("parameters")) = some (Json.obj (encodeParameterListFieldsF fuel x8)) := by
        rw [henc2, lookupField_append_nt hnt (by decide)]
        rfl
      obtain ⟨w8, hw8, hf8⟩ := reqField_ok hx8
      have hres8 := decodeParameterListF_restore fuel w8 x8 [] f2
        (fun e he => absurd he (List.not_mem_nil e)) hf8 (by
        simp only [jsonFuel, List.nil_append]
        omega)
      rw [List.nil_append] at hres8
      have hg8 : reqField enc2 (("parameters")) (decodeParameterListF f2) = .ok x8 :=
        reqField_of_lookup hl8 hres8
      have hl9 : lookupField enc2 (("returnParameters")) = some (Json.obj (encodeParameterListFieldsF fuel x9)) := by
        rw [henc2, lookupField_append_nt hnt (by decide)]
        rfl
      obtain ⟨w9, hw9, hf9⟩ := reqField_ok hx9
      have hres9 := decodeParameterListF_restore fuel w9 x9 [] f2
        (fun e he => absurd he (List.not_mem_nil e)) hf9 (by
        simp only [jsonFuel, List.nil_append]
        omega)
      rw [List.nil_append] at hres9
      have hg9 : reqField enc2 (("returnParameters")) (decodeParameterListF f2) = .ok x9 :=
        reqField_of_lookup hl9 hres9
      have hl10 : lookupField enc2 (("modifiers")) = some (Json.arr (x10.map ((fun y => Json.obj (encodeModifierInvocationFieldsF fuel y))))) := by
        rw [henc2, lookupField_append_nt hnt (by decide)]
        rfl
      obtain ⟨w10, hw10, hf10⟩ := reqField_ok hx10
      have hfe10 : decodeArr (decodeModifierInvocationF f2) (Json.arr (x10.map ((fun y => Json.obj (encodeModifierInvocationFieldsF fuel y))))) = .ok x10 :=
        decodeArr_restore hf10 (fun v2 x hx hfx => by
        have hres := decodeModifierInvocationF_restore fuel v2 x [] f2
          (fun e he => absurd he (List.not_mem_nil e)) hfx (by
          have hm := jsonListFuel_of_mem (List.mem_map_of_mem (fun y => Json.obj (encodeModifierInvocationFieldsF fuel y)) hx)
          simp only [jsonFuel] at hm
          simp only [jsonFuel, List.nil_append]
          omega)
        rw [List.nil_append] at hres
        exact hres)
      have hg10 : reqField enc2 (("modifiers")) (decodeArr (decodeModifierInvocationF f2)) = .ok x10 :=
        reqField_of_lookup hl10 hfe10
      have hl11 : lookupField enc2 (("src")) = some (Json.str (encode_location x11)) := by
        rw [henc2, lookupField_append_nt hnt (by decide)]
        rfl
      obtain ⟨w11, hw11, hf11⟩ := reqField_ok hx11
      have hg11 : reqField enc2 (("src")) (decodeSrc) = .ok x11 :=
        reqField_of_lookup hl11 (decodeSrc_restore hf11)
      have hl12 : lookupField enc2 (("scope")) = some (Json.num x12) := by
        rw [henc2, lookupField_append_nt hnt (by decide)]
        rfl
      obtain ⟨w12, hw12, hf12⟩ := reqField_ok hx12
      have hg12 : reqField enc2 (("scope")) (decodeI64) = .ok x12 :=
        reqField_of_lookup hl12 (decodeI64_restore hf12)
      have hl13 : lookupField enc2 (("implemented")) = some (Json.bool x13) := by
        rw [henc2, lookupField_append_nt hnt (by decide)]
        rfl
      obtain ⟨w13, hw13, hf13⟩ := reqField_ok hx13
      have hg13 : reqField enc2 (("implemented")) (decodeBool) = .ok x13 :=
        reqField_of_lookup hl13 (decodeBool_restore hf13)
      have hl14 : lookupField enc2 (("documentation")) = some (encodeOpt encodeDocumentation x14) := by
        rw [henc2, lookupField_append_nt hnt (by decide)]
        rfl
      have hg14 : optField enc2 (("documentation")) (decodeDocumentation) = .ok x14 :=
        optField_restore hl14 (fun b hb3 => by
          subst hb3
          obtain ⟨w, hw, hwn, hfw⟩ := optField_ok_some hx14
          exact ⟨decodeDocumentation_restore hfw, encodeDocumentation_ne_null b⟩)
      have hl15 : lookupField enc2 (("overrides")) = some (encodeOpt encodeOverrideSpecifier x15) := by
        rw [henc2, lookupField_append_nt hnt (by decide)]
        rfl
      have hg15 : optField enc2 (("overrides")) (decodeOverrideSpecifier) = .ok x15 :=
        optField_restore hl15 (fun b hb3 => by
          subst hb3
          obtain ⟨w, hw, hwn, hfw⟩ := optField_ok_some hx15
          exact ⟨decodeOverrideSpecifier_restore [] (fun e he => absurd he (List.not_mem_nil e)) hfw, fun hh => Json.noConfusion hh⟩)
      have hl16 : lookupField enc2 (("baseFunctions")) = some (encodeOpt (fun ys => Json.arr (ys.map (fun y => Json.num y))) x16) := by
        rw [henc2, lookupField_append_nt hnt (by decide)]
        rfl
      have hg16 : optField enc2 (("baseFunctions")) (decodeArr decodeI64) = .ok x16 :=
        optField_restore hl16 (fun b hb3 => by
          subst hb3
          obtain ⟨w, hw, hwn, hfw⟩ := optField_ok_some hx16
          exact ⟨decodeArr_restore hfw (fun v2 x hx hfx => decodeI64_restore hfx),
            fun hh => Json.noConfusion hh⟩)
      have hl17 : lookupField enc2 (("functionSelector")) = some (encodeOpt (fun y => Json.str y) x17) := by
        rw [henc2, lookupField_append_nt hnt (by decide)]
        rfl
      have hg17 : optField enc2 (("functionSelector")) (decodeString) = .ok x17 :=
        optField_restore hl17 (fun b hb3 => by
          subst hb3
          obtain ⟨w, hw, hwn, hfw⟩ := optField_ok_some hx17
          exact ⟨decodeString_restore hfw, fun hh => Json.noConfusion hh⟩)
      have hl18 : lookupField enc2 (("nameLocation")) = some (encodeOpt (fun y => Json.str y) x18) := by
        rw [henc2, lookupField_append_nt hnt (by decide)]
        rfl
      have hg18 : optField enc2 (("nameLocation")) (decodeString) = .ok x18 :=
        optField_restore hl18 (fun b hb3 => by
          subst hb3
          obtain ⟨w, hw, hwn, hfw⟩ := optField_ok_some hx18
          exact ⟨decodeString_restore hfw, fun hh => Json.noConfusion hh⟩)
      have hl19 : lookupField enc2 (("nodes")) = some (Json.arr []) := by
        rw [henc2, lookupField_append_nt hnt (by decide)]
        rfl
      have hg19 : defField enc2 (("nodes")) ([] : List VariableDeclarationNode) (decodeArr decodeTaggedEmpty) = .ok [] :=
        defField_of_lookup hl19 rfl
      rw [decodeFunctionDefinitionF]
      simp only [hg1, hg2, hg3, hg4, hg5, hg6, hg7, hg8, hg9, hg10, hg11, hg12, hg13, hg14, hg15, hg16, hg17, hg18, hg19, dres_bind_ok, dres_pure]
termination_by fuel

theorem decodeEventDefinitionF_restore (fuel : Nat) (v : Json) (a : EventDefinition)
    (nt : List (String × Json)) (fuel2 : Nat)
    (hnt : ∀ e ∈ nt, e.1 = ("nodeType"))
    (h : decodeEventDefinitionF fuel v = .ok a)
    (hb : 2 * jsonFuel (Json.obj (nt ++ encodeEventDefinitionFieldsF fuel a)) ≤ fuel2 + 1) :
    decodeEventDefinitionF fuel2 (.obj (nt ++ encodeEventDefinitionFieldsF fuel a)) = .ok a := by
  match fuel, fuel2 with
  | 0, _ => exact Except.noConfusion h
  | fuel + 1, 0 =>
    have hp1 := jsonFuel_pos (Json.obj (nt ++ encodeEventDefinitionFieldsF (fuel + 1) a))
    omega
  | fuel + 1, f2 + 1 =>
    cases v <;> try exact Except.noConfusion h
    case obj o =>
      rw [decodeEventDefinitionF] at h
      simp only [dres_bind_eq_ok] at h
      obtain ⟨x1, hx1, x2, hx2, x3, hx3, x4, hx4, x5, hx5, x6, hx6, x7, hx7, x8, hx8, x9, hx9, x10, hx10, hp⟩ := h
      simp only [dres_pure, Except.ok.injEq] at hp
      subst hp
      have hn9 : x9 = [] := by
        rcases defField_ok hx9 with h0 | ⟨w, hw, hfw⟩
        · exact h0
        · obtain ⟨vs, hveq, hlw⟩ := decodeArr_ok hfw
          exact decodeListWith_taggedEmpty 0 vs x9 hlw
      subst hn9
      rw [encodeEventDefinitionFieldsF] at hb ⊢
      try simp only [List.map_nil] at hb ⊢
      simp only [jsonFuel, jsonEntriesFuel_append, jsonEntriesFuel, jsonListFuel] at hb
      set enc2 := nt ++ [(("id"), Json.num x1),
        (("name"), Json.str x2),
        (("anonymous"), Json.bool x3),
        (("eventSelector"), encodeOpt (fun y => Json.str y) x4),
        (("parameters"), Json.obj (encodeParameterListFieldsF fuel x5)),
        (("src"), Json.str (encode_location x6)),
        (("scope"), encodeOpt (fun y => Json.num y) x7),
        (("nameLocation"), encodeOpt (fun y => Json.str y) x8),
        (("nodes"), Json.arr []),
        (("documentation"), encodeOpt encodeDocumentation x10)] with henc2
      have hl1 : lookupField enc2 (("id")) = some (Json.num x1) := by
        rw [henc2, lookupField_append_nt hnt (by decide)]
        rfl
      obtain ⟨w1, hw1, hf1⟩ := reqField_ok hx1
      have hg1 : reqField enc2 (("id")) (decodeI64) = .ok x1 :=
        reqField_of_lookup hl1 (decodeI64_restore hf1)
      have hl2 : lookupField enc2 (("name")) = some (Json.str x2) := by
        rw [henc2, lookupField_append_nt hnt (by decide)]
        rfl
      obtain ⟨w2, hw2, hf2⟩ := reqField_ok hx2
      have hg2 : reqField enc2 (("name")) (decodeString) = .ok x2 :=
        reqField_of_lookup hl2 (decodeString_restore hf2)
      have hl3 : lookupField enc2 (("anonymous")) = some (Json.bool x3) := by
        rw [henc2, lookupField_append_nt hnt (by decide)]
        rfl
      obtain ⟨w3, hw3, hf3⟩ := reqField_ok hx3
      have hg3 : reqField enc2 (("anonymous")) (decodeBool) = .ok x3 :=
        reqField_of_lookup hl3 (decodeBool_restore hf3)
      have hl4 : lookupField enc2 (("eventSelector")) = some (encodeOpt (fun y => Json.str y) x4) := by
        rw [henc2, lookupField_append_nt hnt (by decide)]
        rfl
      have hg4 : optField enc2 (("eventSelector")) (decodeString) = .ok x4 :=
        optField_restore hl4 (fun b hb3 => by
          subst hb3
          obtain ⟨w, hw, hwn, hfw⟩ := optField_ok_some hx4
          exact ⟨decodeString_restore hfw, fun hh => Json.noConfusion hh⟩)
      have hl5 : lookupField enc2 (("parameters")) = some (Json.obj (encodeParameterListFieldsF fuel x5)) := by
        rw [henc2, lookupField_append_nt hnt (by decide)]
        rfl
      obtain ⟨w5, hw5, hf5⟩ := reqField_ok hx5
      have hres5 := decodeParameterListF_restore fuel w5 x5 [] f2
        (fun e he => absurd he (List.not_mem_nil e)) hf5 (by
        simp only [jsonFuel, List.nil_append]
        omega)
      rw [List.nil_append] at hres5
      have hg5 : reqField enc2 (("parameters")) (decodeParameterListF f2) = .ok x5 :=
        reqField_of_lookup hl5 hres5
      have hl6 : lookupField enc2 (("src")) = some (Json.str (encode_location x6)) := by
        rw [henc2, lookupField_append_nt hnt (by decide)]
        rfl
      obtain ⟨w6, hw6, hf6⟩ := reqField_ok hx6
      have hg6 : reqField enc2 (("src")) (decodeSrc) = .ok x6 :=
        reqField_of_lookup hl6 (decodeSrc_restore hf6)
      have hl7 : lookupField enc2 (("scope")) = some (encodeOpt (fun y => Json.num y) x7) := by
        rw [henc2, lookupField_append_nt hnt (by decide)]
        rfl
      have hg7 : optField enc2 (("scope")) (decodeI64) = .ok x7 :=
        optField_restore hl7 (fun b hb3 => by
          subst hb3
          obtain ⟨w, hw, hwn, hfw⟩ := optField_ok_some hx7
          exact ⟨decodeI64_restore hfw, fun hh => Json.noConfusion hh⟩)
      have hl8 : lookupField enc2 (("nameLocation")) = some (encodeOpt (fun y => Json.str y) x8) := by
        rw [henc2, lookupField_append_nt hnt (by decide)]
        rfl
      have hg8 : optField enc2 (("nameLocation")) (decodeString) = .ok x8 :=
        optField_restore hl8 (fun b hb3 => by
          subst hb3
          obtain ⟨w, hw, hwn, hfw⟩ := optField_ok_some hx8
          exact ⟨decodeString_restore hfw, fun hh => Json.noConfusion hh⟩)
      have hl9 : lookupField enc2 (("nodes")) = some (Json.arr []) := by
        rw [henc2, lookupField_append_nt hnt (by decide)]
        rfl
      have hg9 : defField enc2 (("nodes")) ([] : List EventDefinitionNode) (decodeArr decodeTaggedEmpty) = .ok [] :=
        defField_of_lookup hl9 rfl
      have hl10 : lookupField enc2 (("documentation")) = some (encodeOpt encodeDocumentation x10) := by
        rw [henc2, lookupField_append_nt hnt (by decide)]
        rfl
      have hg10 : optField enc2 (("documentation")) (decodeDocumentation) = .ok x10 :=
        optField_restore hl10 (fun b hb3 => by
          subst hb3
          obtain ⟨w, hw, hwn, hfw⟩ := optField_ok_some hx10
          exact ⟨decodeDocumentation_restore hfw, encodeDocumentation_ne_null b⟩)
      rw [decodeEventDefinitionF]
      simp only [hg1, hg2, hg3, hg4, hg5, hg6, hg7, hg8, hg9, hg10, dres_bind_ok, dres_pure]
termination_by fuel

theorem decodeErrorDefinitionF_restore (fuel : Nat) (v : Json) (a : ErrorDefinition)
    (nt : List (String × Json)) (fuel2 : Nat)
    (hnt : ∀ e ∈ nt, e.1 = ("nodeType"))
    (h : decodeErrorDefinitionF fuel v = .ok a)
    (hb : 2 * jsonFuel (Json.obj (nt ++ encodeErrorDefinitionFieldsF fuel a)) ≤ fuel2 + 1) :
    decodeErrorDefinitionF fuel2 (.obj (nt ++ encodeErrorDefinitionFieldsF fuel a)) = .ok a := by
  match fuel, fuel2 with
  | 0, _ => exact Except.noConfusion h
  | fuel + 1, 0 =>
    have hp1 := jsonFuel_pos (Json.obj (nt ++ encodeErrorDefinitionFieldsF (fuel + 1) a))
    omega
  | fuel + 1, f2 + 1 =>
    cases v <;> try exact Except.noConfusion h
    case obj o =>
      rw [decodeErrorDefinitionF] at h
      simp only [dres_bind_eq_ok] at h
      obtain ⟨x1, hx1, x2, hx2, x3, hx3, x4, hx4, x5, hx5, x6, hx6, x7, hx7, hp⟩ := h
      simp only [dres_pure, Except.ok.injEq] at hp
      subst hp
      have hn7 : x7 = [] := by
        rcases defField_ok hx7 with h0 | ⟨w, hw, hfw⟩
        · exact h0
        · obtain ⟨vs, hveq, hlw⟩ := decodeArr_ok hfw
          exact decodeListWith_taggedEmpty 0 vs x7 hlw
      subst hn7
      rw [encodeErrorDefinitionFieldsF] at hb ⊢
      try simp only [List.map_nil] at hb ⊢
      simp only [jsonFuel, jsonEntriesFuel_append, jsonEntriesFuel, jsonListFuel] at hb
      set enc2 := nt ++ [(("id"), Json.num x1),
        (("name"), Json.str x2),
        (("parameters"), Json.obj (encodeParameterListFieldsF fuel x3)),
        (("src"), Json.str (encode_location x4)),
        (("scope"), encodeOpt (fun y => Json.num y) x5),
        (("documentation"), encodeOpt encodeDocumentation x6),
        (("nodes"), Json.arr [])] with henc2
      have hl1 : lookupField enc2 (("id")) = some (Json.num x1) := by
        rw [henc2, lookupField_append_nt hnt (by decide)]
        rfl
      obtain ⟨w1, hw1, hf1⟩ := reqField_ok hx1
      have hg1 : reqField enc2 (("id")) (decodeI64) = .ok x1 :=
        reqField_of_lookup hl1 (decodeI64_restore hf1)
      have hl2 : lookupField enc2 (("name")) = some (Json.str x2) := by
        rw [henc2, lookupField_append_nt hnt (by decide)]
        rfl
      obtain ⟨w2, hw2, hf2⟩ := reqField_ok hx2
      have hg2 : reqField enc2 (("name")) (decodeString) = .ok x2 :=
        reqField_of_lookup hl2 (decodeString_restore hf2)
      have hl3 : lookupField enc2 (("parameters")) = some (Json.obj (encodeParameterListFieldsF fuel x3)) := by
        rw [henc2, lookupField_append_nt hnt (by decide)]
        rfl
      obtain ⟨w3, hw3, hf3⟩ := reqField_ok hx3
      have hres3 := decodeParameterListF_restore fuel w3 x3 [] f2
        (fun e he => absurd he (List.not_mem_nil e)) hf3 (by
        simp only [jsonFuel, List.nil_append]
        omega)
      rw [List.nil_append] at hres3
      have hg3 : reqField enc2 (("parameters")) (decodeParameterListF f2) = .ok x3 :=
        reqField_of_lookup hl3 hres3
      have hl4 : lookupField enc2 (("src")) = some (Json.str (encode_location x4)) := by
        rw [henc2, lookupField_append_nt hnt (by decide)]
        rfl
      obtain ⟨w4, hw4, hf4⟩ := reqField_ok hx4
      have hg4 : reqField enc2 (("src")) (decodeSrc) = .ok x4 :=
        reqField_of_lookup hl4 (decodeSrc_restore hf4)
      have hl5 : lookupField enc2 (("scope")) = some (encodeOpt (fun y => Json.num y) x5) := by
        rw [henc2, lookupField_append_nt hnt (by decide)]
        rfl
      have hg5 : optField enc2 (("scope")) (decodeI64) = .ok x5 :=
        optField_restore hl5 (fun b hb3 => by
          subst hb3
          obtain ⟨w, hw, hwn, hfw⟩ := optField_ok_some hx5
          exact ⟨decodeI64_restore hfw, fun hh => Json.noConfusion hh⟩)
      have hl6 : lookupField enc2 (("documentation")) = some (encodeOpt encodeDocumentation x6) := by
        rw [henc2, lookupField_append_nt hnt (by decide)]
        rfl
      have hg6 : optField enc2 (("documentation")) (decodeDocumentation) = .ok x6 :=
        optField_restore hl6 (fun b hb3 => by
          subst hb3
          obtain ⟨w, hw, hwn, hfw⟩ := optField_ok_some hx6
          exact ⟨decodeDocumentation_restore hfw, encodeDocumentation_ne_null b⟩)
      have hl7 : lookupField enc2 (("nodes")) = some (Json.arr []) := by
        rw [henc2, lookupField_append_nt hnt (by decide)]
        rfl
      have hg7 : defField enc2 (("nodes")) ([] : List ErrorDefinitionNode) (decodeArr decodeTaggedEmpty) = .ok [] :=
        defField_of_lookup hl7 rfl
      rw [decodeErrorDefinitionF]
      simp only [hg1, hg2, hg3, hg4, hg5, hg6, hg7, dres_bind_ok, dres_pure]
termination_by fuel

theorem decodeStructDefinitionF_restore (fuel : Nat) (v : Json) (a : StructDefinition)
    (nt : List (String × Json)) (fuel2 : Nat)
    (hnt : ∀ e ∈ nt, e.1 = ("nodeType"))
    (h : decodeStructDefinitionF fuel v = .ok a)
    (hb : 2 * jsonFuel (Json.obj (nt ++ encodeStructDefinitionFieldsF fuel a)) ≤ fuel2 + 1) :
    decodeStructDefinitionF fuel2 (.obj (nt ++ encodeStructDefinitionFieldsF fuel a)) = .ok a := by
  match fuel, fuel2 with
  | 0, _ => exact Except.noConfusion h
  | fuel + 1, 0 =>
    have hp1 := jsonFuel_pos (Json.obj (nt ++ encodeStructDefinitionFieldsF (fuel + 1) a))
    omega
  | fuel + 1, f2 + 1 =>
    cases v <;> try exact Except.noConfusion h
    case obj o =>
      rw [decodeStructDefinitionF] at h
      simp only [dres_bind_eq_ok] at h
      obtain ⟨x1, hx1, x2, hx2, x3, hx3, x4, hx4, x5, hx5, x6, hx6, x7, hx7, x8, hx8, x9, hx9, hp⟩ := h
      simp only [dres_pure, Except.ok.injEq] at hp
      subst hp
      have hn9 : x9 = [] := by
        rcases defField_ok hx9 with h0 | ⟨w, hw, hfw⟩
        · exact h0
        · obtain ⟨vs, hveq, hlw⟩ := decodeArr_ok hfw
          exact decodeListWith_taggedEmpty 0 vs x9 hlw
      subst hn9
      rw [encodeStructDefinitionFieldsF] at hb ⊢
      try simp only [List.map_nil] at hb ⊢
      simp only [jsonFuel, jsonEntriesFuel_append, jsonEntriesFuel, jsonListFuel] at hb
      set enc2 := nt ++ [(("id"), Json.num x1),
        (("name"), Json.str x2),
        (("members"), Json.arr (x3.map ((fun y => Json.obj (encodeVariableDeclarationFieldsF fuel y))))),
        (("src"), Json.str (encode_location x4)),
        (("scope"), encodeOpt (fun y => Json.num y) x5),
        (("documentation"), encodeOpt encodeDocumentation x6),
        (("canonicalName"), encodeOpt (fun y => Json.str y) x7),
        (("usedInEvents"), encodeOpt (fun y => Json.bool y) x8),
        (("nodes"), Json.arr [])] with henc2
      have hl1 : lookupField enc2 (("id")) = some (Json.num x1) := by
        rw [henc2, lookupField_append_nt hnt (by decide)]
        rfl
      obtain ⟨w1, hw1, hf1⟩ := reqField_ok hx1
      have hg1 : reqField enc2 (("id")) (decodeI64) = .ok x1 :=
        reqField_of_lookup hl1 (decodeI64_restore hf1)
      have hl2 : lookupField enc2 (("name")) = some (Json.str x2) := by
        rw [henc2, lookupField_append_nt hnt (by decide)]
        rfl
      obtain ⟨w2, hw2, hf2⟩ := reqField_ok hx2
      have hg2 : reqField enc2 (("name")) (decodeString) = .ok x2 :=
        reqField_of_lookup hl2 (decodeString_restore hf2)
      have hl3 : lookupField enc2 (("members")) = some (Json.arr (x3.map ((fun y => Json.obj (encodeVariableDeclarationFieldsF fuel y))))) := by
        rw [henc2, lookupField_append_nt hnt (by decide)]
        rfl
      obtain ⟨w3, hw3, hf3⟩ := reqField_ok hx3
      have hfe3 : decodeArr (decodeVariableDeclarationF f2) (Json.arr (x3.map ((fun y => Json.obj (encodeVariableDeclarationFieldsF fuel y))))) = .ok x3 :=
        decodeArr_restore hf3 (fun v2 x hx hfx => by
        have hres := decodeVariableDeclarationF_restore fuel v2 x [] f2
          (fun e he => absurd he (List.not_mem_nil e)) hfx (by
          have hm := jsonListFuel_of_mem (List.mem_map_of_mem (fun y => Json.obj (encodeVariableDeclarationFieldsF fuel y)) hx)
          simp only [jsonFuel] at hm
          simp only [jsonFuel, List.nil_append]
          omega)
        rw [List.nil_append] at hres
        exact hres)
      have hg3 : reqField enc2 (("members")) (decodeArr (decodeVariableDeclarationF f2)) = .ok x3 :=
        reqField_of_lookup hl3 hfe3
      have hl4 : lookupField enc2 (("src")) = some (Json.str (encode_location x4)) := by
        rw [henc2, lookupField_append_nt hnt (by decide)]
        rfl
      obtain ⟨w4, hw4, hf4⟩ := reqField_ok hx4
      have hg4 : reqField enc2 (("src")) (decodeSrc) = .ok x4 :=
        reqField_of_lookup hl4 (decodeSrc_restore hf4)
      have hl5 : lookupField enc2 (("scope")) = some (encodeOpt (fun y => Json.num y) x5) := by
        rw [henc2, lookupField_append_nt hnt (by decide)]
        rfl
      have hg5 : optField enc2 (("scope")) (decodeI64) = .ok x5 :=
        optField_restore hl5 (fun b hb3 => by
          subst hb3
          obtain ⟨w, hw, hwn, hfw⟩ := optField_ok_some hx5
          exact ⟨decodeI64_restore hfw, fun hh => Json.noConfusion hh⟩)
      have hl6 : lookupField enc2 (("documentation")) = some (encodeOpt encodeDocumentation x6) := by
        rw [henc2, lookupField_append_nt hnt (by decide)]
        rfl
      have hg6 : optField enc2 (("documentation")) (decodeDocumentation) = .ok x6 :=
        optField_restore hl6 (fun b hb3 => by
          subst hb3
          obtain ⟨w, hw, hwn, hfw⟩ := optField_ok_some hx6
          exact ⟨decodeDocumentation_restore hfw, encodeDocumentation_ne_null b⟩)
      have hl7 : lookupField enc2 (("canonicalName")) = some (encodeOpt (fun y => Json.str y) x7) := by
        rw [henc2, lookupField_append_nt hnt (by decide)]
        rfl
      have hg7 : optField enc2 (("canonicalName")) (decodeString) = .ok x7 :=
        optField_restore hl7 (fun b hb3 => by
          subst hb3
          obtain ⟨w, hw, hwn, hfw⟩ := optField_ok_some hx7
          exact ⟨decodeString_restore hfw, fun hh => Json.noConfusion hh⟩)
      have hl8 : lookupField enc2 (("usedInEvents")) = some (encodeOpt (fun y => Json.bool y) x8) := by
        rw [henc2, lookupField_append_nt hnt (by decide)]
        rfl
      have hg8 : optField enc2 (("usedInEvents")) (decodeBool) = .ok x8 :=
        optField_restore hl8 (fun b hb3 => by
          subst hb3
          obtain ⟨w, hw, hwn, hfw⟩ := optField_ok_some hx8
          exact ⟨decodeBool_restore hfw, fun hh => Json.noConfusion hh⟩)
      have hl9 : lookupField enc2 (("nodes")) = some (Json.arr []) := by
        rw [henc2, lookupField_append_nt hnt (by decide)]
        rfl
      have hg9 : defField enc2 (("nodes")) ([] : List StructDefinitionNode) (decodeArr decodeTaggedEmpty) = .ok [] :=
        defField_of_lookup hl9 rfl
      rw [decodeStructDefinitionF]
      simp only [hg1, hg2, hg3, hg4, hg5, hg6, hg7, hg8, hg9, dres_bind_ok, dres_pure]
termination_by fuel

theorem decodeUserDefinedValueTypeDefinitionF_restore (fuel : Nat) (v : Json) (a : UserDefinedValueTypeDefinition)
    (nt : List (String × Json)) (fuel2 : Nat)
    (hnt : ∀ e ∈ nt, e.1 = ("nodeType"))
    (h : decodeUserDefinedValueTypeDefinitionF fuel v = .ok a)
    (hb : 2 * jsonFuel (Json.obj (nt ++ encodeUserDefinedValueTypeDefinitionFieldsF fuel a)) ≤ fuel2 + 1) :
    decodeUserDefinedValueTypeDefinitionF fuel2 (.obj (nt ++ encodeUserDefinedValueTypeDefinitionFieldsF fuel a)) = .ok a := by
  match fuel, fuel2 with
  | 0, _ => exact Except.noConfusion h
  | fuel + 1, 0 =>
    have hp1 := jsonFuel_pos (Json.obj (nt ++ encodeUserDefinedValueTypeDefinitionFieldsF (fuel + 1) a))
    omega
  | fuel + 1, f2 + 1 =>
    cases v <;> try exact Except.noConfusion h
    case obj o =>
      rw [decodeUserDefinedValueTypeDefinitionF] at h
      simp only [dres_bind_eq_ok] at h
      obtain ⟨x1, hx1, x2, hx2, x3, hx3, x4, hx4, x5, hx5, x6, hx6, x7, hx7, hp⟩ := h
      simp only [dres_pure, Except.ok.injEq] at hp
      subst hp
      have hn4 : x4 = [] := by
        rcases defField_ok hx4 with h0 | ⟨w, hw, hfw⟩
        · exact h0
        · obtain ⟨vs, hveq, hlw⟩ := decodeArr_ok hfw
          exact decodeListWith_taggedEmpty 0 vs x4 hlw
      subst hn4
      rw [encodeUserDefinedValueTypeDefinitionFieldsF] at hb ⊢
      try simp only [List.map_nil] at hb ⊢
      simp only [jsonFuel, jsonEntriesFuel_append, jsonEntriesFuel, jsonListFuel] at hb
      set enc2 := nt ++ [(("id"), Json.num x1),
        (("name"), Json.str x2),
        (("src"), Json.str (encode_location x3)),
        (("nodes"), Json.arr []),
        (("canonicalName"), encodeOpt (fun y => Json.str y) x5),
        (("nameLocation"), encodeOpt (fun y => Json.str y) x6),
        (("underlyingType"), encodeTypeNameF fuel x7)] with henc2
      have hl1 : lookupField enc2 (("id")) = some (Json.num x1) := by
        rw [henc2, lookupField_append_nt hnt (by decide)]
        rfl
      obtain ⟨w1, hw1, hf1⟩ := reqField_ok hx1
      have hg1 : reqField enc2 (("id")) (decodeI64) = .ok x1 :=
        reqField_of_lookup hl1 (decodeI64_restore hf1)
      have hl2 : lookupField enc2 (("name")) = some (Json.str x2) := by
        rw [henc2, lookupField_append_nt hnt (by decide)]
        rfl
      obtain ⟨w2, hw2, hf2⟩ := reqField_ok hx2
      have hg2 : reqField enc2 (("name")) (decodeString) = .ok x2 :=
        reqField_of_lookup hl2 (decodeString_restore hf2)
      have hl3 : lookupField enc2 (("src")) = some (Json.str (encode_location x3)) := by
        rw [henc2, lookupField_append_nt hnt (by decide)]
        rfl
      obtain ⟨w3, hw3, hf3⟩ := reqField_ok hx3
      have hg3 : reqField enc2 (("src")) (decodeSrc) = .ok x3 :=
        reqField_of_lookup hl3 (decodeSrc_restore hf3)
      have hl4 : lookupField enc2 (("nodes")) = some (Json.arr []) := by
        rw [henc2, lookupField_append_nt hnt (by decide)]
        rfl
      have hg4 : defField enc2 (("nodes")) ([] : List UserDefinedValueTypeDefinitionNode) (decodeArr decodeTaggedEmpty) = .ok [] :=
        defField_of_lookup hl4 rfl
      have hl5 : lookupField enc2 (("canonicalName")) = some (encodeOpt (fun y => Json.str y) x5) := by
        rw [henc2, lookupField_append_nt hnt (by decide)]
        rfl
      have hg5 : optField enc2 (("canonicalName")) (decodeString) = .ok x5 :=
        optField_restore hl5 (fun b hb3 => by
          subst hb3
          obtain ⟨w, hw, hwn, hfw⟩ := optField_ok_some hx5
          exact ⟨decodeString_restore hfw, fun hh => Json.noConfusion hh⟩)
      have hl6 : lookupField enc2 (("nameLocation")) = some (encodeOpt (fun y => Json.str y) x6) := by
        rw [henc2, lookupField_append_nt hnt (by decide)]
        rfl
      have hg6 : optField enc2 (("nameLocation")) (decodeString) = .ok x6 :=
        optField_restore hl6 (fun b hb3 => by
          subst hb3
          obtain ⟨w, hw, hwn, hfw⟩ := optField_ok_some hx6
          exact ⟨decodeString_restore hfw, fun hh => Json.noConfusion hh⟩)
      have hl7 : lookupField enc2 (("underlyingType")) = some (encodeTypeNameF fuel x7) := by
        rw [henc2, lookupField_append_nt hnt (by decide)]
        rfl
      obtain ⟨w7, hw7, hf7⟩ := reqField_ok hx7
      have hg7 : reqField enc2 (("underlyingType")) (decodeTypeNameF f2) = .ok x7 :=
        reqField_of_lookup hl7 (decodeTypeNameF_restore fuel w7 x7 f2 hf7 (by omega))
      rw [decodeUserDefinedValueTypeDefinitionF]
      simp only [hg1, hg2, hg3, hg4, hg5, hg6, hg7, dres_bind_ok, dres_pure]
termination_by fuel

theorem decodeInheritanceSpecifierF_restore (fuel : Nat) (v : Json) (a : InheritanceSpecifier)
    (nt : List (String × Json)) (fuel2 : Nat)
    (hnt : ∀ e ∈ nt, e.1 = ("nodeType"))
    (h : decodeInheritanceSpecifierF fuel v = .ok a)
    (hb : 2 * jsonFuel (Json.obj (nt ++ encodeInheritanceSpecifierFieldsF fuel a)) ≤ fuel2 + 1) :
    decodeInheritanceSpecifierF fuel2 (.obj (nt ++ encodeInheritanceSpecifierFieldsF fuel a)) = .ok a := by
  match fuel, fuel2 with
  | 0, _ => exact Except.noConfusion h
  | fuel + 1, 0 =>
    have hp1 := jsonFuel_pos (Json.obj (nt ++ encodeInheritanceSpecifierFieldsF (fuel + 1) a))
    omega
  | fuel + 1, f2 + 1 =>
    cases v <;> try exact Except.noConfusion h
    case obj o =>
      rw [decodeInheritanceSpecifierF] at h
      simp only [dres_bind_eq_ok] at h
      obtain ⟨x1, hx1, x2, hx2, x3, hx3, x4, hx4, hp⟩ := h
      simp only [dres_pure, Except.ok.injEq] at hp
      subst hp
      rw [encodeInheritanceSpecifierFieldsF] at hb ⊢
      try simp only [List.map_nil] at hb ⊢
      simp only [jsonFuel, jsonEntriesFuel_append, jsonEntriesFuel, jsonListFuel] at hb
      set enc2 := nt ++ [(("id"), Json.num x1),
        (("baseName"), encodeIdentifierPath x2),
        (("arguments"), encodeOpt (fun ys => Json.arr (ys.map (encodeExpressionF fuel))) x3),
        (("src"), Json.str (encode_location x4))] with henc2
      have hl1 : lookupField enc2 (("id")) = some (Json.num x1) := by
        rw [henc2, lookupField_append_nt hnt (by decide)]
        rfl
      obtain ⟨w1, hw1, hf1⟩ := reqField_ok hx1
      have hg1 : reqField enc2 (("id")) (decodeI64) = .ok x1 :=
        reqField_of_lookup hl1 (decodeI64_restore hf1)
      have hl2 : lookupField enc2 (("baseName")) = some (encodeIdentifierPath x2) := by
        rw [henc2, lookupField_append_nt hnt (by decide)]
        rfl
      obtain ⟨w2, hw2, hf2⟩ := reqField_ok hx2
      have hg2 : reqField enc2 (("baseName")) (decodeIdentifierPath) = .ok x2 :=
        reqField_of_lookup hl2 (decodeIdentifierPath_restore [] (fun e he => absurd he (List.not_mem_nil e)) hf2)
      have hl3 : lookupField enc2 (("arguments")) = some (encodeOpt (fun ys => Json.arr (ys.map (encodeExpressionF fuel))) x3) := by
        rw [henc2, lookupField_append_nt hnt (by decide)]
        rfl
      have hg3 : optField enc2 (("arguments")) (decodeArr (decodeExpressionF f2)) = .ok x3 :=
        optField_restore hl3 (fun b hb3 => by
          subst hb3
          obtain ⟨w, hw, hwn, hfw⟩ := optField_ok_some hx3
          exact ⟨decodeArr_restore hfw (fun v2 x hx hfx =>
            decodeExpressionF_restore fuel v2 x f2 hfx (by
              simp only [encodeOpt, jsonFuel] at hb
              have hm := jsonListFuel_of_mem (List.mem_map_of_mem (encodeExpressionF fuel) hx)
              omega)),
            fun hh => Json.noConfusion hh⟩)
      have hl4 : lookupField enc2 (("src")) = some (Json.str (encode_location x4)) := by
        rw [henc2, lookupField_append_nt hnt (by decide)]
        rfl
      obtain ⟨w4, hw4, hf4⟩ := reqField_ok hx4
      have hg4 : reqField enc2 (("src")) (decodeSrc) = .ok x4 :=
        reqField_of_lookup hl4 (decodeSrc_restore hf4)
      rw [decodeInheritanceSpecifierF]
      simp only [hg1, hg2, hg3, hg4, dres_bind_ok, dres_pure]
termination_by fuel

theorem decodeContractDefinitionF_restore (fuel : Nat) (v : Json) (a : ContractDefinition)
    (nt : List (String × Json)) (fuel2 : Nat)
    (hnt : ∀ e ∈ nt, e.1 = ("nodeType"))
    (h : decodeContractDefinitionF fuel v = .ok a)
    (hb : 2 * jsonFuel (Json.obj (nt ++ encodeContractDefinitionFieldsF fuel a)) ≤ fuel2 + 1) :
    decodeContractDefinitionF fuel2 (.obj (nt ++ encodeContractDefinitionFieldsF fuel a)) = .ok a := by
  match fuel, fuel2 with
  | 0, _ => exact Except.noConfusion h
  | fuel + 1, 0 =>
    have hp1 := jsonFuel_pos (Json.obj (nt ++ encodeContractDefinitionFieldsF (fuel + 1) a))
    omega
  | fuel + 1, f2 + 1 =>
    cases v <;> try exact Except.noConfusion h
    case obj o =>
      rw [decodeContractDefinitionF] at h
      simp only [dres_bind_eq_ok] at h
      obtain ⟨x1, hx1, x2, hx2, x3, hx3, x4, hx4, x5, hx5, x6, hx6, x7, hx7, x8, hx8, x9, hx9, x10, hx10, x11, hx11, x12, hx12, x13, hx13, x14, hx14, x15, hx15, x16, hx16, hp⟩ := h
      simp only [dres_pure, Except.ok.injEq] at hp
      subst hp
      rw [encodeContractDefinitionFieldsF] at hb ⊢
      try simp only [List.map_nil] at hb ⊢
      simp only [jsonFuel, jsonEntriesFuel_append, jsonEntriesFuel, jsonListFuel] at hb
      set enc2 := nt ++ [(("id"), Json.num x1),
        (("name"), Json.str x2),
        (("contractKind"), Json.str (encodeContractKind x3)),
        (("abstract"), Json.bool x4),
        (("fullyImplemented"), Json.bool x5),
        (("linearizedBaseContracts"), Json.arr (x6.map (fun y => Json.num y))),
        (("nodes"), Json.arr (x7.map (encodeContractDefinitionNodeF fuel))),
        (("scope"), encodeOpt (fun y => Json.num y) x8),
        (("src"), Json.str (encode_location x9)),
        (("documentation"), encodeOpt encodeDocumentation x10),
        (("baseContracts"), encodeOpt (fun ys => Json.arr (ys.map ((fun y => Json.obj (encodeInheritanceSpecifierFieldsF fuel y))))) x11),
        (("canonicalName"), encodeOpt (fun y => Json.str y) x12),
        (("contractDependencies"), encodeOpt (fun ys => Json.arr (ys.map (fun y => Json.num y))) x13),
        (("nameLocation"), encodeOpt (fun y => Json.str y) x14),
        (("usedErrors"), encodeOpt (fun ys => Json.arr (ys.map (fun y => Json.num y))) x15),
        (("usedEvents"), encodeOpt (fun ys => Json.arr (ys.map (fun y => Json.num y))) x16)] with henc2
      have hl1 : lookupField enc2 (("id")) = some (Json.num x1) := by
        rw [henc2, lookupField_append_nt hnt (by decide)]
        rfl
      obtain ⟨w1, hw1, hf1⟩ := reqField_ok hx1
      have hg1 : reqField enc2 (("id")) (decodeI64) = .ok x1 :=
        reqField_of_lookup hl1 (decodeI64_restore hf1)
      have hl2 : lookupField enc2 (("name")) = some (Json.str x2) := by
        rw [henc2, lookupField_append_nt hnt (by decide)]
        rfl
      obtain ⟨w2, hw2, hf2⟩ := reqField_ok hx2
      have hg2 : reqField enc2 (("name")) (decodeString) = .ok x2 :=
        reqField_of_lookup hl2 (decodeString_restore hf2)
      have hl3 : lookupField enc2 (("contractKind")) = some (Json.str (encodeContractKind x3)) := by
        rw [henc2, lookupField_append_nt hnt (by decide)]
        rfl
      obtain ⟨w3, hw3, hf3⟩ := reqField_ok hx3
      have hg3 : reqField enc2 (("contractKind")) (decodeContractKind) = .ok x3 :=
        reqField_of_lookup hl3 (decodeContractKind_restore hf3)
      have hl4 : lookupField enc2 (("abstract")) = some (Json.bool x4) := by
        rw [henc2, lookupField_append_nt hnt (by decide)]
        rfl
      obtain ⟨w4, hw4, hf4⟩ := reqField_ok hx4
      have hg4 : reqField enc2 (("abstract")) (deserialize_bool_or_int) = .ok x4 :=
        reqField_of_lookup hl4 (deserialize_bool_or_int_restore hf4)
      have hl5 : lookupField enc2 (("fullyImplemented")) = some (Json.bool x5) := by
        rw [henc2, lookupField_append_nt hnt (by decide)]
        rfl
      obtain ⟨w5, hw5, hf5⟩ := reqField_ok hx5
      have hg5 : reqField enc2 (("fullyImplemented")) (deserialize_bool_or_int) = .ok x5 :=
        reqField_of_lookup hl5 (deserialize_bool_or_int_restore hf5)
      have hl6 : lookupField enc2 (("linearizedBaseContracts")) = some (Json.arr (x6.map (fun y => Json.num y))) := by
        rw [henc2, lookupField_append_nt hnt (by decide)]
        rfl
      obtain ⟨w6, hw6, hf6⟩ := reqField_ok hx6
      have hfe6 : decodeArr decodeI64 (Json.arr (x6.map (fun y => Json.num y))) = .ok x6 :=
        decodeArr_restore hf6 (fun v2 x hx hfx => decodeI64_restore hfx)
      have hg6 : reqField enc2 (("linearizedBaseContracts")) (decodeArr decodeI64) = .ok x6 :=
        reqField_of_lookup hl6 hfe6
      have hl7 : lookupField enc2 (("nodes")) = some (Json.arr (x7.map (encodeContractDefinitionNodeF fuel))) := by
        rw [henc2, lookupField_append_nt hnt (by decide)]
        rfl
      have hfe7 : decodeArr (decodeContractDefinitionNodeF f2) (Json.arr (x7.map (encodeContractDefinitionNodeF fuel))) = .ok x7 := by
        rcases defField_ok hx7 with h0 | ⟨w, hw, hfw⟩
        · subst h0
          rfl
        · exact decodeArr_restore hfw (fun v2 x hx hfx =>
        decodeContractDefinitionNodeF_restore fuel v2 x f2 hfx (by
          have hm := jsonListFuel_of_mem (List.mem_map_of_mem (encodeContractDefinitionNodeF fuel) hx)
          omega))
      have hg7 : defField enc2 (("nodes")) [] (decodeArr (decodeContractDefinitionNodeF f2)) = .ok x7 :=
        defField_of_lookup hl7 hfe7
      have hl8 : lookupField enc2 (("scope")) = some (encodeOpt (fun y => Json.num y) x8) := by
        rw [henc2, lookupField_append_nt hnt (by decide)]
        rfl
      have hg8 : optField enc2 (("scope")) (decodeI64) = .ok x8 :=
        optField_restore hl8 (fun b hb3 => by
          subst hb3
          obtain ⟨w, hw, hwn, hfw⟩ := optField_ok_some hx8
          exact ⟨decodeI64_restore hfw, fun hh => Json.noConfusion hh⟩)
      have hl9 : lookupField enc2 (("src")) = some (Json.str (encode_location x9)) := by
        rw [henc2, lookupField_append_nt hnt (by decide)]
        rfl
      obtain ⟨w9, hw9, hf9⟩ := reqField_ok hx9
      have hg9 : reqField enc2 (("src")) (decodeSrc) = .ok x9 :=
        reqField_of_lookup hl9 (decodeSrc_restore hf9)
      have hl10 : lookupField enc2 (("documentation")) = some (encodeOpt encodeDocumentation x10) := by
        rw [henc2, lookupField_append_nt hnt (by decide)]
        rfl
      have hg10 : optField enc2 (("documentation")) (decodeDocumentation) = .ok x10 :=
        optField_restore hl10 (fun b hb3 => by
          subst hb3
          obtain ⟨w, hw, hwn, hfw⟩ := optField_ok_some hx10
          exact ⟨decodeDocumentation_restore hfw, encodeDocumentation_ne_null b⟩)
      have hl11 : lookupField enc2 (("baseContracts")) = some (encodeOpt (fun ys => Json.arr (ys.map ((fun y => Json.obj (encodeInheritanceSpecifierFieldsF fuel y))))) x11) := by
        rw [henc2, lookupField_append_nt hnt (by decide)]
        rfl
      have hg11 : optField enc2 (("baseContracts")) (decodeArr (decodeInheritanceSpecifierF f2)) = .ok x11 :=
        optField_restore hl11 (fun b hb3 => by
          subst hb3
          obtain ⟨w, hw, hwn, hfw⟩ := optField_ok_some hx11
          exact ⟨decodeArr_restore hfw (fun v2 x hx hfx => by
            have hres := decodeInheritanceSpecifierF_restore fuel v2 x [] f2
              (fun e he => absurd he (List.not_mem_nil e)) hfx (by
              simp only [encodeOpt, jsonFuel] at hb
              have hm := jsonListFuel_of_mem (List.mem_map_of_mem (fun y => Json.obj (encodeInheritanceSpecifierFieldsF fuel y)) hx)
              simp only [jsonFuel] at hm
              simp only [jsonFuel, List.nil_append]
              omega)
            rw [List.nil_append] at hres
            exact hres),
            fun hh => Json.noConfusion hh⟩)
      have hl12 : lookupField enc2 (("canonicalName")) = some (encodeOpt (fun y => Json.str y) x12) := by
        rw [henc2, lookupField_append_nt hnt (by decide)]
        rfl
      have hg12 : optField enc2 (("canonicalName")) (decodeString) = .ok x12 :=
        optField_restore hl12 (fun b hb3 => by
          subst hb3
          obtain ⟨w, hw, hwn, hfw⟩ := optField_ok_some hx12
          exact ⟨decodeString_restore hfw, fun hh => Json.noConfusion hh⟩)
      have hl13 : lookupField enc2 (("contractDependencies")) = some (encodeOpt (fun ys => Json.arr (ys.map (fun y => Json.num y))) x13) := by
        rw [henc2, lookupField_append_nt hnt (by decide)]
        rfl
      have hg13 : optField enc2 (("contractDependencies")) (decodeArr decodeI64) = .ok x13 :=
        optField_restore hl13 (fun b hb3 => by
          subst hb3
          obtain ⟨w, hw, hwn, hfw⟩ := optField_ok_some hx13
          exact ⟨decodeArr_restore hfw (fun v2 x hx hfx => decodeI64_restore hfx),
            fun hh => Json.noConfusion hh⟩)
      have hl14 : lookupField enc2 (("nameLocation")) = some (encodeOpt (fun y => Json.str y) x14) := by
        rw [henc2, lookupField_append_nt hnt (by decide)]
        rfl
      have hg14 : optField enc2 (("nameLocation")) (decodeString) = .ok x14 :=
        optField_restore hl14 (fun b hb3 => by
          subst hb3
          obtain ⟨w, hw, hwn, hfw⟩ := optField_ok_some hx14
          exact ⟨decodeString_restore hfw, fun hh => Json.noConfusion hh⟩)
      have hl15 : lookupField enc2 (("usedErrors")) = some (encodeOpt (fun ys => Json.arr (ys.map (fun y => Json.num y))) x15) := by
        rw [henc2, lookupField_append_nt hnt (by decide)]
        rfl
      have hg15 : optField enc2 (("usedErrors")) (decodeArr decodeI64) = .ok x15 :=
        optField_restore hl15 (fun b hb3 => by
          subst hb3
          obtain ⟨w, hw, hwn, hfw⟩ := optField_ok_some hx15
          exact ⟨decodeArr_restore hfw (fun v2 x hx hfx => decodeI64_restore hfx),
            fun hh => Json.noConfusion hh⟩)
      have hl16 : lookupField enc2 (("usedEvents")) = some (encodeOpt (fun ys => Json.arr (ys.map (fun y => Json.num y))) x16) := by
        rw [henc2, lookupField_append_nt hnt (by decide)]
        rfl
      have hg16 : optField enc2 (("usedEvents")) (decodeArr decodeI64) = .ok x16 :=
        optField_restore hl16 (fun b hb3 => by
          subst hb3
          obtain ⟨w, hw, hwn, hfw⟩ := optField_ok_some hx16
          exact ⟨decodeArr_restore hfw (fun v2 x hx hfx => decodeI64_restore hfx),
            fun hh => Json.noConfusion hh⟩)
      rw [decodeContractDefinitionF]
      simp only [hg1, hg2, hg3, hg4, hg5, hg6, hg7, hg8, hg9, hg10, hg11, hg12, hg13, hg14, hg15, hg16, dres_bind_ok, dres_pure]
termination_by fuel

end

theorem decodeSourceUnitF_restore (fuel : Nat) (v : Json) (u : SourceUnit) (fuel2 : Nat)
    (h : decodeSourceUnitF fuel v = .ok u)
    (hb : 2 * jsonFuel (Json.obj (encodeSourceUnitFieldsF fuel u)) ≤ fuel2 + 1) :
    decodeSourceUnitF fuel2 (.obj (encodeSourceUnitFieldsF fuel u)) = .ok u := by
  cases v <;> try exact Except.noConfusion h
  case obj o =>
    rw [decodeSourceUnitF] at h
    simp only [dres_bind_eq_ok] at h
    obtain ⟨x1, hx1, x2, hx2, x3, hx3, x4, hx4, x5, hx5, x6, hx6, hp⟩ := h
    simp only [dres_pure, Except.ok.injEq] at hp
    subst hp
    rw [encodeSourceUnitFieldsF] at hb ⊢
    simp only [jsonFuel, jsonEntriesFuel, jsonListFuel] at hb
    set enc2 := [(("id"), Json.num x1), (("absolutePath"), Json.str x2),
      (("exportedSymbols"), Json.obj (x3.map (fun e =>
        (e.1, Json.arr (e.2.map (fun y => Json.num y)))))),
      (("src"), Json.str (encode_location x4)),
      (("nodes"), Json.arr (x5.map (encodeSourceUnitNodeF fuel))),
      (("license"), encodeOpt (fun y => Json.str y) x6)] with henc2
    have hl1 : lookupField enc2 (("id")) = some (Json.num x1) := by
      rw [henc2]
      rfl
    have hl2 : lookupField enc2 (("absolutePath")) = some (Json.str x2) := by
      rw [henc2]
      rfl
    have hl3 : lookupField enc2 (("exportedSymbols")) = some (Json.obj (x3.map (fun e =>
        (e.1, Json.arr (e.2.map (fun y => Json.num y)))))) := by
      rw [henc2]
      rfl
    have hl4 : lookupField enc2 (("src")) = some (Json.str (encode_location x4)) := by
      rw [henc2]
      rfl
    have hl5 : lookupField enc2 (("nodes")) =
        some (Json.arr (x5.map (encodeSourceUnitNodeF fuel))) := by
      rw [henc2]
      rfl
    have hl6 : lookupField enc2 (("license")) =
        some (encodeOpt (fun y => Json.str y) x6) := by
      rw [henc2]
      rfl
    obtain ⟨w1, hw1, hf1⟩ := reqField_ok hx1
    obtain ⟨w2, hw2, hf2⟩ := reqField_ok hx2
    obtain ⟨w4, hw4, hf4⟩ := reqField_ok hx4
    obtain ⟨w5, hw5, hf5⟩ := reqField_ok hx5
    have hg1 : reqField enc2 (("id")) decodeI64 = .ok x1 :=
      reqField_of_lookup hl1 (decodeI64_restore hf1)
    have hg2 : reqField enc2 (("absolutePath")) decodeString = .ok x2 :=
      reqField_of_lookup hl2 (decodeString_restore hf2)
    have hfe3 : decodeMap (decodeArr decodeI64) (Json.obj (x3.map (fun e =>
        (e.1, Json.arr (e.2.map (fun y => Json.num y)))))) = .ok x3 := by
      rcases defField_ok hx3 with h0 | ⟨w, hw, hfw⟩
      · subst h0
        rfl
      · obtain ⟨es, hwe, hme⟩ := decodeMap_ok hfw
        exact decodeMapEntries_restore es x3 hme (fun v2 x hfx =>
          decodeArr_restore hfx (fun v3 y hy hfy => decodeI64_restore hfy))
    have hg3 : defField enc2 (("exportedSymbols")) [] (decodeMap (decodeArr decodeI64)) =
        .ok x3 := defField_of_lookup hl3 hfe3
    have hg4 : reqField enc2 (("src")) decodeSrc = .ok x4 :=
      reqField_of_lookup hl4 (decodeSrc_restore hf4)
    have hfe5 : decodeArr (decodeSourceUnitNodeF fuel2)
        (Json.arr (x5.map (encodeSourceUnitNodeF fuel))) = .ok x5 :=
      decodeArr_restore hf5 (fun v2 x hx hfx =>
        decodeSourceUnitNodeF_restore fuel v2 x fuel2 hfx (by
          have hm := jsonListFuel_of_mem
            (List.mem_map_of_mem (encodeSourceUnitNodeF fuel) hx)
          omega))
    have hg5 : reqField enc2 (("nodes")) (decodeArr (decodeSourceUnitNodeF fuel2)) =
        .ok x5 := reqField_of_lookup hl5 hfe5
    have hg6 : optField enc2 (("license")) decodeString = .ok x6 :=
      optField_restore hl6 (fun b hb3 => by
        subst hb3
        obtain ⟨w, hw, hwn, hfw⟩ := optField_ok_some hx6
        exact ⟨decodeString_restore hfw, fun hh => Json.noConfusion hh⟩)
    rw [decodeSourceUnitF]
    simp only [hg1, hg2, hg3, hg4, hg5, hg6, dres_bind_ok, dres_pure]

/-- C6: the round-trip at the document root.  Re-encoding a successfully
decoded document (with a serialization budget covering the decoded
value, such as the decode budget of the source document) and decoding
the result through the real entry point yields the same value:
decode(encode(decode(doc))) equals decode(doc). -/
theorem document_roundtrip :
    ∀ (doc : Json) (u : SourceUnit),
      decode_document doc = .ok u →
      decode_document (encodeSourceUnit (2 * jsonFuel doc) u) = .ok u := by
  intro doc u h
  rw [decode_document, decodeSourceUnit] at h
  rw [decode_document, decodeSourceUnit, encodeSourceUnit]
  exact decodeSourceUnitF_restore (2 * jsonFuel doc) doc u
    (2 * jsonFuel (Json.obj (encodeSourceUnitFieldsF (2 * jsonFuel doc) u))) h (by omega)

def docRoundtripInput : Json :=
  .obj [(("id"), .num 10), (("absolutePath"), .str ("a.sol")),
    (("exportedSymbols"), .obj [(("C"), .arr [.num 1])]),
    (("src"), .str ("0:100:0")),
    (("nodes"), .arr [
      .obj [(("nodeType"), .str ("PragmaDirective")), (("id"), .num 11),
        (("literals"), .arr [.str ("solidity"), .str ("^0.8.0")]),
        (("src"), .str ("0:23:0"))],
      .obj [(("nodeType"), .str ("ContractDefinition")), (("id"), .num 1),
        (("name"), .str ("C")), (("contractKind"), .str ("contract")),
        (("abstract"), .bool false), (("fullyImplemented"), .num 1),
        (("linearizedBaseContracts"), .arr [.num 1]),
        (("src"), .str ("24:70:0")),
        (("documentation"), .obj [(("id"), .num 2), (("text"), .str ("docs")),
          (("src"), .str ("24:1:0")),
          (("params"), .arr [.obj [(("name"), .str ("a")), (("description"), .str ("d"))]])]),
        (("baseContracts"), .arr []),
        (("nodes"), .arr [
          .obj [(("nodeType"), .str ("VariableDeclaration")), (("id"), .num 3),
            (("name"), .str ("x")),
            (("typeName"), .obj [(("nodeType"), .str ("ElementaryTypeName")),
              (("id"), .num 4), (("name"), .str ("uint256")), (("src"), .str ("30:7:0")),
              (("typeDescriptions"), .obj [(("typeIdentifier"), .str ("t_uint256"))])]),
            (("src"), .str ("30:12:0")),
            (("visibility"), .str ("internal")),
            (("stateVariable"), .bool true),
            (("typeDescriptions"), .obj [])],
          .obj [(("nodeType"), .str ("FunctionDefinition")), (("id"), .num 5),
            (("name"), .str ("f")), (("virtual"), .bool false),
            (("kind"), .str ("function")), (("visibility"), .str ("public")),
            (("stateMutability"), .str ("nonpayable")),
            (("body"), .obj [(("nodeType"), .str ("Block")), (("id"), .num 6),
              (("statements"), .arr [
                .obj [(("nodeType"), .str ("ExpressionStatement")), (("id"), .num 7),
                  (("expression"), .obj [(("nodeType"), .str ("Assignment")), (("id"), .num 8),
                    (("leftHandSide"), .obj [(("nodeType"), .str ("Identifier")), (("id"), .num 9),
                      (("name"), .str ("x")), (("src"), .str ("50:1:0")),
                      (("typeDescriptions"), .obj [])]),
                    (("rightHandSide"), .obj [(("nodeType"), .str ("Literal")), (("id"), .num 12),
                      (("kind"), .str ("number")), (("value"), .str ("42")),
                      (("src"), .str ("54:2:0")), (("typeDescriptions"), .obj []),
                      (("isConstant"), .bool false), (("isLValue"), .bool false),
                      (("isPure"), .bool true), (("lValueRequested"), .bool false)]),
                    (("operator"), .str ("=")), (("src"), .str ("50:6:0")),
                    (("typeDescriptions"), .obj [])]),
                  (("src"), .str ("50:7:0"))]]),
              (("src"), .str ("45:20:0"))]),
            (("parameters"), .obj [(("nodeType"), .str ("ParameterList")), (("id"), .num 13),
              (("parameters"), .arr []), (("src"), .str ("40:2:0"))]),
            (("returnParameters"), .obj [(("nodeType"), .str ("ParameterList")), (("id"), .num 14),
              (("parameters"), .arr []), (("src"), .str ("43:0:0"))]),
            (("modifiers"), .arr []),
            (("src"), .str ("35:40:0")), (("scope"), .num 1),
            (("implemented"), .bool true)]])]]),
    (("license"), .str ("MIT"))]

def docRoundtripValue : SourceUnit :=
  ((decode_document docRoundtripInput).toOption).getD
    (SourceUnit.mk 0 ("") [] (SourceLocation.mk 0 0 0) [] none)

theorem document_roundtrip_witness :
    decode_document (encodeSourceUnit (2 * jsonFuel docRoundtripInput) docRoundtripValue) =
      .ok docRoundtripValue :=
  document_roundtrip docRoundtripInput docRoundtripValue (by rfl)

end SolcRs
